import Mathlib

set_option autoImplicit false

/-!
Lifecycle manager of the secondary-index service.

A shallow embedding of `secondary/manager/lifecycle.go`.  Stateful code is written in
explicit state-passing style over the manager state `LifecycleMgr`.  Calls to the
collaborators whose code lives outside that file (the metadata repository, the indexer
callbacks) take their outcome from a script stored in the state: every call consumes the
next scripted outcome, and an exhausted script means that the call succeeds.  A theorem
without a hypothesis on a script holds for every behaviour of the collaborators; a theorem
about runs in which no repository call fails assumes the empty fault script.  A Go panic is
the result `none` of a function.  The tasks around the request queues (`OnNewRequest`,
`processRequest` and the tasks they start) are a step function on the state `Dispatcher`,
one step for each event that a task can take.
-/

namespace Indexing

/-! ## Values of the `common` package -/

/-- Modelled from the spec: the instance states NIL, CREATED, READY, INITIAL, CATCHUP, ACTIVE
and DELETED (the constants of `common.IndexState` are declared outside `lifecycle.go`). -/
inductive IndexState where
  | INDEX_STATE_NIL
  | INDEX_STATE_CREATED
  | INDEX_STATE_READY
  | INDEX_STATE_INITIAL
  | INDEX_STATE_CATCHUP
  | INDEX_STATE_ACTIVE
  | INDEX_STATE_DELETED
  deriving DecidableEq, Repr

/-- Modelled from the spec: the rebalance states NIL, ACTIVE, PENDING, PENDING_DELETE and
MERGED (the constants of `common.RebalanceState` are declared outside `lifecycle.go`). -/
inductive RebalanceState where
  | REBAL_NIL
  | REBAL_ACTIVE
  | REBAL_PENDING
  | REBAL_PENDING_DELETE
  | REBAL_MERGED
  deriving DecidableEq, Repr

/-- Modelled from the spec: a stream id is NIL or one of the other streams
(`common.StreamId` is declared outside `lifecycle.go`). -/
inductive StreamId where
  | NIL_STREAM
  | STREAM (n : Nat)
  deriving DecidableEq, Repr

/-- Modelled from the spec: the partition scheme is enumerated and includes "single"
(`common.PartitionScheme` is declared outside `lifecycle.go`). -/
inductive PartitionScheme where
  | SINGLE
  | PARTITIONED (kind : String)
  deriving DecidableEq, Repr

/-- Modelled from the spec: a scheme is partitioned when it is not the "single" scheme
(`common.IsPartitioned` is declared outside `lifecycle.go`). -/
def IsPartitioned (scheme : PartitionScheme) : Bool :=
  match scheme with
  | PartitionScheme.SINGLE => false
  | PartitionScheme.PARTITIONED _ => true

/-- Modelled from the spec: the indexer error codes named by `lifecycle.go`; every other code
of `common.IndexerErrCode` is `OtherCode n`. -/
inductive IndexerErrCode where
  | IndexNotExist
  | InvalidBucket
  | IndexAlreadyExist
  | IndexInvalidState
  | RebalanceInProgress
  | OtherCode (n : Nat)
  deriving DecidableEq, Repr

/-- The typed indexer error `common.IndexerError`, with the two fields `lifecycle.go` reads. -/
structure IndexerError where
  Reason : String
  Code : IndexerErrCode
  deriving DecidableEq, Repr

/-- A non-nil value of Go's `error` interface.  `indexer e text` is a `*common.IndexerError`
whose `Error()` method returns `text` (the method is declared outside `lifecycle.go`, so its
result is kept as a component of its own); `plain text` is an error of any other dynamic
type, such as the result of `errors.New(text)`. -/
inductive GoError where
  | indexer (e : IndexerError) (text : String)
  | plain (text : String)
  deriving DecidableEq, Repr

/-- Go's `error`: nil or a non-nil error value. -/
abbrev error := Option GoError

/-- The method `err.Error()`. -/
def GoError.Error : GoError → String
  | GoError.indexer _ text => text
  | GoError.plain text => text

/-- The type assertion `err.(*common.IndexerError)`: the typed error when `ok`. -/
def GoError.asIndexerError : GoError → Option IndexerError
  | GoError.indexer e _ => some e
  | GoError.plain _ => none

/-- Go's `errors.New`. -/
def errors.New (text : String) : GoError := GoError.plain text

/-- Go's `strings.Contains`: `substr` occurs in `s` as a contiguous run of characters. -/
def strings.Contains (s substr : String) : Bool :=
  decide (substr.data <:+: s.data)

/-- The origin of a DDL request (`common.DDLRequestSource`). -/
inductive DDLRequestSource where
  | DDLRequestSourceUser
  | DDLRequestSourceRebalance
  deriving DecidableEq, Repr

/-- The request context `common.MetadataRequestContext`. -/
structure MetadataRequestContext where
  ReqSource : DDLRequestSource
  deriving DecidableEq, Repr

/-- The build edition returned by `common.GetBuildMode()`. -/
inductive BuildMode where
  | COMMUNITY
  | ENTERPRISE
  deriving DecidableEq, Repr

/-- The index definition `common.IndexDefn`, with the fields `lifecycle.go` reads or writes. -/
structure IndexDefn where
  DefnId : Nat
  Name : String
  Using : String
  Bucket : String
  BucketUUID : String
  Deferred : Bool
  NumReplica : Nat
  PartitionScheme : PartitionScheme
  InstId : Nat
  RealInstId : Nat
  ReplicaId : Int
  Partitions : List Nat
  Versions : List Int
  NumPartitions : Nat
  InstVersion : Int
  deriving DecidableEq, Repr

/-! ## The per-bucket topology -/

/-- A partition entry of an instance (`IndexPartDistribution`, declared outside
`lifecycle.go`).  `Version` holds the value that `lifecycle.go` reads as `int(partn.Version)`. -/
structure IndexPartDistribution where
  PartId : Nat
  Version : Int
  deriving DecidableEq, Repr

/-- An instance row of the topology (`IndexInstDistribution`). -/
structure IndexInstDistribution where
  InstId : Nat
  State : IndexState
  StreamId : StreamId
  Error : String
  RState : RebalanceState
  ReplicaId : Int
  Partitions : List IndexPartDistribution
  NumPartitions : Nat
  Scheduled : Bool
  StorageMode : String
  OldStorageMode : String
  RealInstId : Nat
  Version : Nat
  deriving DecidableEq, Repr

/-- A definition reference of the topology with its instance rows (`IndexDefnDistribution`). -/
structure IndexDefnDistribution where
  Bucket : String
  Name : String
  DefnId : Nat
  Instances : List IndexInstDistribution
  deriving DecidableEq, Repr

/-- The topology blob of one bucket (`IndexTopology`). -/
structure IndexTopology where
  Bucket : String
  Definitions : List IndexDefnDistribution
  deriving DecidableEq, Repr

/-- Modelled from the spec: `IndexTopology.GetIndexInstancesByDefn` (declared in the topology
file, outside `lifecycle.go`) lists the instance rows of the definition reference `defnId`. -/
def IndexTopology.GetIndexInstancesByDefn (t : IndexTopology) (defnId : Nat) :
    List IndexInstDistribution :=
  match t.Definitions.find? (fun d => d.DefnId == defnId) with
  | some d => d.Instances
  | none => []

/-- Modelled from the spec: `IndexTopology.GetStatusByInst` (declared outside `lifecycle.go`)
gives the state of instance `instId` of definition `defnId`, NIL when there is no such row. -/
def IndexTopology.GetStatusByInst (t : IndexTopology) (defnId instId : Nat) : IndexState :=
  match (t.GetIndexInstancesByDefn defnId).find? (fun i => i.InstId == instId) with
  | some i => i.State
  | none => IndexState.INDEX_STATE_NIL

/-- Apply `f` to the rows with id `instId` of definition `defnId`; all other rows are kept. -/
def IndexTopology.mapInst (t : IndexTopology) (defnId instId : Nat)
    (f : IndexInstDistribution → IndexInstDistribution) : IndexTopology :=
  { t with Definitions := t.Definitions.map (fun d =>
      if d.DefnId = defnId then
        { d with Instances := d.Instances.map (fun i => if i.InstId = instId then f i else i) }
      else d) }

/-- Some row with id `instId` of definition `defnId` satisfies `p`. -/
def IndexTopology.anyInst (t : IndexTopology) (defnId instId : Nat)
    (p : IndexInstDistribution → Bool) : Bool :=
  t.Definitions.any (fun d =>
    d.DefnId == defnId && d.Instances.any (fun i => i.InstId == instId && p i))

/-- Modelled from the spec: `IndexTopology.UpdateStateForIndexInst` (declared outside
`lifecycle.go`) stores `state` in the instance row and reports whether the stored state
changed. -/
def IndexTopology.UpdateStateForIndexInst (t : IndexTopology) (defnId instId : Nat)
    (state : IndexState) : Bool × IndexTopology :=
  (t.anyInst defnId instId (fun i => i.State != state),
   t.mapInst defnId instId (fun i => { i with State := state }))

/-! ## The metadata repository -/

/-- The mutating repository calls, as recorded in the repository's call log. -/
inductive RepoWrite where
  | CreateIndex (defn : IndexDefn)
  | UpdateIndex (defn : IndexDefn)
  | DropIndexById (defnId : Nat)
  | SetTopologyByBucket (bucket : String) (topology : IndexTopology)
  | addIndexToTopology (defnId instId : Nat)
  | addInstanceToTopology (defnId instId : Nat)
  | deleteIndexFromTopology (bucket : String) (defnId : Nat)
  | deleteInstanceFromTopology (bucket : String) (defnId instId : Nat)
  | splitPartitionFromTopology (bucket : String) (defnId instId proxyInstId : Nat)
      (partitions : List Nat)
  | mergePartitionFromTopology (bucket : String) (defnId srcInstId tgtInstId : Nat)
  | BroadcastIndexStats (stats : List (String × String))
  deriving DecidableEq, Repr

/-- Modelled from the spec: the metadata repository (`MetadataRepo`, declared outside
`lifecycle.go`) is a durable map from DefnId to definition records plus one topology blob
per bucket.  `faults` scripts the outcome of the coming repository calls (an I/O failure or
success), `writes` logs the mutating calls in the order they are issued. -/
structure MetadataRepo where
  defns : List IndexDefn
  topologies : List IndexTopology
  faults : List error
  writes : List RepoWrite
  deriving DecidableEq, Repr

/-- Take the outcome of the next repository call from the script. -/
def MetadataRepo.fault (r : MetadataRepo) : error × MetadataRepo :=
  match r.faults with
  | [] => (none, r)
  | e :: rest => (e, { r with faults := rest })

/-- Modelled from the spec: `MetadataRepo.GetIndexDefnById` reads the definition record of
`id`; the record is nil when there is none. -/
def MetadataRepo.GetIndexDefnById (r : MetadataRepo) (id : Nat) :
    Option IndexDefn × error × MetadataRepo :=
  match r.fault with
  | (some err, r1) => (none, some err, r1)
  | (none, r1) => (r1.defns.find? (fun d => d.DefnId == id), none, r1)

/-- Modelled from the spec: `MetadataRepo.GetIndexDefnByName` reads the definition record with
the given bucket and name; the record is nil when there is none. -/
def MetadataRepo.GetIndexDefnByName (r : MetadataRepo) (bucket name : String) :
    Option IndexDefn × error × MetadataRepo :=
  match r.fault with
  | (some err, r1) => (none, some err, r1)
  | (none, r1) => (r1.defns.find? (fun d => d.Bucket == bucket && d.Name == name), none, r1)

/-- Modelled from the spec: `MetadataRepo.GetTopologyByBucket` reads the topology blob of the
bucket; the blob is nil when there is none. -/
def MetadataRepo.GetTopologyByBucket (r : MetadataRepo) (bucket : String) :
    Option IndexTopology × error × MetadataRepo :=
  match r.fault with
  | (some err, r1) => (none, some err, r1)
  | (none, r1) => (r1.topologies.find? (fun t => t.Bucket == bucket), none, r1)

/-- Replace the blob of `bucket` by `topology`, or add it when the bucket has none. -/
def putTopology (bucket : String) (topology : IndexTopology) :
    List IndexTopology → List IndexTopology
  | [] => [topology]
  | t :: rest =>
    if t.Bucket = bucket then topology :: rest else t :: putTopology bucket topology rest

/-- Modelled from the spec: `MetadataRepo.SetTopologyByBucket` writes the whole blob of one
bucket atomically; on failure the cached copy is purged, so the stored blob is unchanged. -/
def MetadataRepo.SetTopologyByBucket (r : MetadataRepo) (bucket : String)
    (topology : IndexTopology) : error × MetadataRepo :=
  let r0 := { r with writes := r.writes ++ [RepoWrite.SetTopologyByBucket bucket topology] }
  match r0.fault with
  | (some err, r1) => (some err, r1)
  | (none, r1) => (none, { r1 with topologies := putTopology bucket topology r1.topologies })

/-- Modelled from the spec: `MetadataRepo.DropIndexById` removes the definition record. -/
def MetadataRepo.DropIndexById (r : MetadataRepo) (defnId : Nat) : error × MetadataRepo :=
  let r0 := { r with writes := r.writes ++ [RepoWrite.DropIndexById defnId] }
  match r0.fault with
  | (some err, r1) => (some err, r1)
  | (none, r1) => (none, { r1 with defns := r1.defns.filter (fun d => d.DefnId != defnId) })

/-- Modelled from the spec: `MetadataRepo.deleteIndexFromTopology` removes the instance rows
of the definition (its whole definition reference) from the topology of the bucket. -/
def MetadataRepo.deleteIndexFromTopology (r : MetadataRepo) (bucket : String) (defnId : Nat) :
    error × MetadataRepo :=
  let r0 := { r with writes := r.writes ++ [RepoWrite.deleteIndexFromTopology bucket defnId] }
  match r0.fault with
  | (some err, r1) => (some err, r1)
  | (none, r1) =>
    (none, { r1 with topologies := r1.topologies.map (fun t =>
      if t.Bucket = bucket then
        { t with Definitions := t.Definitions.filter (fun d => d.DefnId != defnId) }
      else t) })

/-! ## The indexer callbacks -/

/-- The calls received by the indexer callback surface (`MetadataNotifier`). -/
inductive NotifierCall where
  | OnIndexCreate (defn : IndexDefn) (instId : Nat) (replicaId : Int) (partitions : List Nat)
      (versions : List Int) (numPartitions : Nat) (realInstId : Nat)
      (reqCtx : Option MetadataRequestContext)
  | OnIndexBuild (instIds : List Nat) (buckets : List String)
      (reqCtx : Option MetadataRequestContext)
  | OnIndexDelete (instId : Nat) (bucket : String) (reqCtx : Option MetadataRequestContext)
  | OnPartitionPrune (instId : Nat) (partitions : List Nat)
      (reqCtx : Option MetadataRequestContext)
  | OnFetchStats
  deriving DecidableEq, Repr

/-- The indexer callback surface.  `replies` scripts the errors returned by the coming
OnIndexCreate, OnIndexDelete and OnPartitionPrune calls, `buildReplies` the error maps
returned by the coming OnIndexBuild calls (each map listed in the order in which a `range`
over it visits its entries), and `calls` logs the calls received. -/
structure MetadataNotifier where
  replies : List error
  buildReplies : List (List (Nat × GoError))
  calls : List NotifierCall
  deriving DecidableEq, Repr

/-- Log `call` and take the error it returns from the script. -/
def MetadataNotifier.reply (n : MetadataNotifier) (call : NotifierCall) :
    error × MetadataNotifier :=
  match n.replies with
  | [] => (none, { n with calls := n.calls ++ [call] })
  | e :: rest => (e, { n with replies := rest, calls := n.calls ++ [call] })

/-- The callback `OnIndexDelete(instId, bucket, reqCtx)`. -/
def MetadataNotifier.OnIndexDelete (n : MetadataNotifier) (instId : Nat) (bucket : String)
    (reqCtx : Option MetadataRequestContext) : error × MetadataNotifier :=
  n.reply (NotifierCall.OnIndexDelete instId bucket reqCtx)

/-! ## The request server and the builder state -/

/-- Modelled from the spec: the opcodes of the requests (the constants are declared in the
`client` package); `OPCODE_OTHER` stands for every number that is none of them. -/
inductive OpCode where
  | OPCODE_DROP_INDEX
  | OPCODE_BUILD_INDEX_RETRY
  | OPCODE_DROP_OR_PRUNE_INSTANCE
  | OPCODE_CREATE_INDEX
  | OPCODE_UPDATE_INDEX_INST
  | OPCODE_BUILD_INDEX
  | OPCODE_SERVICE_MAP
  | OPCODE_DELETE_BUCKET
  | OPCODE_CLEANUP_INDEX
  | OPCODE_CLEANUP_DEFER_INDEX
  | OPCODE_CREATE_INDEX_REBAL
  | OPCODE_BUILD_INDEX_REBAL
  | OPCODE_DROP_INDEX_REBAL
  | OPCODE_BROADCAST_STATS
  | OPCODE_RESET_INDEX
  | OPCODE_CONFIG_UPDATE
  | OPCODE_MERGE_PARTITION
  | OPCODE_INDEXER_READY
  | OPCODE_OTHER (n : Nat)
  deriving DecidableEq, Repr

/-- The fields of `common.IndexInst` that `lifecycle.go` reads. -/
structure IndexInst where
  Defn : IndexDefn
  InstId : Nat
  State : IndexState
  deriving DecidableEq, Repr

/-- The struct `topologyChange`.  `State`, `StreamId` and `RState` hold the values that the
numbers of the payload convert to. -/
structure topologyChange where
  Bucket : String
  DefnId : Nat
  InstId : Nat
  State : IndexState
  StreamId : StreamId
  Error : String
  BuildTime : List Nat
  RState : RebalanceState
  Partitions : List Nat
  Versions : List Int
  InstVersion : Int
  deriving DecidableEq, Repr

/-- The struct `mergePartition`. -/
structure mergePartition where
  DefnId : Nat
  SrcInstId : Nat
  SrcRState : RebalanceState
  TgtInstId : Nat
  TgtPartitions : List Nat
  TgtVersions : List Int
  TgtInstVersion : Nat
  deriving DecidableEq, Repr

/-- The two settings that `configUpdate` reads from a `common.Config`:
`settings.build.batch_size` and `build.background.disable`. -/
structure Config where
  batch_size : Int
  background_disable : Bool
  deriving DecidableEq, Repr

/-- The content of a request, as the message that its bytes encode: no byte at all, one of
the JSON documents exchanged with the lifecycle manager, a byte string whose bytes are read
as stream ids (the content of DELETE_BUCKET), or bytes that no decoder accepts.  A decoder
accepts the documents of its own kind and fails on every other content. -/
inductive Content where
  | empty
  | IndexIdList (DefnIds : List Nat)
  | dropInstance (Defn : IndexDefn) (Cleanup : Bool)
  | IndexDefn (defn : IndexDefn)
  | IndexInst (inst : IndexInst)
  | topologyChange (change : topologyChange)
  | mergePartition (change : mergePartition)
  | Config (config : Config)
  | Statistics (stats : List (String × String))
  | streamIds (bytes : List StreamId)
  | malformed
  deriving DecidableEq, Repr

/-- A request handed to the request server: opcode, key and content. -/
structure Request where
  op : OpCode
  key : String
  content : Content
  deriving DecidableEq, Repr

/-- The request server (`RequestServer`, an external collaborator).  `requests` logs the
requests submitted, `replies` scripts the errors returned to the submitter.  The submitted
request is handled by the dispatcher task; that handling is not part of the submitting
function. -/
structure RequestServer where
  requests : List Request
  replies : List error
  deriving DecidableEq, Repr

/-- The synchronous `MakeRequest(op, key, content)`. -/
def RequestServer.MakeRequest (s : RequestServer) (op : OpCode) (key : String)
    (content : Content) : error × RequestServer :=
  let req : Request := { op := op, key := key, content := content }
  match s.replies with
  | [] => (none, { s with requests := s.requests ++ [req] })
  | e :: rest => (e, { requests := s.requests ++ [req], replies := rest })

/-- The struct `builder`.  The Go map `pendings` is an association list with one entry per
key; a `range` over the map visits the entries in the order of the list (theorems quantify
over every list, hence over every iteration order).  `marshalErrs` scripts the outcome of the
coming `client.MarshallIndexIdList` calls. -/
structure builder where
  pendings : List (String × List Nat)
  notifych : List IndexDefn
  batchSize : Int
  disable : Int
  marshalErrs : List error
  deriving DecidableEq, Repr

/-- The struct `client.ServiceMap`: what the local node reports about itself. -/
structure ServiceMap where
  IndexerId : String := ""
  ScanAddr : String := ""
  HttpAddr : String := ""
  AdminAddr : String := ""
  NodeAddr : String := ""
  ServerGroup : String := ""
  NodeUUID : String := ""
  IndexerVersion : Nat := 0
  ClusterVersion : Nat := 0
  deriving DecidableEq, Repr

/-- The process-wide settings and the cluster services that `lifecycle.go` reads through the
`common` package: the build edition (`GetBuildMode`), the configured storage mode
(`GetStorageMode`, `none` when NOT_SET), the accepted spellings of `IsValidIndexType`, the
results of the coming `NewIndexInstId` calls, the buckets of the cluster with their UUIDs and
the outcomes of the coming `GetBucketUUID` calls, the local indexer id, the rebalance state
that the repository gives to a newly added instance row, what the cluster information cache
and the repository report about the local node (`localNode`), and the outcomes of the coming
calls to the cluster information cache and to `client.MarshallServiceMap` (`cinfoErrs`). -/
structure Env where
  buildMode : BuildMode
  storageMode : Option String
  validIndexTypes : List String
  newInstIds : List (Nat × error)
  buckets : List (String × String)
  clusterErrs : List error
  indexerId : String
  newInstRState : RebalanceState
  localNode : ServiceMap := { }
  cinfoErrs : List error := []
  deriving DecidableEq, Repr

/-- The struct `LifecycleMgr`: the repository, the indexer callbacks (nil or present), the
builder and the request server, together with the environment of the process. -/
structure LifecycleMgr where
  repo : MetadataRepo
  notifier : Option MetadataNotifier
  builder : builder
  requestServer : RequestServer
  env : Env
  deriving DecidableEq, Repr

/-! ## Support functions of the lifecycle manager -/

/-- The method `LifecycleMgr.FindAllLocalIndexInst`. -/
def LifecycleMgr.FindAllLocalIndexInst (m : LifecycleMgr) (bucket : String) (defnId : Nat) :
    List IndexInstDistribution × error × LifecycleMgr :=
  match m.repo.GetTopologyByBucket bucket with
  | (_, some err, r) => ([], some err, { m with repo := r })
  | (none, none, r) => ([], none, { m with repo := r })
  | (some topology, none, r) =>
    (topology.GetIndexInstancesByDefn defnId, none, { m with repo := r })

/-- The method `LifecycleMgr.FindLocalIndexInst`: the first listed instance with id
`instId`, nil when there is none. -/
def LifecycleMgr.FindLocalIndexInst (m : LifecycleMgr) (bucket : String)
    (defnId instId : Nat) : Option IndexInstDistribution × error × LifecycleMgr :=
  match m.FindAllLocalIndexInst bucket defnId with
  | (_, some err, m1) => (none, some err, m1)
  | (insts, none, m1) => (insts.find? (fun inst => inst.InstId == instId), none, m1)

/-- The method `LifecycleMgr.updateIndexState`. -/
def LifecycleMgr.updateIndexState (m : LifecycleMgr) (bucket : String) (defnId instId : Nat)
    (state : IndexState) : error × LifecycleMgr :=
  match m.repo.GetTopologyByBucket bucket with
  | (_, some err, r) => (some err, { m with repo := r })
  | (none, none, r) => (none, { m with repo := r })
  | (some topology, none, r) =>
    match topology.UpdateStateForIndexInst defnId instId state with
    | (true, topology1) =>
      match r.SetTopologyByBucket bucket topology1 with
      | (some err, r1) => (some err, { m with repo := r1 })
      | (none, r1) => (none, { m with repo := r1 })
    | (false, _) => (none, { m with repo := r })

/-- The method `LifecycleMgr.canRetryError`; `inst` is nil or an instance row. -/
def LifecycleMgr.canRetryError (inst : Option IndexInstDistribution) (err : GoError)
    (retry : Bool) : Bool :=
  match inst with
  | none => false
  | some i =>
    if i.RState ≠ RebalanceState.REBAL_ACTIVE then false
    else
      match err.asIndexerError with
      | none => true
      | some indexerErr =>
        if indexerErr.Code = IndexerErrCode.IndexNotExist ∨
            indexerErr.Code = IndexerErrCode.InvalidBucket ∨
            (!retry ∧ indexerErr.Code = IndexerErrCode.RebalanceInProgress) ∨
            indexerErr.Code = IndexerErrCode.IndexAlreadyExist ∨
            indexerErr.Code = IndexerErrCode.IndexInvalidState then false
        else true

/-! ## Delete Index -/

/-- The first loop of `DeleteIndex` (lines 884-890): mark every listed instance DELETED,
going on after a failure, and report whether some update failed. -/
def DeleteIndex.markDeleted (defn : IndexDefn) :
    List IndexInstDistribution → Bool → LifecycleMgr → Bool × LifecycleMgr
  | [], hasError, m => (hasError, m)
  | inst :: rest, hasError, m =>
    match m.updateIndexState defn.Bucket defn.DefnId inst.InstId
        IndexState.INDEX_STATE_DELETED with
    | (some _, m1) => DeleteIndex.markDeleted defn rest true m1
    | (none, m1) => DeleteIndex.markDeleted defn rest hasError m1

/-- The text of the error built at lines 920 and 925 of `DeleteIndex`. -/
def dropErrText (reason : String) : String :=
  "Encounter error when dropping index: " ++ reason ++
    ". Drop index will retry in background."

/-- The classification of a non-nil error of `OnIndexDelete` in `DeleteIndex`
(lines 918-928): the new value of `dropErr`. -/
def DeleteIndex.classify (err : GoError) (dropErr : error) : error :=
  match err.asIndexerError with
  | some indexerErr =>
    if indexerErr.Code ≠ IndexerErrCode.IndexNotExist then
      some (errors.New (dropErrText indexerErr.Reason))
    else if !strings.Contains err.Error "Unknown Index Instance" then
      some (errors.New (dropErrText err.Error))
    else dropErr
  | none =>
    if !strings.Contains err.Error "Unknown Index Instance" then
      some (errors.New (dropErrText err.Error))
    else dropErr

/-- The second loop of `DeleteIndex` (lines 911-930): call `OnIndexDelete` for every listed
instance and keep the last error that is not taken as success. -/
def DeleteIndex.notifyDeleted (bucket : String) (reqCtx : Option MetadataRequestContext) :
    List IndexInstDistribution → error → MetadataNotifier → error × MetadataNotifier
  | [], dropErr, n => (dropErr, n)
  | inst :: rest, dropErr, n =>
    match n.OnIndexDelete inst.InstId bucket reqCtx with
    | (some err, n1) =>
      DeleteIndex.notifyDeleted bucket reqCtx rest (DeleteIndex.classify err dropErr) n1
    | (none, n1) => DeleteIndex.notifyDeleted bucket reqCtx rest dropErr n1

/-- The tail of `DeleteIndex` (lines 937-945): drop the definition record, then the topology
rows; the errors of both calls are ignored. -/
def DeleteIndex.cleanRepo (defn : IndexDefn) (m : LifecycleMgr) : error × LifecycleMgr :=
  let r1 := (m.repo.DropIndexById defn.DefnId).2
  let r2 := (r1.deleteIndexFromTopology defn.Bucket defn.DefnId).2
  (none, { m with repo := r2 })

/-- The method `LifecycleMgr.DeleteIndex(id, notify, reqCtx)`. -/
def LifecycleMgr.DeleteIndex (m : LifecycleMgr) (id : Nat) (notify : Bool)
    (reqCtx : Option MetadataRequestContext) : error × LifecycleMgr :=
  match m.repo.GetIndexDefnById id with
  | (_, some err, r) => (some err, { m with repo := r })
  | (none, none, r) => (none, { m with repo := r })
  | (some defn, none, r) =>
    match LifecycleMgr.FindAllLocalIndexInst { m with repo := r } defn.Bucket id with
    | (_, some err, m1) => (some err, m1)
    | (insts, none, m1) =>
      -- `err` is the variable assigned by FindAllLocalIndexInst; it is nil from here on
      let err : error := none
      match DeleteIndex.markDeleted defn insts false m1 with
      | (true, m2) => (err, m2)
      | (false, m2) =>
        match notify, m2.notifier with
        | true, some n =>
          match m2.FindAllLocalIndexInst defn.Bucket id with
          | (_, some err1, m3) => (some err1, m3)
          | (insts1, none, m3) =>
            match DeleteIndex.notifyDeleted defn.Bucket reqCtx insts1 none n with
            | (some dropErr, n1) => (some dropErr, { m3 with notifier := some n1 })
            | (none, n1) => DeleteIndex.cleanRepo defn { m3 with notifier := some n1 }
        | _, _ => DeleteIndex.cleanRepo defn m2


/-! ## The overlap guard of a rebalance-origin create -/

/-- The outcome of a scan of `verifyOverlapPartition`: nothing found, an error to return, or
a run-time panic (an index out of range when `defn.Versions[i]` is read). -/
inductive Check where
  | pass
  | reject (err : GoError)
  | panic
  deriving DecidableEq, Repr

/-- The error of line 1408. -/
def duplicateInstanceError (instId : Nat) : GoError :=
  GoError.plain ("Found Duplicate instance " ++ toString instId ++ " already existed in index.")

/-- The error of line 1432. -/
def overlapError (instId partnId : Nat) : GoError :=
  GoError.plain ("Found overlapping partition when rebalancing.  Instance " ++ toString instId ++
    " partition " ++ toString partnId ++ ".")

/-- The loop over `inst.Partitions` (lines 1418-1437) for the requested partition `partnId`,
which is the `i`-th of the request. -/
def verifyOverlapPartition.scanPartitions (defn : IndexDefn) (i partnId : Nat)
    (inst : IndexInstDistribution) : List IndexPartDistribution → Check
  | [] => Check.pass
  | partn :: rest =>
    if partn.PartId = partnId ∧ inst.State ≠ IndexState.INDEX_STATE_DELETED then
      if inst.RState = RebalanceState.REBAL_MERGED ∨
          inst.RState = RebalanceState.REBAL_ACTIVE then
        Check.reject (overlapError inst.InstId partnId)
      else
        match defn.Versions.get? i with
        | none => Check.panic
        | some version =>
          if partn.Version ≥ version then Check.reject (overlapError inst.InstId partnId)
          else verifyOverlapPartition.scanPartitions defn i partnId inst rest
    else verifyOverlapPartition.scanPartitions defn i partnId inst rest

/-- The loop over the instances of the existing definition (lines 1404-1439) for the
requested partition `partnId`, which is the `i`-th of the request. -/
def verifyOverlapPartition.scanInsts (defn : IndexDefn) (i partnId : Nat) :
    List IndexInstDistribution → Check
  | [] => Check.pass
  | inst :: rest =>
    if inst.InstId = defn.InstId then Check.reject (duplicateInstanceError inst.InstId)
    else if inst.InstId = defn.RealInstId ∨ inst.RealInstId = defn.RealInstId then
      match verifyOverlapPartition.scanPartitions defn i partnId inst inst.Partitions with
      | Check.pass => verifyOverlapPartition.scanInsts defn i partnId rest
      | found => found
    else verifyOverlapPartition.scanInsts defn i partnId rest

/-- The loop over the requested partitions (lines 1403-1440); `i` is the index of the first
partition of the list within `defn.Partitions`. -/
def verifyOverlapPartition.scanRequested (defn : IndexDefn)
    (insts : List IndexInstDistribution) : Nat → List Nat → Check
  | _, [] => Check.pass
  | i, partnId :: rest =>
    match verifyOverlapPartition.scanInsts defn i partnId insts with
    | Check.pass => verifyOverlapPartition.scanRequested defn insts (i + 1) rest
    | found => found

/-- The method `LifecycleMgr.verifyOverlapPartition(defn, reqCtx)`; the result is `none` when
the call panics. -/
def LifecycleMgr.verifyOverlapPartition (m : LifecycleMgr) (defn : IndexDefn)
    (reqCtx : MetadataRequestContext) : Option (error × LifecycleMgr) :=
  let isRebalance := reqCtx.ReqSource = DDLRequestSource.DDLRequestSourceRebalance
  let isRebalancePartition := isRebalance ∧ IsPartitioned defn.PartitionScheme = true
  if isRebalancePartition then
    if defn.RealInstId = 0 then
      some (some (errors.New "Missing real defn id when rebalancing partitioned index"), m)
    else
      match m.repo.GetIndexDefnByName defn.Bucket defn.Name with
      | (_, some err, r) => some (some err, { m with repo := r })
      | (none, none, r) => some (none, { m with repo := r })
      | (some existDefn, none, r) =>
        match r.GetTopologyByBucket existDefn.Bucket with
        | (_, some err, r1) => some (some err, { m with repo := r1 })
        | (none, none, r1) => some (none, { m with repo := r1 })
        | (some topology, none, r1) =>
          match verifyOverlapPartition.scanRequested defn
              (topology.GetIndexInstancesByDefn existDefn.DefnId) 0 defn.Partitions with
          | Check.pass => some (none, { m with repo := r1 })
          | Check.reject err => some (some err, { m with repo := r1 })
          | Check.panic => none
  else some (none, m)

/-! ## The builder -/

/-- The value of an `int32` after an arithmetic operation wraps around. -/
def wrapInt32 (x : Int) : Int :=
  (x + 2147483648) % 4294967296 - 2147483648

/-- The map read `s.pendings[bucket]`: nil when the key is absent. -/
def builder.pending (s : builder) (bucket : String) : List Nat :=
  match s.pendings.find? (fun p => p.1 == bucket) with
  | some p => p.2
  | none => []

/-- The map write `pendings[bucket] = ids` on the association list. -/
def setPending (bucket : String) (ids : List Nat) :
    List (String × List Nat) → List (String × List Nat)
  | [] => [(bucket, ids)]
  | p :: rest => if p.1 = bucket then (bucket, ids) :: rest else p :: setPending bucket ids rest

/-- The method `builder.addPending(bucket, id)`. -/
def builder.addPending (s : builder) (bucket : String) (id : Nat) : Bool × builder :=
  if id ∈ s.pending bucket then (false, s)
  else (true, { s with pendings := setPending bucket (s.pending bucket ++ [id]) s.pendings })

/-- The method `builder.disableBuild()`. -/
def builder.disableBuild (s : builder) : Bool :=
  if s.disable = 1 then true else false

/-- The method `LifecycleMgr.canBuildIndex(bucket)`: no instance of the bucket is in CATCHUP
or INITIAL.  The error of the topology read is ignored. -/
def LifecycleMgr.canBuildIndex (m : LifecycleMgr) (bucket : String) : Bool × LifecycleMgr :=
  match m.repo.GetTopologyByBucket bucket with
  | (none, _, r) => (true, { m with repo := r })
  | (some t, _, r) =>
    (!(t.Definitions.any (fun d => d.Instances.any (fun inst =>
        inst.State == IndexState.INDEX_STATE_CATCHUP ||
        inst.State == IndexState.INDEX_STATE_INITIAL))),
     { m with repo := r })

/-- The variables of the loops of `tryBuildIndex`. -/
structure BuildVars where
  newQuota : Int
  buildList : List Nat
  buildMap : List Nat
  pendingList : List Nat
  deriving DecidableEq, Repr

/-- The loop over the instances of one pending definition (lines 2308-2332). -/
def tryBuildIndex.instLoop (disableBuild : Bool) (defnId : Nat) :
    List IndexInstDistribution → BuildVars → BuildVars
  | [], v => v
  | inst :: rest, v =>
    if v.newQuota = 0 then v
    else if inst.State = IndexState.INDEX_STATE_READY then
      if !disableBuild || inst.OldStorageMode.length ≠ 0 then
        let v1 : BuildVars :=
          if defnId ∈ v.buildMap then v
          else { v with buildList := v.buildList ++ [defnId], buildMap := defnId :: v.buildMap }
        tryBuildIndex.instLoop disableBuild defnId rest
          { v1 with newQuota := wrapInt32 (v1.newQuota - 1) }
      else
        tryBuildIndex.instLoop disableBuild defnId rest
          { v with pendingList := v.pendingList ++ [defnId] }
    else tryBuildIndex.instLoop disableBuild defnId rest v

/-- The loop over the pending definitions of the bucket (lines 2288-2333). -/
def tryBuildIndex.defnLoop (bucket : String) (disableBuild : Bool) :
    List Nat → BuildVars → LifecycleMgr → BuildVars × LifecycleMgr
  | [], v, m => (v, m)
  | defnId :: rest, v, m =>
    if v.newQuota = 0 then (v, m)
    else
      let v1 : BuildVars := { v with pendingList := v.pendingList.tail }
      match m.repo.GetIndexDefnById defnId with
      | (none, _, r) => tryBuildIndex.defnLoop bucket disableBuild rest v1 { m with repo := r }
      | (some _, some _, r) =>
        tryBuildIndex.defnLoop bucket disableBuild rest v1 { m with repo := r }
      | (some _, none, r) =>
        match LifecycleMgr.FindAllLocalIndexInst { m with repo := r } bucket defnId with
        | (_, some _, m1) => tryBuildIndex.defnLoop bucket disableBuild rest v1 m1
        | (insts, none, m1) =>
          if insts.length = 0 then tryBuildIndex.defnLoop bucket disableBuild rest v1 m1
          else
            tryBuildIndex.defnLoop bucket disableBuild rest
              (tryBuildIndex.instLoop disableBuild defnId insts v1) m1

/-- Take the outcome of the next `client.MarshallIndexIdList` call from the script. -/
def builder.marshal (s : builder) : error × builder :=
  match s.marshalErrs with
  | [] => (none, s)
  | e :: rest => (e, { s with marshalErrs := rest })

/-- The method `builder.tryBuildIndex(bucket, quota)`. -/
def builder.tryBuildIndex (m : LifecycleMgr) (bucket : String) (quota : Int) :
    Int × LifecycleMgr :=
  let defnIds := m.builder.pending bucket
  if defnIds.length ≠ 0 then
    match m.canBuildIndex bucket with
    | (true, m1) =>
      match tryBuildIndex.defnLoop bucket m1.builder.disableBuild defnIds
          { newQuota := quota, buildList := [], buildMap := [], pendingList := defnIds } m1 with
      | (v, m2) =>
        match v.buildList with
        | first :: _ =>
          match m2.builder.marshal with
          | (some _, b) => (quota, { m2 with builder := b })
          | (none, b) =>
            let b1 : builder := { b with pendings := setPending bucket v.pendingList b.pendings }
            let rs := (m2.requestServer.MakeRequest OpCode.OPCODE_BUILD_INDEX_RETRY
              (toString first) (Content.IndexIdList v.buildList)).2
            (v.newQuota, { m2 with builder := b1, requestServer := rs })
        | [] =>
          (v.newQuota, { m2 with builder :=
            { m2.builder with pendings := setPending bucket v.pendingList m2.builder.pendings } })
    | (false, m1) => (quota, m1)
  else (quota, m)

/-- Modelled from the spec: the repository iterator (`MetadataRepo.NewIterator`, declared
outside `lifecycle.go`) visits every definition record.  `NewIterator` takes its outcome
from the script and yields the records still to visit. -/
def MetadataRepo.NewIterator (r : MetadataRepo) : List IndexDefn × error × MetadataRepo :=
  match r.fault with
  | (some err, r1) => ([], some err, r1)
  | (none, r1) => (r1.defns, none, r1)

/-- The loop of `getQuota` over the instances of one definition (lines 2397-2402). -/
def getQuota.instLoop (bucket : String) :
    List IndexInstDistribution → Int × List String → Int × List String
  | [], acc => acc
  | inst :: rest, (quota, skipList) =>
    if inst.State = IndexState.INDEX_STATE_INITIAL ∨
        inst.State = IndexState.INDEX_STATE_CATCHUP then
      getQuota.instLoop bucket rest
        (wrapInt32 (quota - 1), if bucket ∈ skipList then skipList else skipList ++ [bucket])
    else getQuota.instLoop bucket rest (quota, skipList)

/-- The loop of `getQuota` over the records of the iterator (lines 2388-2403).  Every
`metaIter.Next()` takes its outcome from the script; the loop ends when `Next` fails or no
record is left. -/
def getQuota.defnLoop :
    List IndexDefn → Int × List String → LifecycleMgr → (Int × List String) × LifecycleMgr
  | [], acc, m => (acc, { m with repo := (m.repo.fault).2 })
  | defn :: rest, acc, m =>
    match m.repo.fault with
    | (some _, r) => (acc, { m with repo := r })
    | (none, r) =>
      match LifecycleMgr.FindAllLocalIndexInst { m with repo := r } defn.Bucket defn.DefnId with
      | (_, some _, m1) => getQuota.defnLoop rest acc m1
      | (insts, none, m1) =>
        if insts.length = 0 then getQuota.defnLoop rest acc m1
        else getQuota.defnLoop rest (getQuota.instLoop defn.Bucket insts acc) m1

/-- The method `builder.getQuota()`: the quota and the set of buckets to skip. -/
def builder.getQuota (m : LifecycleMgr) : (Int × List String) × LifecycleMgr :=
  let quota := m.builder.batchSize
  match m.repo.NewIterator with
  | (_, some _, r) => ((quota, []), { m with repo := r })
  | (metaIter, none, r) => getQuota.defnLoop metaIter (quota, []) { m with repo := r }

/-- The inner loop `for j := i + 1; j < len(buildList); j++` of the two sorts of
`getBuildList`: `x` is the element at index `i`, the list holds the elements after it, and
`swap a b` is the test under which `buildList[i]` and `buildList[j]` are exchanged. -/
def exchangeInner (swap : String → String → Bool) : String → List String → String × List String
  | x, [] => (x, [])
  | x, y :: rest =>
    if swap x y then
      match exchangeInner swap y rest with
      | (x1, rest1) => (x1, x :: rest1)
    else
      match exchangeInner swap x rest with
      | (x1, rest1) => (x1, y :: rest1)

/-- The outer loop `for i := 0; i < len(buildList)-1; i++` of the two sorts of `getBuildList`;
`n` bounds the number of elements still to place. -/
def exchangeSort (swap : String → String → Bool) : Nat → List String → List String
  | 0, l => l
  | _ + 1, [] => []
  | n + 1, x :: rest =>
    match exchangeInner swap x rest with
    | (x1, rest1) => x1 :: exchangeSort swap n rest1

/-- The method `builder.getBuildList()`.  The second sort compares
`math.Abs(float64(len - quota))`, which is exact on these integers. -/
def builder.getBuildList (m : LifecycleMgr) : (List String × Int) × LifecycleMgr :=
  match builder.getQuota m with
  | ((quota, skipList), m1) =>
    let buildList := (m1.builder.pendings.map (fun p => p.1)).filter (fun b => !(b ∈ skipList))
    let size (b : String) : Int := ((m1.builder.pending b).length : Int)
    let sorted1 := exchangeSort (fun bi bj => decide (size bi < size bj)) buildList.length buildList
    let sorted2 := exchangeSort
      (fun bi bj => decide ((size bi - quota).natAbs > (size bj - quota).natAbs))
      sorted1.length sorted1
    ((sorted2, quota), m1)

/-- The loop of a builder tick over the build list (lines 2206-2208). -/
def builder.tickLoop : List String → Int → LifecycleMgr → Int × LifecycleMgr
  | [], quota, m => (quota, m)
  | bucket :: rest, quota, m =>
    match builder.tryBuildIndex m bucket quota with
    | (quota1, m1) => builder.tickLoop rest quota1 m1

/-- The build step of one builder tick (lines 2204-2208): `getBuildList`, then
`tryBuildIndex` on each listed bucket carrying the quota forward. -/
def builder.tick (m : LifecycleMgr) : Int × LifecycleMgr :=
  match builder.getBuildList m with
  | ((buildList, quota), m1) => builder.tickLoop buildList quota m1

/-! ## Updates of an instance row -/

/-- Modelled from the spec: `IndexTopology.UpdateRebalanceStateForIndexInst` (declared outside
`lifecycle.go`) stores the rebalance state and reports whether it changed. -/
def IndexTopology.UpdateRebalanceStateForIndexInst (t : IndexTopology) (defnId instId : Nat)
    (rState : RebalanceState) : Bool × IndexTopology :=
  (t.anyInst defnId instId (fun i => i.RState != rState),
   t.mapInst defnId instId (fun i => { i with RState := rState }))

/-- Modelled from the spec: `IndexTopology.UpdateScheduledFlagForIndexInst` (declared outside
`lifecycle.go`) stores the scheduled flag and reports whether it changed. -/
def IndexTopology.UpdateScheduledFlagForIndexInst (t : IndexTopology) (defnId instId : Nat)
    (scheduled : Bool) : Bool × IndexTopology :=
  (t.anyInst defnId instId (fun i => i.Scheduled != scheduled),
   t.mapInst defnId instId (fun i => { i with Scheduled := scheduled }))

/-- Modelled from the spec: `IndexTopology.UpdateStreamForIndexInst` (declared outside
`lifecycle.go`) stores the stream id and reports whether it changed. -/
def IndexTopology.UpdateStreamForIndexInst (t : IndexTopology) (defnId instId : Nat)
    (streamId : StreamId) : Bool × IndexTopology :=
  (t.anyInst defnId instId (fun i => i.StreamId != streamId),
   t.mapInst defnId instId (fun i => { i with StreamId := streamId }))

/-- Modelled from the spec: `IndexTopology.SetErrorForIndexInst` (declared outside
`lifecycle.go`) stores the error string and reports whether it changed. -/
def IndexTopology.SetErrorForIndexInst (t : IndexTopology) (defnId instId : Nat)
    (errStr : String) : Bool × IndexTopology :=
  (t.anyInst defnId instId (fun i => i.Error != errStr),
   t.mapInst defnId instId (fun i => { i with Error := errStr }))

/-- Modelled from the spec: `IndexTopology.UpdateStorageModeForIndexInst` (declared outside
`lifecycle.go`) stores the storage mode and reports whether it changed. -/
def IndexTopology.UpdateStorageModeForIndexInst (t : IndexTopology) (defnId instId : Nat)
    (mode : String) : Bool × IndexTopology :=
  (t.anyInst defnId instId (fun i => i.StorageMode != mode),
   t.mapInst defnId instId (fun i => { i with StorageMode := mode }))

/-- Modelled from the spec: `IndexTopology.UpdateOldStorageModeForIndexInst` (declared outside
`lifecycle.go`) stores the old storage mode and reports whether it changed. -/
def IndexTopology.UpdateOldStorageModeForIndexInst (t : IndexTopology) (defnId instId : Nat)
    (mode : String) : Bool × IndexTopology :=
  (t.anyInst defnId instId (fun i => i.OldStorageMode != mode),
   t.mapInst defnId instId (fun i => { i with OldStorageMode := mode }))

/-- The partition entries for the ids `partitions` with the versions `versions`. -/
def partitionEntries (partitions : List Nat) (versions : List Int) : List IndexPartDistribution :=
  List.zipWith (fun p v => { PartId := p, Version := v }) partitions versions

/-- Modelled from the spec: `IndexTopology.AddPartitionsForIndexInst` (declared outside
`lifecycle.go`) appends the partitions with their versions to the instance row and reports a
change when the row exists. -/
def IndexTopology.AddPartitionsForIndexInst (t : IndexTopology) (defnId instId : Nat)
    (_indexerId : String) (partitions : List Nat) (versions : List Int) :
    Bool × IndexTopology :=
  (t.anyInst defnId instId (fun _ => true),
   t.mapInst defnId instId
     (fun i => { i with Partitions := i.Partitions ++ partitionEntries partitions versions }))

/-- Modelled from the spec: `IndexTopology.UpdateVersionForIndexInst` (declared outside
`lifecycle.go`) stores the instance version and reports whether it changed. -/
def IndexTopology.UpdateVersionForIndexInst (t : IndexTopology) (defnId instId : Nat)
    (version : Nat) : Bool × IndexTopology :=
  (t.anyInst defnId instId (fun i => i.Version != version),
   t.mapInst defnId instId (fun i => { i with Version := version }))

/-- The conversion `uint64(x)` of an `int`. -/
def toUint64 (x : Int) : Nat := (x % 18446744073709551616).toNat

/-- Modelled from the spec: `MetadataRepo.GetLocalIndexerId` reads the id of the local
indexer. -/
def MetadataRepo.GetLocalIndexerId (r : MetadataRepo) (env : Env) :
    String × error × MetadataRepo :=
  match r.fault with
  | (some err, r1) => ("", some err, r1)
  | (none, r1) => (env.indexerId, none, r1)

/-- The field updates of `UpdateIndexInstance` (lines 1767-1799) on the topology: the flag
`changed` and the updated topology. -/
def UpdateIndexInstance.apply (topology : IndexTopology) (defn : IndexDefn) (indexerId : String)
    (defnId instId : Nat) (state : IndexState) (streamId : StreamId) (errStr : String)
    (rState : RebalanceState) (partitions : List Nat) (versions : List Int) (version : Int) :
    Bool × IndexTopology :=
  let c1 : Bool × IndexTopology :=
    if rState ≠ RebalanceState.REBAL_NIL then
      topology.UpdateRebalanceStateForIndexInst defnId instId rState
    else (false, topology)
  let c2 : Bool × IndexTopology :=
    if state ≠ IndexState.INDEX_STATE_NIL then
      let u := c1.2.UpdateStateForIndexInst defnId instId state
      if state = IndexState.INDEX_STATE_INITIAL ∨ state = IndexState.INDEX_STATE_CATCHUP ∨
          state = IndexState.INDEX_STATE_ACTIVE ∨ state = IndexState.INDEX_STATE_DELETED then
        let w := u.2.UpdateScheduledFlagForIndexInst defnId instId false
        (w.1 || (u.1 || c1.1), w.2)
      else (u.1 || c1.1, u.2)
    else c1
  let c3 : Bool × IndexTopology :=
    if streamId ≠ StreamId.NIL_STREAM then
      let u := c2.2.UpdateStreamForIndexInst defnId instId streamId
      (u.1 || c2.1, u.2)
    else c2
  let u4 := c3.2.SetErrorForIndexInst defnId instId errStr
  let c4 : Bool × IndexTopology := (u4.1 || c3.1, u4.2)
  let u5 := c4.2.UpdateStorageModeForIndexInst defnId instId defn.Using
  let c5 : Bool × IndexTopology := (u5.1 || c4.1, u5.2)
  let c6 : Bool × IndexTopology :=
    if partitions.length ≠ 0 then
      let u := c5.2.AddPartitionsForIndexInst defnId instId indexerId partitions versions
      (u.1 || c5.1, u.2)
    else c5
  if version ≠ -1 then
    let u := c6.2.UpdateVersionForIndexInst defnId instId (toUint64 version)
    (u.1 || c6.1, u.2)
  else c6

/-- The method `LifecycleMgr.UpdateIndexInstance`. -/
def LifecycleMgr.UpdateIndexInstance (m : LifecycleMgr) (bucket : String) (defnId instId : Nat)
    (state : IndexState) (streamId : StreamId) (errStr : String) (_buildTime : List Nat)
    (rState : RebalanceState) (partitions : List Nat) (versions : List Int) (version : Int) :
    error × LifecycleMgr :=
  match m.repo.GetTopologyByBucket bucket with
  | (_, some err, r) => (some err, { m with repo := r })
  | (none, none, r) => (none, { m with repo := r })
  | (some topology, none, r) =>
    match r.GetIndexDefnById defnId with
    | (_, some err, r1) => (some err, { m with repo := r1 })
    | (none, none, r1) => (none, { m with repo := r1 })
    | (some defn, none, r1) =>
      match r1.GetLocalIndexerId m.env with
      | (_, some err, r2) => (some err, { m with repo := r2 })
      | (indexerId, none, r2) =>
        match UpdateIndexInstance.apply topology defn indexerId defnId instId state streamId
            errStr rState partitions versions version with
        | (true, topology1) =>
          match r2.SetTopologyByBucket bucket topology1 with
          | (some err, r3) => (some err, { m with repo := r3 })
          | (none, r3) => (none, { m with repo := r3 })
        | (false, _) => (none, { m with repo := r2 })

/-- The method `LifecycleMgr.SetScheduledFlag`. -/
def LifecycleMgr.SetScheduledFlag (m : LifecycleMgr) (bucket : String) (defnId instId : Nat)
    (scheduled : Bool) : error × LifecycleMgr :=
  match m.repo.GetTopologyByBucket bucket with
  | (_, some err, r) => (some err, { m with repo := r })
  | (none, none, r) => (none, { m with repo := r })
  | (some topology, none, r) =>
    match topology.UpdateScheduledFlagForIndexInst defnId instId scheduled with
    | (true, topology1) =>
      match r.SetTopologyByBucket bucket topology1 with
      | (some err, r1) => (some err, { m with repo := r1 })
      | (none, r1) => (none, { m with repo := r1 })
    | (false, _) => (none, { m with repo := r })

/-! ## Build Index -/

/-- The callback `OnIndexBuild(instIds, buckets, reqCtx)`: the error map, listed in the order
in which a `range` over it visits its entries. -/
def MetadataNotifier.OnIndexBuild (n : MetadataNotifier) (instIds : List Nat)
    (buckets : List String) (reqCtx : Option MetadataRequestContext) :
    List (Nat × GoError) × MetadataNotifier :=
  let call := NotifierCall.OnIndexBuild instIds buckets reqCtx
  match n.buildReplies with
  | [] => ([], { n with calls := n.calls ++ [call] })
  | e :: rest => (e, { n with buildReplies := rest, calls := n.calls ++ [call] })

/-- The variables of the first loop of `BuildIndexes`. -/
structure BuildSet where
  skipList : List Nat
  instIdList : List Nat
  defnIdMap : List Nat
  buckets : List String
  inst2DefnMap : List (Nat × Nat)
  deriving DecidableEq, Repr

/-- The loop of `BuildIndexes` over the instances of one definition (lines 745-764): every
READY instance is scheduled, its error is reset and it joins the build set. -/
def BuildIndexes.instLoop (defn : IndexDefn) (id : Nat) :
    List IndexInstDistribution → BuildSet → LifecycleMgr → BuildSet × LifecycleMgr
  | [], v, m => (v, m)
  | inst :: rest, v, m =>
    if inst.State ≠ IndexState.INDEX_STATE_READY then BuildIndexes.instLoop defn id rest v m
    else
      let m1 := (m.SetScheduledFlag defn.Bucket id inst.InstId true).2
      let m2 := (m1.UpdateIndexInstance defn.Bucket id inst.InstId IndexState.INDEX_STATE_NIL
        StreamId.NIL_STREAM "" [] inst.RState [] [] (-1)).2
      BuildIndexes.instLoop defn id rest
        { v with instIdList := v.instIdList ++ [inst.InstId],
                 inst2DefnMap := (inst.InstId, defn.DefnId) :: v.inst2DefnMap } m2

/-- The loop of `BuildIndexes` over the requested ids (lines 718-776). -/
def BuildIndexes.idLoop : List Nat → BuildSet → LifecycleMgr → BuildSet × LifecycleMgr
  | [], v, m => (v, m)
  | id :: rest, v, m =>
    if id ∈ v.defnIdMap then BuildIndexes.idLoop rest v m
    else
      let v1 : BuildSet := { v with defnIdMap := id :: v.defnIdMap }
      match m.repo.GetIndexDefnById id with
      | (_, some _, r) =>
        BuildIndexes.idLoop rest { v1 with skipList := v1.skipList ++ [id] } { m with repo := r }
      | (none, none, r) =>
        BuildIndexes.idLoop rest { v1 with skipList := v1.skipList ++ [id] } { m with repo := r }
      | (some defn, none, r) =>
        match LifecycleMgr.FindAllLocalIndexInst { m with repo := r } defn.Bucket id with
        | (_, some _, m1) =>
          BuildIndexes.idLoop rest { v1 with skipList := v1.skipList ++ [id] } m1
        | (insts, none, m1) =>
          if insts.length = 0 then
            BuildIndexes.idLoop rest { v1 with skipList := v1.skipList ++ [id] } m1
          else
            match BuildIndexes.instLoop defn id insts v1 m1 with
            | (v2, m2) =>
              BuildIndexes.idLoop rest
                (if defn.Bucket ∈ v2.buckets then v2
                 else { v2 with buckets := v2.buckets ++ [defn.Bucket] }) m2

/-- The lists that the error loop of `BuildIndexes` fills. -/
structure BuildErrs where
  retryList : List IndexDefn
  retryErrList : List GoError
  errList : List GoError
  deriving DecidableEq, Repr

/-- The text of the error of line 800. -/
def retryErrText (name reason : String) : String :=
  "Index " ++ name ++ " will retry building in the background for reason: " ++ reason ++ "."

/-- The text of the error of line 824. -/
def buildErrText (name reason : String) : String :=
  "Index " ++ name ++ " fails to build for reason: " ++ reason

/-- The loop of `BuildIndexes` over the error map of `OnIndexBuild` (lines 783-826); the
result is `none` when the loop panics, which it does at lines 805-806 where `inst.ReplicaId`
is read although `inst` is nil. -/
def BuildIndexes.errLoop (inst2DefnMap : List (Nat × Nat)) (retry : Bool) :
    List (Nat × GoError) → BuildErrs → LifecycleMgr → Option (BuildErrs × LifecycleMgr)
  | [], v, m => some (v, m)
  | (instId, build_err) :: rest, v, m =>
    match inst2DefnMap.find? (fun p => p.1 == instId) with
    | none => BuildIndexes.errLoop inst2DefnMap retry rest v m
    | some (_, defnId) =>
      match m.repo.GetIndexDefnById defnId with
      | (_, some _, r) => BuildIndexes.errLoop inst2DefnMap retry rest v { m with repo := r }
      | (none, none, r) => BuildIndexes.errLoop inst2DefnMap retry rest v { m with repo := r }
      | (some defn, none, r) =>
        match LifecycleMgr.FindLocalIndexInst { m with repo := r } defn.Bucket defnId instId with
        | (none, _, _) => none
        | (some inst, err, m1) =>
          let build_err1 : GoError :=
            if err = none ∧ LifecycleMgr.canRetryError (some inst) build_err retry = true then
              errors.New (retryErrText defn.Name build_err.Error)
            else build_err
          let m2 :=
            if err = none then
              (m1.UpdateIndexInstance defn.Bucket defnId inst.InstId
                IndexState.INDEX_STATE_NIL StreamId.NIL_STREAM build_err1.Error [] inst.RState
                [] [] (-1)).2
            else m1
          if LifecycleMgr.canRetryError (some inst) build_err1 retry then
            let m3 :=
              if !inst.Scheduled then (m2.SetScheduledFlag defn.Bucket defnId inst.InstId true).2
              else m2
            BuildIndexes.errLoop inst2DefnMap retry rest
              { v with retryList := v.retryList ++ [defn],
                       retryErrList := v.retryErrList ++ [build_err1] } m3
          else
            BuildIndexes.errLoop inst2DefnMap retry rest
              { v with errList := v.errList ++
                  [errors.New (buildErrText defn.Name build_err1.Error)] } m2

/-- The method `LifecycleMgr.BuildIndexes(ids, reqCtx, retry)`: the retry errors, the skipped
ids and the hard errors; the result is `none` when the call panics. -/
def LifecycleMgr.BuildIndexes (m : LifecycleMgr) (ids : List Nat)
    (reqCtx : Option MetadataRequestContext) (retry : Bool) :
    Option ((List GoError × List Nat × List GoError) × LifecycleMgr) :=
  match BuildIndexes.idLoop ids
      { skipList := [], instIdList := [], defnIdMap := [], buckets := [], inst2DefnMap := [] }
      m with
  | (v, m1) =>
    match m1.notifier with
    | some n =>
      if v.instIdList.length ≠ 0 then
        match n.OnIndexBuild v.instIdList v.buckets reqCtx with
        | (errMap, n1) =>
          let m2 : LifecycleMgr := { m1 with notifier := some n1 }
          if errMap.length ≠ 0 then
            match BuildIndexes.errLoop v.inst2DefnMap retry errMap
                { retryList := [], retryErrList := [], errList := [] } m2 with
            | none => none
            | some (e, m3) =>
              some ((e.retryErrList, v.skipList, e.errList),
                { m3 with builder :=
                    { m3.builder with notifych := m3.builder.notifych ++ e.retryList } })
          else some (([], v.skipList, []), m2)
      else some (([], v.skipList, []), m1)
    | none => some (([], v.skipList, []), m1)

/-! ## Delete Index Instance -/

/-- Modelled from the spec: `MetadataRepo.deleteInstanceFromTopology` removes only the row of
instance `instId` of definition `defnId` from the topology of the bucket. -/
def MetadataRepo.deleteInstanceFromTopology (r : MetadataRepo) (bucket : String)
    (defnId instId : Nat) : error × MetadataRepo :=
  let r0 := { r with writes :=
    r.writes ++ [RepoWrite.deleteInstanceFromTopology bucket defnId instId] }
  match r0.fault with
  | (some err, r1) => (some err, r1)
  | (none, r1) =>
    (none, { r1 with topologies := r1.topologies.map (fun t =>
      if t.Bucket = bucket then
        { t with Definitions := t.Definitions.map (fun d =>
            if d.DefnId = defnId then
              { d with Instances := d.Instances.filter (fun i => i.InstId != instId) }
            else d) }
      else t) })

/-- The loop of `DeleteIndexInstance` (lines 1520-1530): the target instance, if listed, and
the number of other instances that are not DELETED. -/
def DeleteIndexInstance.scan (instId : Nat) :
    List IndexInstDistribution → Nat × Option IndexInstDistribution →
      Nat × Option IndexInstDistribution
  | [], acc => acc
  | n :: rest, (validInst, inst) =>
    if n.InstId = instId then DeleteIndexInstance.scan instId rest (validInst, some n)
    else if n.State ≠ IndexState.INDEX_STATE_DELETED then
      DeleteIndexInstance.scan instId rest (validInst + 1, inst)
    else DeleteIndexInstance.scan instId rest (validInst, inst)

/-- The test of lines 1551-1561 and 1677-1687: the error of the indexer is returned to the
caller. -/
def surfacesDropError (err : GoError) : Bool :=
  match err.asIndexerError with
  | some indexerErr =>
    if indexerErr.Code ≠ IndexerErrCode.IndexNotExist then true
    else !strings.Contains err.Error "Unknown Index Instance"
  | none => !strings.Contains err.Error "Unknown Index Instance"

/-- The method `LifecycleMgr.DeleteIndexInstance(id, instId, cleanup, reqCtx)`; the result is
`none` when the call panics (line 1550 calls the notifier without a nil check). -/
def LifecycleMgr.DeleteIndexInstance (m : LifecycleMgr) (id instId : Nat) (cleanup : Bool)
    (reqCtx : Option MetadataRequestContext) : Option (error × LifecycleMgr) :=
  match m.repo.GetIndexDefnById id with
  | (_, some err, r) => some (some err, { m with repo := r })
  | (none, none, r) => some (none, { m with repo := r })
  | (some defn, none, r) =>
    match LifecycleMgr.FindAllLocalIndexInst { m with repo := r } defn.Bucket id with
    | (_, some err, m1) => some (some err, m1)
    | (insts, none, m1) =>
      match DeleteIndexInstance.scan instId insts (0, none) with
      | (_, none) => some (none, m1)
      | (0, some _) => some (m1.DeleteIndex id cleanup reqCtx)
      | (_ + 1, some _) =>
        let finish (m2 : LifecycleMgr) : Option (error × LifecycleMgr) :=
          some (none, { m2 with repo :=
            (m2.repo.deleteInstanceFromTopology defn.Bucket id instId).2 })
        if cleanup then
          match m1.updateIndexState defn.Bucket id instId IndexState.INDEX_STATE_DELETED with
          | (some err, m2) => some (some err, m2)
          | (none, m2) =>
            match m2.notifier with
            | none => none
            | some n =>
              match n.OnIndexDelete instId defn.Bucket reqCtx with
              | (some err, n1) =>
                if surfacesDropError err then some (some err, { m2 with notifier := some n1 })
                else finish { m2 with notifier := some n1 }
              | (none, n1) => finish { m2 with notifier := some n1 }
        else finish m1

/-! ## Create Index -/

/-- Modelled from the spec: the sentinel UUID of a bucket that does not exist
(`common.BUCKET_UUID_NIL`). -/
def BUCKET_UUID_NIL : String := "UUID_NIL"

/-- Modelled from the spec: the default storage kind (`common.PlasmaDB`). -/
def PlasmaDB : String := "plasma"

/-- Go's `strings.ToLower` on the letters A-Z. -/
def strings.ToLower (s : String) : String := String.mk (s.data.map Char.toLower)

/-- Modelled from the spec: `common.GetBucketUUID` asks the cluster for the UUID of the
bucket: an error when the cluster cannot be reached, UUID_NIL when the bucket does not
exist. -/
def Env.GetBucketUUID (env : Env) (bucket : String) : (String × error) × Env :=
  match env.clusterErrs with
  | some err :: rest => ((BUCKET_UUID_NIL, some err), { env with clusterErrs := rest })
  | none :: rest =>
    ((match env.buckets.find? (fun b => b.1 == bucket) with
      | some b => b.2
      | none => BUCKET_UUID_NIL, none), { env with clusterErrs := rest })
  | [] =>
    ((match env.buckets.find? (fun b => b.1 == bucket) with
      | some b => b.2
      | none => BUCKET_UUID_NIL, none), env)

/-- The retry loop of `getBucketUUID` (lines 1988-1994); `retries` is `5 - count`. -/
def getBucketUUID.loop (bucket : String) : Nat → Env → (String × error) × Env
  | 0, env => env.GetBucketUUID bucket
  | retries + 1, env =>
    match env.GetBucketUUID bucket with
    | ((_, some _), env1) => getBucketUUID.loop bucket retries env1
    | ok => ok

/-- The method `LifecycleMgr.getBucketUUID(bucket)`. -/
def LifecycleMgr.getBucketUUID (m : LifecycleMgr) (bucket : String) :
    String × error × LifecycleMgr :=
  match getBucketUUID.loop bucket 5 m.env with
  | ((_, some err), env) => (BUCKET_UUID_NIL, some err, { m with env := env })
  | ((uuid, none), env) => (uuid, none, { m with env := env })

/-- The text of the error of lines 2036-2037. -/
def bucketUnavailableText : String :=
  "Bucket does not exist or temporarily unavailable for creating new index." ++
    " Please retry the operation at a later time."

/-- The loop of `verifyBucket` over the definition references of the topology
(lines 2021-2041): the error, if a live definition carries another bucket UUID. -/
def verifyBucket.loop (topology : IndexTopology) (currentUUID : String) :
    List IndexDefnDistribution → LifecycleMgr → error × LifecycleMgr
  | [], m => (none, m)
  | defnRef :: rest, m =>
    let valid := (topology.GetIndexInstancesByDefn defnRef.DefnId).any (fun inst =>
      topology.GetStatusByInst defnRef.DefnId inst.InstId != IndexState.INDEX_STATE_DELETED)
    if valid then
      match m.repo.GetIndexDefnById defnRef.DefnId with
      | (some defn, none, r) =>
        if defn.BucketUUID ≠ currentUUID then
          (some (errors.New bucketUnavailableText), { m with repo := r })
        else verifyBucket.loop topology currentUUID rest { m with repo := r }
      | (_, _, r) => verifyBucket.loop topology currentUUID rest { m with repo := r }
    else verifyBucket.loop topology currentUUID rest m

/-- The method `LifecycleMgr.verifyBucket(bucket)`. -/
def LifecycleMgr.verifyBucket (m : LifecycleMgr) (bucket : String) :
    String × error × LifecycleMgr :=
  match m.getBucketUUID bucket with
  | (_, some err, m1) => (BUCKET_UUID_NIL, some err, m1)
  | (currentUUID, none, m1) =>
    match m1.repo.GetTopologyByBucket bucket with
    | (_, some err, r) => (BUCKET_UUID_NIL, some err, { m1 with repo := r })
    | (none, none, r) => (currentUUID, none, { m1 with repo := r })
    | (some topology, none, r) =>
      match verifyBucket.loop topology currentUUID topology.Definitions { m1 with repo := r } with
      | (some err, m2) => (BUCKET_UUID_NIL, some err, m2)
      | (none, m2) => (currentUUID, none, m2)

/-- The method `LifecycleMgr.setBucketUUID(defn)`: the error and the updated definition. -/
def LifecycleMgr.setBucketUUID (m : LifecycleMgr) (defn : IndexDefn) :
    error × IndexDefn × LifecycleMgr :=
  match m.verifyBucket defn.Bucket with
  | (bucketUUID, err, m1) =>
    if err ≠ none ∨ bucketUUID = BUCKET_UUID_NIL then
      let err1 : GoError :=
        match err with
        | some e => e
        | none => errors.New "Bucket not found"
      (some (GoError.plain
        ("Bucket does not exist or temporarily unavailable for creating new index." ++
          " Please retry the operation at a later time (err=" ++ err1.Error ++ ").")),
        defn, m1)
    else (none, { defn with BucketUUID := bucketUUID }, m1)

/-- The method `LifecycleMgr.setStorageMode(defn)`: the error and the updated definition. -/
def LifecycleMgr.setStorageMode (m : LifecycleMgr) (defn : IndexDefn) : error × IndexDefn :=
  if strings.ToLower defn.Using = "gsi" then
    match m.env.storageMode with
    | some mode => (none, { defn with Using := mode })
    | none => (none, { defn with Using := PlasmaDB })
  else if defn.Using ∈ m.env.validIndexTypes then
    (none, { defn with Using := strings.ToLower defn.Using })
  else
    (some (errors.New
      ("Create Index fails. Reason = Unsupported Using Clause " ++ defn.Using)), defn)

/-- Take the result of the next `common.NewIndexInstId` call from the script. -/
def Env.NewIndexInstId (env : Env) : (Nat × error) × Env :=
  match env.newInstIds with
  | [] => ((0, none), env)
  | x :: rest => (x, { env with newInstIds := rest })

/-- The method `LifecycleMgr.setInstId(defn)`: instance id, real instance id, error, and the
updated definition. -/
def LifecycleMgr.setInstId (m : LifecycleMgr) (defn : IndexDefn) :
    (Nat × Nat × error) × IndexDefn × LifecycleMgr :=
  let realInstId := if defn.RealInstId > 0 then defn.RealInstId else 0
  if defn.InstId > 0 then
    ((defn.InstId, realInstId, none), { defn with InstId := 0, RealInstId := 0 }, m)
  else
    match m.env.NewIndexInstId with
    | ((_, some err), env) => ((0, 0, some err), defn, { m with env := env })
    | ((instId, none), env) =>
      ((instId, realInstId, none), { defn with InstId := 0, RealInstId := 0 },
        { m with env := env })

/-- The method `LifecycleMgr.setReplica(defn)`. -/
def LifecycleMgr.setReplica (defn : IndexDefn) : Int × IndexDefn :=
  (defn.ReplicaId, { defn with ReplicaId := -1 })

/-- The method `LifecycleMgr.setPartition(defn)`: partitions, versions, number of partitions,
and the updated definition. -/
def LifecycleMgr.setPartition (defn : IndexDefn) : (List Nat × List Int × Nat) × IndexDefn :=
  let cleared : IndexDefn := { defn with NumPartitions := 0, Partitions := [], Versions := [] }
  if !IsPartitioned defn.PartitionScheme then (([0], [defn.InstVersion], 1), cleared)
  else ((defn.Partitions, defn.Versions, defn.NumPartitions), cleared)

/-- The loop of `verifyDuplicateDefn` over the instances of the existing definition
(lines 640-645): some instance is in a state other than NIL and DELETED. -/
def verifyDuplicateDefn.exists (topology : IndexTopology) (existDefn : IndexDefn) : Bool :=
  (topology.GetIndexInstancesByDefn existDefn.DefnId).any (fun inst =>
    let state := topology.GetStatusByInst existDefn.DefnId inst.InstId
    state != IndexState.INDEX_STATE_NIL && state != IndexState.INDEX_STATE_DELETED)

/-- The text of the error of line 643. -/
def alreadyExistsText (bucket name : String) : String :=
  "Index " ++ bucket ++ "." ++ name ++ " already exists"

/-- The method `LifecycleMgr.verifyDuplicateDefn(defn, reqCtx)`. -/
def LifecycleMgr.verifyDuplicateDefn (m : LifecycleMgr) (defn : IndexDefn) :
    Option IndexDefn × error × LifecycleMgr :=
  match m.repo.GetIndexDefnByName defn.Bucket defn.Name with
  | (_, some err, r) => (none, some err, { m with repo := r })
  | (none, none, r) => (none, none, { m with repo := r })
  | (some existDefn, none, r) =>
    match r.GetTopologyByBucket existDefn.Bucket with
    | (_, some err, r1) => (none, some err, { m with repo := r1 })
    | (none, none, r1) => (some existDefn, none, { m with repo := r1 })
    | (some topology, none, r1) =>
      if (!IsPartitioned defn.PartitionScheme || !IsPartitioned existDefn.PartitionScheme) &&
          verifyDuplicateDefn.exists topology existDefn then
        (some existDefn, some (errors.New (alreadyExistsText defn.Bucket defn.Name)),
          { m with repo := r1 })
      else (some existDefn, none, { m with repo := r1 })

/-- Modelled from the spec: `MetadataRepo.CreateIndex` writes the definition record; it fails
if there is another definition record of the same DefnId. -/
def MetadataRepo.CreateIndex (r : MetadataRepo) (defn : IndexDefn) : error × MetadataRepo :=
  let r0 := { r with writes := r.writes ++ [RepoWrite.CreateIndex defn] }
  match r0.fault with
  | (some err, r1) => (some err, r1)
  | (none, r1) =>
    if r1.defns.any (fun d => d.DefnId == defn.DefnId) then
      (some (GoError.plain ("Index Definition " ++ defn.Name ++ " already exist")), r1)
    else (none, { r1 with defns := r1.defns ++ [defn] })

/-- The instance row that the repository adds for a new instance: state CREATED, no stream,
no error, the given partitions with their versions. -/
def newInstanceRow (env : Env) (defn : IndexDefn) (instId : Nat) (replicaId : Int)
    (partitions : List Nat) (versions : List Int) (numPartitions realInstId : Nat)
    (scheduled : Bool) : IndexInstDistribution :=
  { InstId := instId, State := IndexState.INDEX_STATE_CREATED, StreamId := StreamId.NIL_STREAM,
    Error := "", RState := env.newInstRState, ReplicaId := replicaId,
    Partitions := partitionEntries partitions versions, NumPartitions := numPartitions,
    Scheduled := scheduled, StorageMode := defn.Using, OldStorageMode := "",
    RealInstId := realInstId, Version := toUint64 defn.InstVersion }

/-- The blob of `bucket` in the list, or an empty blob when the bucket has none. -/
def topologyOf (bucket : String) (ts : List IndexTopology) : IndexTopology :=
  match ts.find? (fun t => t.Bucket == bucket) with
  | some t => t
  | none => { Bucket := bucket, Definitions := [] }

/-- Modelled from the spec: `MetadataRepo.addIndexToTopology` writes the first instance of a
definition into the topology of its bucket, after removing any dangling definition reference
of the same index name and bucket. -/
def MetadataRepo.addIndexToTopology (r : MetadataRepo) (env : Env) (defn : IndexDefn)
    (instId : Nat) (replicaId : Int) (partitions : List Nat) (versions : List Int)
    (numPartitions realInstId : Nat) (scheduled : Bool) : error × MetadataRepo :=
  let r0 := { r with writes := r.writes ++ [RepoWrite.addIndexToTopology defn.DefnId instId] }
  match r0.fault with
  | (some err, r1) => (some err, r1)
  | (none, r1) =>
    let t := topologyOf defn.Bucket r1.topologies
    let kept := t.Definitions.filter (fun d => !(d.Bucket == defn.Bucket && d.Name == defn.Name))
    let row := newInstanceRow env defn instId replicaId partitions versions numPartitions
      realInstId scheduled
    let t1 : IndexTopology := { t with Definitions := kept ++
      [{ Bucket := defn.Bucket, Name := defn.Name, DefnId := defn.DefnId, Instances := [row] }] }
    (none, { r1 with topologies := putTopology defn.Bucket t1 r1.topologies })

/-- Modelled from the spec: `MetadataRepo.addInstanceToTopology` writes a further instance of
an existing definition into the topology of its bucket (the definition reference is created
when the topology has none). -/
def MetadataRepo.addInstanceToTopology (r : MetadataRepo) (env : Env) (defn : IndexDefn)
    (instId : Nat) (replicaId : Int) (partitions : List Nat) (versions : List Int)
    (numPartitions realInstId : Nat) (scheduled : Bool) : error × MetadataRepo :=
  let r0 := { r with writes := r.writes ++ [RepoWrite.addInstanceToTopology defn.DefnId instId] }
  match r0.fault with
  | (some err, r1) => (some err, r1)
  | (none, r1) =>
    let t := topologyOf defn.Bucket r1.topologies
    let row := newInstanceRow env defn instId replicaId partitions versions numPartitions
      realInstId scheduled
    let defs :=
      if t.Definitions.any (fun d => d.DefnId == defn.DefnId) then
        t.Definitions.map (fun d =>
          if d.DefnId = defn.DefnId then { d with Instances := d.Instances ++ [row] } else d)
      else
        t.Definitions ++
          [{ Bucket := defn.Bucket, Name := defn.Name, DefnId := defn.DefnId,
             Instances := [row] }]
    let t1 : IndexTopology := { t with Definitions := defs }
    (none, { r1 with topologies := putTopology defn.Bucket t1 r1.topologies })

/-- The build step at the end of `CreateIndex` (lines 473-500); `cleanup` is the call that
removes the index when the build fails. -/
def createBuildStep (m : LifecycleMgr) (defn : IndexDefn)
    (reqCtx : MetadataRequestContext)
    (cleanup : LifecycleMgr → Option LifecycleMgr) : Option (error × LifecycleMgr) :=
  if !defn.Deferred then
    match m.notifier with
    | some _ =>
      match m.BuildIndexes [defn.DefnId] (some reqCtx) false with
      | none => none
      | some ((retryList, skipList, errList), m1) =>
        if retryList.length ≠ 0 then
          some (some (errors.New
            "Fail to build index.  Index build will retry in background."), m1)
        else
          match errList with
          | err :: _ =>
            match cleanup m1 with
            | none => none
            | some m2 => some (some err, m2)
          | [] =>
            if skipList.length ≠ 0 then
              match cleanup m1 with
              | none => none
              | some m2 =>
                some (some (errors.New
                  ("Fail to create index due to internal build error.  " ++
                    "Please retry the operation.")), m2)
            else some (none, m1)
    | none => some (none, m)
  else some (none, m)

/-- The method `LifecycleMgr.CreateIndex(defn, scheduled, reqCtx)`; the result is `none`
when the call panics. -/
def LifecycleMgr.CreateIndex (m : LifecycleMgr) (defn : IndexDefn) (scheduled : Bool)
    (reqCtx : MetadataRequestContext) : Option (error × LifecycleMgr) :=
  match m.setBucketUUID defn with
  | (some err, _, m1) => some (some err, m1)
  | (none, defn1, m1) =>
    match m1.setStorageMode defn1 with
    | (some err, _) => some (some err, m1)
    | (none, defn2) =>
      match m1.setInstId defn2 with
      | ((_, _, some err), _, m2) => some (some err, m2)
      | ((instId0, realInstId, none), defn3, m2) =>
        let instId := if realInstId ≠ 0 then realInstId else instId0
        match LifecycleMgr.setReplica defn3 with
        | (replicaId, defn4) =>
          match LifecycleMgr.setPartition defn4 with
          | ((partitions, versions, numPartitions), defn5) =>
            match m2.repo.CreateIndex defn5 with
            | (some err, r) => some (some err, { m2 with repo := r })
            | (none, r) =>
              match r.addIndexToTopology m2.env defn5 instId replicaId partitions versions
                  numPartitions 0 (!defn5.Deferred && scheduled) with
              | (some err, r1) =>
                some (some err, { m2 with repo := (r1.DropIndexById defn5.DefnId).2 })
              | (none, r1) =>
                let m3 : LifecycleMgr := { m2 with repo := r1 }
                let created : error × LifecycleMgr :=
                  match m3.notifier with
                  | some n =>
                    match n.reply (NotifierCall.OnIndexCreate defn5 instId replicaId partitions
                        versions numPartitions 0 (some reqCtx)) with
                    | (err, n1) => (err, { m3 with notifier := some n1 })
                  | none => (none, m3)
                match created with
                | (some err, m4) => some (some err, (m4.DeleteIndex defn5.DefnId false none).2)
                | (none, m4) =>
                  match m4.updateIndexState defn5.Bucket defn5.DefnId instId
                      IndexState.INDEX_STATE_READY with
                  | (some err, m5) =>
                    some (some err, (m5.DeleteIndex defn5.DefnId true (some reqCtx)).2)
                  | (none, m5) =>
                    createBuildStep m5 defn5 reqCtx
                      (fun x => some (x.DeleteIndex defn5.DefnId true (some reqCtx)).2)

/-- The method `LifecycleMgr.CreateIndexInstance(defn, scheduled, reqCtx)`; the result is
`none` when the call panics. -/
def LifecycleMgr.CreateIndexInstance (m : LifecycleMgr) (defn : IndexDefn) (scheduled : Bool)
    (reqCtx : MetadataRequestContext) : Option (error × LifecycleMgr) :=
  match m.verifyOverlapPartition defn reqCtx with
  | none => none
  | some (some err, m0) => some (some err, m0)
  | some (none, m0) =>
    match m0.setBucketUUID defn with
    | (some err, _, m1) => some (some err, m1)
    | (none, defn1, m1) =>
      match m1.setStorageMode defn1 with
      | (some err, _) => some (some err, m1)
      | (none, defn2) =>
        match m1.setInstId defn2 with
        | ((_, _, some err), _, m2) => some (some err, m2)
        | ((instId0, realInstId0, none), defn3, m2) =>
          match LifecycleMgr.setReplica defn3 with
          | (replicaId, defn4) =>
            match LifecycleMgr.setPartition defn4 with
            | ((partitions, versions, numPartitions), defn5) =>
              let resolved : Option (Nat × Nat) × error × LifecycleMgr :=
                if realInstId0 ≠ 0 then
                  match m2.FindLocalIndexInst defn5.Bucket defn5.DefnId realInstId0 with
                  | (_, some err, m3) => (none, some err, m3)
                  | (none, none, m3) => (some (realInstId0, 0), none, m3)
                  | (some _, none, m3) => (some (instId0, realInstId0), none, m3)
                else (some (instId0, realInstId0), none, m2)
              match resolved with
              | (none, err, m3) => some (err, m3)
              | (some (instId, realInstId), _, m3) =>
                match m3.repo.addInstanceToTopology m3.env defn5 instId replicaId partitions
                    versions numPartitions realInstId (!defn5.Deferred && scheduled) with
                | (some err, r) => some (some err, { m3 with repo := r })
                | (none, r) =>
                  let m4 : LifecycleMgr := { m3 with repo := r }
                  let cleanup (x : LifecycleMgr) : Option LifecycleMgr :=
                    (x.DeleteIndexInstance defn5.DefnId instId false (some reqCtx)).map
                      (fun res => res.2)
                  let created : error × LifecycleMgr :=
                    match m4.notifier with
                    | some n =>
                      match n.reply (NotifierCall.OnIndexCreate defn5 instId replicaId
                          partitions versions numPartitions realInstId (some reqCtx)) with
                      | (err, n1) => (err, { m4 with notifier := some n1 })
                    | none => (none, m4)
                  match created with
                  | (some err, m5) => (cleanup m5).map (fun m6 => (some err, m6))
                  | (none, m5) =>
                    match m5.updateIndexState defn5.Bucket defn5.DefnId instId
                        IndexState.INDEX_STATE_READY with
                    | (some err, m6) => (cleanup m6).map (fun m7 => (some err, m7))
                    | (none, m6) => createBuildStep m6 defn5 reqCtx cleanup

/-- The method `LifecycleMgr.CreateIndexOrInstance(defn, scheduled, reqCtx)`; the result is
`none` when the call panics.  Every request routed by `dispatchRequest` carries a request
context, so `reqCtx` is not nil here. -/
def LifecycleMgr.CreateIndexOrInstance (m : LifecycleMgr) (defn : IndexDefn) (scheduled : Bool)
    (reqCtx : MetadataRequestContext) : Option (error × LifecycleMgr) :=
  if m.env.buildMode ≠ BuildMode.ENTERPRISE ∧ defn.NumReplica ≠ 0 then
    some (some (errors.New "Index Replica not supported in non-Enterprise Edition"), m)
  else if m.env.buildMode ≠ BuildMode.ENTERPRISE ∧ IsPartitioned defn.PartitionScheme = true then
    some (some (errors.New "Index Partitining is not supported in non-Enterprise Edition"), m)
  else
    match m.verifyDuplicateDefn defn with
    | (_, some err, m1) => some (some err, m1)
    | (existDefn, none, m1) =>
      let hasIndex : Bool :=
        match existDefn with
        | some e => defn.DefnId == e.DefnId
        | none => false
      if IsPartitioned defn.PartitionScheme && hasIndex then
        m1.CreateIndexInstance defn scheduled reqCtx
      else m1.CreateIndex defn scheduled reqCtx

/-! ## Request handlers -/

/-- The context `common.NewUserRequestContext()`. -/
def NewUserRequestContext : MetadataRequestContext :=
  { ReqSource := DDLRequestSource.DDLRequestSourceUser }

/-- The context `common.NewRebalanceRequestContext()`. -/
def NewRebalanceRequestContext : MetadataRequestContext :=
  { ReqSource := DDLRequestSource.DDLRequestSourceRebalance }

/-- Modelled from the spec: the error of a decoder that is given a content it cannot decode
(the decoders are declared outside `lifecycle.go`, which fixes no text for this error). -/
def unmarshalError : GoError := errors.New "invalid character"

/-- The method `LifecycleMgr.handleCreateIndexScheduledBuild(key, content, reqCtx)`; the
result is `none` when the call panics. -/
def LifecycleMgr.handleCreateIndexScheduledBuild (m : LifecycleMgr) (_key : String)
    (content : Content) (reqCtx : MetadataRequestContext) : Option (error × LifecycleMgr) :=
  match content with
  | Content.IndexDefn defn => m.CreateIndexOrInstance defn true reqCtx
  | _ => some (some unmarshalError, m)

/-- Modelled from the spec: `indexDefnId(key)` (declared outside `lifecycle.go`) reads the
key as the decimal DefnId, an unsigned 64-bit number. -/
def indexDefnId (key : String) : Nat × error :=
  let value : Option Nat :=
    if key.data = [] then none
    else key.data.foldl (fun acc c =>
      match acc with
      | some n => if c.isDigit then some (n * 10 + (c.toNat - 48)) else none
      | none => none) (some 0)
  match value with
  | some n =>
    if n < 18446744073709551616 then (n, none) else (0, some (errors.New "value out of range"))
  | none => (0, some (errors.New "invalid syntax"))

/-- The method `LifecycleMgr.handleDeleteIndex(key, reqCtx)`. -/
def LifecycleMgr.handleDeleteIndex (m : LifecycleMgr) (key : String)
    (reqCtx : MetadataRequestContext) : error × LifecycleMgr :=
  match indexDefnId key with
  | (_, some err) => (some err, m)
  | (id, none) => m.DeleteIndex id true (some reqCtx)

/-- The message that `handleBuildIndexes` composes from the three lists of `BuildIndexes`
(lines 673-699).  `fmt.Sprint("  %v", err)` writes its first operand as it stands. -/
def handleBuildIndexes.message (retryList : List GoError) (skipList : List Nat)
    (errList : List GoError) : String :=
  let msg0 := "Build index fails."
  let msg1 := match retryList with
    | [e] => msg0 ++ ("  %v" ++ e.Error)
    | _ => msg0
  let msg2 := match errList with
    | [e] => msg1 ++ ("  " ++ e.Error ++ ".")
    | _ => msg1
  let msg3 := if retryList.length > 1 then
    msg2 ++ "  Some index will be retried building in the background." else msg2
  let msg4 := if errList.length > 1 then
    msg3 ++ "  Some index cannot be built due to errors." else msg3
  let msg5 := if skipList.length ≠ 0 then
    msg4 ++ "  Some index cannot be built since it may not exist.  Please check if the list of indexes are valid."
    else msg4
  if errList.length > 1 ∨ retryList.length > 1 then
    msg5 ++ "  For more details, please check index status."
  else msg5

/-- The method `LifecycleMgr.handleBuildIndexes(content, reqCtx, retry)`; the result is
`none` when the call panics. -/
def LifecycleMgr.handleBuildIndexes (m : LifecycleMgr) (content : Content)
    (reqCtx : MetadataRequestContext) (retry : Bool) : Option (error × LifecycleMgr) :=
  match content with
  | Content.IndexIdList ids =>
    match m.BuildIndexes ids (some reqCtx) retry with
    | none => none
    | some ((retryList, skipList, errList), m1) =>
      if retryList.length ≠ 0 ∨ skipList.length ≠ 0 ∨ errList.length ≠ 0 then
        some (some (errors.New (handleBuildIndexes.message retryList skipList errList)), m1)
      else some (none, m1)
  | _ => some (some unmarshalError, m)

/-- The method `LifecycleMgr.handleCleanupIndexMetadata(content)`; the result is `none` when
the call panics. -/
def LifecycleMgr.handleCleanupIndexMetadata (m : LifecycleMgr) (content : Content) :
    Option (error × LifecycleMgr) :=
  match content with
  | Content.IndexInst inst => m.DeleteIndexInstance inst.Defn.DefnId inst.InstId false none
  | _ => some (some unmarshalError, m)

/-- The method `LifecycleMgr.handleTopologyChange(content)`. -/
def LifecycleMgr.handleTopologyChange (m : LifecycleMgr) (content : Content) :
    error × LifecycleMgr :=
  match content with
  | Content.topologyChange change =>
    match m.repo.GetIndexDefnById change.DefnId with
    | (_, some err, r) => (some err, { m with repo := r })
    | (none, none, r) => (none, { m with repo := r })
    | (some defn, none, r) =>
      match LifecycleMgr.FindLocalIndexInst { m with repo := r } change.Bucket change.DefnId
          change.InstId with
      | (_, some err, m1) => (some err, m1)
      | (none, none, m1) => (none, m1)
      | (some inst, none, m1) =>
        match m1.UpdateIndexInstance change.Bucket change.DefnId change.InstId change.State
            change.StreamId change.Error change.BuildTime change.RState change.Partitions
            change.Versions change.InstVersion with
        | (some err, m2) => (some err, m2)
        | (none, m2) =>
          if inst.State = IndexState.INDEX_STATE_CREATED ∧
              change.State = IndexState.INDEX_STATE_READY ∧ inst.Scheduled = true then
            (none, { m2 with builder :=
              { m2.builder with notifych := m2.builder.notifych ++ [defn] } })
          else (none, m2)
  | _ => (some unmarshalError, m)

/-- Modelled from the spec: the error `fdb.FDB_RESULT_KEY_NOT_FOUND` of the storage library,
by which a read reports a missing key. -/
def FDB_RESULT_KEY_NOT_FOUND : GoError := GoError.plain "key not found"

/-- The stream id `common.StreamId(content[0])` of `handleDeleteBucket`, `none` when the
content has no byte.  The first byte of a JSON document is its opening brace, byte 123. -/
def handleDeleteBucket.streamId : Content → Option StreamId
  | Content.empty => none
  | Content.streamIds [] => none
  | Content.streamIds (b :: _) => some b
  | _ => some (StreamId.STREAM 123)

/-- The loop of `handleDeleteBucket` over the instance rows of one definition reference
(lines 1038-1055): the first row that passes the test has the definition deleted and ends
the loop. -/
def handleDeleteBucket.instLoop (streamId : StreamId) (defn : IndexDefn) :
    List IndexInstDistribution → error → LifecycleMgr → error × LifecycleMgr
  | [], result, m => (result, m)
  | instRef :: rest, result, m =>
    if streamId = StreamId.NIL_STREAM ∨
        (instRef.StreamId = streamId ∨ instRef.StreamId = StreamId.NIL_STREAM) then
      match m.DeleteIndex defn.DefnId false none with
      | (some err, m1) => (some err, m1)
      | (none, m1) => (result, m1)
    else handleDeleteBucket.instLoop streamId defn rest result m

/-- The loop of `handleDeleteBucket` over the copied definition references (lines
1034-1059). -/
def handleDeleteBucket.defnLoop (streamId : StreamId) :
    List IndexDefnDistribution → error → LifecycleMgr → error × LifecycleMgr
  | [], result, m => (result, m)
  | defnRef :: rest, result, m =>
    match m.repo.GetIndexDefnById defnRef.DefnId with
    | (some defn, none, r) =>
      match handleDeleteBucket.instLoop streamId defn defnRef.Instances result
          { m with repo := r } with
      | (result1, m1) => handleDeleteBucket.defnLoop streamId rest result1 m1
    | (_, _, r) => handleDeleteBucket.defnLoop streamId rest result { m with repo := r }

/-- The method `LifecycleMgr.handleDeleteBucket(bucket, content)`. -/
def LifecycleMgr.handleDeleteBucket (m : LifecycleMgr) (bucket : String) (content : Content) :
    error × LifecycleMgr :=
  match handleDeleteBucket.streamId content with
  | none => (some (errors.New "invalid argument"), m)
  | some streamId =>
    match m.repo.GetTopologyByBucket bucket with
    | (some topology, none, r) =>
      handleDeleteBucket.defnLoop streamId topology.Definitions none { m with repo := r }
    | (_, err, r) =>
      if err ≠ some FDB_RESULT_KEY_NOT_FOUND then (err, { m with repo := r })
      else (none, { m with repo := r })

/-- The first loop of `handleCleanupDeferIndexFromBucket` (lines 1086-1098): some instance
row of the bucket is not DELETED and has a stream other than NIL. -/
def handleCleanupDeferIndexFromBucket.hasValidActiveIndex (topology : IndexTopology) : Bool :=
  topology.Definitions.any (fun defnRef => defnRef.Instances.any (fun instRef =>
    instRef.State != IndexState.INDEX_STATE_DELETED &&
      instRef.StreamId != StreamId.NIL_STREAM))

/-- The loop of `handleCleanupDeferIndexFromBucket` over the instance rows of one definition
reference (lines 1104-1112): the first row that is not DELETED and has the NIL stream has
the definition deleted and ends the loop. -/
def handleCleanupDeferIndexFromBucket.instLoop (defn : IndexDefn) :
    List IndexInstDistribution → LifecycleMgr → error × LifecycleMgr
  | [], m => (none, m)
  | instRef :: rest, m =>
    if instRef.State ≠ IndexState.INDEX_STATE_DELETED ∧
        instRef.StreamId = StreamId.NIL_STREAM then
      m.DeleteIndex defn.DefnId true (some NewUserRequestContext)
    else handleCleanupDeferIndexFromBucket.instLoop defn rest m

/-- The loop of `handleCleanupDeferIndexFromBucket` over the definition references (lines
1101-1115); it ends at the first `DeleteIndex` that fails.  The references visited are those
of the topology as it was read. -/
def handleCleanupDeferIndexFromBucket.defnLoop (currentUUID : String) :
    List IndexDefnDistribution → LifecycleMgr → error × LifecycleMgr
  | [], m => (none, m)
  | defnRef :: rest, m =>
    match m.repo.GetIndexDefnById defnRef.DefnId with
    | (some defn, none, r) =>
      if defn.BucketUUID ≠ currentUUID ∧ defn.Deferred = true then
        match handleCleanupDeferIndexFromBucket.instLoop defn defnRef.Instances
            { m with repo := r } with
        | (some err, m1) => (some err, m1)
        | (none, m1) => handleCleanupDeferIndexFromBucket.defnLoop currentUUID rest m1
      else handleCleanupDeferIndexFromBucket.defnLoop currentUUID rest { m with repo := r }
    | (_, _, r) =>
      handleCleanupDeferIndexFromBucket.defnLoop currentUUID rest { m with repo := r }

/-- The method `LifecycleMgr.handleCleanupDeferIndexFromBucket(bucket)`. -/
def LifecycleMgr.handleCleanupDeferIndexFromBucket (m : LifecycleMgr) (bucket : String) :
    error × LifecycleMgr :=
  match m.getBucketUUID bucket with
  | (_, some _, m1) => (none, m1)
  | (currentUUID, none, m1) =>
    match m1.repo.GetTopologyByBucket bucket with
    | (some topology, none, r) =>
      if !handleCleanupDeferIndexFromBucket.hasValidActiveIndex topology then
        handleCleanupDeferIndexFromBucket.defnLoop currentUUID topology.Definitions
          { m1 with repo := r }
      else (none, { m1 with repo := r })
    | (_, _, r) => (none, { m1 with repo := r })

/-- Modelled from the spec: `MetadataRepo.BroadcastIndexStats` (declared outside
`lifecycle.go`) publishes the statistics. -/
def MetadataRepo.BroadcastIndexStats (r : MetadataRepo) (stats : List (String × String)) :
    error × MetadataRepo :=
  MetadataRepo.fault { r with writes := r.writes ++ [RepoWrite.BroadcastIndexStats stats] }

/-- The method `LifecycleMgr.handleBroadcastStats(buf)`. -/
def LifecycleMgr.handleBroadcastStats (m : LifecycleMgr) (buf : Content) : LifecycleMgr :=
  match buf with
  | Content.Statistics stats =>
    let filtered := stats.filter (fun kv =>
      strings.Contains kv.1 "num_docs_pending" || strings.Contains kv.1 "num_docs_queued" ||
      strings.Contains kv.1 "last_rollback_time" || strings.Contains kv.1 "progress_stat_time")
    { m with repo := (m.repo.BroadcastIndexStats filtered).2 }
  | _ => m

/-- Modelled from the spec: `MetadataRepo.UpdateIndex` (declared outside `lifecycle.go`)
overwrites the definition record of the DefnId. -/
def MetadataRepo.UpdateIndex (r : MetadataRepo) (defn : IndexDefn) : error × MetadataRepo :=
  let r0 := { r with writes := r.writes ++ [RepoWrite.UpdateIndex defn] }
  match r0.fault with
  | (some err, r1) => (some err, r1)
  | (none, r1) =>
    let defns : List IndexDefn :=
      if r1.defns.any (fun d => d.DefnId == defn.DefnId) then
        r1.defns.map (fun d => if d.DefnId = defn.DefnId then defn else d)
      else r1.defns ++ [defn]
    (none, { r1 with defns := defns })

/-- The updates of `handleResetIndex` on the topology (lines 1208-1219); `inst` is the
instance of the request. -/
def handleResetIndex.apply (topology : IndexTopology) (inst : IndexInst)
    (oldStorageMode : String) : IndexTopology :=
  let defn := inst.Defn
  let t1 : IndexTopology :=
    if inst.State = IndexState.INDEX_STATE_INITIAL ∨
        inst.State = IndexState.INDEX_STATE_CATCHUP ∨
        inst.State = IndexState.INDEX_STATE_ACTIVE then
      (topology.UpdateScheduledFlagForIndexInst defn.DefnId inst.InstId true).2
    else topology
  let t2 := (t1.UpdateOldStorageModeForIndexInst defn.DefnId inst.InstId oldStorageMode).2
  let t3 := (t2.UpdateStorageModeForIndexInst defn.DefnId inst.InstId defn.Using).2
  let t4 := (t3.UpdateStateForIndexInst defn.DefnId inst.InstId IndexState.INDEX_STATE_READY).2
  let t5 := (t4.SetErrorForIndexInst defn.DefnId inst.InstId "").2
  (t5.UpdateStreamForIndexInst defn.DefnId inst.InstId StreamId.NIL_STREAM).2

/-- The method `LifecycleMgr.handleResetIndex(content)`; the result is `none` when the call
panics (the topology read at line 1191 is used without a nil check). -/
def LifecycleMgr.handleResetIndex (m : LifecycleMgr) (content : Content) :
    Option (error × LifecycleMgr) :=
  match content with
  | Content.IndexInst inst =>
    let defn := inst.Defn
    match m.repo.GetIndexDefnById defn.DefnId with
    | (_, some err, r) => some (some err, { m with repo := r })
    | (oldDefn, none, r) =>
      let oldStorageMode : String :=
        match oldDefn with
        | some d => d.Using
        | none => ""
      match r.UpdateIndex defn with
      | (some err, r1) => some (some err, { m with repo := r1 })
      | (none, r1) =>
        match r1.GetTopologyByBucket defn.Bucket with
        | (_, some err, r2) => some (some err, { m with repo := r2 })
        | (topology, none, r2) =>
          match LifecycleMgr.FindLocalIndexInst { m with repo := r2 } defn.Bucket defn.DefnId
              inst.InstId with
          | (_, some err, m3) => some (some err, m3)
          | (none, none, m3) => some (none, m3)
          | (some _, none, m3) =>
            match topology with
            | none => none
            | some topology =>
              match m3.repo.SetTopologyByBucket defn.Bucket
                  (handleResetIndex.apply topology inst oldStorageMode) with
              | (some err, r4) => some (some err, { m3 with repo := r4 })
              | (none, r4) => some (none, { m3 with repo := r4 })
  | _ => some (some unmarshalError, m)

/-- The method `builder.configUpdate(config)`. -/
def builder.configUpdate (s : builder) (config : Config) : builder :=
  { s with batchSize := wrapInt32 config.batch_size,
           disable := if config.background_disable then 1 else 0 }

/-- The method `LifecycleMgr.handleConfigUpdate(content)`. -/
def LifecycleMgr.handleConfigUpdate (m : LifecycleMgr) (content : Content) :
    error × LifecycleMgr :=
  match content with
  | Content.Config config => (none, { m with builder := m.builder.configUpdate config })
  | _ => (some unmarshalError, m)

/-! ## Prune and merge of partitions -/

/-- The method `LifecycleMgr.findNumProxy(bucket, defnId, instId)`. -/
def LifecycleMgr.findNumProxy (m : LifecycleMgr) (bucket : String) (defnId instId : Nat) :
    Int × error × LifecycleMgr :=
  match m.FindAllLocalIndexInst bucket defnId with
  | (_, some err, m1) => (-1, some err, m1)
  | (insts, none, m1) =>
    (((insts.filter (fun inst => inst.RealInstId == instId)).length : Int), none, m1)

/-- The loop of lines 1644-1651: the requested partitions that the instance holds, in the
order of the request. -/
def PruneIndexInstance.newPartitions (partitions : List Nat) (inst : IndexInstDistribution) :
    List Nat :=
  partitions.filter (fun partitionId =>
    inst.Partitions.any (fun partition => partition.PartId == partitionId))

/-- Modelled from the spec: `MetadataRepo.splitPartitionFromTopology` (declared outside
`lifecycle.go`) splits the named partitions out of the source instance into a new proxy
instance, in one write of the topology of the bucket. -/
def MetadataRepo.splitPartitionFromTopology (r : MetadataRepo) (bucket : String)
    (defnId instId proxyInstId : Nat) (partitions : List Nat) : error × MetadataRepo :=
  let r0 := { r with writes := r.writes ++
    [RepoWrite.splitPartitionFromTopology bucket defnId instId proxyInstId partitions] }
  match r0.fault with
  | (some err, r1) => (some err, r1)
  | (none, r1) =>
    let split (d : IndexDefnDistribution) : IndexDefnDistribution :=
      match d.Instances.find? (fun i => i.InstId == instId) with
      | none => d
      | some src =>
        let proxy : IndexInstDistribution :=
          { src with InstId := proxyInstId, RealInstId := instId,
                     Partitions := src.Partitions.filter (fun p => p.PartId ∈ partitions) }
        { d with Instances :=
            d.Instances.map (fun i =>
              if i.InstId = instId then
                { i with Partitions := i.Partitions.filter (fun p => !(p.PartId ∈ partitions)) }
              else i) ++ [proxy] }
    let topologies : List IndexTopology := r1.topologies.map (fun t =>
      if t.Bucket = bucket then
        { t with Definitions := t.Definitions.map (fun d =>
            if d.DefnId = defnId then split d else d) }
      else t)
    (none, { r1 with topologies := topologies })

/-- The callback `OnPartitionPrune(instId, partitions, reqCtx)`. -/
def MetadataNotifier.OnPartitionPrune (n : MetadataNotifier) (instId : Nat)
    (partitions : List Nat) (reqCtx : Option MetadataRequestContext) :
    error × MetadataNotifier :=
  n.reply (NotifierCall.OnPartitionPrune instId partitions reqCtx)

/-- The method `LifecycleMgr.PruneIndexInstance(id, instId, partitions, cleanup, reqCtx)`;
the result is `none` when the call panics (line 1676 calls the notifier without a nil
check). -/
def LifecycleMgr.PruneIndexInstance (m : LifecycleMgr) (id instId : Nat)
    (partitions : List Nat) (cleanup : Bool) (reqCtx : Option MetadataRequestContext) :
    Option (error × LifecycleMgr) :=
  match m.repo.GetIndexDefnById id with
  | (_, some err, r) => some (some err, { m with repo := r })
  | (none, none, r) => some (none, { m with repo := r })
  | (some defn, none, r) =>
    match LifecycleMgr.FindLocalIndexInst { m with repo := r } defn.Bucket id instId with
    | (_, some err, m1) => some (some err, m1)
    | (none, none, m1) => some (none, m1)
    | (some inst, none, m1) =>
      let newPartitions := PruneIndexInstance.newPartitions partitions inst
      match m1.findNumProxy defn.Bucket id instId with
      | (_, some err, m2) => some (some err, m2)
      | (numProxy, none, m2) =>
        if numProxy = 0 ∧ (newPartitions.length = inst.Partitions.length ∨
            inst.Partitions.length = 0) then
          m2.DeleteIndexInstance id instId cleanup reqCtx
        else
          match m2.env.NewIndexInstId with
          | ((_, some err), env) => some (some err, { m2 with env := env })
          | ((proxyInstId, none), env) =>
            match m2.repo.splitPartitionFromTopology defn.Bucket id instId proxyInstId
                newPartitions with
            | (some err, r3) => some (some err, { m2 with env := env, repo := r3 })
            | (none, r3) =>
              let m3 : LifecycleMgr := { m2 with env := env, repo := r3 }
              if cleanup then
                match m3.notifier with
                | none => none
                | some n =>
                  match n.OnPartitionPrune instId newPartitions reqCtx with
                  | (some err, n1) =>
                    if surfacesDropError err then
                      some (some err, { m3 with notifier := some n1 })
                    else some (none, { m3 with notifier := some n1 })
                  | (none, n1) => some (none, { m3 with notifier := some n1 })
              else some (none, m3)

/-- The method `LifecycleMgr.DeleteOrPruneIndexInstance(defn, cleanup, reqCtx)`; the result
is `none` when the call panics. -/
def LifecycleMgr.DeleteOrPruneIndexInstance (m : LifecycleMgr) (defn : IndexDefn)
    (cleanup : Bool) (reqCtx : Option MetadataRequestContext) :
    Option (error × LifecycleMgr) :=
  let id := defn.DefnId
  let finish (instId : Nat) (m2 : LifecycleMgr) : Option (error × LifecycleMgr) :=
    if defn.Partitions.length = 0 then m2.DeleteIndexInstance id instId cleanup reqCtx
    else m2.PruneIndexInstance id instId defn.Partitions cleanup reqCtx
  match m.FindLocalIndexInst defn.Bucket id defn.InstId with
  | (_, some err, m1) => some (some err, m1)
  | (some _, none, m1) => finish defn.InstId m1
  | (none, none, m1) =>
    match m1.FindLocalIndexInst defn.Bucket id defn.RealInstId with
    | (_, some err, m2) => some (some err, m2)
    | (none, none, m2) => some (none, m2)
    | (some inst, none, m2) => finish inst.InstId m2

/-- The method `LifecycleMgr.handleDeleteOrPruneIndexInstance(content, reqCtx)`; the result
is `none` when the call panics. -/
def LifecycleMgr.handleDeleteOrPruneIndexInstance (m : LifecycleMgr) (content : Content)
    (reqCtx : MetadataRequestContext) : Option (error × LifecycleMgr) :=
  match content with
  | Content.dropInstance defn cleanup => m.DeleteOrPruneIndexInstance defn cleanup (some reqCtx)
  | _ => some (some unmarshalError, m)

/-- Modelled from the spec: `MetadataRepo.mergePartitionFromTopology` (declared outside
`lifecycle.go`), within one write of the topology of the bucket, moves the target
partitions with the supplied versions from the source instance to the target instance, sets
the rebalance state of the source and the instance version of the target.  Its outcome is
not read by the caller. -/
def MetadataRepo.mergePartitionFromTopology (r : MetadataRepo) (_indexerId bucket : String)
    (defnId srcInstId : Nat) (srcRState : RebalanceState) (tgtInstId tgtInstVersion : Nat)
    (tgtPartitions : List Nat) (tgtVersions : List Int) : MetadataRepo :=
  let r0 := { r with writes := r.writes ++
    [RepoWrite.mergePartitionFromTopology bucket defnId srcInstId tgtInstId] }
  match r0.fault with
  | (some _, r1) => r1
  | (none, r1) =>
    let src (i : IndexInstDistribution) : IndexInstDistribution :=
      if i.InstId = srcInstId then
        { i with RState := srcRState,
                 Partitions := i.Partitions.filter (fun p => !(p.PartId ∈ tgtPartitions)) }
      else i
    let tgt (i : IndexInstDistribution) : IndexInstDistribution :=
      if i.InstId = tgtInstId then
        { i with Version := tgtInstVersion,
                 Partitions := i.Partitions ++ partitionEntries tgtPartitions tgtVersions }
      else i
    let topologies : List IndexTopology := r1.topologies.map (fun t =>
      if t.Bucket = bucket then
        { t with Definitions := t.Definitions.map (fun d =>
            if d.DefnId = defnId then { d with Instances := d.Instances.map (fun i => tgt (src i)) }
            else d) }
      else t)
    { r1 with topologies := topologies }

/-- The method `LifecycleMgr.MergePartition`. -/
def LifecycleMgr.MergePartition (m : LifecycleMgr) (id srcInstId : Nat)
    (srcRState : RebalanceState) (tgtInstId : Nat) (tgtPartitions : List Nat)
    (tgtVersions : List Int) (tgtInstVersion : Nat) (_reqCtx : Option MetadataRequestContext) :
    error × LifecycleMgr :=
  match m.repo.GetIndexDefnById id with
  | (_, some err, r) => (some err, { m with repo := r })
  | (none, none, r) => (none, { m with repo := r })
  | (some defn, none, r) =>
    match r.GetLocalIndexerId m.env with
    | (_, some err, r1) => (some err, { m with repo := r1 })
    | (indexerId, none, r1) =>
      let r2 := r1.mergePartitionFromTopology indexerId defn.Bucket id srcInstId srcRState
        tgtInstId tgtInstVersion tgtPartitions tgtVersions
      (none, { m with repo := r2 })

/-- The method `LifecycleMgr.handleMergePartition(content, reqCtx)`. -/
def LifecycleMgr.handleMergePartition (m : LifecycleMgr) (content : Content)
    (reqCtx : MetadataRequestContext) : error × LifecycleMgr :=
  match content with
  | Content.mergePartition change =>
    m.MergePartition change.DefnId change.SrcInstId change.SrcRState change.TgtInstId
      change.TgtPartitions change.TgtVersions change.TgtInstVersion (some reqCtx)
  | _ => (some unmarshalError, m)

/-! ## Service map -/

/-- Take the outcome of the next call to the cluster information cache, or of the next
`client.MarshallServiceMap` call, from the script. -/
def Env.cinfo (env : Env) : error × Env :=
  match env.cinfoErrs with
  | [] => (none, env)
  | e :: rest => (e, { env with cinfoErrs := rest })

/-- The five reads of the cluster information cache in `getServiceMap` after its `Fetch`
(lines 1946-1969): the first failure ends them. -/
def getServiceMap.reads : Nat → Env → error × Env
  | 0, env => (none, env)
  | n + 1, env =>
    match env.cinfo with
    | (some err, env1) => (some err, env1)
    | (none, env1) => getServiceMap.reads n env1

/-- The method `LifecycleMgr.getServiceMap()`.  The reads of the cluster information cache
are taken together after the read of the indexer id; `GetLocalNodeUUID` is a repository
read. -/
def LifecycleMgr.getServiceMap (m : LifecycleMgr) : Option ServiceMap × error × LifecycleMgr :=
  match m.env.cinfo with
  | (some err, env) => (none, some err, { m with env := env })
  | (none, env) =>
    match m.repo.GetLocalIndexerId env with
    | (_, some err, r) => (none, some err, { m with env := env, repo := r })
    | (id, none, r) =>
      match getServiceMap.reads 5 env with
      | (some err, env1) => (none, some err, { m with env := env1, repo := r })
      | (none, env1) =>
        match r.fault with
        | (some err, r1) => (none, some err, { m with env := env1, repo := r1 })
        | (none, r1) =>
          (some { env1.localNode with IndexerId := id }, none, { m with env := env1, repo := r1 })

/-- The method `LifecycleMgr.handleServiceMap(content)`: the service map that the result
bytes encode, and the error. -/
def LifecycleMgr.handleServiceMap (m : LifecycleMgr) (_content : Content) :
    Option ServiceMap × error × LifecycleMgr :=
  match m.getServiceMap with
  | (_, some err, m1) => (none, some err, m1)
  | (srvMap, none, m1) =>
    match m1.env.cinfo with
    | (some err, env) => (none, some err, { m1 with env := env })
    | (none, env) =>
      match m1.notifier with
      | some n =>
        let n1 : MetadataNotifier := { n with calls := n.calls ++ [NotifierCall.OnFetchStats] }
        (srvMap, none, { m1 with env := env, notifier := some n1 })
      | none => (srvMap, none, { m1 with env := env })

/-! ## The dispatcher -/

/-- The struct `requestHolder`: the request (request id, opcode, key and content) and the
correlation id `fid` of its sender. -/
structure requestHolder where
  reqId : Nat
  op : OpCode
  key : String
  content : Content
  fid : String
  deriving DecidableEq, Repr

/-- The packet `factory.CreateResponse(fid, reqId, err, result)`; `result` is the service
map that the result bytes encode, `none` for nil bytes. -/
structure Response where
  fid : String
  reqId : Nat
  err : String
  result : Option ServiceMap
  deriving DecidableEq, Repr

/-- The `switch` of `dispatchRequest` (lines 269-304): the values of the variables `result`
and `err` after it; the result is `none` when the handler panics. -/
def LifecycleMgr.dispatchSwitch (m : LifecycleMgr) (request : requestHolder) :
    Option (Option ServiceMap × error × LifecycleMgr) :=
  let key := request.key
  let content := request.content
  let assigned (x : Option (error × LifecycleMgr)) :
      Option (Option ServiceMap × error × LifecycleMgr) :=
    x.map (fun p => (none, p.1, p.2))
  let dropped (x : Option (error × LifecycleMgr)) :
      Option (Option ServiceMap × error × LifecycleMgr) :=
    x.map (fun p => (none, none, p.2))
  match request.op with
  | OpCode.OPCODE_CREATE_INDEX =>
    assigned (m.handleCreateIndexScheduledBuild key content NewUserRequestContext)
  | OpCode.OPCODE_UPDATE_INDEX_INST => assigned (some (m.handleTopologyChange content))
  | OpCode.OPCODE_DROP_INDEX => assigned (some (m.handleDeleteIndex key NewUserRequestContext))
  | OpCode.OPCODE_BUILD_INDEX =>
    assigned (m.handleBuildIndexes content NewUserRequestContext true)
  | OpCode.OPCODE_SERVICE_MAP => some (m.handleServiceMap content)
  | OpCode.OPCODE_DELETE_BUCKET => assigned (some (m.handleDeleteBucket key content))
  | OpCode.OPCODE_CLEANUP_INDEX => assigned (m.handleCleanupIndexMetadata content)
  | OpCode.OPCODE_CLEANUP_DEFER_INDEX =>
    assigned (some (m.handleCleanupDeferIndexFromBucket key))
  | OpCode.OPCODE_CREATE_INDEX_REBAL =>
    assigned (m.handleCreateIndexScheduledBuild key content NewRebalanceRequestContext)
  | OpCode.OPCODE_BUILD_INDEX_REBAL =>
    assigned (m.handleBuildIndexes content NewRebalanceRequestContext false)
  | OpCode.OPCODE_DROP_INDEX_REBAL =>
    assigned (some (m.handleDeleteIndex key NewRebalanceRequestContext))
  | OpCode.OPCODE_BUILD_INDEX_RETRY =>
    assigned (m.handleBuildIndexes content NewUserRequestContext true)
  | OpCode.OPCODE_BROADCAST_STATS => some (none, none, m.handleBroadcastStats content)
  | OpCode.OPCODE_RESET_INDEX => dropped (m.handleResetIndex content)
  | OpCode.OPCODE_CONFIG_UPDATE => dropped (some (m.handleConfigUpdate content))
  | OpCode.OPCODE_DROP_OR_PRUNE_INSTANCE =>
    dropped (m.handleDeleteOrPruneIndexInstance content NewRebalanceRequestContext)
  | OpCode.OPCODE_MERGE_PARTITION =>
    dropped (some (m.handleMergePartition content NewRebalanceRequestContext))
  | OpCode.OPCODE_INDEXER_READY => some (none, none, m)
  | OpCode.OPCODE_OTHER _ => some (none, none, m)

/-- The phase of the task `processRequest`: in its first loop (bootstrap), in its second loop
(regular), or returned. -/
inductive Phase where
  | bootstrap
  | regular
  | stopped
  deriving DecidableEq, Repr

/-- The dispatcher: the manager state used by the handlers, the flag `indexerReady`, the
channels `bootstraps` (with its closed flag), `incomings` and `outgoings` as queues, the
closed flag of `killch`, the phase of `processRequest`, the requests handed to tasks started
by `OnNewRequest` that have not run yet, whether the background tasks were started, and
whether a panic ended the process.  `received` logs the requests that `OnNewRequest`
accepted and `dispatched` the requests passed to `dispatchRequest`. -/
structure Dispatcher where
  mgr : LifecycleMgr
  indexerReady : Bool
  bootstraps : List requestHolder
  bootstrapsClosed : Bool
  incomings : List requestHolder
  outgoings : List Response
  killed : Bool
  phase : Phase
  spawned : List requestHolder
  background : Bool
  crashed : Bool
  received : List requestHolder
  dispatched : List requestHolder
  deriving DecidableEq, Repr

/-- The dispatcher after `NewLifecycleMgr` and `Run`. -/
def Dispatcher.init (m : LifecycleMgr) : Dispatcher :=
  { mgr := m, indexerReady := false, bootstraps := [], bootstrapsClosed := false,
    incomings := [], outgoings := [], killed := false, phase := Phase.bootstrap, spawned := [],
    background := false, crashed := false, received := [], dispatched := [] }

/-- The method `LifecycleMgr.dispatchRequest(request, factory)`; the result is `none` when
the handler panics. -/
def Dispatcher.dispatchRequest (d : Dispatcher) (request : requestHolder) : Option Dispatcher :=
  match d.mgr.dispatchSwitch request with
  | none => none
  | some (result, err, m1) =>
    if request.fid = "internal" then some { d with mgr := m1 }
    else
      match err with
      | none =>
        some { d with mgr := m1, outgoings := d.outgoings ++
          [{ fid := request.fid, reqId := request.reqId, err := "", result := result }] }
      | some e =>
        some { d with mgr := m1, outgoings := d.outgoings ++
          [{ fid := request.fid, reqId := request.reqId, err := e.Error, result := result }] }

/-- A call of `dispatchRequest`, logged; a panic of the handler ends the process. -/
def Dispatcher.dispatch (d : Dispatcher) (request : requestHolder) : Dispatcher :=
  let d0 : Dispatcher := { d with dispatched := d.dispatched ++ [request] }
  match d0.dispatchRequest request with
  | some d1 => d1
  | none => { d0 with crashed := true }

/-- The capacity of the channels `bootstraps` and `incomings`. -/
def queueCapacity : Nat := 1000

/-- The method `LifecycleMgr.OnNewRequest(fid, request)`.  A send on a full channel blocks the
caller: the call then leaves the dispatcher as it is and is not logged.  Closing the closed
channel `bootstraps` panics. -/
def Dispatcher.OnNewRequest (d : Dispatcher) (req : requestHolder) : Dispatcher :=
  if req.op = OpCode.OPCODE_INDEXER_READY then
    if d.bootstrapsClosed then
      { d with indexerReady := true, background := true, crashed := true,
               received := d.received ++ [req] }
    else
      { d with indexerReady := true, background := true, bootstrapsClosed := true,
               received := d.received ++ [req] }
  else if req.op = OpCode.OPCODE_SERVICE_MAP then
    { d with spawned := d.spawned ++ [req], received := d.received ++ [req] }
  else if d.indexerReady = false ∧
      (req.op = OpCode.OPCODE_UPDATE_INDEX_INST ∨ req.op = OpCode.OPCODE_DELETE_BUCKET ∨
       req.op = OpCode.OPCODE_CLEANUP_INDEX ∨ req.op = OpCode.OPCODE_RESET_INDEX) then
    if d.bootstraps.length < queueCapacity then
      { d with bootstraps := d.bootstraps ++ [req], received := d.received ++ [req] }
    else d
  else if d.incomings.length < queueCapacity then
    { d with incomings := d.incomings ++ [req], received := d.received ++ [req] }
  else d

/-- One turn of a `select` of `processRequest` (lines 219-253) that receives from a request
channel: in the first loop it dispatches the next bootstrap request, or leaves the loop when
the channel is closed and drained; in the second loop it dispatches the next incoming
request.  With nothing to receive the task stays blocked. -/
def Dispatcher.processRequest (d : Dispatcher) : Dispatcher :=
  match d.phase with
  | Phase.bootstrap =>
    match d.bootstraps with
    | request :: rest => Dispatcher.dispatch { d with bootstraps := rest } request
    | [] => if d.bootstrapsClosed then { d with phase := Phase.regular } else d
  | Phase.regular =>
    match d.incomings with
    | request :: rest => Dispatcher.dispatch { d with incomings := rest } request
    | [] => d
  | Phase.stopped => d

/-- The events of the dispatcher: a call of `OnNewRequest`, a call of `Terminate`, a turn of
`processRequest` that receives a request, a turn of `processRequest` that receives the kill
signal, and the run of the task started for the `i`-th waiting SERVICE_MAP request. -/
inductive Event where
  | OnNewRequest (request : requestHolder)
  | Terminate
  | processRequest
  | processKill
  | runSpawned (i : Nat)
  deriving DecidableEq, Repr

/-- One step of the dispatcher.  An event that cannot take place in the state, and every
event after a panic, leaves the state as it is. -/
def Dispatcher.step (d : Dispatcher) (e : Event) : Dispatcher :=
  if d.crashed then d
  else
    match e with
    | Event.OnNewRequest request => d.OnNewRequest request
    | Event.Terminate => { d with killed := true }
    | Event.processRequest => d.processRequest
    | Event.processKill =>
      if d.killed ∧ d.phase ≠ Phase.stopped then { d with phase := Phase.stopped } else d
    | Event.runSpawned i =>
      match d.spawned.get? i with
      | some request => Dispatcher.dispatch { d with spawned := d.spawned.eraseIdx i } request
      | none => d

/-- The state of the dispatcher after the events, in order. -/
def Dispatcher.run (d : Dispatcher) (events : List Event) : Dispatcher :=
  events.foldl Dispatcher.step d

/-! ## The janitor -/

/-- Modelled from the spec: the value of an entry of the coordination store, as the delete
token `{DefnId, …}` that its bytes encode; `mc.UnmarshallDeleteCommandToken` (declared
outside `lifecycle.go`) fails on bytes that encode no token. -/
inductive TokenValue where
  | token (DefnId : Nat)
  | malformed
  deriving DecidableEq, Repr

/-- An entry of the coordination store (`metakv.KVEntry`): its path and its value, nil or
bytes. -/
structure KVEntry where
  Path : String
  Value : Option TokenValue
  deriving DecidableEq, Repr

/-- Modelled from the spec: the path prefix `<delete-tokens-root>/` of the delete tokens
(`mc.DeleteDDLCommandTokenPath`). -/
def DeleteDDLCommandTokenPath : String := "/indexing/ddl/commandToken/delete/"

/-- The asynchronous `MakeAsyncRequest(op, key, content)`: the request is queued at the
request server, which answers the submitter from its script. -/
def RequestServer.MakeAsyncRequest (s : RequestServer) (op : OpCode) (key : String)
    (content : Content) : error × RequestServer :=
  s.MakeRequest op key content

/-- The loop of `janitor.cleanup` over the entries of the delete-token path
(lines 2070-2100); `fmt.Sprintf("%v", command.DefnId)` is the decimal DefnId. -/
def janitor.tokenLoop : List KVEntry → LifecycleMgr → LifecycleMgr
  | [], m => m
  | entry :: rest, m =>
    if strings.Contains entry.Path DeleteDDLCommandTokenPath then
      match entry.Value with
      | none => janitor.tokenLoop rest m
      | some TokenValue.malformed => janitor.tokenLoop rest m
      | some (TokenValue.token DefnId) =>
        match m.repo.GetIndexDefnById DefnId with
        | (_, some _, r) => janitor.tokenLoop rest { m with repo := r }
        | (none, none, r) => janitor.tokenLoop rest { m with repo := r }
        | (some _, none, r) =>
          let rs := (m.requestServer.MakeAsyncRequest OpCode.OPCODE_DROP_INDEX
            (toString DefnId) Content.empty).2
          janitor.tokenLoop rest { m with repo := r, requestServer := rs }
    else janitor.tokenLoop rest m

/-- The loop of `janitor.cleanup` over the instances of one definition (lines 2121-2145).
`json.Marshal` has no failing case on a `dropInstance`, so the request is always
submitted. -/
def janitor.instLoop (defn : IndexDefn) :
    List IndexInstDistribution → RequestServer → RequestServer
  | [], rs => rs
  | inst :: rest, rs =>
    if inst.State = IndexState.INDEX_STATE_DELETED ∧
        inst.RState ≠ RebalanceState.REBAL_PENDING_DELETE ∧
        inst.RState ≠ RebalanceState.REBAL_MERGED then
      let idxDefn : IndexDefn := { defn with InstId := inst.InstId, Partitions := [] }
      janitor.instLoop defn rest
        (rs.MakeAsyncRequest OpCode.OPCODE_DROP_OR_PRUNE_INSTANCE (toString idxDefn.DefnId)
          (Content.dropInstance idxDefn true)).2
    else janitor.instLoop defn rest rs

/-- The loop of `janitor.cleanup` over the records of the iterator (lines 2113-2146).  Every
`metaIter.Next()` takes its outcome from the script; the loop ends when `Next` fails or no
record is left. -/
def janitor.defnLoop : List IndexDefn → LifecycleMgr → LifecycleMgr
  | [], m => { m with repo := (m.repo.fault).2 }
  | defn :: rest, m =>
    match m.repo.fault with
    | (some _, r) => { m with repo := r }
    | (none, r) =>
      match LifecycleMgr.FindAllLocalIndexInst { m with repo := r } defn.Bucket defn.DefnId with
      | (_, some _, m1) => janitor.defnLoop rest m1
      | (insts, none, m1) =>
        janitor.defnLoop rest
          { m1 with requestServer := janitor.instLoop defn insts m1.requestServer }

/-- The status-driven pass of `janitor.cleanup` (lines 2102-2146). -/
def janitor.statusPass (m : LifecycleMgr) : LifecycleMgr :=
  match m.repo.NewIterator with
  | (_, some _, r) => { m with repo := r }
  | (metaIter, none, r) => janitor.defnLoop metaIter { m with repo := r }

/-- The method `janitor.cleanup()`.  `listing` is the result of
`metakv.ListAllChildren(mc.DeleteDDLCommandTokenPath)`, the read of the coordination
store. -/
def janitor.cleanup (m : LifecycleMgr) (listing : List KVEntry × error) : LifecycleMgr :=
  match listing with
  | (_, some _) => m
  | (entries, none) => janitor.statusPass (janitor.tokenLoop entries m)
/-- The topology `t` in which the rows of definition `defnId` whose id is listed in `ids` are
in state DELETED; every other field and row is as in `t`. -/
def IndexTopology.withDeleted (t : IndexTopology) (defnId : Nat) (ids : List Nat) :
    IndexTopology :=
  { t with Definitions := t.Definitions.map (fun d =>
      if d.DefnId = defnId then
        { d with Instances := d.Instances.map (fun i =>
            if i.InstId ∈ ids then { i with State := IndexState.INDEX_STATE_DELETED } else i) }
      else d) }

/-- The blobs of the repository after every instance row listed for definition `defnId` in
the blob of `bucket` has been marked DELETED. -/
def MetadataRepo.markedDeleted (r : MetadataRepo) (bucket : String) (defnId : Nat) :
    List IndexTopology :=
  match r.topologies.find? (fun t => t.Bucket == bucket) with
  | none => r.topologies
  | some t =>
    putTopology bucket
      (t.withDeleted defnId ((t.GetIndexInstancesByDefn defnId).map (fun i => i.InstId)))
      r.topologies

/-- The instance rows listed for definition `defnId` in the stored blob of `bucket`. -/
def MetadataRepo.rows (r : MetadataRepo) (bucket : String) (defnId : Nat) :
    List IndexInstDistribution :=
  match r.topologies.find? (fun t => t.Bucket == bucket) with
  | none => []
  | some t => t.GetIndexInstancesByDefn defnId

/-- An error of `OnIndexDelete` that the drop path takes as success: its text contains
"Unknown Index Instance", and it is either not a typed indexer error or a typed indexer
error with code IndexNotExist. -/
def acceptedDropError (err : GoError) : Prop :=
  strings.Contains err.Error "Unknown Index Instance" = true ∧
    ∀ e, err.asIndexerError = some e → e.Code = IndexerErrCode.IndexNotExist

/-- The classification of drop errors as the specification words it: an indexer error with
code IndexNotExist, or an error whose message contains "Unknown Index Instance". -/
def specAcceptedDropError (err : GoError) : Prop :=
  (∃ e, err.asIndexerError = some e ∧ e.Code = IndexerErrCode.IndexNotExist) ∨
    strings.Contains err.Error "Unknown Index Instance" = true

/-- The retry rule as the specification words it: the instance exists with rebalance state
ACTIVE, and the error is a typed indexer error whose code is none of IndexNotExist,
InvalidBucket, IndexAlreadyExist, IndexInvalidState, and it is not the case that retry is not
allowed and the code is RebalanceInProgress. -/
def specCanRetryError (inst : Option IndexInstDistribution) (err : GoError) (retry : Bool) :
    Prop :=
  (∃ i, inst = some i ∧ i.RState = RebalanceState.REBAL_ACTIVE) ∧
    ∃ e, err.asIndexerError = some e ∧
      e.Code ≠ IndexerErrCode.IndexNotExist ∧ e.Code ≠ IndexerErrCode.InvalidBucket ∧
      e.Code ≠ IndexerErrCode.IndexAlreadyExist ∧ e.Code ≠ IndexerErrCode.IndexInvalidState ∧
      ¬ (retry = false ∧ e.Code = IndexerErrCode.RebalanceInProgress)

/-- The instance rows recorded for the definition that has the given bucket and name: the
rows that `verifyDuplicateDefn` and `verifyOverlapPartition` scan. -/
def MetadataRepo.rowsByName (r : MetadataRepo) (bucket name : String) :
    List IndexInstDistribution :=
  match r.defns.find? (fun d => d.Bucket == bucket && d.Name == name) with
  | none => []
  | some existDefn =>
    match r.topologies.find? (fun t => t.Bucket == existDefn.Bucket) with
    | none => []
    | some topology => topology.GetIndexInstancesByDefn existDefn.DefnId

/-- The existing instance `inst` overlaps the requested partition `partnId` with requested
version `version`: it is the real instance or a proxy of it, it is not DELETED, and one of
its partitions has the PartId `partnId` while the rebalance state of the instance is ACTIVE
or MERGED or the stored version of that partition is at least `version`. -/
def overlapsInst (defn : IndexDefn) (partnId : Nat) (version : Int)
    (inst : IndexInstDistribution) : Prop :=
  (inst.InstId = defn.RealInstId ∨ inst.RealInstId = defn.RealInstId) ∧
    ∃ partn ∈ inst.Partitions, partn.PartId = partnId ∧
      inst.State ≠ IndexState.INDEX_STATE_DELETED ∧
      (inst.RState = RebalanceState.REBAL_ACTIVE ∨ inst.RState = RebalanceState.REBAL_MERGED ∨
        partn.Version ≥ version)

/-- The overlap condition of the specification: some requested partition, the `i`-th, with
the `i`-th requested version, is overlapped by an existing instance. -/
def overlapsExisting (defn : IndexDefn) (insts : List IndexInstDistribution) : Prop :=
  ∃ i partnId version,
    defn.Partitions.get? i = some partnId ∧ defn.Versions.get? i = some version ∧
    ∃ inst ∈ insts, overlapsInst defn partnId version inst

/-- The number of instance rows of the repository that are in INITIAL or CATCHUP. -/
def MetadataRepo.inFlight (r : MetadataRepo) : Nat :=
  ((r.topologies.map (fun t => (t.Definitions.map (fun d =>
    (d.Instances.filter (fun inst =>
      inst.State == IndexState.INDEX_STATE_INITIAL ||
      inst.State == IndexState.INDEX_STATE_CATCHUP)).length)).sum)).sum)

/-- The DefnIds submitted in the BUILD_INDEX_RETRY requests of the list. -/
def submittedDefnIds : List Request → List Nat
  | [] => []
  | req :: rest =>
    match req.op, req.content with
    | OpCode.OPCODE_BUILD_INDEX_RETRY, Content.IndexIdList ids => ids ++ submittedDefnIds rest
    | _, _ => submittedDefnIds rest


/-- The values of one field in the instance rows of the topology, row by row. -/
def IndexTopology.column {α : Type} (t : IndexTopology) (f : IndexInstDistribution → α) :
    List (List α) :=
  t.Definitions.map (fun d => d.Instances.map f)

/-- Some field update that `UpdateIndexInstance` applies for the given arguments reports a
change on the stored topology `t`: the rebalance state, the state, the scheduled flag, the
stream, the error string, the storage mode, the added partitions or the instance version. -/
def UpdateIndexInstance.reportsChange (t : IndexTopology) (defn : IndexDefn)
    (indexerId : String) (defnId instId : Nat) (state : IndexState) (streamId : StreamId)
    (errStr : String) (rState : RebalanceState) (partitions : List Nat) (versions : List Int)
    (version : Int) : Bool :=
  (rState != RebalanceState.REBAL_NIL &&
    (t.UpdateRebalanceStateForIndexInst defnId instId rState).1) ||
  (state != IndexState.INDEX_STATE_NIL &&
    (t.UpdateStateForIndexInst defnId instId state).1) ||
  ((state == IndexState.INDEX_STATE_INITIAL || state == IndexState.INDEX_STATE_CATCHUP ||
      state == IndexState.INDEX_STATE_ACTIVE || state == IndexState.INDEX_STATE_DELETED) &&
    (t.UpdateScheduledFlagForIndexInst defnId instId false).1) ||
  (streamId != StreamId.NIL_STREAM && (t.UpdateStreamForIndexInst defnId instId streamId).1) ||
  (t.SetErrorForIndexInst defnId instId errStr).1 ||
  (t.UpdateStorageModeForIndexInst defnId instId defn.Using).1 ||
  (partitions.length != 0 &&
    (t.AddPartitionsForIndexInst defnId instId indexerId partitions versions).1) ||
  (version != -1 && (t.UpdateVersionForIndexInst defnId instId (toUint64 version)).1)

/-- Row by row, `t2` holds the same instances as `t1`, and every instance that is DELETED in
`t1` is DELETED in `t2`. -/
def IndexTopology.keepsDeleted (t1 t2 : IndexTopology) : Prop :=
  t2.Bucket = t1.Bucket ∧
  List.Forall₂ (fun d1 d2 =>
    d2.DefnId = d1.DefnId ∧
    List.Forall₂ (fun i1 i2 =>
      i2.InstId = i1.InstId ∧
      (i1.State = IndexState.INDEX_STATE_DELETED → i2.State = IndexState.INDEX_STATE_DELETED))
      d1.Instances d2.Instances)
    t1.Definitions t2.Definitions

/-- Bucket by bucket, the repository `r2` holds the same instances as `r1`, and every
instance that is DELETED in `r1` is DELETED in `r2`. -/
def MetadataRepo.keepsDeleted (r1 r2 : MetadataRepo) : Prop :=
  List.Forall₂ IndexTopology.keepsDeleted r1.topologies r2.topologies

/-- The definitions that `handleCleanupDeferIndexFromBucket` deletes when no instance of the
bucket is active: the references, in the order of the topology, whose definition record
resolves, is deferred, carries a bucket UUID other than the current one, and that have an
instance row that is not DELETED and is on the NIL stream. -/
def cleanupDeferTargets (defns : List IndexDefn) (currentUUID : String)
    (refs : List IndexDefnDistribution) : List Nat :=
  (refs.filter (fun defnRef =>
    match defns.find? (fun d => d.DefnId == defnRef.DefnId) with
    | some defn =>
      decide (defn.BucketUUID ≠ currentUUID) && defn.Deferred &&
        defnRef.Instances.any (fun instRef =>
          instRef.State != IndexState.INDEX_STATE_DELETED &&
            instRef.StreamId == StreamId.NIL_STREAM)
    | none => false)).map (fun defnRef => defnRef.DefnId)

/-- Issue `DeleteIndex(id, notify = true)` with a user request context for the listed ids,
in order, up to the first call that fails; the error of that call is returned. -/
def deleteEach : List Nat → LifecycleMgr → error × LifecycleMgr
  | [], m => (none, m)
  | id :: rest, m =>
    match m.DeleteIndex id true (some NewUserRequestContext) with
    | (some err, m1) => (some err, m1)
    | (none, m1) => deleteEach rest m1

/-- The opcodes that the bootstrap phase lets through: the four opcodes of the bootstrap
queue and SERVICE_MAP. -/
def bootstrapWhitelist : List OpCode :=
  [OpCode.OPCODE_UPDATE_INDEX_INST, OpCode.OPCODE_DELETE_BUCKET, OpCode.OPCODE_CLEANUP_INDEX,
   OpCode.OPCODE_RESET_INDEX, OpCode.OPCODE_SERVICE_MAP]

/-- The invariant of the bootstrap phase: while `indexerReady` is false the channel
`bootstraps` is open, `processRequest` is not in its second loop, every dispatched request
has a whitelisted opcode, the bootstrap queue holds only the four bootstrap opcodes, the
waiting tasks hold only SERVICE_MAP requests, and the queue `incomings` holds exactly the
accepted requests with an opcode outside the whitelist, in order of arrival. -/
def Dispatcher.bootstrapInv (d : Dispatcher) : Prop :=
  d.indexerReady = false →
    d.bootstrapsClosed = false ∧ d.phase ≠ Phase.regular ∧
    (∀ r ∈ d.dispatched, r.op ∈ bootstrapWhitelist) ∧
    (∀ r ∈ d.bootstraps, r.op ∈ bootstrapWhitelist) ∧
    (∀ r ∈ d.spawned, r.op ∈ bootstrapWhitelist) ∧
    d.incomings = d.received.filter (fun r => decide (r.op ∉ bootstrapWhitelist))

/-- The requests that the `OnNewRequest` events of the list bring, in their order. -/
def arrivals : List Event → List requestHolder
  | [] => []
  | Event.OnNewRequest request :: rest => request :: arrivals rest
  | Event.Terminate :: rest => arrivals rest
  | Event.processRequest :: rest => arrivals rest
  | Event.processKill :: rest => arrivals rest
  | Event.runSpawned _ :: rest => arrivals rest

/-- The instance row that a reset leaves, as the specification words it, with the state that
decides on the scheduled flag given as `current`: state READY, stream NIL, no error, the old
and the new storage mode, and the scheduled flag set when `current` is INITIAL, CATCHUP or
ACTIVE and left as it was otherwise. -/
def resetRow (current : IndexState) (oldStorageMode newStorageMode : String)
    (row : IndexInstDistribution) : IndexInstDistribution :=
  { row with
      State := IndexState.INDEX_STATE_READY, StreamId := StreamId.NIL_STREAM, Error := "",
      OldStorageMode := oldStorageMode, StorageMode := newStorageMode,
      Scheduled :=
        if current = IndexState.INDEX_STATE_INITIAL ∨ current = IndexState.INDEX_STATE_CATCHUP ∨
            current = IndexState.INDEX_STATE_ACTIVE then true
        else row.Scheduled }

/-- The storage kind of the definition record of `defnId`, the empty string when the
repository has no such record. -/
def MetadataRepo.storageKind (r : MetadataRepo) (defnId : Nat) : String :=
  match r.defns.find? (fun d => d.DefnId == defnId) with
  | some d => d.Using
  | none => ""

/-- The topology without the rows of instance `instId` of definition `defnId`; every other
row, and every definition reference, is as in `t`. -/
def IndexTopology.withoutInst (t : IndexTopology) (defnId instId : Nat) : IndexTopology :=
  { t with Definitions := t.Definitions.map (fun d =>
      if d.DefnId = defnId then
        { d with Instances := d.Instances.filter (fun i => i.InstId != instId) }
      else d) }

/-- The blobs of the repository after the rows of instance `instId` of definition `defnId`
have been removed from the topology of `bucket`. -/
def MetadataRepo.withoutInst (r : MetadataRepo) (bucket : String) (defnId instId : Nat) :
    List IndexTopology :=
  r.topologies.map (fun t => if t.Bucket = bucket then t.withoutInst defnId instId else t)

/-- Every definition on the bucket that has an instance in a state other than DELETED
carries the bucket UUID `uuid`: for every reference of the topology of the bucket with such
an instance row, the definition record of the reference, if there is one, has
`BucketUUID = uuid`. -/
def MetadataRepo.liveDefnsCarry (r : MetadataRepo) (bucket uuid : String) : Prop :=
  ∀ topology, r.topologies.find? (fun t => t.Bucket == bucket) = some topology →
    ∀ defnRef ∈ topology.Definitions,
      (∃ inst ∈ defnRef.Instances, inst.State ≠ IndexState.INDEX_STATE_DELETED) →
      ∀ defn, r.defns.find? (fun d => d.DefnId == defnRef.DefnId) = some defn →
        defn.BucketUUID = uuid

/-- The references of the topology have distinct DefnIds, and the instance rows of each
reference have distinct InstIds. -/
def IndexTopology.distinctIds (t : IndexTopology) : Prop :=
  (t.Definitions.map (fun d => d.DefnId)).Nodup ∧
    ∀ d ∈ t.Definitions, (d.Instances.map (fun i => i.InstId)).Nodup

instance (t : IndexTopology) : Decidable t.distinctIds := by
  unfold IndexTopology.distinctIds
  infer_instance

/-- The step of the decimal reader of `indexDefnId`. -/
def readDigit (acc : Option Nat) (c : Char) : Option Nat :=
  match acc with
  | some n => if c.isDigit then some (n * 10 + (c.toNat - 48)) else none
  | none => none

/-- The definition on which a cleanup request of the janitor acts when the dispatcher handles
it: the DefnId that `handleDeleteIndex` reads from the key of a DROP_INDEX request, and the
DefnId of the definition in the payload of a DROP_OR_PRUNE_INSTANCE request. -/
def Request.target (req : Request) : Option Nat :=
  match req.op, req.content with
  | OpCode.OPCODE_DROP_INDEX, _ =>
    match indexDefnId req.key with
    | (id, none) => some id
    | (_, some _) => none
  | OpCode.OPCODE_DROP_OR_PRUNE_INSTANCE, Content.dropInstance defn _ => some defn.DefnId
  | _, _ => none

/-- The requests that one janitor pass submits: the requests of the request server after
`janitor.cleanup` that were not there before. -/
def janitor.submitted (m : LifecycleMgr) (listing : List KVEntry × error) : List Request :=
  (janitor.cleanup m listing).requestServer.requests.drop m.requestServer.requests.length

/-- The DROP_OR_PRUNE_INSTANCE request for instance `inst` of definition `defn`, as the
specification words it: the payload carries the definition with the InstId set and the
partitions cleared, and Cleanup = true. -/
def dropInstanceRequest (defn : IndexDefn) (inst : IndexInstDistribution) : Request :=
  { op := OpCode.OPCODE_DROP_OR_PRUNE_INSTANCE, key := toString defn.DefnId,
    content := Content.dropInstance { defn with InstId := inst.InstId, Partitions := [] } true }

/-- The requests of the status-driven pass, as the specification words it: for every
definition, in the order of the iterator, and every instance row of it whose state is DELETED
and whose rebalance state is neither PENDING_DELETE nor MERGED, one DROP_OR_PRUNE_INSTANCE
request. -/
def statusRequests (r : MetadataRepo) : List IndexDefn → List Request
  | [] => []
  | defn :: rest =>
    ((r.rows defn.Bucket defn.DefnId).filter (fun inst =>
        inst.State == IndexState.INDEX_STATE_DELETED &&
        inst.RState != RebalanceState.REBAL_PENDING_DELETE &&
        inst.RState != RebalanceState.REBAL_MERGED)).map (dropInstanceRequest defn) ++
      statusRequests r rest

/-- The requests of the token-driven pass, as the specification words it: one DROP_INDEX
request for every entry under the delete-token path whose value is a well-formed token with a
DefnId that resolves to a definition record. -/
def tokenRequests (r : MetadataRepo) : List KVEntry → List Request
  | [] => []
  | entry :: rest =>
    match entry.Value with
    | some (TokenValue.token DefnId) =>
      if strings.Contains entry.Path DeleteDDLCommandTokenPath ∧
          (r.defns.find? (fun d => d.DefnId == DefnId)).isSome then
        { op := OpCode.OPCODE_DROP_INDEX, key := toString DefnId, content := Content.empty } ::
          tokenRequests r rest
      else tokenRequests r rest
    | _ => tokenRequests r rest

/-- Every reference of `bucket` in `ts2` that has an instance row in a state other than
DELETED has the DefnId `d`, or has the DefnId of a reference of `bucket` in `ts1` that has
such a row. -/
def liveFrom (bucket : String) (d : Nat) (ts1 ts2 : List IndexTopology) : Prop :=
  ∀ t2, ts2.find? (fun t => t.Bucket == bucket) = some t2 →
    ∀ ref2 ∈ t2.Definitions,
      (∃ inst ∈ ref2.Instances, inst.State ≠ IndexState.INDEX_STATE_DELETED) →
      ref2.DefnId = d ∨
      ∃ t1, ts1.find? (fun t => t.Bucket == bucket) = some t1 ∧
        ∃ ref1 ∈ t1.Definitions, ref1.DefnId = ref2.DefnId ∧
          ∃ inst ∈ ref1.Instances, inst.State ≠ IndexState.INDEX_STATE_DELETED
/-! ## Example states -/

/-- A definition record on bucket "b". -/
def exampleDefn (id : Nat) (name : String) (scheme : PartitionScheme) : IndexDefn :=
  { DefnId := id, Name := name, Using := "plasma", Bucket := "b", BucketUUID := "u1",
    Deferred := true, NumReplica := 0, PartitionScheme := scheme, InstId := 0, RealInstId := 0,
    ReplicaId := 0, Partitions := [], Versions := [], NumPartitions := 0, InstVersion := 0 }

/-- An instance row without partitions. -/
def exampleInst (instId : Nat) (state : IndexState) (rState : RebalanceState) :
    IndexInstDistribution :=
  { InstId := instId, State := state, StreamId := StreamId.NIL_STREAM, Error := "",
    RState := rState, ReplicaId := 0, Partitions := [], NumPartitions := 0, Scheduled := false,
    StorageMode := "plasma", OldStorageMode := "", RealInstId := 0, Version := 0 }

/-- The topology blob of bucket "b" with the given definition references. -/
def exampleTopology (defs : List (Nat × String × List IndexInstDistribution)) : IndexTopology :=
  { Bucket := "b",
    Definitions := defs.map (fun d =>
      { Bucket := "b", Name := d.2.1, DefnId := d.1, Instances := d.2.2 }) }

/-- An environment with bucket "b" of UUID "u1". -/
def exampleEnv (mode : BuildMode) : Env :=
  { buildMode := mode, storageMode := none, validIndexTypes := ["plasma", "forestdb"],
    newInstIds := [], buckets := [("b", "u1")], clusterErrs := [], indexerId := "indexer-1",
    newInstRState := RebalanceState.REBAL_ACTIVE }

/-- A builder with nothing pending. -/
def exampleBuilder (batchSize : Int) : builder :=
  { pendings := [], notifych := [], batchSize := batchSize, disable := 0, marshalErrs := [] }

/-- A manager over the given repository content, fault script and indexer replies. -/
def exampleMgr (defns : List IndexDefn) (topologies : List IndexTopology) (faults : List error)
    (replies : List error) : LifecycleMgr :=
  { repo := { defns := defns, topologies := topologies, faults := faults, writes := [] },
    notifier := some { replies := replies, buildReplies := [], calls := [] },
    builder := exampleBuilder 5,
    requestServer := { requests := [], replies := [] },
    env := exampleEnv BuildMode.ENTERPRISE }

/-- Definition 1 ("i" on "b") with the single instance 10 in READY. -/
def oneReadyIndex (faults : List error) (replies : List error) : LifecycleMgr :=
  exampleMgr [exampleDefn 1 "i" PartitionScheme.SINGLE]
    [exampleTopology [(1, "i",
      [exampleInst 10 IndexState.INDEX_STATE_READY RebalanceState.REBAL_ACTIVE])]]
    faults replies

/-- The partitioned definition 1 ("i" on "b") whose real instance 10 holds partition 7 at the
stored version `storedVersion` and is in rebalance state `rState`. -/
def onePartitionedIndex (rState : RebalanceState) (storedVersion : Int) : LifecycleMgr :=
  exampleMgr [exampleDefn 1 "i" (PartitionScheme.PARTITIONED "KEY")]
    [exampleTopology [(1, "i",
      [{ exampleInst 10 IndexState.INDEX_STATE_ACTIVE rState with
          Partitions := [{ PartId := 7, Version := storedVersion }], NumPartitions := 1 }])]]
    [] []

/-- A rebalance-origin create request for definition 1 with the given instance id, real
instance id, partitions and versions. -/
def rebalanceRequest (instId realInstId : Nat) (partitions : List Nat) (versions : List Int) :
    IndexDefn :=
  { exampleDefn 1 "i" (PartitionScheme.PARTITIONED "KEY") with
      InstId := instId, RealInstId := realInstId, Partitions := partitions,
      Versions := versions, NumPartitions := 8 }

/-- A definition record named `name` on bucket `bucket` with one READY instance `instId`,
and its definition reference. -/
def readyDefn (bucket : String) (id : Nat) (name : String) : IndexDefn :=
  { exampleDefn id name PartitionScheme.SINGLE with Bucket := bucket }

/-- The topology blob of `bucket` in which every listed definition has the listed
instances. -/
def bucketTopology (bucket : String) (defs : List (Nat × String × List IndexInstDistribution)) :
    IndexTopology :=
  { Bucket := bucket,
    Definitions := defs.map (fun d =>
      { Bucket := bucket, Name := d.2.1, DefnId := d.1, Instances := d.2.2 }) }

/-- Batch size 3; the definitions 1, 2, 3 of bucket "a" and 4, 5 of bucket "b" are pending,
each with one READY instance. -/
def twoBucketsPending : LifecycleMgr :=
  { exampleMgr
      [readyDefn "a" 1 "i1", readyDefn "a" 2 "i2", readyDefn "a" 3 "i3",
       readyDefn "b" 4 "i4", readyDefn "b" 5 "i5"]
      [bucketTopology "a"
        [(1, "i1", [exampleInst 10 IndexState.INDEX_STATE_READY RebalanceState.REBAL_ACTIVE]),
         (2, "i2", [exampleInst 20 IndexState.INDEX_STATE_READY RebalanceState.REBAL_ACTIVE]),
         (3, "i3", [exampleInst 30 IndexState.INDEX_STATE_READY RebalanceState.REBAL_ACTIVE])],
       bucketTopology "b"
        [(4, "i4", [exampleInst 40 IndexState.INDEX_STATE_READY RebalanceState.REBAL_ACTIVE]),
         (5, "i5", [exampleInst 50 IndexState.INDEX_STATE_READY RebalanceState.REBAL_ACTIVE])]]
      [] [] with
    builder := { exampleBuilder 3 with pendings := [("a", [1, 2, 3]), ("b", [4, 5])] } }

/-- Batch size 1; definition 3 of bucket "a" has the instances 30 and 31 in INITIAL, and
definition 1 of bucket "b", with the READY instance 10, is pending. -/
def overQuotaPending : LifecycleMgr :=
  { exampleMgr [readyDefn "a" 3 "j", readyDefn "b" 1 "i"]
      [bucketTopology "a"
        [(3, "j", [exampleInst 30 IndexState.INDEX_STATE_INITIAL RebalanceState.REBAL_ACTIVE,
                   exampleInst 31 IndexState.INDEX_STATE_INITIAL RebalanceState.REBAL_ACTIVE])],
       bucketTopology "b"
        [(1, "i", [exampleInst 10 IndexState.INDEX_STATE_READY RebalanceState.REBAL_ACTIVE])]]
      [] [] with
    builder := { exampleBuilder 1 with pendings := [("b", [1])] } }


/-- Background build is disabled; definition 1 of bucket "b" is pending once and has the two
READY instances 10 and 11, neither of them left over from a storage upgrade. -/
def disabledTwoReady : LifecycleMgr :=
  { exampleMgr [exampleDefn 1 "i" PartitionScheme.SINGLE]
      [exampleTopology [(1, "i",
        [exampleInst 10 IndexState.INDEX_STATE_READY RebalanceState.REBAL_ACTIVE,
         exampleInst 11 IndexState.INDEX_STATE_READY RebalanceState.REBAL_ACTIVE])]]
      [] [] with
    builder := { exampleBuilder 5 with pendings := [("b", [1])], disable := 1 } }

/-- Definition 1 ("i" on "b") with the READY instances 10 and 11; instance 10 has its
scheduled flag set.  The indexer answers the next callback with the given error. -/
def scheduledReadyIndex (reply : error) : LifecycleMgr :=
  exampleMgr [exampleDefn 1 "i" PartitionScheme.SINGLE]
    [exampleTopology [(1, "i",
      [{ exampleInst 10 IndexState.INDEX_STATE_READY RebalanceState.REBAL_ACTIVE with
          Scheduled := true },
       exampleInst 11 IndexState.INDEX_STATE_READY RebalanceState.REBAL_ACTIVE])]]
    [] [reply]

/-- Bucket "b" with definition 1, whose reference in the topology has no instance row, and
definition 2 with the READY instance 20 on the NIL stream. -/
def referenceWithoutRows : LifecycleMgr :=
  exampleMgr [exampleDefn 1 "i" PartitionScheme.SINGLE, exampleDefn 2 "j" PartitionScheme.SINGLE]
    [exampleTopology [(1, "i", []),
      (2, "j", [exampleInst 20 IndexState.INDEX_STATE_READY RebalanceState.REBAL_ACTIVE])]]
    [] []

/-- Bucket "b" was recreated: its current UUID is "u2".  Definition 1 is deferred, was
created under UUID "u1" and has the READY instance 10 on the NIL stream; definition 2 is
deferred, was created under "u1" and its only instance 20 is DELETED, still on stream 1;
definition 3 is like definition 1 but not deferred; definition 4 is deferred and carries the
current UUID. -/
def recreatedBucket : LifecycleMgr :=
  { exampleMgr
      [exampleDefn 1 "i1" PartitionScheme.SINGLE,
       exampleDefn 2 "i2" PartitionScheme.SINGLE,
       { exampleDefn 3 "i3" PartitionScheme.SINGLE with Deferred := false },
       { exampleDefn 4 "i4" PartitionScheme.SINGLE with BucketUUID := "u2" }]
      [exampleTopology
        [(1, "i1", [exampleInst 10 IndexState.INDEX_STATE_READY RebalanceState.REBAL_ACTIVE]),
         (2, "i2", [{ exampleInst 20 IndexState.INDEX_STATE_DELETED
                        RebalanceState.REBAL_ACTIVE with StreamId := StreamId.STREAM 1 }]),
         (3, "i3", [exampleInst 30 IndexState.INDEX_STATE_READY RebalanceState.REBAL_ACTIVE]),
         (4, "i4", [exampleInst 40 IndexState.INDEX_STATE_READY RebalanceState.REBAL_ACTIVE])]]
      [] [] with
    env := { exampleEnv BuildMode.ENTERPRISE with buckets := [("b", "u2")] } }

/-- A request with the given id, opcode and content, key "1" and correlation id "client". -/
def exampleRequest (reqId : Nat) (op : OpCode) (content : Content) : requestHolder :=
  { reqId := reqId, op := op, key := "1", content := content, fid := "client" }

/-- Before INDEXER_READY: a CREATE_INDEX request arrives, then a CLEANUP_INDEX request that
`processRequest` takes from the bootstrap queue, then a SERVICE_MAP request whose task runs,
then a DROP_INDEX request. -/
def bootstrapEvents : List Event :=
  [Event.OnNewRequest (exampleRequest 1 OpCode.OPCODE_CREATE_INDEX
      (Content.IndexDefn (exampleDefn 2 "j" PartitionScheme.SINGLE))),
   Event.OnNewRequest (exampleRequest 2 OpCode.OPCODE_CLEANUP_INDEX Content.malformed),
   Event.processRequest,
   Event.OnNewRequest (exampleRequest 3 OpCode.OPCODE_SERVICE_MAP Content.empty),
   Event.runSpawned 0,
   Event.processRequest,
   Event.OnNewRequest (exampleRequest 4 OpCode.OPCODE_DROP_INDEX Content.empty)]

/-- Definition 1 ("i" on "b", storage kind "forestdb") whose instance 10 is stored in state
`stored`, with its scheduled flag clear, on stream 1 and with the error "old". -/
def storedInstance (stored : IndexState) : LifecycleMgr :=
  exampleMgr [{ exampleDefn 1 "i" PartitionScheme.SINGLE with Using := "forestdb" }]
    [exampleTopology [(1, "i",
      [{ exampleInst 10 stored RebalanceState.REBAL_ACTIVE with
          StreamId := StreamId.STREAM 1, Error := "old", StorageMode := "forestdb" }])]]
    [] []

/-- The content of a RESET_INDEX request for instance 10 of definition 1, which moves to the
storage kind "plasma"; the instance of the request is in state `carried`. -/
def resetRequest (carried : IndexState) : IndexInst :=
  { Defn := exampleDefn 1 "i" PartitionScheme.SINGLE, InstId := 10, State := carried }

/-- The partitioned definition 1 ("i" on "b") whose only instance 10 is ACTIVE and holds the
partitions 1 and 2; no instance is a proxy of instance 10.  The next instance id that
`NewIndexInstId` hands out is 20. -/
def twoPartitions : LifecycleMgr :=
  { exampleMgr [exampleDefn 1 "i" (PartitionScheme.PARTITIONED "KEY")]
      [exampleTopology [(1, "i",
        [{ exampleInst 10 IndexState.INDEX_STATE_ACTIVE RebalanceState.REBAL_ACTIVE with
            Partitions := [{ PartId := 1, Version := 0 }, { PartId := 2, Version := 0 }],
            NumPartitions := 2 }])]]
      [] [] with
    env := { exampleEnv BuildMode.ENTERPRISE with newInstIds := [(20, none)] } }

/-- Definition 1 ("i" on "b") with the ACTIVE instance 10 and the instance 11 in state
`other`. -/
def twoInstances (other : IndexState) : LifecycleMgr :=
  exampleMgr [exampleDefn 1 "i" PartitionScheme.SINGLE]
    [exampleTopology [(1, "i",
      [exampleInst 10 IndexState.INDEX_STATE_ACTIVE RebalanceState.REBAL_ACTIVE,
       exampleInst 11 other RebalanceState.REBAL_ACTIVE])]]
    [] []

/-- Bucket "b" with four definitions: definition 1, whose reference has no instance row;
definition 2, whose only instance 20 is DELETED with rebalance state MERGED; definition 3,
whose only instance 30 is DELETED with rebalance state PENDING_DELETE; and definition 4,
whose only instance 40 is DELETED with rebalance state ACTIVE. -/
def deletedDefinitions : LifecycleMgr :=
  exampleMgr
    [exampleDefn 1 "i1" PartitionScheme.SINGLE, exampleDefn 2 "i2" PartitionScheme.SINGLE,
     exampleDefn 3 "i3" PartitionScheme.SINGLE, exampleDefn 4 "i4" PartitionScheme.SINGLE]
    [exampleTopology
      [(1, "i1", []),
       (2, "i2", [exampleInst 20 IndexState.INDEX_STATE_DELETED RebalanceState.REBAL_MERGED]),
       (3, "i3",
         [exampleInst 30 IndexState.INDEX_STATE_DELETED RebalanceState.REBAL_PENDING_DELETE]),
       (4, "i4", [exampleInst 40 IndexState.INDEX_STATE_DELETED RebalanceState.REBAL_ACTIVE])]]
    [] []

/-- The state `deletedDefinitions` without definition 4. -/
def unreachedDefinitions : LifecycleMgr :=
  exampleMgr
    [exampleDefn 1 "i1" PartitionScheme.SINGLE, exampleDefn 2 "i2" PartitionScheme.SINGLE,
     exampleDefn 3 "i3" PartitionScheme.SINGLE]
    [exampleTopology
      [(1, "i1", []),
       (2, "i2", [exampleInst 20 IndexState.INDEX_STATE_DELETED RebalanceState.REBAL_MERGED]),
       (3, "i3",
         [exampleInst 30 IndexState.INDEX_STATE_DELETED RebalanceState.REBAL_PENDING_DELETE])]]
    [] []

/-- Definition 42 ("i" on "b") with the READY instance 420. -/
def definition42 : LifecycleMgr :=
  exampleMgr [exampleDefn 42 "i" PartitionScheme.SINGLE]
    [exampleTopology [(42, "i",
      [exampleInst 420 IndexState.INDEX_STATE_READY RebalanceState.REBAL_ACTIVE])]]
    [] []

/-- The listing of the delete-token path that holds the delete token of definition 42. -/
def token42 : List KVEntry :=
  [{ Path := DeleteDDLCommandTokenPath ++ "42", Value := some (TokenValue.token 42) }]

/-- A create request for the definition 1 ("i" on "b"), not deferred, with the instance
id 10. -/
def createNow : IndexDefn :=
  { exampleDefn 1 "i" PartitionScheme.SINGLE with Deferred := false, InstId := 10 }


/-- Definition 1 ("i" on "b") with the READY instance 10, over the given fault script of the
repository; the indexer answers the build of instance 10 with the error "build failed". -/
def buildError (faults : List error) : LifecycleMgr :=
  { oneReadyIndex faults [] with
    notifier := some { replies := [], buildReplies := [[(10, GoError.plain "build failed")]],
                       calls := [] } }

/-- The fault script under which the first eight repository calls succeed and the ninth
fails with "read failed"; in `BuildIndexes [1]` on `buildError` the ninth call is the
topology read of `FindLocalIndexInst` in the error loop. -/
def ninthCallFails : List error :=
  [none, none, none, none, none, none, none, none, some (GoError.plain "read failed")]

/-- The state `twoInstances READY` over a repository whose third call fails with "write
failed"; in `DeleteIndexInstance(1, 10, cleanup = false)` the third call is the topology
write of `deleteInstanceFromTopology`. -/
def twoInstancesWriteFails : LifecycleMgr :=
  exampleMgr [exampleDefn 1 "i" PartitionScheme.SINGLE]
    [exampleTopology [(1, "i",
      [exampleInst 10 IndexState.INDEX_STATE_ACTIVE RebalanceState.REBAL_ACTIVE,
       exampleInst 11 IndexState.INDEX_STATE_READY RebalanceState.REBAL_ACTIVE])]]
    [none, none, some (GoError.plain "write failed")] []

/-- The state `definition42` over a repository whose sixth call fails with "drop failed"; in
`DeleteIndex(42, notify = true)` the sixth call is `DropIndexById`. -/
def definition42DropFails : LifecycleMgr :=
  exampleMgr [exampleDefn 42 "i" PartitionScheme.SINGLE]
    [exampleTopology [(42, "i",
      [exampleInst 420 IndexState.INDEX_STATE_READY RebalanceState.REBAL_ACTIVE])]]
    [none, none, none, none, none, some (GoError.plain "drop failed")] []

/-- Bucket "b" has the UUID "u1".  The partitioned definition 1 ("i") carries the bucket UUID
"old" and its only instance 10 is DELETED; definition 2 ("j") carries "u1" and has the READY
instance 20. -/
def staleRecord (faults : List error) : LifecycleMgr :=
  exampleMgr
    [{ exampleDefn 1 "i" (PartitionScheme.PARTITIONED "KEY") with BucketUUID := "old" },
     exampleDefn 2 "j" PartitionScheme.SINGLE]
    [exampleTopology
      [(1, "i", [exampleInst 10 IndexState.INDEX_STATE_DELETED RebalanceState.REBAL_ACTIVE]),
       (2, "j", [exampleInst 20 IndexState.INDEX_STATE_READY RebalanceState.REBAL_ACTIVE])]]
    faults []

/-- Bucket "b" has the UUID "u1"; definition 1 ("i") carries the bucket UUID "old" and has
the READY instance 10. -/
def staleLive (faults : List error) : LifecycleMgr :=
  exampleMgr [{ exampleDefn 1 "i" PartitionScheme.SINGLE with BucketUUID := "old" }]
    [exampleTopology
      [(1, "i", [exampleInst 10 IndexState.INDEX_STATE_READY RebalanceState.REBAL_ACTIVE])]]
    faults []

/-- Two definition records named "i" on "b": definition 1, which the lookup by name returns
and which has no instance row, and definition 2, which has the READY instance 20. -/
def shadowedLive : LifecycleMgr :=
  exampleMgr
    [exampleDefn 1 "i" PartitionScheme.SINGLE, exampleDefn 2 "i" PartitionScheme.SINGLE]
    [exampleTopology
      [(2, "i", [exampleInst 20 IndexState.INDEX_STATE_READY RebalanceState.REBAL_ACTIVE])]]
    [] []

/-- Definition 1 ("i" on "b") with the READY instance 10 in rebalance state NIL; the indexer
answers the build of instance 10 with the error "build failed". -/
def buildRejected : LifecycleMgr :=
  { exampleMgr [exampleDefn 1 "i" PartitionScheme.SINGLE]
      [exampleTopology [(1, "i",
        [exampleInst 10 IndexState.INDEX_STATE_READY RebalanceState.REBAL_NIL])]]
      [] [] with
    notifier := some { replies := [],
                       buildReplies := [[(10, GoError.plain "build failed")]],
                       calls := [] } }

/-- The state `oneReadyIndex` in which a new instance gets the rebalance state NIL and the
indexer answers the next build with the error "build failed" for instance 30. -/
def createRejected : LifecycleMgr :=
  { oneReadyIndex [] [] with
    notifier := some { replies := [],
                       buildReplies := [[(30, GoError.plain "build failed")]],
                       calls := [] },
    env := { exampleEnv BuildMode.ENTERPRISE with newInstRState := RebalanceState.REBAL_NIL } }
/-! # Theorems -/

/-! ## Repository calls under an empty fault script -/

theorem fault_nil (r : MetadataRepo) (h : r.faults = []) : r.fault = (none, r) := by
  simp [MetadataRepo.fault, h]

theorem GetIndexDefnById_nil (r : MetadataRepo) (id : Nat) (h : r.faults = []) :
    r.GetIndexDefnById id = (r.defns.find? (fun d => d.DefnId == id), none, r) := by
  simp [MetadataRepo.GetIndexDefnById, fault_nil r h]

theorem GetTopologyByBucket_nil (r : MetadataRepo) (b : String) (h : r.faults = []) :
    r.GetTopologyByBucket b = (r.topologies.find? (fun t => t.Bucket == b), none, r) := by
  simp [MetadataRepo.GetTopologyByBucket, fault_nil r h]

theorem SetTopologyByBucket_nil (r : MetadataRepo) (b : String) (t : IndexTopology)
    (h : r.faults = []) :
    r.SetTopologyByBucket b t =
      (none, { r with writes := r.writes ++ [RepoWrite.SetTopologyByBucket b t],
                      topologies := putTopology b t r.topologies }) := by
  simp [MetadataRepo.SetTopologyByBucket, MetadataRepo.fault, h]

theorem find_putTopology (b : String) (t : IndexTopology) (ts : List IndexTopology)
    (hb : t.Bucket = b) :
    (putTopology b t ts).find? (fun x => x.Bucket == b) = some t := by
  induction ts with
  | nil => simp [putTopology, hb]
  | cons x rest ih =>
    by_cases hx : x.Bucket = b
    · simp [putTopology, hx, hb]
    · simp [putTopology, hx, ih]

theorem putTopology_self (b : String) (t : IndexTopology) (ts : List IndexTopology)
    (h : ts.find? (fun x => x.Bucket == b) = some t) : putTopology b t ts = ts := by
  induction ts with
  | nil => simp at h
  | cons x rest ih =>
    by_cases hx : x.Bucket = b
    · have hxt : x = t := by simpa [List.find?_cons, hx] using h
      subst hxt
      simp [putTopology, hx]
    · have hr : rest.find? (fun x => x.Bucket == b) = some t := by
        simpa [List.find?_cons, hx] using h
      simp [putTopology, hx, ih hr]

theorem putTopology_putTopology (b : String) (t1 t2 : IndexTopology) (ts : List IndexTopology)
    (hb : t1.Bucket = b) :
    putTopology b t2 (putTopology b t1 ts) = putTopology b t2 ts := by
  induction ts with
  | nil => simp [putTopology, hb]
  | cons x rest ih =>
    by_cases hx : x.Bucket = b
    · simp [putTopology, hx, hb]
    · simp [putTopology, hx, ih]

theorem find_bucket (b : String) (t : IndexTopology) (ts : List IndexTopology)
    (h : ts.find? (fun x => x.Bucket == b) = some t) : t.Bucket = b := by
  have := List.find?_some h
  simpa using this

theorem map_eq_self {α : Type} (f : α → α) (l : List α) (h : ∀ x ∈ l, f x = x) :
    l.map f = l := by
  induction l with
  | nil => rfl
  | cons x rest ih =>
    simp only [List.map_cons, List.cons.injEq]
    exact ⟨h x (List.mem_cons_self _ _), ih (fun y hy => h y (List.mem_cons_of_mem _ hy))⟩

theorem mapInst_of_anyInst_false (t : IndexTopology) (defnId instId : Nat) (s : IndexState)
    (h : t.anyInst defnId instId (fun i => i.State != s) = false) :
    t.mapInst defnId instId (fun i => { i with State := s }) = t := by
  cases t with
  | mk bucket defs =>
    simp only [IndexTopology.mapInst, IndexTopology.mk.injEq, true_and]
    simp only [IndexTopology.anyInst] at h
    rw [List.any_eq_false] at h
    apply map_eq_self
    intro d hd
    have h1 := h d hd
    by_cases hdd : d.DefnId = defnId
    · simp only [hdd, if_true]
      cases d with
      | mk db dn di insts =>
        simp only [IndexDefnDistribution.mk.injEq, true_and]
        simp only at hdd
        simp only [hdd, beq_self_eq_true, Bool.true_and, Bool.not_eq_true] at h1
        rw [List.any_eq_false] at h1
        subst hdd
        refine ⟨rfl, ?_⟩
        apply map_eq_self
        intro i hi
        have h2 := h1 i hi
        by_cases hii : i.InstId = instId
        · simp [hii] at h2
          cases i
          simp_all
        · simp [hii]
    · simp [hdd]

/-! ## Marking the instances of a definition DELETED -/

theorem withDeleted_nil (t : IndexTopology) (d : Nat) : t.withDeleted d [] = t := by
  cases t with
  | mk bucket defs =>
    simp only [IndexTopology.withDeleted, IndexTopology.mk.injEq, true_and]
    apply map_eq_self
    intro x _
    split
    · cases x
      simp
    · rfl

theorem withDeleted_bucket (t : IndexTopology) (d : Nat) (ids : List Nat) :
    (t.withDeleted d ids).Bucket = t.Bucket := rfl

theorem mapInst_withDeleted (t : IndexTopology) (d : Nat) (ids : List Nat) (i : Nat) :
    (t.withDeleted d ids).mapInst d i
        (fun x => { x with State := IndexState.INDEX_STATE_DELETED }) =
      t.withDeleted d (ids ++ [i]) := by
  cases t with
  | mk bucket defs =>
    simp only [IndexTopology.withDeleted, IndexTopology.mapInst, IndexTopology.mk.injEq,
      true_and, List.map_map]
    apply List.map_congr_left
    intro x _
    by_cases hx : x.DefnId = d
    · simp only [Function.comp, hx, if_true, List.map_map, IndexDefnDistribution.mk.injEq,
        true_and]
      apply List.map_congr_left
      intro y _
      by_cases h1 : y.InstId ∈ ids
      · simp [h1]
      · by_cases h2 : y.InstId = i
        · cases y
          simp_all
        · simp [h1, h2]
    · simp [Function.comp, hx]

theorem updateIndexState_nil (m : LifecycleMgr) (b : String) (defnId instId : Nat)
    (s : IndexState) (tc : IndexTopology) (hf : m.repo.faults = [])
    (ht : m.repo.topologies.find? (fun t => t.Bucket == b) = some tc) :
    ∃ ws, m.updateIndexState b defnId instId s =
      (none, { m with repo := { m.repo with
        topologies := putTopology b (tc.mapInst defnId instId (fun i => { i with State := s }))
          m.repo.topologies,
        writes := m.repo.writes ++ ws } }) := by
  simp only [LifecycleMgr.updateIndexState, GetTopologyByBucket_nil m.repo b hf, ht,
    IndexTopology.UpdateStateForIndexInst]
  cases hc : tc.anyInst defnId instId (fun i => i.State != s) with
  | true =>
    simp only [SetTopologyByBucket_nil m.repo b _ hf]
    exact ⟨_, rfl⟩
  | false =>
    refine ⟨[], ?_⟩
    simp only [mapInst_of_anyInst_false tc defnId instId s hc, putTopology_self b tc _ ht,
      List.append_nil]

theorem markDeleted_nil (defn : IndexDefn) (t : IndexTopology) (l : List IndexInstDistribution) :
    ∀ (ids : List Nat) (hasError : Bool) (m : LifecycleMgr), m.repo.faults = [] →
      m.repo.topologies.find? (fun x => x.Bucket == defn.Bucket) =
        some (t.withDeleted defn.DefnId ids) →
      ∃ ws, DeleteIndex.markDeleted defn l hasError m =
        (hasError, { m with repo := { m.repo with
          topologies := putTopology defn.Bucket
            (t.withDeleted defn.DefnId (ids ++ l.map (fun i => i.InstId))) m.repo.topologies,
          writes := m.repo.writes ++ ws } }) := by
  induction l with
  | nil =>
    intro ids hasError m _ ht
    refine ⟨[], ?_⟩
    simp [DeleteIndex.markDeleted, putTopology_self _ _ _ ht]
  | cons inst rest ih =>
    intro ids hasError m hf ht
    obtain ⟨ws, hu⟩ := updateIndexState_nil m defn.Bucket defn.DefnId inst.InstId
      IndexState.INDEX_STATE_DELETED _ hf ht
    simp only [DeleteIndex.markDeleted, hu]
    rw [mapInst_withDeleted] at *
    have hb : (t.withDeleted defn.DefnId (ids ++ [inst.InstId])).Bucket = defn.Bucket := by
      rw [withDeleted_bucket, ← withDeleted_bucket t defn.DefnId ids]
      exact find_bucket _ _ _ ht
    obtain ⟨ws2, h2⟩ := ih (ids ++ [inst.InstId]) hasError
      { m with repo := { m.repo with
        topologies := putTopology defn.Bucket
          (t.withDeleted defn.DefnId (ids ++ [inst.InstId])) m.repo.topologies,
        writes := m.repo.writes ++ ws } } hf
      (find_putTopology defn.Bucket _ m.repo.topologies hb)
    refine ⟨ws ++ ws2, ?_⟩
    rw [h2]
    simp [putTopology_putTopology _ _ _ _ hb]

theorem find_map_of_preserved {α : Type} (f : α → α) (p : α → Bool) (l : List α)
    (h : ∀ x, p (f x) = p x) : (l.map f).find? p = (l.find? p).map f := by
  induction l with
  | nil => rfl
  | cons x rest ih =>
    simp only [List.map_cons, List.find?_cons, h x]
    cases p x with
    | true => rfl
    | false => exact ih

theorem rows_withDeleted (t : IndexTopology) (d : Nat) (ids : List Nat) :
    (t.withDeleted d ids).GetIndexInstancesByDefn d =
      (t.GetIndexInstancesByDefn d).map (fun i =>
        if i.InstId ∈ ids then { i with State := IndexState.INDEX_STATE_DELETED } else i) := by
  cases t with
  | mk bucket defs =>
    simp only [IndexTopology.withDeleted, IndexTopology.GetIndexInstancesByDefn]
    rw [find_map_of_preserved]
    · cases hfind : defs.find? (fun x => x.DefnId == d) with
      | none => simp
      | some x =>
        have hx : x.DefnId = d := by simpa using List.find?_some hfind
        simp [hx]
    · intro x
      by_cases hx : x.DefnId = d <;> simp [hx]

theorem rows_withDeleted_all (t : IndexTopology) (d : Nat) :
    (t.withDeleted d ((t.GetIndexInstancesByDefn d).map (fun i => i.InstId))).GetIndexInstancesByDefn
        d =
      (t.GetIndexInstancesByDefn d).map
        (fun i => { i with State := IndexState.INDEX_STATE_DELETED }) := by
  rw [rows_withDeleted]
  apply List.map_congr_left
  intro i hi
  have : i.InstId ∈ (t.GetIndexInstancesByDefn d).map (fun i => i.InstId) :=
    List.mem_map_of_mem _ hi
  simp [this]

theorem FindAllLocalIndexInst_nil (m : LifecycleMgr) (b : String) (d : Nat)
    (hf : m.repo.faults = []) :
    m.FindAllLocalIndexInst b d = (m.repo.rows b d, none, m) := by
  simp only [LifecycleMgr.FindAllLocalIndexInst, GetTopologyByBucket_nil m.repo b hf,
    MetadataRepo.rows]
  cases m.repo.topologies.find? (fun t => t.Bucket == b) <;> rfl

theorem markDeleted_rows (m : LifecycleMgr) (defn : IndexDefn) (hasError : Bool)
    (hf : m.repo.faults = []) :
    ∃ ws, DeleteIndex.markDeleted defn (m.repo.rows defn.Bucket defn.DefnId) hasError m =
      (hasError, { m with repo := { m.repo with
        topologies := m.repo.markedDeleted defn.Bucket defn.DefnId,
        writes := m.repo.writes ++ ws } }) := by
  simp only [MetadataRepo.rows, MetadataRepo.markedDeleted]
  cases ht : m.repo.topologies.find? (fun t => t.Bucket == defn.Bucket) with
  | none => exact ⟨[], by simp [DeleteIndex.markDeleted]⟩
  | some t =>
    have ht2 : m.repo.topologies.find? (fun x => x.Bucket == defn.Bucket) =
        some (t.withDeleted defn.DefnId []) := by rw [withDeleted_nil]; exact ht
    obtain ⟨ws, h⟩ := markDeleted_nil defn t (t.GetIndexInstancesByDefn defn.DefnId) []
      hasError m hf ht2
    exact ⟨ws, by simpa using h⟩

theorem rows_markedDeleted (r : MetadataRepo) (b : String) (d : Nat) (ws : List RepoWrite) :
    MetadataRepo.rows { r with topologies := r.markedDeleted b d, writes := ws } b d =
      (r.rows b d).map (fun i => { i with State := IndexState.INDEX_STATE_DELETED }) := by
  simp only [MetadataRepo.rows, MetadataRepo.markedDeleted]
  cases ht : r.topologies.find? (fun t => t.Bucket == b) with
  | none => simp [ht]
  | some t =>
    have hb : (t.withDeleted d ((t.GetIndexInstancesByDefn d).map (fun i => i.InstId))).Bucket
        = b := by
      rw [withDeleted_bucket]; exact find_bucket _ _ _ ht
    simp only [find_putTopology b _ r.topologies hb, rows_withDeleted_all]

/-! ## The indexer callbacks of the drop path -/

/-- The value of `dropErr` after the errors `rs` have been classified in turn. -/
theorem notifyDeleted_spec (b : String) (ctx : Option MetadataRequestContext)
    (insts : List IndexInstDistribution) :
    ∀ (dropErr : error) (n : MetadataNotifier),
      DeleteIndex.notifyDeleted b ctx insts dropErr n =
        ((n.replies.take insts.length).foldl (fun acc r =>
            match r with
            | some err => DeleteIndex.classify err acc
            | none => acc) dropErr,
         { replies := n.replies.drop insts.length, buildReplies := n.buildReplies,
           calls := n.calls ++ insts.map (fun i => NotifierCall.OnIndexDelete i.InstId b ctx) })
    := by
  induction insts with
  | nil => intro dropErr n; simp [DeleteIndex.notifyDeleted]
  | cons inst rest ih =>
    intro dropErr n
    cases hr : n.replies with
    | nil =>
      simp [DeleteIndex.notifyDeleted, MetadataNotifier.OnIndexDelete, MetadataNotifier.reply,
        hr, ih]
    | cons e es =>
      cases e with
      | none =>
        simp [DeleteIndex.notifyDeleted, MetadataNotifier.OnIndexDelete,
          MetadataNotifier.reply, hr, ih]
      | some err =>
        simp [DeleteIndex.notifyDeleted, MetadataNotifier.OnIndexDelete,
          MetadataNotifier.reply, hr, ih]

theorem contains_dropErrText (reason : String) :
    strings.Contains (dropErrText reason) "Drop index will retry in background" = true := by
  simp only [strings.Contains, dropErrText, decide_eq_true_eq, String.data_append]
  exact ⟨"Encounter error when dropping index: ".data ++ reason.data ++ ". ".data, ".".data,
    by simp⟩

theorem classify_accepted (err : GoError) (dropErr : error) (h : acceptedDropError err) :
    DeleteIndex.classify err dropErr = dropErr := by
  obtain ⟨h1, h2⟩ := h
  unfold DeleteIndex.classify
  cases he : err.asIndexerError with
  | none => simp [h1]
  | some e => simp [h2 e he, h1]

theorem classify_rejected (err : GoError) (dropErr : error) (h : ¬ acceptedDropError err) :
    ∃ reason, DeleteIndex.classify err dropErr = some (errors.New (dropErrText reason)) := by
  unfold DeleteIndex.classify
  cases he : err.asIndexerError with
  | none =>
    by_cases hc : strings.Contains err.Error "Unknown Index Instance" = true
    · exact absurd ⟨hc, by simp [he]⟩ h
    · exact ⟨err.Error, by simp [hc]⟩
  | some e =>
    by_cases h1 : e.Code = IndexerErrCode.IndexNotExist
    · by_cases hc : strings.Contains err.Error "Unknown Index Instance" = true
      · refine absurd ⟨hc, ?_⟩ h
        intro e2 he2
        rw [he] at he2
        cases he2
        exact h1
      · exact ⟨err.Error, by simp [h1, hc]⟩
    · exact ⟨e.Reason, by simp [h1]⟩

theorem classifyAll_none (rs : List error) :
    ∀ dropErr : error,
      (rs.foldl (fun acc r =>
          match r with
          | some err => DeleteIndex.classify err acc
          | none => acc) dropErr = none) ↔
        (dropErr = none ∧ ∀ err, some err ∈ rs → acceptedDropError err) := by
  induction rs with
  | nil => intro dropErr; simp
  | cons r rest ih =>
    intro dropErr
    simp only [List.foldl_cons, ih, List.mem_cons]
    cases r with
    | none => simp
    | some err =>
      by_cases ha : acceptedDropError err
      · simp only [classify_accepted err dropErr ha]
        constructor
        · rintro ⟨h1, h2⟩
          refine ⟨h1, ?_⟩
          intro e he
          rcases he with he | he
          · cases he; exact ha
          · exact h2 e he
        · rintro ⟨h1, h2⟩
          exact ⟨h1, fun e he => h2 e (Or.inr he)⟩
      · obtain ⟨reason, hr⟩ := classify_rejected err dropErr ha
        simp only [hr]
        constructor
        · rintro ⟨h1, _⟩
          cases h1
        · rintro ⟨_, h2⟩
          exact absurd (h2 err (Or.inl rfl)) ha

theorem classifyAll_text (rs : List error) :
    ∀ (dropErr : error) (e : GoError),
      (∀ d, dropErr = some d →
        strings.Contains d.Error "Drop index will retry in background" = true) →
      rs.foldl (fun acc r =>
          match r with
          | some err => DeleteIndex.classify err acc
          | none => acc) dropErr = some e →
      strings.Contains e.Error "Drop index will retry in background" = true := by
  induction rs with
  | nil => intro dropErr e h he; exact h e (by simpa using he)
  | cons r rest ih =>
    intro dropErr e h he
    simp only [List.foldl_cons] at he
    refine ih _ e ?_ he
    cases r with
    | none => simpa using h
    | some err =>
      by_cases ha : acceptedDropError err
      · simpa [classify_accepted err dropErr ha] using h
      · obtain ⟨reason, hr⟩ := classify_rejected err dropErr ha
        intro d hd
        simp only [hr, Option.some.injEq] at hd
        subst hd
        simpa [errors.New, GoError.Error] using contains_dropErrText reason

/-! ## `DeleteIndex` when no repository call fails -/

theorem find_defn_id (ds : List IndexDefn) (id : Nat) (defn : IndexDefn)
    (h : ds.find? (fun d => d.DefnId == id) = some defn) : defn.DefnId = id := by
  simpa using List.find?_some h

theorem DeleteIndex_nil (m : LifecycleMgr) (id : Nat) (notify : Bool)
    (ctx : Option MetadataRequestContext) (defn : IndexDefn) (hf : m.repo.faults = [])
    (hd : m.repo.defns.find? (fun d => d.DefnId == id) = some defn) :
    ∃ ws, m.DeleteIndex id notify ctx =
      match notify, m.notifier with
      | true, some n =>
        match DeleteIndex.notifyDeleted defn.Bucket ctx
            ((m.repo.rows defn.Bucket id).map
              (fun i => { i with State := IndexState.INDEX_STATE_DELETED })) none n with
        | (some dropErr, n1) =>
          (some dropErr, { m with
            repo := { m.repo with topologies := m.repo.markedDeleted defn.Bucket id,
                                  writes := m.repo.writes ++ ws },
            notifier := some n1 })
        | (none, n1) =>
          DeleteIndex.cleanRepo defn { m with
            repo := { m.repo with topologies := m.repo.markedDeleted defn.Bucket id,
                                  writes := m.repo.writes ++ ws },
            notifier := some n1 }
      | _, _ =>
        DeleteIndex.cleanRepo defn { m with
          repo := { m.repo with topologies := m.repo.markedDeleted defn.Bucket id,
                                writes := m.repo.writes ++ ws } } := by
  have hid : defn.DefnId = id := find_defn_id _ _ _ hd
  obtain ⟨ws, hmark⟩ := markDeleted_rows m defn false hf
  rw [hid] at hmark
  refine ⟨ws, ?_⟩
  have hm : ({ m with repo := m.repo } : LifecycleMgr) = m := rfl
  simp only [LifecycleMgr.DeleteIndex, GetIndexDefnById_nil m.repo id hf, hd, hm,
    FindAllLocalIndexInst_nil m defn.Bucket id hf, hmark]
  cases notify with
  | false => rfl
  | true =>
    cases hn : m.notifier with
    | none => rfl
    | some n =>
      simp only
      rw [FindAllLocalIndexInst_nil _ defn.Bucket id (by simpa using hf)]
      simp only [rows_markedDeleted]

/-! ## Claims about `DeleteIndex` -/

/-- C1 (counterexample).  First: the indexer answers OnIndexDelete for instance 10 with a typed
indexer error of code IndexNotExist whose text is "index gone".  The specification counts
this error as success, yet DeleteIndex returns the "Drop index will retry in background"
error.  Second: the indexer answers with a typed indexer error of code InvalidBucket whose
text is "Unknown Index Instance 10"; the specification counts it as success because of its
text, yet DeleteIndex returns the retry error as well. -/
theorem DeleteIndex_IndexNotExist_not_accepted :
    (specAcceptedDropError
        (GoError.indexer { Reason := "index gone", Code := IndexerErrCode.IndexNotExist }
          "index gone") ∧
      ((oneReadyIndex []
          [some (GoError.indexer
            { Reason := "index gone", Code := IndexerErrCode.IndexNotExist }
            "index gone")]).DeleteIndex 1 true none).1 =
        some (errors.New
          "Encounter error when dropping index: index gone. Drop index will retry in background."))
      ∧
    (specAcceptedDropError
        (GoError.indexer
          { Reason := "Unknown Index Instance 10", Code := IndexerErrCode.InvalidBucket }
          "Unknown Index Instance 10") ∧
      ((oneReadyIndex []
          [some (GoError.indexer
            { Reason := "Unknown Index Instance 10", Code := IndexerErrCode.InvalidBucket }
            "Unknown Index Instance 10")]).DeleteIndex 1 true none).1 =
        some (errors.New
          ("Encounter error when dropping index: Unknown Index Instance 10. " ++
            "Drop index will retry in background."))) := by
  refine ⟨⟨Or.inl ⟨_, rfl, rfl⟩, ?_⟩, ⟨Or.inr ?_, ?_⟩⟩ <;> decide

/-- C1 (amended).  In DeleteIndex with notify=true, when no repository call fails and the
definition resolves, the drop proceeds without error if and only if every error returned by
OnIndexDelete for an instance row has a text containing "Unknown Index Instance" and is
either no typed indexer error or a typed indexer error with code IndexNotExist; in every
other case DeleteIndex returns an error whose text contains
"Drop index will retry in background". -/
theorem DeleteIndex_drop_error_classification (m : LifecycleMgr) (id : Nat)
    (ctx : Option MetadataRequestContext) (defn : IndexDefn) (n : MetadataNotifier)
    (hf : m.repo.faults = [])
    (hd : m.repo.defns.find? (fun d => d.DefnId == id) = some defn)
    (hn : m.notifier = some n) :
    ((m.DeleteIndex id true ctx).1 = none ↔
        ∀ err, some err ∈ n.replies.take (m.repo.rows defn.Bucket id).length →
          acceptedDropError err) ∧
      (∀ e, (m.DeleteIndex id true ctx).1 = some e →
        strings.Contains e.Error "Drop index will retry in background" = true) := by
  obtain ⟨ws, h⟩ := DeleteIndex_nil m id true ctx defn hf hd
  rw [h, hn]
  simp only [notifyDeleted_spec, List.length_map]
  have hnone := classifyAll_none (n.replies.take (m.repo.rows defn.Bucket id).length) none
  have htext := classifyAll_text (n.replies.take (m.repo.rows defn.Bucket id).length) none
  cases hres : (n.replies.take (m.repo.rows defn.Bucket id).length).foldl (fun acc r =>
      match r with
      | some err => DeleteIndex.classify err acc
      | none => acc) none with
  | none =>
    rw [hres] at hnone
    simp only [DeleteIndex.cleanRepo, true_iff]
    exact ⟨(hnone.mp rfl).2, fun e he => by cases he⟩
  | some d =>
    rw [hres] at hnone
    refine ⟨⟨fun hc => (nomatch hc), fun hall => ?_⟩, ?_⟩
    · have := hnone.mpr ⟨rfl, hall⟩
      cases this
    · intro e he
      cases he
      exact htext d (fun _ hx => by cases hx) hres

/-- C1 (witness).  Instance 10 is dropped although the indexer answers with the untyped error
"Unknown Index Instance 10". -/
theorem DeleteIndex_drop_error_classification_witness :
    (((oneReadyIndex [] [some (GoError.plain "Unknown Index Instance 10")]).DeleteIndex
          1 true none).1 = none ↔
        ∀ err, some err ∈ [some (GoError.plain "Unknown Index Instance 10")].take
            ((oneReadyIndex [] [some (GoError.plain "Unknown Index Instance 10")]).repo.rows
              (exampleDefn 1 "i" PartitionScheme.SINGLE).Bucket 1).length →
          acceptedDropError err) ∧
      (∀ e, ((oneReadyIndex [] [some (GoError.plain "Unknown Index Instance 10")]).DeleteIndex
          1 true none).1 = some e →
        strings.Contains e.Error "Drop index will retry in background" = true) :=
  DeleteIndex_drop_error_classification
    (oneReadyIndex [] [some (GoError.plain "Unknown Index Instance 10")]) 1 none
    (exampleDefn 1 "i" PartitionScheme.SINGLE)
    { replies := [some (GoError.plain "Unknown Index Instance 10")], buildReplies := [],
      calls := [] }
    rfl (by decide) rfl

/-- C2 (the code at the failing input).  Definition 1 has the READY instance 10 and the write
of the topology fails while the instance is being marked DELETED.  DeleteIndex stops without
removing the definition record or the topology rows and without calling the indexer, but it
returns nil, not an error. -/
theorem DeleteIndex_mark_failure_returns_nil :
    ((oneReadyIndex [none, none, none, some (GoError.plain "write failed")] []).DeleteIndex
        1 true none).1 = none ∧
      ((oneReadyIndex [none, some (GoError.plain "write failed")] []).updateIndexState
        "b" 1 10 IndexState.INDEX_STATE_DELETED).1 = some (GoError.plain "write failed") ∧
      ((oneReadyIndex [none, none, none, some (GoError.plain "write failed")] []).DeleteIndex
        1 true none).2.notifier.map (fun n => n.calls) = some [] ∧
      ((oneReadyIndex [none, none, none, some (GoError.plain "write failed")] []).DeleteIndex
        1 true none).2.repo.defns = [exampleDefn 1 "i" PartitionScheme.SINGLE] ∧
      ((oneReadyIndex [none, none, none, some (GoError.plain "write failed")] []).DeleteIndex
        1 true none).2.repo.topologies =
        [exampleTopology [(1, "i",
          [exampleInst 10 IndexState.INDEX_STATE_READY RebalanceState.REBAL_ACTIVE])]] := by
  decide

theorem cleanRepo_nil (defn : IndexDefn) (m : LifecycleMgr) (hf : m.repo.faults = []) :
    DeleteIndex.cleanRepo defn m =
      (none, { m with repo := { m.repo with
        defns := m.repo.defns.filter (fun d => d.DefnId != defn.DefnId),
        topologies := m.repo.topologies.map (fun t =>
          if t.Bucket = defn.Bucket then
            { t with Definitions := t.Definitions.filter (fun d => d.DefnId != defn.DefnId) }
          else t),
        writes := m.repo.writes ++ [RepoWrite.DropIndexById defn.DefnId,
          RepoWrite.deleteIndexFromTopology defn.Bucket defn.DefnId] } }) := by
  simp [DeleteIndex.cleanRepo, MetadataRepo.DropIndexById, MetadataRepo.deleteIndexFromTopology,
    MetadataRepo.fault, hf]

theorem find_filter_ne (ds : List IndexDefn) (id : Nat) :
    (ds.filter (fun d => d.DefnId != id)).find? (fun d => d.DefnId == id) = none := by
  induction ds with
  | nil => rfl
  | cons d rest ih =>
    by_cases h : d.DefnId = id
    · simp [List.filter_cons, h, ih]
    · simp [List.filter_cons, h, ih, List.find?_cons]

theorem DeleteIndex_missing (m : LifecycleMgr) (id : Nat) (notify : Bool)
    (ctx : Option MetadataRequestContext) (hf : m.repo.faults = [])
    (hd : m.repo.defns.find? (fun d => d.DefnId == id) = none) :
    m.DeleteIndex id notify ctx = (none, m) := by
  simp [LifecycleMgr.DeleteIndex, GetIndexDefnById_nil m.repo id hf, hd]

theorem DeleteIndex_after_cleanRepo (defn : IndexDefn) (m : LifecycleMgr) (id : Nat)
    (notify2 : Bool) (ctx2 : Option MetadataRequestContext) (hid : defn.DefnId = id)
    (hf : m.repo.faults = []) :
    (DeleteIndex.cleanRepo defn m).2.DeleteIndex id notify2 ctx2 =
      (none, (DeleteIndex.cleanRepo defn m).2) := by
  rw [cleanRepo_nil defn m hf]
  apply DeleteIndex_missing
  · exact hf
  · rw [← hid]
    exact find_filter_ne _ _

/-- C3 (counterexample).  Definition 1 has the READY instance 10; in the first DeleteIndex the
repository fails to drop the definition record, an error that DeleteIndex ignores.  Both
calls return nil, but the second call changes the repository: the definition record that the
first call left behind is removed by the second. -/
theorem DeleteIndex_second_call_changes_repo :
    ((oneReadyIndex [none, none, none, none, none, some (GoError.plain "write failed")]
        []).DeleteIndex 1 true none).1 = none ∧
      ((oneReadyIndex [none, none, none, none, none, some (GoError.plain "write failed")]
        []).DeleteIndex 1 true none).2.repo.defns = [exampleDefn 1 "i" PartitionScheme.SINGLE] ∧
      ((((oneReadyIndex [none, none, none, none, none, some (GoError.plain "write failed")]
        []).DeleteIndex 1 true none).2).DeleteIndex 1 true none).1 = none ∧
      ((((oneReadyIndex [none, none, none, none, none, some (GoError.plain "write failed")]
        []).DeleteIndex 1 true none).2).DeleteIndex 1 true none).2.repo.defns = [] := by
  decide

/-- C3 (amended).  DeleteIndex on a DefnId whose lookup finds no definition record returns
success and changes nothing: the definitions, the topologies and the log of repository writes
are as before, and the indexer receives no callback.  Hence, for every repository state, when
no repository call fails, running DeleteIndex(d) successfully and then DeleteIndex(d) again
gives two successes and the second call leaves the state exactly as the first left it. -/
theorem DeleteIndex_idempotent (m : LifecycleMgr) (id : Nat) (notify notify2 : Bool)
    (ctx ctx2 : Option MetadataRequestContext) :
    (∀ r1, m.repo.GetIndexDefnById id = (none, none, r1) →
        m.DeleteIndex id notify ctx = (none, { m with repo := r1 }) ∧
          r1.defns = m.repo.defns ∧ r1.topologies = m.repo.topologies ∧
          r1.writes = m.repo.writes) ∧
      (m.repo.faults = [] → (m.DeleteIndex id notify ctx).1 = none →
        (m.DeleteIndex id notify ctx).2.DeleteIndex id notify2 ctx2 =
          (none, (m.DeleteIndex id notify ctx).2)) := by
  constructor
  · intro r1 h
    refine ⟨by simp [LifecycleMgr.DeleteIndex, h], ?_⟩
    simp only [MetadataRepo.GetIndexDefnById, MetadataRepo.fault] at h
    cases hfs : m.repo.faults with
    | nil =>
      rw [hfs] at h
      simp only [Prod.mk.injEq, true_and] at h
      rw [← h.2]
      exact ⟨rfl, rfl, rfl⟩
    | cons f rest =>
      rw [hfs] at h
      cases f with
      | some err => simp at h
      | none =>
        simp only [Prod.mk.injEq, true_and] at h
        rw [← h.2]
        exact ⟨rfl, rfl, rfl⟩
  · intro hf h1
    cases hd : m.repo.defns.find? (fun d => d.DefnId == id) with
    | none =>
      rw [DeleteIndex_missing m id notify ctx hf hd]
      exact DeleteIndex_missing m id notify2 ctx2 hf hd
    | some defn =>
      have hid : defn.DefnId = id := find_defn_id _ _ _ hd
      obtain ⟨ws, h⟩ := DeleteIndex_nil m id notify ctx defn hf hd
      rw [h] at h1 ⊢
      cases notify with
      | false =>
        exact DeleteIndex_after_cleanRepo defn _ id notify2 ctx2 hid hf
      | true =>
        cases hn : m.notifier with
        | none =>
          exact DeleteIndex_after_cleanRepo defn _ id notify2 ctx2 hid hf
        | some n =>
          rw [hn] at h1
          simp only at h1 ⊢
          cases hres : DeleteIndex.notifyDeleted defn.Bucket ctx
              ((m.repo.rows defn.Bucket id).map
                (fun i => { i with State := IndexState.INDEX_STATE_DELETED })) none n with
          | mk res n1 =>
            rw [hres] at h1
            cases res with
            | some d => simp at h1
            | none =>
              exact DeleteIndex_after_cleanRepo defn _ id notify2 ctx2 hid hf

/-- C3 (witness).  Dropping definition 1 twice when no repository call fails. -/
theorem DeleteIndex_idempotent_witness :
    (oneReadyIndex [] []).repo.faults = [] ∧
      ((oneReadyIndex [] []).DeleteIndex 1 true none).1 = none ∧
      ((oneReadyIndex [] []).DeleteIndex 1 true none).2.DeleteIndex 1 true none =
        (none, ((oneReadyIndex [] []).DeleteIndex 1 true none).2) :=
  ⟨rfl, by decide,
    (DeleteIndex_idempotent (oneReadyIndex [] []) 1 true true none none).2 rfl (by decide)⟩

theorem DeleteIndex_nil_calls (m : LifecycleMgr) (id : Nat)
    (ctx : Option MetadataRequestContext) (defn : IndexDefn) (n : MetadataNotifier)
    (hf : m.repo.faults = [])
    (hd : m.repo.defns.find? (fun d => d.DefnId == id) = some defn)
    (hn : m.notifier = some n) :
    ((m.DeleteIndex id true ctx).2.notifier.map (fun n => n.calls)) =
      some (n.calls ++ (m.repo.rows defn.Bucket id).map
        (fun i => NotifierCall.OnIndexDelete i.InstId defn.Bucket ctx)) := by
  obtain ⟨ws, h⟩ := DeleteIndex_nil m id true ctx defn hf hd
  rw [h, hn]
  simp only [notifyDeleted_spec, List.map_map]
  cases (n.replies.take ((m.repo.rows defn.Bucket id).map
      (fun i => { i with State := IndexState.INDEX_STATE_DELETED })).length).foldl (fun acc r =>
      match r with
      | some err => DeleteIndex.classify err acc
      | none => acc) none with
  | none => simp [DeleteIndex.cleanRepo, Function.comp]
  | some d => simp [Function.comp]

/-- C4.  When no repository call fails and DeleteIndex with notify=true returns an error, the
error is the "Drop index will retry in background" error and the repository is not cleaned:
the definition record still exists, the definition records are as before, the topologies are
the old ones except that the listed instance rows of the definition are now DELETED (no row
is removed), and a later DeleteIndex of the same DefnId finds the definition and calls
OnIndexDelete again for every one of these rows. -/
theorem DeleteIndex_retry_error_keeps_repo (m : LifecycleMgr) (id : Nat)
    (ctx : Option MetadataRequestContext) (e : GoError) (m1 : LifecycleMgr)
    (hf : m.repo.faults = []) (h : m.DeleteIndex id true ctx = (some e, m1)) :
    strings.Contains e.Error "Drop index will retry in background" = true ∧
      ∃ defn n1,
        m1.repo.defns.find? (fun d => d.DefnId == id) = some defn ∧
        m1.repo.defns = m.repo.defns ∧
        m1.repo.topologies = m.repo.markedDeleted defn.Bucket id ∧
        m1.repo.rows defn.Bucket id =
          (m.repo.rows defn.Bucket id).map
            (fun i => { i with State := IndexState.INDEX_STATE_DELETED }) ∧
        m1.notifier = some n1 ∧
        ∀ ctx2, ((m1.DeleteIndex id true ctx2).2.notifier.map (fun n => n.calls)) =
          some (n1.calls ++ (m.repo.rows defn.Bucket id).map
            (fun i => NotifierCall.OnIndexDelete i.InstId defn.Bucket ctx2)) := by
  cases hd : m.repo.defns.find? (fun d => d.DefnId == id) with
  | none =>
    rw [DeleteIndex_missing m id true ctx hf hd] at h
    cases h
  | some defn =>
    obtain ⟨ws, h0⟩ := DeleteIndex_nil m id true ctx defn hf hd
    rw [h0] at h
    cases hn : m.notifier with
    | none =>
      rw [hn] at h
      simp [DeleteIndex.cleanRepo] at h
    | some n =>
      rw [hn] at h
      simp only [notifyDeleted_spec, List.length_map] at h
      have htext := classifyAll_text (n.replies.take (m.repo.rows defn.Bucket id).length) none
      cases hres : (n.replies.take (m.repo.rows defn.Bucket id).length).foldl (fun acc r =>
          match r with
          | some err => DeleteIndex.classify err acc
          | none => acc) none with
      | none =>
        rw [hres] at h
        simp [DeleteIndex.cleanRepo] at h
      | some d =>
        rw [hres] at h
        simp only [Prod.mk.injEq, Option.some.injEq] at h
        obtain ⟨h1, h2⟩ := h
        subst h1
        subst h2
        refine ⟨htext d (fun _ hx => nomatch hx) hres, defn, _, hd, rfl, rfl,
          rows_markedDeleted m.repo defn.Bucket id _, rfl, ?_⟩
        intro ctx2
        refine (DeleteIndex_nil_calls
          { m with
            repo := { m.repo with topologies := m.repo.markedDeleted defn.Bucket id,
                                  writes := m.repo.writes ++ ws },
            notifier := some
              { replies := n.replies.drop (m.repo.rows defn.Bucket id).length,
                buildReplies := n.buildReplies,
                calls := n.calls ++ ((m.repo.rows defn.Bucket id).map
                  (fun i => { i with State := IndexState.INDEX_STATE_DELETED })).map
                  (fun i => NotifierCall.OnIndexDelete i.InstId defn.Bucket ctx) } }
          id ctx2 defn _ hf hd rfl).trans ?_
        rw [rows_markedDeleted]
        simp [Function.comp]

/-- C4 (witness).  The indexer refuses to delete instance 10 with the error "disk busy". -/
theorem DeleteIndex_retry_error_keeps_repo_witness :
    (oneReadyIndex [] [some (GoError.plain "disk busy")]).repo.faults = [] ∧
      strings.Contains (GoError.plain (dropErrText "disk busy")).Error
        "Drop index will retry in background" = true ∧
      ∃ defn n1,
        ((oneReadyIndex [] [some (GoError.plain "disk busy")]).DeleteIndex 1 true
            none).2.repo.defns.find? (fun d => d.DefnId == 1) = some defn ∧
        ((oneReadyIndex [] [some (GoError.plain "disk busy")]).DeleteIndex 1 true
            none).2.repo.defns = (oneReadyIndex [] [some (GoError.plain "disk busy")]).repo.defns ∧
        ((oneReadyIndex [] [some (GoError.plain "disk busy")]).DeleteIndex 1 true
            none).2.repo.topologies =
          (oneReadyIndex [] [some (GoError.plain "disk busy")]).repo.markedDeleted defn.Bucket 1 ∧
        ((oneReadyIndex [] [some (GoError.plain "disk busy")]).DeleteIndex 1 true
            none).2.repo.rows defn.Bucket 1 =
          ((oneReadyIndex [] [some (GoError.plain "disk busy")]).repo.rows defn.Bucket 1).map
            (fun i => { i with State := IndexState.INDEX_STATE_DELETED }) ∧
        ((oneReadyIndex [] [some (GoError.plain "disk busy")]).DeleteIndex 1 true
            none).2.notifier = some n1 ∧
        ∀ ctx2, (((((oneReadyIndex [] [some (GoError.plain "disk busy")]).DeleteIndex 1 true
            none).2).DeleteIndex 1 true ctx2).2.notifier.map (fun n => n.calls)) =
          some (n1.calls ++
            ((oneReadyIndex [] [some (GoError.plain "disk busy")]).repo.rows defn.Bucket 1).map
              (fun i => NotifierCall.OnIndexDelete i.InstId defn.Bucket ctx2)) :=
  ⟨rfl, DeleteIndex_retry_error_keeps_repo
    (oneReadyIndex [] [some (GoError.plain "disk busy")]) 1 none
    (GoError.plain (dropErrText "disk busy"))
    ((oneReadyIndex [] [some (GoError.plain "disk busy")]).DeleteIndex 1 true none).2
    rfl (by decide)⟩

/-! ## Claims about `canRetryError` -/

/-- C8 (counterexample).  For an instance whose rebalance state is ACTIVE and an error that
is not a typed indexer error, canRetryError returns true, while the rule of the specification
says that a non-typed error is not retryable. -/
theorem canRetryError_untyped_is_retryable :
    LifecycleMgr.canRetryError
        (some (exampleInst 10 IndexState.INDEX_STATE_READY RebalanceState.REBAL_ACTIVE))
        (GoError.plain "timeout") false = true ∧
      ¬ specCanRetryError
        (some (exampleInst 10 IndexState.INDEX_STATE_READY RebalanceState.REBAL_ACTIVE))
        (GoError.plain "timeout") false := by
  refine ⟨by decide, ?_⟩
  rintro ⟨_, e, he, _⟩
  cases he

/-- C8 (amended).  canRetryError(inst, err, retryAllowed) returns true if and only if inst
exists with rebalance state ACTIVE and err is either not a typed indexer error, or a typed
indexer error whose code is none of IndexNotExist, InvalidBucket, IndexAlreadyExist,
IndexInvalidState and for which it is not the case that retryAllowed is false and the code is
RebalanceInProgress. -/
theorem canRetryError_iff (inst : Option IndexInstDistribution) (err : GoError)
    (retry : Bool) :
    LifecycleMgr.canRetryError inst err retry = true ↔
      (∃ i, inst = some i ∧ i.RState = RebalanceState.REBAL_ACTIVE) ∧
        (err.asIndexerError = none ∨
          ∃ e, err.asIndexerError = some e ∧
            e.Code ≠ IndexerErrCode.IndexNotExist ∧ e.Code ≠ IndexerErrCode.InvalidBucket ∧
            e.Code ≠ IndexerErrCode.IndexAlreadyExist ∧
            e.Code ≠ IndexerErrCode.IndexInvalidState ∧
            ¬ (retry = false ∧ e.Code = IndexerErrCode.RebalanceInProgress)) := by
  unfold LifecycleMgr.canRetryError
  cases inst with
  | none => simp
  | some i =>
    by_cases hr : i.RState = RebalanceState.REBAL_ACTIVE
    · cases he : err.asIndexerError with
      | none => simp [hr]
      | some e =>
        simp only [hr, ne_eq, not_true_eq_false, if_false, Option.some.injEq, exists_eq_left',
          true_and, false_or, reduceCtorEq]
        by_cases h1 : e.Code = IndexerErrCode.IndexNotExist
        · simp [h1]
        · by_cases h2 : e.Code = IndexerErrCode.InvalidBucket
          · simp [h2]
          · by_cases h3 : e.Code = IndexerErrCode.IndexAlreadyExist
            · simp [h3]
            · by_cases h4 : e.Code = IndexerErrCode.IndexInvalidState
              · simp [h4]
              · cases retry <;> simp [h1, h2, h3, h4]
    · simp [hr]


/-! ## Claims about `verifyOverlapPartition` -/

theorem contains_overlapError (instId partnId : Nat) :
    strings.Contains (overlapError instId partnId).Error "overlapping partition" = true := by
  simp only [strings.Contains, overlapError, GoError.Error, decide_eq_true_eq,
    String.data_append]
  exact ⟨"Found ".data, " when rebalancing.  Instance ".data ++ (toString instId).data ++
    " partition ".data ++ (toString partnId).data ++ ".".data, by simp⟩

/-- The hit test of one stored partition against the requested partition. -/
theorem scanPartitions_spec (defn : IndexDefn) (i partnId : Nat) (inst : IndexInstDistribution)
    (version : Int) (hv : defn.Versions.get? i = some version)
    (parts : List IndexPartDistribution) :
    ((∃ partn ∈ parts, partn.PartId = partnId ∧
          inst.State ≠ IndexState.INDEX_STATE_DELETED ∧
          (inst.RState = RebalanceState.REBAL_ACTIVE ∨
            inst.RState = RebalanceState.REBAL_MERGED ∨ partn.Version ≥ version)) →
        verifyOverlapPartition.scanPartitions defn i partnId inst parts =
          Check.reject (overlapError inst.InstId partnId)) ∧
      ((¬ ∃ partn ∈ parts, partn.PartId = partnId ∧
          inst.State ≠ IndexState.INDEX_STATE_DELETED ∧
          (inst.RState = RebalanceState.REBAL_ACTIVE ∨
            inst.RState = RebalanceState.REBAL_MERGED ∨ partn.Version ≥ version)) →
        verifyOverlapPartition.scanPartitions defn i partnId inst parts = Check.pass) := by
  induction parts with
  | nil =>
    constructor
    · rintro ⟨p, hp, _⟩
      cases hp
    · intro _
      rfl
  | cons partn rest ih =>
    by_cases hhit : partn.PartId = partnId ∧ inst.State ≠ IndexState.INDEX_STATE_DELETED ∧
        (inst.RState = RebalanceState.REBAL_ACTIVE ∨
          inst.RState = RebalanceState.REBAL_MERGED ∨ partn.Version ≥ version)
    · constructor
      · intro _
        obtain ⟨h1, h2, h3⟩ := hhit
        unfold verifyOverlapPartition.scanPartitions
        rw [if_pos ⟨h1, h2⟩]
        by_cases hr : inst.RState = RebalanceState.REBAL_MERGED ∨
            inst.RState = RebalanceState.REBAL_ACTIVE
        · rw [if_pos hr]
        · rw [if_neg hr, hv]
          have hge : partn.Version ≥ version := by
            rcases h3 with h | h | h
            · exact absurd (Or.inr h) hr
            · exact absurd (Or.inl h) hr
            · exact h
          simp [hge]
      · intro hno
        exact absurd ⟨partn, List.mem_cons_self _ _, hhit⟩ hno
    · have hstep : verifyOverlapPartition.scanPartitions defn i partnId inst (partn :: rest) =
          verifyOverlapPartition.scanPartitions defn i partnId inst rest := by
        conv_lhs => unfold verifyOverlapPartition.scanPartitions
        by_cases hc : partn.PartId = partnId ∧ inst.State ≠ IndexState.INDEX_STATE_DELETED
        · rw [if_pos hc]
          have hr : ¬ (inst.RState = RebalanceState.REBAL_MERGED ∨
              inst.RState = RebalanceState.REBAL_ACTIVE) := by
            intro h
            apply hhit
            refine ⟨hc.1, hc.2, ?_⟩
            rcases h with h | h
            · exact Or.inr (Or.inl h)
            · exact Or.inl h
          rw [if_neg hr, hv]
          have hlt : ¬ partn.Version ≥ version := fun h => hhit ⟨hc.1, hc.2, Or.inr (Or.inr h)⟩
          simp [hlt]
        · rw [if_neg hc]
      rw [hstep]
      constructor
      · rintro ⟨p, hp, hcond⟩
        rcases List.mem_cons.mp hp with h | h
        · subst h
          exact absurd hcond hhit
        · exact ih.1 ⟨p, h, hcond⟩
      · intro hno
        exact ih.2 (fun ⟨p, hp, hcond⟩ => hno ⟨p, List.mem_cons_of_mem _ hp, hcond⟩)

theorem scanInsts_spec (defn : IndexDefn) (i partnId : Nat) (version : Int)
    (hv : defn.Versions.get? i = some version) (insts : List IndexInstDistribution)
    (hdup : ∀ inst ∈ insts, inst.InstId ≠ defn.InstId) :
    ((∃ inst ∈ insts, overlapsInst defn partnId version inst) →
        ∃ a, verifyOverlapPartition.scanInsts defn i partnId insts =
          Check.reject (overlapError a partnId)) ∧
      ((¬ ∃ inst ∈ insts, overlapsInst defn partnId version inst) →
        verifyOverlapPartition.scanInsts defn i partnId insts = Check.pass) := by
  induction insts with
  | nil =>
    constructor
    · rintro ⟨x, hx, _⟩
      cases hx
    · intro _
      rfl
  | cons inst rest ih =>
    have hne : inst.InstId ≠ defn.InstId := hdup inst (List.mem_cons_self _ _)
    have ih1 := ih (fun x hx => hdup x (List.mem_cons_of_mem _ hx))
    have hparts := scanPartitions_spec defn i partnId inst version hv inst.Partitions
    by_cases hhit : overlapsInst defn partnId version inst
    · constructor
      · intro _
        refine ⟨inst.InstId, ?_⟩
        unfold verifyOverlapPartition.scanInsts
        rw [if_neg hne, if_pos hhit.1, hparts.1 hhit.2]
      · intro hno
        exact absurd ⟨inst, List.mem_cons_self _ _, hhit⟩ hno
    · have hstep : verifyOverlapPartition.scanInsts defn i partnId (inst :: rest) =
          verifyOverlapPartition.scanInsts defn i partnId rest := by
        conv_lhs => unfold verifyOverlapPartition.scanInsts
        rw [if_neg hne]
        by_cases hreal : inst.InstId = defn.RealInstId ∨ inst.RealInstId = defn.RealInstId
        · rw [if_pos hreal, hparts.2 (fun h => hhit ⟨hreal, h⟩)]
        · rw [if_neg hreal]
      rw [hstep]
      constructor
      · rintro ⟨x, hx, hcond⟩
        rcases List.mem_cons.mp hx with h | h
        · subst h
          exact absurd hcond hhit
        · exact ih1.1 ⟨x, h, hcond⟩
      · intro hno
        exact ih1.2 (fun ⟨x, hx, hcond⟩ => hno ⟨x, List.mem_cons_of_mem _ hx, hcond⟩)

theorem scanRequested_spec (defn : IndexDefn) (insts : List IndexInstDistribution)
    (hdup : ∀ inst ∈ insts, inst.InstId ≠ defn.InstId) (ps : List Nat) :
    ∀ i : Nat, (∀ k, k < ps.length → ∃ v, defn.Versions.get? (i + k) = some v) →
      ((∃ k partnId version, ps.get? k = some partnId ∧
            defn.Versions.get? (i + k) = some version ∧
            ∃ inst ∈ insts, overlapsInst defn partnId version inst) →
          ∃ a b, verifyOverlapPartition.scanRequested defn insts i ps =
            Check.reject (overlapError a b)) ∧
        ((¬ ∃ k partnId version, ps.get? k = some partnId ∧
            defn.Versions.get? (i + k) = some version ∧
            ∃ inst ∈ insts, overlapsInst defn partnId version inst) →
          verifyOverlapPartition.scanRequested defn insts i ps = Check.pass) := by
  induction ps with
  | nil =>
    intro i _
    constructor
    · rintro ⟨k, p, v, hk, _⟩
      simp at hk
    · intro _
      rfl
  | cons partnId rest ih =>
    intro i hvers
    obtain ⟨version, hv⟩ := hvers 0 (by simp)
    rw [Nat.add_zero] at hv
    have hinst := scanInsts_spec defn i partnId version hv insts hdup
    have ih1 := ih (i + 1) (fun k hk => by
      have := hvers (k + 1) (by simpa using hk)
      rwa [show i + (k + 1) = i + 1 + k by omega] at this)
    by_cases hhit : ∃ inst ∈ insts, overlapsInst defn partnId version inst
    · constructor
      · intro _
        obtain ⟨a, ha⟩ := hinst.1 hhit
        exact ⟨a, partnId, by simp [verifyOverlapPartition.scanRequested, ha]⟩
      · intro hno
        exact absurd ⟨0, partnId, version, rfl, by simpa using hv, hhit⟩ hno
    · have hstep : verifyOverlapPartition.scanRequested defn insts i (partnId :: rest) =
          verifyOverlapPartition.scanRequested defn insts (i + 1) rest := by
        simp [verifyOverlapPartition.scanRequested, hinst.2 hhit]
      rw [hstep]
      constructor
      · rintro ⟨k, p, v, hk, hkv, hcond⟩
        cases k with
        | zero =>
          simp only [List.get?_cons_zero, Option.some.injEq] at hk
          subst hk
          rw [Nat.add_zero, hv] at hkv
          cases hkv
          exact absurd hcond hhit
        | succ k =>
          refine ih1.1 ⟨k, p, v, by simpa using hk, ?_, hcond⟩
          rwa [show i + (k + 1) = i + 1 + k by omega] at hkv
      · intro hno
        apply ih1.2
        rintro ⟨k, p, v, hk, hkv, hcond⟩
        exact hno ⟨k + 1, p, v, by simpa using hk,
          by rwa [show i + (k + 1) = i + 1 + k by omega], hcond⟩

theorem GetIndexDefnByName_nil (r : MetadataRepo) (bucket name : String)
    (h : r.faults = []) :
    r.GetIndexDefnByName bucket name =
      (r.defns.find? (fun d => d.Bucket == bucket && d.Name == name), none, r) := by
  simp [MetadataRepo.GetIndexDefnByName, fault_nil r h]

/-- C6.  Overlap guard: for a rebalance-origin create of a partitioned index with non-zero
RealInstId, no duplicate InstId and one requested version per requested partition (and a
repository whose reads succeed), verifyOverlapPartition rejects the request with an error
containing "overlapping partition" if some requested partition is overlapped by an existing
instance of the same-named definition, and accepts it (returns nil) otherwise; the state is
not changed. -/
theorem verifyOverlapPartition_rejects_iff (m : LifecycleMgr) (defn : IndexDefn)
    (reqCtx : MetadataRequestContext)
    (hsrc : reqCtx.ReqSource = DDLRequestSource.DDLRequestSourceRebalance)
    (hpart : IsPartitioned defn.PartitionScheme = true)
    (hreal : defn.RealInstId ≠ 0)
    (hf : m.repo.faults = [])
    (hdup : ∀ inst ∈ m.repo.rowsByName defn.Bucket defn.Name, inst.InstId ≠ defn.InstId)
    (hlen : defn.Versions.length = defn.Partitions.length) :
    (overlapsExisting defn (m.repo.rowsByName defn.Bucket defn.Name) →
        ∃ e, m.verifyOverlapPartition defn reqCtx = some (some e, m) ∧
          strings.Contains e.Error "overlapping partition" = true) ∧
      (¬ overlapsExisting defn (m.repo.rowsByName defn.Bucket defn.Name) →
        m.verifyOverlapPartition defn reqCtx = some (none, m)) := by
  have hm : ({ m with repo := m.repo } : LifecycleMgr) = m := rfl
  have hvers : ∀ k, k < defn.Partitions.length → ∃ v, defn.Versions.get? (0 + k) = some v := by
    intro k hk
    rw [Nat.zero_add]
    exact ⟨defn.Versions.get ⟨k, by omega⟩, List.get?_eq_get _⟩
  have hunfold : m.verifyOverlapPartition defn reqCtx =
      match m.repo.defns.find? (fun d => d.Bucket == defn.Bucket && d.Name == defn.Name) with
      | none => some (none, m)
      | some existDefn =>
        match m.repo.topologies.find? (fun t => t.Bucket == existDefn.Bucket) with
        | none => some (none, m)
        | some topology =>
          match verifyOverlapPartition.scanRequested defn
              (topology.GetIndexInstancesByDefn existDefn.DefnId) 0 defn.Partitions with
          | Check.pass => some (none, m)
          | Check.reject err => some (some err, m)
          | Check.panic => none := by
    simp only [LifecycleMgr.verifyOverlapPartition, hsrc, hpart, and_self, if_true, hreal,
      if_false, GetIndexDefnByName_nil m.repo _ _ hf]
    cases m.repo.defns.find? (fun d => d.Bucket == defn.Bucket && d.Name == defn.Name) with
    | none => rfl
    | some existDefn =>
      simp only [GetTopologyByBucket_nil m.repo _ hf]
      cases m.repo.topologies.find? (fun t => t.Bucket == existDefn.Bucket) <;> rfl
  rw [hunfold]
  unfold MetadataRepo.rowsByName at hdup ⊢
  cases hex : m.repo.defns.find? (fun d => d.Bucket == defn.Bucket && d.Name == defn.Name) with
  | none =>
    refine ⟨?_, fun _ => rfl⟩
    rintro ⟨i, p, v, _, _, inst, hinst, _⟩
    cases hinst
  | some existDefn =>
    rw [hex] at hdup
    dsimp only at hdup ⊢
    cases ht : m.repo.topologies.find? (fun t => t.Bucket == existDefn.Bucket) with
    | none =>
      dsimp only
      refine ⟨?_, fun _ => rfl⟩
      rintro ⟨i, p, v, _, _, inst, hinst, _⟩
      cases hinst
    | some topology =>
      rw [ht] at hdup
      dsimp only at hdup ⊢
      have hspec := scanRequested_spec defn (topology.GetIndexInstancesByDefn existDefn.DefnId)
        hdup defn.Partitions 0 hvers
      simp only [Nat.zero_add] at hspec
      constructor
      · intro hov
        obtain ⟨a, b, hab⟩ := hspec.1 hov
        exact ⟨overlapError a b, by simp [hab], contains_overlapError a b⟩
      · intro hno
        simp [hspec.2 hno]

/-- C6 (witness).  The existing real instance 10 holds partition 7 at version 2 in rebalance
state ACTIVE: the request for partition 7 at version 2 with RealInstId 10 is rejected.  When
the instance is PENDING with the lower version 1, nothing overlaps and the request passes. -/
theorem verifyOverlapPartition_rejects_iff_witness :
    (∃ e, (onePartitionedIndex RebalanceState.REBAL_ACTIVE 2).verifyOverlapPartition
          (rebalanceRequest 11 10 [7] [2])
          { ReqSource := DDLRequestSource.DDLRequestSourceRebalance } =
        some (some e, onePartitionedIndex RebalanceState.REBAL_ACTIVE 2) ∧
        strings.Contains e.Error "overlapping partition" = true) ∧
      (onePartitionedIndex RebalanceState.REBAL_PENDING 1).verifyOverlapPartition
          (rebalanceRequest 11 10 [7] [2])
          { ReqSource := DDLRequestSource.DDLRequestSourceRebalance } =
        some (none, onePartitionedIndex RebalanceState.REBAL_PENDING 1) :=
  ⟨(verifyOverlapPartition_rejects_iff (onePartitionedIndex RebalanceState.REBAL_ACTIVE 2)
      (rebalanceRequest 11 10 [7] [2])
      { ReqSource := DDLRequestSource.DDLRequestSourceRebalance } rfl rfl (by decide) rfl
      (by decide) rfl).1
      ⟨0, 7, 2, rfl, rfl,
        { exampleInst 10 IndexState.INDEX_STATE_ACTIVE RebalanceState.REBAL_ACTIVE with
            Partitions := [{ PartId := 7, Version := 2 }], NumPartitions := 1 },
        by decide, Or.inl rfl, { PartId := 7, Version := 2 }, by decide, rfl, by decide,
        Or.inl rfl⟩,
    by decide⟩

/-- C7 (the code at the failing input).  Instance 10 is already recorded for definition "i".
A rebalance-origin create request with InstId 10, RealInstId 12 and an empty partition list
passes verifyOverlapPartition (it returns nil), while the same request with the partition
list [7] is rejected with the duplicate-instance error: the guard against a duplicate
instance id sits inside the loop over the requested partitions. -/
theorem verifyOverlapPartition_duplicate_with_no_partition :
    (onePartitionedIndex RebalanceState.REBAL_ACTIVE 2).verifyOverlapPartition
        (rebalanceRequest 10 12 [] [])
        { ReqSource := DDLRequestSource.DDLRequestSourceRebalance } =
      some (none, onePartitionedIndex RebalanceState.REBAL_ACTIVE 2) ∧
    (onePartitionedIndex RebalanceState.REBAL_ACTIVE 2).verifyOverlapPartition
        (rebalanceRequest 10 12 [7] [2])
        { ReqSource := DDLRequestSource.DDLRequestSourceRebalance } =
      some (some (GoError.plain "Found Duplicate instance 10 already existed in index."),
        onePartitionedIndex RebalanceState.REBAL_ACTIVE 2) := by
  decide

/-! ## Claims about the duplicate check of a create -/

theorem find_of_nodup_ids (rows : List IndexInstDistribution)
    (hnodup : (rows.map (fun i => i.InstId)).Nodup) (inst : IndexInstDistribution)
    (hmem : inst ∈ rows) : rows.find? (fun i => i.InstId == inst.InstId) = some inst := by
  induction rows with
  | nil => cases hmem
  | cons x rest ih =>
    simp only [List.map_cons, List.nodup_cons, List.mem_map, not_exists, not_and] at hnodup
    rcases List.mem_cons.mp hmem with h | h
    · subst h
      simp [List.find?_cons]
    · have hne : x.InstId ≠ inst.InstId := fun heq => hnodup.1 inst h heq.symm
      simp [List.find?_cons, hne, ih hnodup.2 h]

theorem verifyDuplicateDefn_exists_of_live (topology : IndexTopology) (existDefn : IndexDefn)
    (hnodup : ((topology.GetIndexInstancesByDefn existDefn.DefnId).map
      (fun i => i.InstId)).Nodup)
    (hlive : ∃ inst ∈ topology.GetIndexInstancesByDefn existDefn.DefnId,
      inst.State ≠ IndexState.INDEX_STATE_NIL ∧ inst.State ≠ IndexState.INDEX_STATE_DELETED) :
    verifyDuplicateDefn.exists topology existDefn = true := by
  obtain ⟨inst, hmem, h1, h2⟩ := hlive
  simp only [verifyDuplicateDefn.exists, List.any_eq_true]
  refine ⟨inst, hmem, ?_⟩
  simp [IndexTopology.GetStatusByInst, find_of_nodup_ids _ hnodup inst hmem, h1, h2]

/-- C5 (counterexample).  First: definition 1 ("i" on "b", partitioned) has the ACTIVE instance
10, and a create request for a partitioned definition with the same bucket and name but
DefnId 2 is not rejected: CreateIndexOrInstance returns nil and has written the second
definition record.  Second: in the community edition, a create request with the name of the
live definition 1 and a replica count of 1 fails with the edition error, not with
"Index b.i already exists".  Third: two records carry the name "i"; the lookup by name
returns definition 1, which has no instance row, while definition 2 has a READY instance; a
create request for definition 3 with the name "i" is not rejected and its record is
written. -/
theorem CreateIndexOrInstance_duplicate_name_accepted :
    (((onePartitionedIndex RebalanceState.REBAL_ACTIVE 2).CreateIndexOrInstance
          { rebalanceRequest 20 0 [3] [0] with DefnId := 2 } false
          { ReqSource := DDLRequestSource.DDLRequestSourceUser }).map (fun res => res.1) =
        some none) ∧
      (((onePartitionedIndex RebalanceState.REBAL_ACTIVE 2).CreateIndexOrInstance
          { rebalanceRequest 20 0 [3] [0] with DefnId := 2 } false
          { ReqSource := DDLRequestSource.DDLRequestSourceUser }).map
            (fun res => res.2.repo.defns.map (fun d => (d.DefnId, d.Bucket, d.Name))) =
        some [(1, "b", "i"), (2, "b", "i")]) ∧
      (LifecycleMgr.CreateIndexOrInstance
          { oneReadyIndex [] [] with env := exampleEnv BuildMode.COMMUNITY }
          { exampleDefn 2 "i" PartitionScheme.SINGLE with NumReplica := 1 } false
          { ReqSource := DDLRequestSource.DDLRequestSourceUser }).map (fun res => res.1) =
        some (some (GoError.plain "Index Replica not supported in non-Enterprise Edition")) ∧
      (shadowedLive.CreateIndexOrInstance (exampleDefn 3 "i" PartitionScheme.SINGLE) false
          { ReqSource := DDLRequestSource.DDLRequestSourceUser }).map
            (fun res => (res.1, res.2.repo.defns.map (fun d => (d.DefnId, d.Bucket, d.Name)))) =
        some (none, [(1, "b", "i"), (2, "b", "i"), (3, "b", "i")]) :=
  ⟨by decide, by decide, by decide, by decide⟩

/-- C5 (amended).  For every create request that passes the edition guard, when the
repository reads succeed and the definition that the lookup by the request's (bucket, name)
returns (whatever its DefnId) has at least one instance in a state other than NIL or DELETED,
the ids of its instance rows being distinct, and the new or that existing definition is not
partitioned, CreateIndexOrInstance fails with the error "Index <bucket>.<name> already
exists" and writes nothing: the state is unchanged. -/
theorem CreateIndexOrInstance_duplicate_rejected (m : LifecycleMgr) (defn : IndexDefn)
    (scheduled : Bool) (reqCtx : MetadataRequestContext)
    (hed : m.env.buildMode = BuildMode.ENTERPRISE ∨
      (defn.NumReplica = 0 ∧ IsPartitioned defn.PartitionScheme = false))
    (hf : m.repo.faults = [])
    (hpart : ∀ e, m.repo.defns.find? (fun d => d.Bucket == defn.Bucket && d.Name == defn.Name) =
      some e → IsPartitioned defn.PartitionScheme = false ∨
        IsPartitioned e.PartitionScheme = false)
    (hnodup : ((m.repo.rowsByName defn.Bucket defn.Name).map (fun i => i.InstId)).Nodup)
    (hlive : ∃ inst ∈ m.repo.rowsByName defn.Bucket defn.Name,
      inst.State ≠ IndexState.INDEX_STATE_NIL ∧ inst.State ≠ IndexState.INDEX_STATE_DELETED) :
    m.CreateIndexOrInstance defn scheduled reqCtx =
      some (some (errors.New ("Index " ++ defn.Bucket ++ "." ++ defn.Name ++ " already exists")),
        m) := by
  unfold MetadataRepo.rowsByName at hnodup hlive
  cases hex : m.repo.defns.find? (fun d => d.Bucket == defn.Bucket && d.Name == defn.Name) with
  | none =>
    rw [hex] at hlive
    obtain ⟨_, hmem, _⟩ := hlive
    cases hmem
  | some existDefn =>
    rw [hex] at hnodup hlive
    dsimp only at hnodup hlive
    cases ht : m.repo.topologies.find? (fun t => t.Bucket == existDefn.Bucket) with
    | none =>
      rw [ht] at hlive
      obtain ⟨_, hmem, _⟩ := hlive
      cases hmem
    | some topology =>
      rw [ht] at hnodup hlive
      dsimp only at hnodup hlive
      have hexists := verifyDuplicateDefn_exists_of_live topology existDefn hnodup hlive
      have hp := hpart existDefn hex
      have hguard : (!IsPartitioned defn.PartitionScheme ||
          !IsPartitioned existDefn.PartitionScheme) = true := by
        rcases hp with h | h <;> simp [h]
      have hdupl : m.verifyDuplicateDefn defn =
          (some existDefn, some (errors.New (alreadyExistsText defn.Bucket defn.Name)), m) := by
        simp [LifecycleMgr.verifyDuplicateDefn, GetIndexDefnByName_nil m.repo _ _ hf, hex,
          GetTopologyByBucket_nil m.repo _ hf, ht, hguard, hexists]
      unfold LifecycleMgr.CreateIndexOrInstance
      have h1 : ¬ (m.env.buildMode ≠ BuildMode.ENTERPRISE ∧ defn.NumReplica ≠ 0) := by
        rintro ⟨ha, hb⟩
        rcases hed with h | h
        · exact ha h
        · exact hb h.1
      have h2 : ¬ (m.env.buildMode ≠ BuildMode.ENTERPRISE ∧
          IsPartitioned defn.PartitionScheme = true) := by
        rintro ⟨ha, hb⟩
        rcases hed with h | h
        · exact ha h
        · rw [h.2] at hb
          cases hb
      rw [if_neg h1, if_neg h2, hdupl]
      rfl

/-- C5 (witness).  Definition 1 ("i" on "b", not partitioned) has the READY instance 10; a
create request for a definition named "i" on "b" with DefnId 2 is rejected. -/
theorem CreateIndexOrInstance_duplicate_rejected_witness :
    (oneReadyIndex [] []).CreateIndexOrInstance (exampleDefn 2 "i" PartitionScheme.SINGLE) false
        { ReqSource := DDLRequestSource.DDLRequestSourceUser } =
      some (some (errors.New ("Index " ++ "b" ++ "." ++ "i" ++ " already exists")),
        oneReadyIndex [] []) :=
  CreateIndexOrInstance_duplicate_rejected (oneReadyIndex [] [])
    (exampleDefn 2 "i" PartitionScheme.SINGLE) false
    { ReqSource := DDLRequestSource.DDLRequestSourceUser }
    (Or.inl rfl) rfl (fun _ _ => Or.inl rfl) (by decide)
    ⟨exampleInst 10 IndexState.INDEX_STATE_READY RebalanceState.REBAL_ACTIVE, by decide,
      by decide, by decide⟩

/-! ## Claims about the builder -/

theorem wrapInt32_sub_one (q : Int) (h0 : 0 < q) (h1 : q < 2147483648) :
    wrapInt32 (q - 1) = q - 1 := by
  unfold wrapInt32
  omega

theorem instLoop_no_ready (disableBuild : Bool) (defnId : Nat)
    (insts : List IndexInstDistribution) :
    ∀ v : BuildVars,
      (insts.filter (fun i => decide (i.State = IndexState.INDEX_STATE_READY))).length = 0 →
      tryBuildIndex.instLoop disableBuild defnId insts v = v := by
  induction insts with
  | nil => intro v _; rfl
  | cons inst rest ih =>
    intro v h
    have hns : inst.State ≠ IndexState.INDEX_STATE_READY := by
      intro hs
      simp [List.filter_cons, hs] at h
    have hrest : (rest.filter
        (fun i => decide (i.State = IndexState.INDEX_STATE_READY))).length = 0 := by
      simpa [List.filter_cons, hns] using h
    unfold tryBuildIndex.instLoop
    by_cases hq : v.newQuota = 0
    · rw [if_pos hq]
    · rw [if_neg hq, if_neg hns]
      exact ih v hrest

theorem instLoop_one_ready (defnId : Nat) (insts : List IndexInstDistribution) :
    ∀ v : BuildVars, 0 < v.newQuota → v.newQuota < 2147483648 → defnId ∉ v.buildMap →
      (insts.filter (fun i => decide (i.State = IndexState.INDEX_STATE_READY))).length = 1 →
      tryBuildIndex.instLoop false defnId insts v =
        { newQuota := v.newQuota - 1, buildList := v.buildList ++ [defnId],
          buildMap := defnId :: v.buildMap, pendingList := v.pendingList } := by
  induction insts with
  | nil => intro v _ _ _ h; simp at h
  | cons inst rest ih =>
    intro v h0 h1 hmap h
    have hq : v.newQuota ≠ 0 := by omega
    unfold tryBuildIndex.instLoop
    rw [if_neg hq]
    by_cases hs : inst.State = IndexState.INDEX_STATE_READY
    · have hrest : (rest.filter
          (fun i => decide (i.State = IndexState.INDEX_STATE_READY))).length = 0 := by
        simpa [List.filter_cons, hs] using h
      rw [if_pos hs]
      simp only [Bool.not_false, Bool.true_or, if_true, if_neg hmap]
      rw [instLoop_no_ready false defnId rest _ hrest, wrapInt32_sub_one _ h0 h1]
    · have hrest : (rest.filter
          (fun i => decide (i.State = IndexState.INDEX_STATE_READY))).length = 1 := by
        simpa [List.filter_cons, hs] using h
      rw [if_neg hs]
      exact ih v h0 h1 hmap hrest

theorem defnLoop_ready (m : LifecycleMgr) (bucket : String) (hf : m.repo.faults = [])
    (l : List Nat) :
    ∀ v : BuildVars, 0 ≤ v.newQuota → v.newQuota < 2147483648 → v.pendingList = l →
      l.Nodup → (∀ x ∈ l, x ∉ v.buildMap) →
      (∀ x ∈ l, ∃ d, m.repo.defns.find? (fun d => d.DefnId == x) = some d) →
      (∀ x ∈ l, ((m.repo.rows bucket x).filter
        (fun i => decide (i.State = IndexState.INDEX_STATE_READY))).length = 1) →
      tryBuildIndex.defnLoop bucket false l v m =
        ({ newQuota := v.newQuota - (min v.newQuota.toNat l.length : Nat),
           buildList := v.buildList ++ l.take (min v.newQuota.toNat l.length),
           buildMap := (l.take (min v.newQuota.toNat l.length)).reverse ++ v.buildMap,
           pendingList := l.drop (min v.newQuota.toNat l.length) }, m) := by
  induction l with
  | nil =>
    intro v _ _ hp _ _ _ _
    cases v
    simp_all [tryBuildIndex.defnLoop]
  | cons x rest ih =>
    intro v h0 h1 hp hnd hmap hdef hrows
    unfold tryBuildIndex.defnLoop
    by_cases hq : v.newQuota = 0
    · rw [if_pos hq]
      cases v
      simp_all
    · rw [if_neg hq]
      obtain ⟨d, hd⟩ := hdef x (List.mem_cons_self _ _)
      have hm : ({ m with repo := m.repo } : LifecycleMgr) = m := rfl
      have hone := hrows x (List.mem_cons_self _ _)
      have hlen : (m.repo.rows bucket x).length ≠ 0 := by
        intro hz
        have : m.repo.rows bucket x = [] := List.length_eq_zero.mp hz
        rw [this] at hone
        simp at hone
      have hpos : 0 < v.newQuota := by omega
      have hxmap : x ∉ v.buildMap := hmap x (List.mem_cons_self _ _)
      simp only [GetIndexDefnById_nil m.repo x hf, hd, hm, FindAllLocalIndexInst_nil m bucket x hf,
        if_neg hlen]
      rw [instLoop_one_ready x (m.repo.rows bucket x)
        { v with pendingList := v.pendingList.tail } hpos h1 hxmap hone]
      have hnd2 := List.nodup_cons.mp hnd
      rw [ih _ (by simp only; omega) (by simp only; omega) (by simp [hp]) hnd2.2
        (by
          intro y hy
          simp only [List.mem_cons, not_or]
          exact ⟨fun h => hnd2.1 (h ▸ hy), hmap y (List.mem_cons_of_mem _ hy)⟩)
        (fun y hy => hdef y (List.mem_cons_of_mem _ hy))
        (fun y hy => hrows y (List.mem_cons_of_mem _ hy))]
      have hk : min v.newQuota.toNat (x :: rest).length =
          min (v.newQuota - 1).toNat rest.length + 1 := by
        simp only [List.length_cons]
        omega
      rw [hk]
      simp only [List.take_succ_cons, List.drop_succ_cons, List.reverse_cons, List.append_assoc,
        List.singleton_append, BuildVars.mk.injEq, Prod.mk.injEq, and_true, true_and]
      push_cast
      omega

theorem find_setPending (b : String) (l : List Nat) (ps : List (String × List Nat)) :
    (setPending b l ps).find? (fun p => p.1 == b) = some (b, l) := by
  induction ps with
  | nil => simp [setPending]
  | cons p rest ih =>
    by_cases hp : p.1 = b
    · simp [setPending, hp]
    · simp [setPending, hp, ih, List.find?_cons]

theorem find_setPending_other (b b2 : String) (hne : b2 ≠ b) (l : List Nat)
    (ps : List (String × List Nat)) :
    (setPending b l ps).find? (fun p => p.1 == b2) = ps.find? (fun p => p.1 == b2) := by
  induction ps with
  | nil => simp [setPending, hne.symm]
  | cons p rest ih =>
    by_cases hp : p.1 = b
    · simp [setPending, hp, List.find?_cons, hne.symm]
    · by_cases hp2 : p.1 = b2
      · rw [setPending, if_neg hp]
        simp [List.find?_cons, hp2]
      · rw [setPending, if_neg hp]
        simp [List.find?_cons, hp2, ih]

theorem canBuildIndex_idle (m : LifecycleMgr) (bucket : String) (hf : m.repo.faults = [])
    (hidle : ∀ t ∈ m.repo.topologies, t.Bucket = bucket →
      ∀ d ∈ t.Definitions, ∀ inst ∈ d.Instances,
        inst.State ≠ IndexState.INDEX_STATE_INITIAL ∧
          inst.State ≠ IndexState.INDEX_STATE_CATCHUP) :
    m.canBuildIndex bucket = (true, m) := by
  simp only [LifecycleMgr.canBuildIndex, GetTopologyByBucket_nil m.repo bucket hf]
  cases ht : m.repo.topologies.find? (fun t => t.Bucket == bucket) with
  | none => rfl
  | some t =>
    have hno : (t.Definitions.any (fun d => d.Instances.any (fun inst =>
        inst.State == IndexState.INDEX_STATE_CATCHUP ||
        inst.State == IndexState.INDEX_STATE_INITIAL))) = false := by
      rw [List.any_eq_false]
      intro d hd
      rw [Bool.not_eq_true, List.any_eq_false]
      intro inst hinst
      have := hidle t (List.mem_of_find?_eq_some ht) (find_bucket _ _ _ ht) d hd inst hinst
      simp [this.1, this.2]
    simp only [hno]
    rfl

/-- C10.  For a bucket whose pending DefnIds are distinct and each resolve to a definition
with exactly one local instance in READY, with background build enabled, no instance of the
bucket in INITIAL or CATCHUP, a working repository and marshaller, and a quota q with
0 <= q (q an int32): tryBuildIndex(bucket, q) returns q - k for k = min(q, n), submits
exactly the first k pending DefnIds, in order, in one BUILD_INDEX_RETRY request keyed by the
first id (no request when k = 0), leaves exactly the remaining ids in pendings[bucket] in
their order, and leaves the pending lists of the other buckets and the repository as they
were. -/
theorem tryBuildIndex_ready (m : LifecycleMgr) (bucket : String) (q : Int)
    (hq0 : 0 ≤ q) (hq1 : q < 2147483648)
    (hf : m.repo.faults = []) (hmarshal : m.builder.marshalErrs = [])
    (henabled : m.builder.disable ≠ 1)
    (hnd : (m.builder.pending bucket).Nodup)
    (hdef : ∀ x ∈ m.builder.pending bucket,
      (m.repo.defns.find? (fun d => d.DefnId == x)).isSome = true)
    (hrows : ∀ x ∈ m.builder.pending bucket, ((m.repo.rows bucket x).filter
      (fun i => decide (i.State = IndexState.INDEX_STATE_READY))).length = 1)
    (hidle : ∀ t ∈ m.repo.topologies, t.Bucket = bucket →
      ∀ d ∈ t.Definitions, ∀ inst ∈ d.Instances,
        inst.State ≠ IndexState.INDEX_STATE_INITIAL ∧
          inst.State ≠ IndexState.INDEX_STATE_CATCHUP) :
    (builder.tryBuildIndex m bucket q).1 =
        q - (min q.toNat (m.builder.pending bucket).length : Nat) ∧
      (builder.tryBuildIndex m bucket q).2.requestServer.requests =
        m.requestServer.requests ++
          (if min q.toNat (m.builder.pending bucket).length = 0 then []
           else [{ op := OpCode.OPCODE_BUILD_INDEX_RETRY,
                   key := toString ((m.builder.pending bucket).headD 0),
                   content := Content.IndexIdList
                     ((m.builder.pending bucket).take
                       (min q.toNat (m.builder.pending bucket).length)) }]) ∧
      (builder.tryBuildIndex m bucket q).2.builder.pending bucket =
        (m.builder.pending bucket).drop (min q.toNat (m.builder.pending bucket).length) ∧
      (∀ b, b ≠ bucket →
        (builder.tryBuildIndex m bucket q).2.builder.pending b = m.builder.pending b) ∧
      (builder.tryBuildIndex m bucket q).2.repo = m.repo := by
  unfold builder.tryBuildIndex
  cases hids : m.builder.pending bucket with
  | nil => simp [hids]
  | cons x rest =>
    rw [hids] at hnd hdef hrows
    have hdis : m.builder.disableBuild = false := by simp [builder.disableBuild, henabled]
    have hloop := defnLoop_ready m bucket hf (x :: rest)
      { newQuota := q, buildList := [], buildMap := [], pendingList := x :: rest }
      hq0 hq1 rfl hnd (fun _ _ h => nomatch h)
      (fun y hy => Option.isSome_iff_exists.mp (hdef y hy)) hrows
    simp only [List.length_cons, ne_eq, Nat.add_one_ne_zero, not_false_eq_true, if_true,
      canBuildIndex_idle m bucket hf hidle, hdis, hloop, List.nil_append]
    by_cases hk : min q.toNat (rest.length + 1) = 0
    · have hq : q = 0 := by omega
      simp only [hk, List.take_zero, List.drop_zero, if_true, List.append_nil, Nat.cast_zero,
        sub_zero, true_and]
      refine ⟨?_, ?_, trivial⟩
      · simp only [builder.pending, find_setPending]
      · intro b hb
        simp only [builder.pending, find_setPending_other bucket b hb]
    · obtain ⟨k, hk1⟩ := Nat.exists_eq_succ_of_ne_zero hk
      simp only [hk1, List.take_succ_cons, builder.marshal, hmarshal, if_neg (Nat.succ_ne_zero k),
        List.headD_cons, true_and]
      refine ⟨?_, ?_, ?_, trivial⟩
      · simp [RequestServer.MakeRequest]
        cases m.requestServer.replies <;> simp
      · simp only [builder.pending, find_setPending]
      · intro b hb
        simp only [builder.pending, find_setPending_other bucket b hb]

/-- C10 (witness).  Batch size 3 and five pending definitions over two buckets: "a" holds
[1, 2, 3] and "b" holds [4, 5].  With quota 3, tryBuildIndex on "a" submits [1, 2, 3] in one
request and returns 0; the two ids of "b" remain pending. -/
theorem tryBuildIndex_ready_witness :
    (builder.tryBuildIndex twoBucketsPending "a" 3).1 =
        3 - (min (3 : Int).toNat (twoBucketsPending.builder.pending "a").length : Nat) ∧
      (builder.tryBuildIndex twoBucketsPending "a" 3).2.requestServer.requests =
        twoBucketsPending.requestServer.requests ++
          (if min (3 : Int).toNat (twoBucketsPending.builder.pending "a").length = 0 then []
           else [{ op := OpCode.OPCODE_BUILD_INDEX_RETRY,
                   key := toString ((twoBucketsPending.builder.pending "a").headD 0),
                   content := Content.IndexIdList
                     ((twoBucketsPending.builder.pending "a").take
                       (min (3 : Int).toNat (twoBucketsPending.builder.pending "a").length)) }]) ∧
      (builder.tryBuildIndex twoBucketsPending "a" 3).2.builder.pending "a" =
        (twoBucketsPending.builder.pending "a").drop
          (min (3 : Int).toNat (twoBucketsPending.builder.pending "a").length) ∧
      (∀ b, b ≠ "a" →
        (builder.tryBuildIndex twoBucketsPending "a" 3).2.builder.pending b =
          twoBucketsPending.builder.pending b) ∧
      (builder.tryBuildIndex twoBucketsPending "a" 3).2.repo = twoBucketsPending.repo :=
  tryBuildIndex_ready twoBucketsPending "a" 3 (by decide) (by decide) rfl rfl (by decide)
    (by decide) (by decide) (by decide) (by decide)

/-- C9 (the code at the failing input).  The batch size is 1 and bucket "a" has two instances
in INITIAL, so getQuota returns the quota -1; definition 1 of bucket "b" is pending with a
READY instance.  The tick submits a BUILD_INDEX_RETRY request for definition 1, so the number
of submitted DefnIds exceeds the batch size minus the number of instances in flight:
tryBuildIndex stops only when the quota is exactly 0. -/
theorem tick_submits_when_over_quota :
    overQuotaPending.builder.batchSize = 1 ∧ overQuotaPending.repo.inFlight = 2 ∧
      (builder.getQuota overQuotaPending).1 = (-1, ["a"]) ∧
      (builder.tick overQuotaPending).1 = -2 ∧
      (builder.tick overQuotaPending).2.requestServer.requests =
        [{ op := OpCode.OPCODE_BUILD_INDEX_RETRY, key := "1",
           content := Content.IndexIdList [1] }] ∧
      ¬ (((submittedDefnIds (builder.tick overQuotaPending).2.requestServer.requests).length :
            Int) ≤
          overQuotaPending.builder.batchSize - (overQuotaPending.repo.inFlight : Int)) := by
  decide

/-! ## The build list of the builder -/

theorem exchangeInner_perm (swap : String → String → Bool) (rest : List String) (x : String) :
    ((exchangeInner swap x rest).1 :: (exchangeInner swap x rest).2).Perm (x :: rest) := by
  induction rest generalizing x with
  | nil => simp [exchangeInner]
  | cons y rest ih =>
    unfold exchangeInner
    by_cases h : swap x y = true
    · simp only [h, if_true]
      exact (List.Perm.swap _ _ _).trans ((ih y).cons x)
    · simp only [h]
      exact ((List.Perm.swap _ _ _).trans ((ih x).cons y)).trans (List.Perm.swap _ _ _)

theorem exchangeInner_length (swap : String → String → Bool) (rest : List String) (x : String) :
    (exchangeInner swap x rest).2.length = rest.length := by
  induction rest generalizing x with
  | nil => simp [exchangeInner]
  | cons y rest ih =>
    unfold exchangeInner
    by_cases h : swap x y = true
    · simp [h, ih y]
    · simp [h, ih x]

theorem exchangeInner_min (key : String → Nat) (rest : List String) (x : String) :
    key (exchangeInner (fun a b => decide (key a > key b)) x rest).1 ≤ key x ∧
    ∀ y ∈ (exchangeInner (fun a b => decide (key a > key b)) x rest).2,
      key (exchangeInner (fun a b => decide (key a > key b)) x rest).1 ≤ key y := by
  induction rest generalizing x with
  | nil => simp [exchangeInner]
  | cons y rest ih =>
    unfold exchangeInner
    by_cases h : key x > key y
    · simp only [h, decide_True, if_true]
      obtain ⟨h1, h2⟩ := ih y
      refine ⟨by omega, ?_⟩
      intro z hz
      rcases List.mem_cons.1 hz with hz | hz
      · subst hz; omega
      · exact h2 z hz
    · simp only [h, decide_False]
      obtain ⟨h1, h2⟩ := ih x
      refine ⟨h1, ?_⟩
      intro z hz
      rcases List.mem_cons.1 hz with hz | hz
      · subst hz; simp only [Bool.false_eq_true, if_false]; omega
      · exact h2 z hz

theorem exchangeSort_perm (swap : String → String → Bool) (n : Nat) (l : List String) :
    (exchangeSort swap n l).Perm l := by
  induction n generalizing l with
  | zero => simp [exchangeSort]
  | succ n ih =>
    cases l with
    | nil => simp [exchangeSort]
    | cons x rest =>
      simp only [exchangeSort]
      exact ((ih _).cons _).trans (exchangeInner_perm swap rest x)

theorem exchangeSort_length (swap : String → String → Bool) (n : Nat) (l : List String) :
    (exchangeSort swap n l).length = l.length :=
  (exchangeSort_perm swap n l).length_eq

theorem exchangeSort_sorted (key : String → Nat) (n : Nat) (l : List String)
    (hn : l.length ≤ n) :
    (exchangeSort (fun a b => decide (key a > key b)) n l).Pairwise
      (fun a b => key a ≤ key b) := by
  induction n generalizing l with
  | zero =>
    have : l = [] := List.length_eq_zero.1 (by omega)
    subst this
    simp [exchangeSort]
  | succ n ih =>
    cases l with
    | nil => simp [exchangeSort]
    | cons x rest =>
      simp only [exchangeSort]
      refine List.Pairwise.cons ?_ (ih _ ?_)
      · intro z hz
        exact (exchangeInner_min key rest x).2 z
          ((exchangeSort_perm _ n _).mem_iff.1 hz)
      · rw [exchangeInner_length]
        simpa using hn

theorem getQuota_defnLoop_builder (defns : List IndexDefn) (acc : Int × List String)
    (m : LifecycleMgr) : (getQuota.defnLoop defns acc m).2.builder = m.builder := by
  induction defns generalizing acc m with
  | nil => simp [getQuota.defnLoop]
  | cons defn rest ih =>
    unfold getQuota.defnLoop
    rcases hf : m.repo.fault with ⟨_ | e, r⟩
    · simp only []
      have hb : (LifecycleMgr.FindAllLocalIndexInst { m with repo := r }
          defn.Bucket defn.DefnId).2.2.builder = m.builder := by
        unfold LifecycleMgr.FindAllLocalIndexInst
        split <;> simp
      rcases hq : LifecycleMgr.FindAllLocalIndexInst { m with repo := r }
          defn.Bucket defn.DefnId with ⟨insts, _ | e, m1⟩
      · rw [hq] at hb
        simp only [] at hb ⊢
        split <;> rw [ih, hb]
      · rw [hq] at hb
        simp only [] at hb ⊢
        rw [ih, hb]
    · simp

theorem getQuota_builder (m : LifecycleMgr) : (builder.getQuota m).2.builder = m.builder := by
  unfold builder.getQuota
  rcases hq : m.repo.NewIterator with ⟨it, _ | e, r⟩
  · simp only []
    rw [getQuota_defnLoop_builder]
  · simp

/-- Claim C12: `getBuildList` returns the quota and the manager state of `getQuota`, and its
list is a permutation of the keys of `pendings` outside the skip list of `getQuota` that is
ordered by non-decreasing distance `|len(pendings[bucket]) - quota|`, for every pending map
and every quota. -/
theorem getBuildList_sorted_permutation (m : LifecycleMgr) :
    (builder.getBuildList m).2 = (builder.getQuota m).2 ∧
    (builder.getBuildList m).1.2 = (builder.getQuota m).1.1 ∧
    (builder.getBuildList m).1.1.Perm
      ((m.builder.pendings.map (fun p => p.1)).filter
        (fun b => !(b ∈ (builder.getQuota m).1.2))) ∧
    (builder.getBuildList m).1.1.Pairwise (fun bi bj =>
      (((m.builder.pending bi).length : Int) - (builder.getQuota m).1.1).natAbs ≤
      (((m.builder.pending bj).length : Int) - (builder.getQuota m).1.1).natAbs) := by
  have hb := getQuota_builder m
  unfold builder.getBuildList
  rcases hq : builder.getQuota m with ⟨⟨quota, skipList⟩, m1⟩
  rw [hq] at hb
  simp only [] at hb ⊢
  rw [hb]
  refine ⟨trivial, trivial, ?_, ?_⟩
  · exact (exchangeSort_perm _ _ _).trans (exchangeSort_perm _ _ _)
  · exact exchangeSort_sorted
      (fun b => (((m.builder.pending b).length : Int) - quota).natAbs) _ _ (le_refl _)

/-! ## The pending map of the builder -/

theorem pending_setPending (bucket : String) (ids : List Nat) (s : builder) :
    builder.pending { s with pendings := setPending bucket ids s.pendings } bucket = ids := by
  unfold builder.pending
  simp only [find_setPending]

theorem addPending_spec (s : builder) (bucket : String) (id : Nat) :
    (id ∈ s.pending bucket → s.addPending bucket id = (false, s)) ∧
    (id ∉ s.pending bucket →
      (s.addPending bucket id).1 = true ∧
      (s.addPending bucket id).2.pending bucket = s.pending bucket ++ [id]) ∧
    ((s.pending bucket).Nodup → ((s.addPending bucket id).2.pending bucket).Nodup) := by
  refine ⟨fun h => by simp [builder.addPending, h], fun h => ?_, fun hn => ?_⟩
  · simp only [builder.addPending, h, if_false, true_and]
    exact pending_setPending bucket _ s
  · by_cases h : id ∈ s.pending bucket
    · simpa [builder.addPending, h] using hn
    · simp only [builder.addPending, h, if_false]
      rw [pending_setPending]
      exact List.Nodup.append hn (List.nodup_singleton id) (by simpa using h)

/-- Claim C11 (evaluation of the code): with background build disabled, `tryBuildIndex` puts a
pending definition back once for each of its READY instances: the duplicate-free pending
list `[1]` of bucket "b" becomes `[1, 1]` when definition 1 has two READY instances. -/
theorem tryBuildIndex_disabled_duplicates_pending :
    (disabledTwoReady.builder.pending "b").Nodup ∧
    (builder.tryBuildIndex disabledTwoReady "b" 5).1 = 5 ∧
    (builder.tryBuildIndex disabledTwoReady "b" 5).2.builder.pending "b" = [1, 1] ∧
    ¬ ((builder.tryBuildIndex disabledTwoReady "b" 5).2.builder.pending "b").Nodup := by
  decide

/-! ## Updates of an instance row -/

theorem anyInst_mapInst (t : IndexTopology) (defnId instId : Nat)
    (f : IndexInstDistribution → IndexInstDistribution) (p : IndexInstDistribution → Bool)
    (hf : ∀ x, (f x).InstId = x.InstId) :
    (t.mapInst defnId instId f).anyInst defnId instId p =
      t.anyInst defnId instId (fun x => p (f x)) := by
  simp only [IndexTopology.anyInst, IndexTopology.mapInst, List.any_map]
  congr 1
  funext d
  by_cases hd : d.DefnId = defnId
  · simp only [Function.comp, hd, if_true, List.any_map]
    congr 2
    funext x
    by_cases hx : x.InstId = instId
    · simp [hx, hf]
    · have hb : (x.InstId == instId) = false := by simpa using hx
      simp [hx, hb]
  · have hb : (d.DefnId == defnId) = false := by simpa using hd
    simp [Function.comp, hd, hb]

theorem mapInst_mapInst (t : IndexTopology) (defnId instId : Nat)
    (f g : IndexInstDistribution → IndexInstDistribution)
    (hf : ∀ x, (f x).InstId = x.InstId) :
    (t.mapInst defnId instId f).mapInst defnId instId g =
      t.mapInst defnId instId (fun x => g (f x)) := by
  simp only [IndexTopology.mapInst, List.map_map]
  congr 1
  apply List.map_congr_left
  intro d _
  by_cases hd : d.DefnId = defnId
  · simp only [Function.comp, hd, if_true, List.map_map]
    congr 1
    apply List.map_congr_left
    intro x _
    by_cases hx : x.InstId = instId
    · simp [hx, hf]
    · simp [hx]
  · simp [Function.comp, hd]

theorem column_mapInst {α : Type} (t : IndexTopology) (defnId instId : Nat)
    (f : IndexInstDistribution → IndexInstDistribution) (c : IndexInstDistribution → α)
    (hc : ∀ x, c (f x) = c x) :
    (t.mapInst defnId instId f).column c = t.column c := by
  simp only [IndexTopology.column, IndexTopology.mapInst, List.map_map]
  apply List.map_congr_left
  intro d _
  by_cases hd : d.DefnId = defnId
  · simp only [Function.comp, hd, if_true, List.map_map]
    apply List.map_congr_left
    intro x _
    by_cases hx : x.InstId = instId
    · simp [hx, hc]
    · simp [hx]
  · simp [Function.comp, hd]

theorem bne_eq_decide_not {α : Type} [DecidableEq α] (a b : α) :
    (a != b) = decide (¬ a = b) := by
  by_cases h : a = b <;> simp [h]

set_option maxHeartbeats 1600000 in
theorem apply_reportsChange (t : IndexTopology) (defn : IndexDefn) (indexerId : String)
    (defnId instId : Nat) (state : IndexState) (streamId : StreamId) (errStr : String)
    (rState : RebalanceState) (partitions : List Nat) (versions : List Int) (version : Int) :
    (UpdateIndexInstance.apply t defn indexerId defnId instId state streamId errStr rState
      partitions versions version).1 =
    UpdateIndexInstance.reportsChange t defn indexerId defnId instId state streamId errStr
      rState partitions versions version := by
  have hb1 : (rState != RebalanceState.REBAL_NIL) =
      decide (¬ rState = RebalanceState.REBAL_NIL) := bne_eq_decide_not _ _
  have hb4 : (streamId != StreamId.NIL_STREAM) = decide (¬ streamId = StreamId.NIL_STREAM) :=
    bne_eq_decide_not _ _
  have hb5 : (partitions.length != 0) = decide (¬ partitions.length = 0) := bne_eq_decide_not _ _
  have hb6 : (version != -1) = decide (¬ version = -1) := bne_eq_decide_not _ _
  have hb2 : (state != IndexState.INDEX_STATE_NIL) =
      decide (¬ state = IndexState.INDEX_STATE_NIL) := bne_eq_decide_not _ _
  have hb3 : (state == IndexState.INDEX_STATE_INITIAL ||
      state == IndexState.INDEX_STATE_CATCHUP || state == IndexState.INDEX_STATE_ACTIVE ||
      state == IndexState.INDEX_STATE_DELETED) =
      decide (state = IndexState.INDEX_STATE_INITIAL ∨ state = IndexState.INDEX_STATE_CATCHUP ∨
        state = IndexState.INDEX_STATE_ACTIVE ∨ state = IndexState.INDEX_STATE_DELETED) := by
    cases state <;> rfl
  simp only [UpdateIndexInstance.reportsChange, hb1, hb2, hb3, hb4, hb5, hb6,
    UpdateIndexInstance.apply, ne_eq,
    IndexTopology.UpdateRebalanceStateForIndexInst, IndexTopology.UpdateStateForIndexInst,
    IndexTopology.UpdateScheduledFlagForIndexInst, IndexTopology.UpdateStreamForIndexInst,
    IndexTopology.SetErrorForIndexInst, IndexTopology.UpdateStorageModeForIndexInst,
    IndexTopology.AddPartitionsForIndexInst, IndexTopology.UpdateVersionForIndexInst]
  by_cases h2 : state = IndexState.INDEX_STATE_NIL <;>
  by_cases h3 : (state = IndexState.INDEX_STATE_INITIAL ∨
      state = IndexState.INDEX_STATE_CATCHUP ∨ state = IndexState.INDEX_STATE_ACTIVE ∨
      state = IndexState.INDEX_STATE_DELETED) <;>
  by_cases h1 : rState = RebalanceState.REBAL_NIL <;>
  by_cases h4 : streamId = StreamId.NIL_STREAM <;>
  by_cases h5 : partitions.length = 0 <;>
  by_cases h6 : version = -1 <;>
  simp only [h1, h2, h3, h4, h5, h6, decide_True, decide_False, not_true_eq_false,
    not_false_eq_true, if_true, if_false, anyInst_mapInst, implies_true, Bool.true_and,
    Bool.false_and, Bool.or_false, Bool.false_or, Bool.or_assoc, Bool.or_comm,
    Bool.or_left_comm, reduceCtorEq, or_self, or_false, false_or]

set_option maxHeartbeats 1600000 in
theorem apply_neutral (t : IndexTopology) (defn : IndexDefn) (indexerId : String)
    (defnId instId : Nat) (state : IndexState) (streamId : StreamId) (errStr : String)
    (rState : RebalanceState) (partitions : List Nat) (versions : List Int) (version : Int) :
    (state = IndexState.INDEX_STATE_NIL →
      (UpdateIndexInstance.apply t defn indexerId defnId instId state streamId errStr rState
        partitions versions version).2.column (fun i => (i.State, i.Scheduled)) =
      t.column (fun i => (i.State, i.Scheduled))) ∧
    (streamId = StreamId.NIL_STREAM →
      (UpdateIndexInstance.apply t defn indexerId defnId instId state streamId errStr rState
        partitions versions version).2.column (fun i => i.StreamId) =
      t.column (fun i => i.StreamId)) ∧
    (rState = RebalanceState.REBAL_NIL →
      (UpdateIndexInstance.apply t defn indexerId defnId instId state streamId errStr rState
        partitions versions version).2.column (fun i => i.RState) =
      t.column (fun i => i.RState)) ∧
    (partitions = [] →
      (UpdateIndexInstance.apply t defn indexerId defnId instId state streamId errStr rState
        partitions versions version).2.column (fun i => i.Partitions) =
      t.column (fun i => i.Partitions)) ∧
    (version = -1 →
      (UpdateIndexInstance.apply t defn indexerId defnId instId state streamId errStr rState
        partitions versions version).2.column (fun i => i.Version) =
      t.column (fun i => i.Version)) := by
  simp only [UpdateIndexInstance.apply, ne_eq,
    IndexTopology.UpdateRebalanceStateForIndexInst, IndexTopology.UpdateStateForIndexInst,
    IndexTopology.UpdateScheduledFlagForIndexInst, IndexTopology.UpdateStreamForIndexInst,
    IndexTopology.SetErrorForIndexInst, IndexTopology.UpdateStorageModeForIndexInst,
    IndexTopology.AddPartitionsForIndexInst, IndexTopology.UpdateVersionForIndexInst]
  by_cases h2 : state = IndexState.INDEX_STATE_NIL <;>
  by_cases h3 : (state = IndexState.INDEX_STATE_INITIAL ∨
      state = IndexState.INDEX_STATE_CATCHUP ∨ state = IndexState.INDEX_STATE_ACTIVE ∨
      state = IndexState.INDEX_STATE_DELETED) <;>
  by_cases h1 : rState = RebalanceState.REBAL_NIL <;>
  by_cases h4 : streamId = StreamId.NIL_STREAM <;>
  by_cases h5 : partitions = [] <;>
  by_cases h6 : version = -1 <;>
  simp only [h1, h2, h3, h4, h5, h6, not_true_eq_false, List.length_nil, List.length_eq_zero,
    not_false_eq_true, if_true, if_false, column_mapInst, implies_true, and_self,
    false_implies, true_implies, reduceCtorEq, or_self, or_false, false_or]
theorem GetLocalIndexerId_nil (r : MetadataRepo) (env : Env) (h : r.faults = []) :
    r.GetLocalIndexerId env = (env.indexerId, none, r) := by
  simp [MetadataRepo.GetLocalIndexerId, fault_nil r h]

/-- Claim C17: `UpdateIndexInstance` is a conditional write.  In a repository whose calls
succeed and that holds the topology of the bucket and the definition record, the call returns
no error and issues exactly one `SetTopologyByBucket` write, of the updated topology, when
some applied field update (rebalance state, state, scheduled flag, stream, error string,
storage mode, added partitions, instance version) reports a change on the stored topology;
it issues no write and leaves the manager as it was when none does.  In the updated
topology the state and the scheduled flag of every row are untouched when the state argument
is NIL, the stream when the stream argument is NIL, the rebalance state when that argument is
NIL, the partitions when no partition is given, and the version when the version argument
is -1. -/
theorem UpdateIndexInstance_conditional_write (m : LifecycleMgr) (bucket : String)
    (defnId instId : Nat) (state : IndexState) (streamId : StreamId) (errStr : String)
    (buildTime : List Nat) (rState : RebalanceState) (partitions : List Nat)
    (versions : List Int) (version : Int) (topology : IndexTopology) (defn : IndexDefn)
    (hf : m.repo.faults = [])
    (ht : m.repo.topologies.find? (fun t => t.Bucket == bucket) = some topology)
    (hd : m.repo.defns.find? (fun d => d.DefnId == defnId) = some defn) :
    (m.UpdateIndexInstance bucket defnId instId state streamId errStr buildTime rState
      partitions versions version).1 = none ∧
    (m.UpdateIndexInstance bucket defnId instId state streamId errStr buildTime rState
      partitions versions version).2.repo.writes = m.repo.writes ++
        (if UpdateIndexInstance.reportsChange topology defn m.env.indexerId defnId instId state
            streamId errStr rState partitions versions version = true then
          [RepoWrite.SetTopologyByBucket bucket
            (UpdateIndexInstance.apply topology defn m.env.indexerId defnId instId state
              streamId errStr rState partitions versions version).2]
         else []) ∧
    (UpdateIndexInstance.reportsChange topology defn m.env.indexerId defnId instId state
        streamId errStr rState partitions versions version = false →
      (m.UpdateIndexInstance bucket defnId instId state streamId errStr buildTime rState
        partitions versions version).2 = m) ∧
    (state = IndexState.INDEX_STATE_NIL →
      (UpdateIndexInstance.apply topology defn m.env.indexerId defnId instId state streamId
        errStr rState partitions versions version).2.column (fun i => (i.State, i.Scheduled)) =
      topology.column (fun i => (i.State, i.Scheduled))) ∧
    (streamId = StreamId.NIL_STREAM →
      (UpdateIndexInstance.apply topology defn m.env.indexerId defnId instId state streamId
        errStr rState partitions versions version).2.column (fun i => i.StreamId) =
      topology.column (fun i => i.StreamId)) ∧
    (rState = RebalanceState.REBAL_NIL →
      (UpdateIndexInstance.apply topology defn m.env.indexerId defnId instId state streamId
        errStr rState partitions versions version).2.column (fun i => i.RState) =
      topology.column (fun i => i.RState)) ∧
    (partitions = [] →
      (UpdateIndexInstance.apply topology defn m.env.indexerId defnId instId state streamId
        errStr rState partitions versions version).2.column (fun i => i.Partitions) =
      topology.column (fun i => i.Partitions)) ∧
    (version = -1 →
      (UpdateIndexInstance.apply topology defn m.env.indexerId defnId instId state streamId
        errStr rState partitions versions version).2.column (fun i => i.Version) =
      topology.column (fun i => i.Version)) := by
  have hrep := apply_reportsChange topology defn m.env.indexerId defnId instId state streamId
    errStr rState partitions versions version
  refine ⟨?_, ?_, ?_, apply_neutral topology defn m.env.indexerId defnId instId state streamId
    errStr rState partitions versions version⟩
  all_goals
    unfold LifecycleMgr.UpdateIndexInstance
    rw [GetTopologyByBucket_nil _ _ hf, ht]
    simp only []
    rw [GetIndexDefnById_nil _ _ hf, hd]
    simp only []
    rw [GetLocalIndexerId_nil _ _ hf]
    simp only []
    try rw [← hrep]
    rcases hap : UpdateIndexInstance.apply topology defn m.env.indexerId defnId instId state
      streamId errStr rState partitions versions version with ⟨c, t1⟩
    cases c <;> simp [SetTopologyByBucket_nil _ _ _ hf]

/-- C17 (witness).  Instance 10 of definition 1 is READY on stream NIL; the update to state
INITIAL with every other argument neutral reports a change and issues one write. -/
theorem UpdateIndexInstance_conditional_write_witness :
    ((oneReadyIndex [] []).UpdateIndexInstance "b" 1 10 IndexState.INDEX_STATE_INITIAL
      StreamId.NIL_STREAM "" [] RebalanceState.REBAL_NIL [] [] (-1)).1 = none ∧
    ((oneReadyIndex [] []).UpdateIndexInstance "b" 1 10 IndexState.INDEX_STATE_INITIAL
      StreamId.NIL_STREAM "" [] RebalanceState.REBAL_NIL [] [] (-1)).2.repo.writes =
      [RepoWrite.SetTopologyByBucket "b" (exampleTopology [(1, "i",
        [exampleInst 10 IndexState.INDEX_STATE_INITIAL RebalanceState.REBAL_ACTIVE])])] := by
  have h := UpdateIndexInstance_conditional_write (oneReadyIndex [] []) "b" 1 10
    IndexState.INDEX_STATE_INITIAL StreamId.NIL_STREAM "" [] RebalanceState.REBAL_NIL [] []
    (-1) (exampleTopology [(1, "i",
      [exampleInst 10 IndexState.INDEX_STATE_READY RebalanceState.REBAL_ACTIVE])])
    (exampleDefn 1 "i" PartitionScheme.SINGLE) rfl (by decide) (by decide)
  exact ⟨h.1, h.2.1.trans (by decide)⟩

/-! ## Instances in state DELETED -/

theorem forall₂_refl {α : Type} (R : α → α → Prop) (h : ∀ a, R a a) (l : List α) :
    List.Forall₂ R l l := by
  induction l with
  | nil => exact List.Forall₂.nil
  | cons a rest ih => exact List.Forall₂.cons (h a) ih

theorem keepsDeleted_refl (t : IndexTopology) : t.keepsDeleted t :=
  ⟨rfl, forall₂_refl _ (fun _ => ⟨rfl, forall₂_refl _ (fun _ => ⟨rfl, id⟩) _⟩) _⟩

theorem keepsDeleted_mapInst (t T : IndexTopology) (defnId instId : Nat)
    (f : IndexInstDistribution → IndexInstDistribution) (h : t.keepsDeleted T)
    (hf : ∀ x, (f x).InstId = x.InstId ∧
      (x.State = IndexState.INDEX_STATE_DELETED →
        (f x).State = IndexState.INDEX_STATE_DELETED)) :
    t.keepsDeleted (T.mapInst defnId instId f) := by
  refine ⟨h.1, ?_⟩
  simp only [IndexTopology.mapInst]
  rw [List.forall₂_map_right_iff]
  refine List.Forall₂.imp ?_ h.2
  intro d1 d2 hd
  by_cases hd2 : d2.DefnId = defnId
  · simp only [hd2, if_true]
    refine ⟨hd2.symm ▸ hd.1 ▸ hd2 ▸ rfl, ?_⟩
    rw [List.forall₂_map_right_iff]
    refine List.Forall₂.imp ?_ hd.2
    intro i1 i2 hi
    by_cases hi2 : i2.InstId = instId
    · simp only [hi2, if_true]
      exact ⟨(hf i2).1.trans hi.1, fun h1 => (hf i2).2 (hi.2 h1)⟩
    · simpa only [hi2, if_false] using hi
  · simpa only [hd2, if_false] using hd

theorem repo_keepsDeleted_put (b : String) (t t2 : IndexTopology) (ts : List IndexTopology)
    (ht : ts.find? (fun x => x.Bucket == b) = some t) (h : t.keepsDeleted t2) :
    List.Forall₂ IndexTopology.keepsDeleted ts (putTopology b t2 ts) := by
  induction ts with
  | nil => simp at ht
  | cons x rest ih =>
    by_cases hx : x.Bucket = b
    · have hxt : x = t := by simpa [List.find?_cons, hx] using ht
      subst hxt
      simp only [putTopology, hx, if_true]
      exact List.Forall₂.cons h (forall₂_refl _ keepsDeleted_refl _)
    · have hr : rest.find? (fun x => x.Bucket == b) = some t := by
        simpa [List.find?_cons, hx] using ht
      simp only [putTopology, hx, if_false]
      exact List.Forall₂.cons (keepsDeleted_refl x) (ih hr)

theorem apply_keepsDeleted (t : IndexTopology) (defn : IndexDefn) (indexerId : String)
    (defnId instId : Nat) (state : IndexState) (streamId : StreamId) (errStr : String)
    (rState : RebalanceState) (partitions : List Nat) (versions : List Int) (version : Int)
    (hs : state = IndexState.INDEX_STATE_NIL ∨ state = IndexState.INDEX_STATE_DELETED) :
    t.keepsDeleted (UpdateIndexInstance.apply t defn indexerId defnId instId state streamId
      errStr rState partitions versions version).2 := by
  simp only [UpdateIndexInstance.apply, ne_eq,
    IndexTopology.UpdateRebalanceStateForIndexInst, IndexTopology.UpdateStateForIndexInst,
    IndexTopology.UpdateScheduledFlagForIndexInst, IndexTopology.UpdateStreamForIndexInst,
    IndexTopology.SetErrorForIndexInst, IndexTopology.UpdateStorageModeForIndexInst,
    IndexTopology.AddPartitionsForIndexInst, IndexTopology.UpdateVersionForIndexInst]
  rcases hs with h2 | h2 <;> subst h2 <;>
  by_cases h1 : rState = RebalanceState.REBAL_NIL <;>
  by_cases h4 : streamId = StreamId.NIL_STREAM <;>
  by_cases h5 : partitions.length = 0 <;>
  by_cases h6 : version = -1 <;>
  simp only [h1, h4, h5, h6, not_true_eq_false, not_false_eq_true, if_true, if_false,
    reduceCtorEq, or_self, or_false, false_or, or_true] <;>
  repeat (first
    | exact keepsDeleted_refl _
    | refine keepsDeleted_mapInst _ _ _ _ _ ?_ (fun x => ⟨rfl, fun h => ?_⟩)
    | exact h
    | rfl)

theorem fault_content (r : MetadataRepo) :
    r.fault.2.topologies = r.topologies ∧ r.fault.2.defns = r.defns := by
  unfold MetadataRepo.fault
  split <;> simp

theorem UpdateIndexInstance_keepsDeleted (m : LifecycleMgr) (bucket : String)
    (defnId instId : Nat) (state : IndexState) (streamId : StreamId) (errStr : String)
    (buildTime : List Nat) (rState : RebalanceState) (partitions : List Nat)
    (versions : List Int) (version : Int)
    (hs : state = IndexState.INDEX_STATE_NIL ∨ state = IndexState.INDEX_STATE_DELETED) :
    m.repo.keepsDeleted (m.UpdateIndexInstance bucket defnId instId state streamId errStr
      buildTime rState partitions versions version).2.repo := by
  have hrefl : ∀ r : MetadataRepo, r.topologies = m.repo.topologies → m.repo.keepsDeleted r :=
    fun r hr => by
      unfold MetadataRepo.keepsDeleted
      rw [hr]
      exact forall₂_refl _ keepsDeleted_refl _
  unfold LifecycleMgr.UpdateIndexInstance
  have h0 := fault_content m.repo
  simp only [MetadataRepo.GetTopologyByBucket]
  rcases hf0 : m.repo.fault with ⟨_ | e0, r0⟩
  · rw [hf0] at h0
    simp only [] at h0 ⊢
    cases ht : r0.topologies.find? (fun t => t.Bucket == bucket) with
    | none => exact hrefl _ h0.1
    | some topology =>
      simp only [MetadataRepo.GetIndexDefnById]
      have h1 := fault_content r0
      rcases hf1 : r0.fault with ⟨_ | e1, r1⟩
      · rw [hf1] at h1
        simp only [] at h1 ⊢
        cases hd : r1.defns.find? (fun d => d.DefnId == defnId) with
        | none => exact hrefl _ (h1.1.trans h0.1)
        | some defn =>
          simp only [MetadataRepo.GetLocalIndexerId]
          have h2 := fault_content r1
          rcases hf2 : r1.fault with ⟨_ | e2, r2⟩
          · rw [hf2] at h2
            simp only [] at h2 ⊢
            have hk := apply_keepsDeleted topology defn m.env.indexerId defnId instId state
              streamId errStr rState partitions versions version hs
            rcases hap : UpdateIndexInstance.apply topology defn m.env.indexerId defnId instId
              state streamId errStr rState partitions versions version with ⟨c, t1⟩
            rw [hap] at hk
            cases c
            · exact hrefl _ (h2.1.trans (h1.1.trans h0.1))
            · simp only [MetadataRepo.SetTopologyByBucket]
              have h3 := fault_content
                { r2 with writes := r2.writes ++ [RepoWrite.SetTopologyByBucket bucket t1] }
              rcases hf3 : MetadataRepo.fault
                { r2 with writes := r2.writes ++ [RepoWrite.SetTopologyByBucket bucket t1] }
                with ⟨_ | e3, r3⟩
              · rw [hf3] at h3
                simp only [] at h3 ⊢
                unfold MetadataRepo.keepsDeleted
                simp only [h3.1, h2.1, h1.1]
                rw [← h0.1]
                exact repo_keepsDeleted_put bucket topology t1 _ ht hk
              · rw [hf3] at h3
                exact hrefl _ (h3.1.trans (h2.1.trans (h1.1.trans h0.1)))
          · rw [hf2] at h2
            exact hrefl _ (h2.1.trans (h1.1.trans h0.1))
      · rw [hf1] at h1
        exact hrefl _ (h1.1.trans h0.1)
  · rw [hf0] at h0
    exact hrefl _ h0.1

theorem repo_keepsDeleted_refl (r r1 : MetadataRepo) (h : r1.topologies = r.topologies) :
    r.keepsDeleted r1 := by
  unfold MetadataRepo.keepsDeleted
  rw [h]
  exact forall₂_refl _ keepsDeleted_refl _

theorem FindAllLocalIndexInst_topologies (m : LifecycleMgr) (b : String) (d : Nat) :
    (m.FindAllLocalIndexInst b d).2.2.repo.topologies = m.repo.topologies := by
  have h0 := fault_content m.repo
  unfold LifecycleMgr.FindAllLocalIndexInst
  simp only [MetadataRepo.GetTopologyByBucket]
  rcases hf0 : m.repo.fault with ⟨_ | e0, r0⟩
  · rw [hf0] at h0
    simp only [] at h0 ⊢
    cases r0.topologies.find? (fun t => t.Bucket == b) <;> exact h0.1
  · rw [hf0] at h0
    exact h0.1

theorem FindLocalIndexInst_topologies (m : LifecycleMgr) (b : String) (d i : Nat) :
    (m.FindLocalIndexInst b d i).2.2.repo.topologies = m.repo.topologies := by
  have h := FindAllLocalIndexInst_topologies m b d
  unfold LifecycleMgr.FindLocalIndexInst
  rcases hq : m.FindAllLocalIndexInst b d with ⟨insts, _ | e, m1⟩
  · rw [hq] at h; exact h
  · rw [hq] at h; exact h

theorem forall₂_trans_of {α : Type} (R : α → α → Prop)
    (hR : ∀ a b c, R a b → R b c → R a c) :
    ∀ l1 l2 l3 : List α, List.Forall₂ R l1 l2 → List.Forall₂ R l2 l3 → List.Forall₂ R l1 l3 := by
  intro l1 l2 l3 h12
  induction h12 generalizing l3 with
  | nil => intro h; cases h; exact List.Forall₂.nil
  | cons hab _ ih =>
    intro h
    cases h with
    | cons hbc hrest => exact List.Forall₂.cons (hR _ _ _ hab hbc) (ih _ hrest)

theorem keepsDeleted_trans (t1 t2 t3 : IndexTopology) (h12 : t1.keepsDeleted t2)
    (h23 : t2.keepsDeleted t3) : t1.keepsDeleted t3 := by
  refine ⟨h23.1.trans h12.1, ?_⟩
  refine forall₂_trans_of _ ?_ _ _ _ h12.2 h23.2
  intro a b c hab hbc
  refine ⟨hbc.1.trans hab.1, ?_⟩
  refine forall₂_trans_of _ ?_ _ _ _ hab.2 hbc.2
  intro x y z hxy hyz
  exact ⟨hyz.1.trans hxy.1, fun hx => hyz.2 (hxy.2 hx)⟩

theorem repo_keepsDeleted_trans (r1 r2 r3 : MetadataRepo) (h12 : r1.keepsDeleted r2)
    (h23 : r2.keepsDeleted r3) : r1.keepsDeleted r3 :=
  forall₂_trans_of _ keepsDeleted_trans _ _ _ h12 h23

theorem GetIndexDefnById_topologies (r : MetadataRepo) (id : Nat) :
    (r.GetIndexDefnById id).2.2.topologies = r.topologies := by
  have h0 := fault_content r
  unfold MetadataRepo.GetIndexDefnById
  rcases hf0 : r.fault with ⟨_ | e0, r0⟩ <;> (rw [hf0] at h0; exact h0.1)

theorem SetScheduledFlag_keepsDeleted (m : LifecycleMgr) (bucket : String)
    (defnId instId : Nat) (scheduled : Bool) :
    m.repo.keepsDeleted (m.SetScheduledFlag bucket defnId instId scheduled).2.repo := by
  unfold LifecycleMgr.SetScheduledFlag
  have h0 := fault_content m.repo
  simp only [MetadataRepo.GetTopologyByBucket]
  rcases hf0 : m.repo.fault with ⟨_ | e0, r0⟩
  · rw [hf0] at h0
    simp only [] at h0 ⊢
    cases ht : r0.topologies.find? (fun t => t.Bucket == bucket) with
    | none => exact repo_keepsDeleted_refl _ _ h0.1
    | some topology =>
      simp only [IndexTopology.UpdateScheduledFlagForIndexInst]
      cases topology.anyInst defnId instId (fun i => i.Scheduled != scheduled)
      · exact repo_keepsDeleted_refl _ _ h0.1
      · simp only [MetadataRepo.SetTopologyByBucket]
        have h3 := fault_content { r0 with writes := r0.writes ++
          [RepoWrite.SetTopologyByBucket bucket (topology.mapInst defnId instId
            (fun i => { i with Scheduled := scheduled }))] }
        rcases hf3 : MetadataRepo.fault { r0 with writes := r0.writes ++
          [RepoWrite.SetTopologyByBucket bucket (topology.mapInst defnId instId
            (fun i => { i with Scheduled := scheduled }))] }
          with ⟨_ | e3, r3⟩
        · rw [hf3] at h3
          simp only [] at h3 ⊢
          unfold MetadataRepo.keepsDeleted
          simp only [h3.1]
          rw [← h0.1]
          exact repo_keepsDeleted_put bucket topology _ _ ht
            (keepsDeleted_mapInst _ _ _ _ _ (keepsDeleted_refl _) (fun x => ⟨rfl, fun h => h⟩))
        · rw [hf3] at h3
          exact repo_keepsDeleted_refl _ _ (h3.1.trans h0.1)
  · rw [hf0] at h0
    exact repo_keepsDeleted_refl _ _ h0.1

theorem BuildIndexes_instLoop_keepsDeleted (defn : IndexDefn) (id : Nat)
    (insts : List IndexInstDistribution) :
    ∀ (v : BuildSet) (m : LifecycleMgr),
      m.repo.keepsDeleted (BuildIndexes.instLoop defn id insts v m).2.repo := by
  induction insts with
  | nil => intro v m; exact repo_keepsDeleted_refl _ _ rfl
  | cons inst rest ih =>
    intro v m
    unfold BuildIndexes.instLoop
    split
    · exact ih v m
    · simp only []
      exact repo_keepsDeleted_trans _ _ _
        (repo_keepsDeleted_trans _ _ _
          (SetScheduledFlag_keepsDeleted m defn.Bucket id inst.InstId true)
          (UpdateIndexInstance_keepsDeleted _ defn.Bucket id inst.InstId
            IndexState.INDEX_STATE_NIL StreamId.NIL_STREAM "" [] inst.RState [] [] (-1)
            (Or.inl rfl)))
        (ih _ _)

theorem BuildIndexes_idLoop_keepsDeleted (ids : List Nat) :
    ∀ (v : BuildSet) (m : LifecycleMgr),
      m.repo.keepsDeleted (BuildIndexes.idLoop ids v m).2.repo := by
  induction ids with
  | nil => intro v m; exact repo_keepsDeleted_refl _ _ rfl
  | cons id rest ih =>
    intro v m
    unfold BuildIndexes.idLoop
    split
    · exact ih v m
    · simp only []
      have hg := GetIndexDefnById_topologies m.repo id
      rcases hq : m.repo.GetIndexDefnById id with ⟨_ | defn, _ | e, r⟩ <;> rw [hq] at hg <;>
        simp only [] at hg ⊢
      · exact repo_keepsDeleted_trans _ _ _ (repo_keepsDeleted_refl _ _ hg)
          (ih _ { m with repo := r })
      · exact repo_keepsDeleted_trans _ _ _ (repo_keepsDeleted_refl _ _ hg)
          (ih _ { m with repo := r })
      · have hfa := FindAllLocalIndexInst_topologies { m with repo := r } defn.Bucket id
        rcases hq2 : LifecycleMgr.FindAllLocalIndexInst { m with repo := r } defn.Bucket id
          with ⟨insts, _ | e2, m1⟩ <;> rw [hq2] at hfa <;> simp only [] at hfa ⊢
        · have h1 : m.repo.keepsDeleted m1.repo := repo_keepsDeleted_refl _ _ (hfa.trans hg)
          split
          · exact repo_keepsDeleted_trans _ _ _ h1 (ih _ _)
          · have h2 := BuildIndexes_instLoop_keepsDeleted defn id insts
              { v with defnIdMap := id :: v.defnIdMap } m1
            rcases hq3 : BuildIndexes.instLoop defn id insts
              { v with defnIdMap := id :: v.defnIdMap } m1 with ⟨v2, m2⟩
            rw [hq3] at h2
            simp only [] at h2 ⊢
            exact repo_keepsDeleted_trans _ _ _ (repo_keepsDeleted_trans _ _ _ h1 h2) (ih _ _)
        · exact repo_keepsDeleted_trans _ _ _
            (repo_keepsDeleted_refl _ _ (hfa.trans hg)) (ih _ _)
      · exact repo_keepsDeleted_trans _ _ _ (repo_keepsDeleted_refl _ _ hg)
          (ih _ { m with repo := r })

theorem BuildIndexes_errLoop_keepsDeleted (inst2DefnMap : List (Nat × Nat)) (retry : Bool)
    (errs : List (Nat × GoError)) :
    ∀ (v : BuildErrs) (m : LifecycleMgr) (res : BuildErrs × LifecycleMgr),
      BuildIndexes.errLoop inst2DefnMap retry errs v m = some res →
      m.repo.keepsDeleted res.2.repo := by
  induction errs with
  | nil =>
    intro v m res h
    simp only [BuildIndexes.errLoop, Option.some.injEq] at h
    subst h
    exact repo_keepsDeleted_refl _ _ rfl
  | cons e rest ih =>
    intro v m res h
    rcases e with ⟨instId, build_err⟩
    unfold BuildIndexes.errLoop at h
    cases hfind : inst2DefnMap.find? (fun p => p.1 == instId) with
    | none =>
      rw [hfind] at h
      exact ih v m res h
    | some p =>
      rcases p with ⟨i0, defnId⟩
      rw [hfind] at h
      simp only [] at h
      have hg := GetIndexDefnById_topologies m.repo defnId
      rcases hq : m.repo.GetIndexDefnById defnId with ⟨_ | defn, _ | e, r⟩ <;>
        rw [hq] at hg h <;> simp only [] at hg h
      · exact repo_keepsDeleted_trans _ _ _ (repo_keepsDeleted_refl _ _ hg)
          (ih v { m with repo := r } res h)
      · exact repo_keepsDeleted_trans _ _ _ (repo_keepsDeleted_refl _ _ hg)
          (ih v { m with repo := r } res h)
      · have hfa := FindLocalIndexInst_topologies { m with repo := r } defn.Bucket defnId
          instId
        rcases hq2 : LifecycleMgr.FindLocalIndexInst { m with repo := r } defn.Bucket defnId
          instId with ⟨_ | inst, err, m1⟩ <;> rw [hq2] at hfa h <;> simp only [] at hfa h
        · exact absurd h (by simp)
        · have h1 : m.repo.keepsDeleted m1.repo := repo_keepsDeleted_refl _ _ (hfa.trans hg)
          have h2 : ∀ errStr : String, m1.repo.keepsDeleted
              (if err = none then
                (m1.UpdateIndexInstance defn.Bucket defnId inst.InstId
                  IndexState.INDEX_STATE_NIL StreamId.NIL_STREAM errStr [] inst.RState
                  [] [] (-1)).2
               else m1).repo := by
            intro errStr
            split
            · exact UpdateIndexInstance_keepsDeleted _ _ _ _ _ _ _ _ _ _ _ _ (Or.inl rfl)
            · exact repo_keepsDeleted_refl _ _ rfl
          have h3 : ∀ X : LifecycleMgr, X.repo.keepsDeleted
              (if (!inst.Scheduled) = true then
                (X.SetScheduledFlag defn.Bucket defnId inst.InstId true).2
               else X).repo := by
            intro X
            split
            · exact SetScheduledFlag_keepsDeleted _ _ _ _ _
            · exact repo_keepsDeleted_refl _ _ rfl
          split at h <;> split at h <;>
          first
          | exact repo_keepsDeleted_trans _ _ _ (repo_keepsDeleted_trans _ _ _ h1 (h2 _))
              (ih _ _ res h)
          | exact repo_keepsDeleted_trans _ _ _ (repo_keepsDeleted_trans _ _ _ h1
              (repo_keepsDeleted_trans _ _ _ (h2 _) (h3 _))) (ih _ _ res h)
      · exact repo_keepsDeleted_trans _ _ _ (repo_keepsDeleted_refl _ _ hg)
          (ih v { m with repo := r } res h)

theorem BuildIndexes_keepsDeleted (m : LifecycleMgr) (ids : List Nat)
    (reqCtx : Option MetadataRequestContext) (retry : Bool)
    (res : (List GoError × List Nat × List GoError) × LifecycleMgr)
    (h : m.BuildIndexes ids reqCtx retry = some res) : m.repo.keepsDeleted res.2.repo := by
  unfold LifecycleMgr.BuildIndexes at h
  have h1 := BuildIndexes_idLoop_keepsDeleted ids
    { skipList := [], instIdList := [], defnIdMap := [], buckets := [], inst2DefnMap := [] } m
  rcases hq : BuildIndexes.idLoop ids
    { skipList := [], instIdList := [], defnIdMap := [], buckets := [], inst2DefnMap := [] } m
    with ⟨v, m1⟩
  rw [hq] at h h1
  simp only [] at h h1
  cases hn : m1.notifier with
  | none =>
    rw [hn] at h
    simp only [Option.some.injEq] at h
    subst h
    exact h1
  | some n =>
    rw [hn] at h
    simp only [] at h
    split at h
    · rcases hb : n.OnIndexBuild v.instIdList v.buckets reqCtx with ⟨errMap, n1⟩
      rw [hb] at h
      simp only [] at h
      split at h
      · cases he : BuildIndexes.errLoop v.inst2DefnMap retry errMap
            { retryList := [], retryErrList := [], errList := [] }
            { m1 with notifier := some n1 } with
        | none => rw [he] at h; simp at h
        | some p =>
          rw [he] at h
          simp only [Option.some.injEq] at h
          subst h
          exact repo_keepsDeleted_trans _ _ _ h1
            (BuildIndexes_errLoop_keepsDeleted _ _ _ _ { m1 with notifier := some n1 } _ he)
      · simp only [Option.some.injEq] at h
        subst h
        exact h1
    · simp only [Option.some.injEq] at h
      subst h
      exact h1

/-- Claim C18 (evaluation of the code): instance 10 is READY with its scheduled flag set and
the indexer refuses the drop.  `DeleteIndex` and `DeleteIndexInstance` mark the instance
DELETED through `updateIndexState` and return the error; the stored instance is DELETED with
its scheduled flag still set, whereas `UpdateIndexInstance` to DELETED clears the flag. -/
theorem drop_path_keeps_scheduled_flag :
    ((scheduledReadyIndex (some (GoError.plain "indexer down"))).DeleteIndex 1 true
        (some NewUserRequestContext)).1.isSome = true ∧
    (((scheduledReadyIndex (some (GoError.plain "indexer down"))).DeleteIndex 1 true
        (some NewUserRequestContext)).2.repo.rows "b" 1).map
        (fun i => (i.InstId, i.State, i.Scheduled)) =
      [(10, IndexState.INDEX_STATE_DELETED, true), (11, IndexState.INDEX_STATE_DELETED, false)] ∧
    ((scheduledReadyIndex (some (GoError.plain "indexer down"))).DeleteIndexInstance 1 10 true
        (some NewUserRequestContext)).map (fun p =>
          (p.1.isSome, (p.2.repo.rows "b" 1).map (fun i => (i.InstId, i.State, i.Scheduled)))) =
      some (true,
        [(10, IndexState.INDEX_STATE_DELETED, true), (11, IndexState.INDEX_STATE_READY, false)]) ∧
    (((scheduledReadyIndex none).updateIndexState "b" 1 10
        IndexState.INDEX_STATE_DELETED).2.repo.rows "b" 1).map
        (fun i => (i.InstId, i.State, i.Scheduled)) =
      [(10, IndexState.INDEX_STATE_DELETED, true), (11, IndexState.INDEX_STATE_READY, false)] ∧
    (((scheduledReadyIndex none).UpdateIndexInstance "b" 1 10 IndexState.INDEX_STATE_DELETED
        StreamId.NIL_STREAM "" [] RebalanceState.REBAL_NIL [] [] (-1)).2.repo.rows "b" 1).map
        (fun i => (i.InstId, i.State, i.Scheduled)) =
      [(10, IndexState.INDEX_STATE_DELETED, false), (11, IndexState.INDEX_STATE_READY, false)] := by
  decide

/-- Claim C19 (evaluation of the code): the reference of definition 1 in the topology of "b"
has no instance row.  `handleDeleteBucket` with the stream filter NIL returns no error and
deletes definition 2, which has a row, but issues no `DeleteIndex` for definition 1: its
record and its reference stay, and the only repository writes are those of the drop of
definition 2.  Empty content is rejected with "invalid argument". -/
theorem handleDeleteBucket_skips_reference_without_rows :
    (referenceWithoutRows.handleDeleteBucket "b" (Content.streamIds [StreamId.NIL_STREAM])).1 =
      none ∧
    (referenceWithoutRows.handleDeleteBucket "b"
      (Content.streamIds [StreamId.NIL_STREAM])).2.repo.defns =
      [exampleDefn 1 "i" PartitionScheme.SINGLE] ∧
    (referenceWithoutRows.handleDeleteBucket "b"
      (Content.streamIds [StreamId.NIL_STREAM])).2.repo.topologies =
      [exampleTopology [(1, "i", [])]] ∧
    (referenceWithoutRows.handleDeleteBucket "b"
      (Content.streamIds [StreamId.NIL_STREAM])).2.repo.writes.filter
        (fun w => w matches RepoWrite.DropIndexById _) = [RepoWrite.DropIndexById 2] ∧
    referenceWithoutRows.handleDeleteBucket "b" Content.empty =
      (some (errors.New "invalid argument"), referenceWithoutRows) := by
  decide

/-! ## Cleanup of deferred indexes -/

theorem find_filter_other (ds : List IndexDefn) (id id2 : Nat) (h : id2 ≠ id) :
    (ds.filter (fun d => d.DefnId != id)).find? (fun d => d.DefnId == id2) =
      ds.find? (fun d => d.DefnId == id2) := by
  induction ds with
  | nil => rfl
  | cons d rest ih =>
    by_cases hd : d.DefnId = id
    · have hb : (d.DefnId == id2) = false := by
        simpa using fun h2 : d.DefnId = id2 => h (h2.symm.trans hd)
      have hb1 : (d.DefnId != id) = false := by simpa using hd
      rw [List.filter_cons, List.find?_cons]
      simp only [hb1, hb, Bool.false_eq_true, if_false]
      exact ih
    · have hb1 : (d.DefnId != id) = true := by simpa using hd
      rw [List.filter_cons, List.find?_cons, if_pos hb1, List.find?_cons, ih]

theorem DeleteIndex_defns (m : LifecycleMgr) (id : Nat) (notify : Bool)
    (ctx : Option MetadataRequestContext) (hf : m.repo.faults = []) :
    (m.DeleteIndex id notify ctx).2.repo.faults = [] ∧
    ∀ id2, id2 ≠ id →
      (m.DeleteIndex id notify ctx).2.repo.defns.find? (fun d => d.DefnId == id2) =
        m.repo.defns.find? (fun d => d.DefnId == id2) := by
  cases hd : m.repo.defns.find? (fun d => d.DefnId == id) with
  | none =>
    rw [DeleteIndex_missing m id notify ctx hf hd]
    exact ⟨hf, fun _ _ => rfl⟩
  | some defn =>
    have hid : defn.DefnId = id := find_defn_id _ _ _ hd
    obtain ⟨ws, h⟩ := DeleteIndex_nil m id notify ctx defn hf hd
    rw [h]
    have hclean : ∀ m2 : LifecycleMgr, m2.repo.faults = [] → m2.repo.defns = m.repo.defns →
        (DeleteIndex.cleanRepo defn m2).2.repo.faults = [] ∧
        ∀ id2, id2 ≠ id →
          (DeleteIndex.cleanRepo defn m2).2.repo.defns.find? (fun d => d.DefnId == id2) =
            m.repo.defns.find? (fun d => d.DefnId == id2) := by
      intro m2 hf2 hd2
      rw [cleanRepo_nil _ _ hf2]
      refine ⟨hf2, fun id2 h2 => ?_⟩
      simp only [hid, hd2]
      exact find_filter_other _ _ _ h2
    split
    · split
      · exact ⟨hf, fun _ _ => rfl⟩
      · exact hclean _ hf rfl
    · exact hclean _ hf rfl

theorem cleanupDefer_instLoop_spec (defn : IndexDefn) (insts : List IndexInstDistribution)
    (m : LifecycleMgr) :
    handleCleanupDeferIndexFromBucket.instLoop defn insts m =
      if insts.any (fun instRef => instRef.State != IndexState.INDEX_STATE_DELETED &&
          instRef.StreamId == StreamId.NIL_STREAM) = true then
        m.DeleteIndex defn.DefnId true (some NewUserRequestContext)
      else (none, m) := by
  induction insts with
  | nil => simp [handleCleanupDeferIndexFromBucket.instLoop]
  | cons i rest ih =>
    unfold handleCleanupDeferIndexFromBucket.instLoop
    by_cases hc : i.State ≠ IndexState.INDEX_STATE_DELETED ∧ i.StreamId = StreamId.NIL_STREAM
    · have hb : (i.State != IndexState.INDEX_STATE_DELETED &&
          i.StreamId == StreamId.NIL_STREAM) = true := by simpa using hc
      rw [if_pos hc]
      simp only [List.any_cons, hb, Bool.true_or, if_true]
    · have hb : (i.State != IndexState.INDEX_STATE_DELETED &&
          i.StreamId == StreamId.NIL_STREAM) = false := by
        simpa using hc
      rw [if_neg hc, ih]
      simp only [List.any_cons, hb, Bool.false_or]

theorem cleanupDeferTargets_congr (ds1 ds2 : List IndexDefn) (uuid : String)
    (refs : List IndexDefnDistribution)
    (h : ∀ ref ∈ refs, ds1.find? (fun d => d.DefnId == ref.DefnId) =
      ds2.find? (fun d => d.DefnId == ref.DefnId)) :
    cleanupDeferTargets ds1 uuid refs = cleanupDeferTargets ds2 uuid refs := by
  unfold cleanupDeferTargets
  congr 1
  apply List.filter_congr
  intro ref href
  rw [h ref href]

theorem cleanupDefer_defnLoop_spec (uuid : String) (refs : List IndexDefnDistribution) :
    ∀ m : LifecycleMgr, m.repo.faults = [] →
      (refs.map (fun ref => ref.DefnId)).Nodup →
      handleCleanupDeferIndexFromBucket.defnLoop uuid refs m =
        deleteEach (cleanupDeferTargets m.repo.defns uuid refs) m := by
  induction refs with
  | nil => intro m _ _; simp [handleCleanupDeferIndexFromBucket.defnLoop, cleanupDeferTargets,
      deleteEach]
  | cons ref rest ih =>
    intro m hf hnd
    have hm : ({ m with repo := m.repo } : LifecycleMgr) = m := rfl
    have hnd2 : (rest.map (fun ref => ref.DefnId)).Nodup := (List.nodup_cons.1 hnd).2
    have hnot : ∀ r ∈ rest, r.DefnId ≠ ref.DefnId := by
      intro r hr heq
      exact (List.nodup_cons.1 hnd).1 (List.mem_map.2 ⟨r, hr, heq⟩)
    unfold handleCleanupDeferIndexFromBucket.defnLoop
    rw [GetIndexDefnById_nil m.repo ref.DefnId hf]
    cases hd : m.repo.defns.find? (fun d => d.DefnId == ref.DefnId) with
    | none =>
      simp only [hm]
      rw [ih m hf hnd2]
      simp [cleanupDeferTargets, List.filter_cons, hd]
    | some defn =>
      have hid : defn.DefnId = ref.DefnId := find_defn_id _ _ _ hd
      simp only [hm]
      by_cases hc : defn.BucketUUID ≠ uuid ∧ defn.Deferred = true
      · rw [if_pos hc, cleanupDefer_instLoop_spec]
        by_cases ha : ref.Instances.any (fun instRef =>
            instRef.State != IndexState.INDEX_STATE_DELETED &&
              instRef.StreamId == StreamId.NIL_STREAM) = true
        · have htar : cleanupDeferTargets m.repo.defns uuid (ref :: rest) =
              ref.DefnId :: cleanupDeferTargets m.repo.defns uuid rest := by
            simp [cleanupDeferTargets, List.filter_cons, hd, hc.1, hc.2, ha]
          rw [if_pos ha, htar, hid]
          simp only [deleteEach]
          have hfr := DeleteIndex_defns m ref.DefnId true (some NewUserRequestContext) hf
          rcases hdel : m.DeleteIndex ref.DefnId true (some NewUserRequestContext)
            with ⟨_ | e, m1⟩
          · rw [hdel] at hfr
            simp only []
            rw [ih m1 hfr.1 hnd2]
            congr 1
            apply cleanupDeferTargets_congr
            intro r hr
            exact hfr.2 r.DefnId (hnot r hr)
          · rfl
        · have htar : cleanupDeferTargets m.repo.defns uuid (ref :: rest) =
              cleanupDeferTargets m.repo.defns uuid rest := by
            simp [cleanupDeferTargets, List.filter_cons, hd, ha]
          rw [if_neg ha, htar]
          simp only []
          exact ih m hf hnd2
      · have htar : cleanupDeferTargets m.repo.defns uuid (ref :: rest) =
            cleanupDeferTargets m.repo.defns uuid rest := by
          simp [cleanupDeferTargets, List.filter_cons, hd, hc]
        rw [if_neg hc, htar]
        exact ih m hf hnd2

theorem getBucketUUID_frame (m : LifecycleMgr) (bucket : String) :
    (m.getBucketUUID bucket).2.2 = { m with env := (m.getBucketUUID bucket).2.2.env } := by
  unfold LifecycleMgr.getBucketUUID
  split <;> rfl

/-- C20 (counterexample).  Bucket "b" now has UUID "u2".  Instance 20 of definition 2 is on
stream 1 (it is DELETED), so an instance of the bucket has a non-NIL stream; definitions 1
and 2 are deferred and carry the old UUID "u1".  The handler returns no error; it deletes
definition 1 although an instance of the bucket has a non-NIL stream, and it does not delete
definition 2, whose only instance is DELETED. -/
theorem cleanupDefer_passes_over_deleted_rows :
    (recreatedBucket.repo.rows "b" 2).map (fun i => (i.State, i.StreamId)) =
      [(IndexState.INDEX_STATE_DELETED, StreamId.STREAM 1)] ∧
    (recreatedBucket.getBucketUUID "b").1 = "u2" ∧
    (recreatedBucket.repo.defns.filter
      (fun d => d.Deferred && d.BucketUUID != "u2")).map (fun d => d.DefnId) = [1, 2] ∧
    (recreatedBucket.handleCleanupDeferIndexFromBucket "b").1 = none ∧
    (recreatedBucket.handleCleanupDeferIndexFromBucket "b").2.repo.defns.map
      (fun d => d.DefnId) = [2, 3, 4] := by
  decide

/-- Claim C20 (amended): in a repository whose calls succeed,
`handleCleanupDeferIndexFromBucket` changes nothing but the cluster state of the UUID fetch
when the bucket UUID cannot be fetched, when the bucket has no topology, or when some
instance of the bucket that is not DELETED has a non-NIL stream.  Otherwise, the DefnIds of
the topology being distinct, it issues `DeleteIndex` with notification, in the order of the
topology and up to the first call that fails, for exactly the definitions that resolve, are
deferred, carry a bucket UUID other than the current one and have an instance that is not
DELETED and on the NIL stream. -/
theorem handleCleanupDeferIndexFromBucket_spec (m : LifecycleMgr) (bucket : String)
    (hf : m.repo.faults = []) :
    (m.getBucketUUID bucket).2.2 = { m with env := (m.getBucketUUID bucket).2.2.env } ∧
    ((m.getBucketUUID bucket).2.1 ≠ none →
      m.handleCleanupDeferIndexFromBucket bucket = (none, (m.getBucketUUID bucket).2.2)) ∧
    ((m.getBucketUUID bucket).2.1 = none →
      (m.repo.topologies.find? (fun t => t.Bucket == bucket) = none →
        m.handleCleanupDeferIndexFromBucket bucket = (none, (m.getBucketUUID bucket).2.2)) ∧
      ∀ topology, m.repo.topologies.find? (fun t => t.Bucket == bucket) = some topology →
        (handleCleanupDeferIndexFromBucket.hasValidActiveIndex topology = true →
          m.handleCleanupDeferIndexFromBucket bucket = (none, (m.getBucketUUID bucket).2.2)) ∧
        (handleCleanupDeferIndexFromBucket.hasValidActiveIndex topology = false →
          (topology.Definitions.map (fun ref => ref.DefnId)).Nodup →
          m.handleCleanupDeferIndexFromBucket bucket =
            deleteEach
              (cleanupDeferTargets m.repo.defns (m.getBucketUUID bucket).1 topology.Definitions)
              (m.getBucketUUID bucket).2.2)) := by
  have hframe := getBucketUUID_frame m bucket
  refine ⟨hframe, ?_, ?_⟩
  · intro he
    unfold LifecycleMgr.handleCleanupDeferIndexFromBucket
    rcases hg : m.getBucketUUID bucket with ⟨uuid, _ | e, m1⟩
    · rw [hg] at he; exact absurd rfl he
    · rfl
  · intro he
    unfold LifecycleMgr.handleCleanupDeferIndexFromBucket
    rcases hg : m.getBucketUUID bucket with ⟨uuid, _ | e, m1⟩
    · rw [hg] at hframe
      simp only [] at hframe ⊢
      have hrepo : m1.repo = m.repo := by rw [hframe]
      have hf1 : m1.repo.faults = [] := by rw [hrepo]; exact hf
      have hm1 : ({ m1 with repo := m1.repo } : LifecycleMgr) = m1 := rfl
      rw [GetTopologyByBucket_nil m1.repo bucket hf1, hrepo]
      refine ⟨fun hnone => ?_, fun topology ht => ⟨fun hv => ?_, fun hv hnd => ?_⟩⟩
      · rw [hnone]
        simp only [← hrepo, hm1]
      · rw [ht]
        simp only [hv, Bool.not_true, Bool.false_eq_true, if_false, ← hrepo, hm1]
      · rw [ht]
        simp only [hv, Bool.not_false, if_true, ← hrepo, hm1]
        exact cleanupDefer_defnLoop_spec uuid topology.Definitions m1 hf1 hnd
    · rw [hg] at he; simp at he

/-- C20 (witness).  On the recreated bucket "b" the handler issues `DeleteIndex` for
definition 1 only. -/
theorem handleCleanupDeferIndexFromBucket_spec_witness :
    recreatedBucket.handleCleanupDeferIndexFromBucket "b" = deleteEach [1] recreatedBucket :=
  (((handleCleanupDeferIndexFromBucket_spec recreatedBucket "b" rfl).2.2 (by decide)).2
    (exampleTopology
      [(1, "i1", [exampleInst 10 IndexState.INDEX_STATE_READY RebalanceState.REBAL_ACTIVE]),
       (2, "i2", [{ exampleInst 20 IndexState.INDEX_STATE_DELETED
                      RebalanceState.REBAL_ACTIVE with StreamId := StreamId.STREAM 1 }]),
       (3, "i3", [exampleInst 30 IndexState.INDEX_STATE_READY RebalanceState.REBAL_ACTIVE]),
       (4, "i4", [exampleInst 40 IndexState.INDEX_STATE_READY RebalanceState.REBAL_ACTIVE])])
    (by decide)).2 (by decide) (by decide)

/-! ## The dispatcher -/

theorem dispatch_frame (d : Dispatcher) (r : requestHolder) :
    (d.dispatch r).indexerReady = d.indexerReady ∧
    (d.dispatch r).bootstraps = d.bootstraps ∧
    (d.dispatch r).bootstrapsClosed = d.bootstrapsClosed ∧
    (d.dispatch r).incomings = d.incomings ∧
    (d.dispatch r).phase = d.phase ∧
    (d.dispatch r).spawned = d.spawned ∧
    (d.dispatch r).received = d.received ∧
    (d.dispatch r).dispatched = d.dispatched ++ [r] := by
  unfold Dispatcher.dispatch Dispatcher.dispatchRequest
  simp only []
  split
  · rename_i d1 h
    split at h
    · simp at h
    · split at h
      · simp only [Option.some.injEq] at h
        subst h
        simp
      · split at h <;>
        · simp only [Option.some.injEq] at h
          subst h
          simp
  · simp

theorem bootstrapInv_init (m : LifecycleMgr) : (Dispatcher.init m).bootstrapInv := by
  intro _
  simp [Dispatcher.init]

theorem bootstrapInv_dispatch (d : Dispatcher) (r : requestHolder)
    (hr : d.indexerReady = false → r.op ∈ bootstrapWhitelist)
    (h : d.indexerReady = false →
      d.bootstrapsClosed = false ∧ d.phase ≠ Phase.regular ∧
      (∀ r ∈ d.dispatched, r.op ∈ bootstrapWhitelist) ∧
      (∀ r ∈ d.bootstraps, r.op ∈ bootstrapWhitelist) ∧
      (∀ r ∈ d.spawned, r.op ∈ bootstrapWhitelist) ∧
      d.incomings = d.received.filter (fun r => decide (r.op ∉ bootstrapWhitelist))) :
    (d.dispatch r).bootstrapInv := by
  obtain ⟨h1, h2, h3, h4, h5, h6, h7, h8⟩ := dispatch_frame d r
  intro hready
  rw [h1] at hready
  obtain ⟨i1, i2, i3, i4, i5, i6⟩ := h hready
  rw [h2, h3, h4, h5, h6, h7, h8]
  refine ⟨i1, i2, ?_, i4, i5, i6⟩
  intro x hx
  rcases List.mem_append.1 hx with hx | hx
  · exact i3 x hx
  · rw [List.mem_singleton.1 hx]; exact hr hready

theorem bootstrapInv_OnNewRequest (d : Dispatcher) (req : requestHolder)
    (h : d.bootstrapInv) : (d.OnNewRequest req).bootstrapInv := by
  unfold Dispatcher.OnNewRequest
  by_cases h1 : req.op = OpCode.OPCODE_INDEXER_READY
  · rw [if_pos h1]
    split <;> (intro hready; simp at hready)
  · rw [if_neg h1]
    by_cases h2 : req.op = OpCode.OPCODE_SERVICE_MAP
    · rw [if_pos h2]
      intro hready
      obtain ⟨i1, i2, i3, i4, i5, i6⟩ := h hready
      refine ⟨i1, i2, i3, i4, ?_, ?_⟩
      · intro x hx
        rcases List.mem_append.1 hx with hx | hx
        · exact i5 x hx
        · rw [List.mem_singleton.1 hx, h2]; decide
      · simp only [List.filter_append, ← i6]
        simp [List.filter_cons, h2, bootstrapWhitelist]
    · rw [if_neg h2]
      by_cases h3 : d.indexerReady = false ∧
          (req.op = OpCode.OPCODE_UPDATE_INDEX_INST ∨ req.op = OpCode.OPCODE_DELETE_BUCKET ∨
           req.op = OpCode.OPCODE_CLEANUP_INDEX ∨ req.op = OpCode.OPCODE_RESET_INDEX)
      · rw [if_pos h3]
        have hw : req.op ∈ bootstrapWhitelist := by
          rcases h3.2 with h | h | h | h <;> rw [h] <;> decide
        split
        · intro hready
          obtain ⟨i1, i2, i3, i4, i5, i6⟩ := h hready
          refine ⟨i1, i2, i3, ?_, i5, ?_⟩
          · intro x hx
            rcases List.mem_append.1 hx with hx | hx
            · exact i4 x hx
            · rw [List.mem_singleton.1 hx]; exact hw
          · simp only [List.filter_append, ← i6]
            simp [List.filter_cons, hw]
        · exact h
      · rw [if_neg h3]
        split
        · intro hready
          obtain ⟨i1, i2, i3, i4, i5, i6⟩ := h hready
          have hnw : req.op ∉ bootstrapWhitelist := by
            intro hmem
            simp only [bootstrapWhitelist, List.mem_cons, List.mem_singleton,
              List.mem_nil_iff, or_false] at hmem
            rcases hmem with h | h | h | h | h
            · exact h3 ⟨hready, Or.inl h⟩
            · exact h3 ⟨hready, Or.inr (Or.inl h)⟩
            · exact h3 ⟨hready, Or.inr (Or.inr (Or.inl h))⟩
            · exact h3 ⟨hready, Or.inr (Or.inr (Or.inr h))⟩
            · exact h2 h
          refine ⟨i1, i2, i3, i4, i5, ?_⟩
          simp only [List.filter_append, ← i6]
          simp [List.filter_cons, hnw]
        · exact h

theorem bootstrapInv_step (d : Dispatcher) (e : Event) (h : d.bootstrapInv) :
    (d.step e).bootstrapInv := by
  unfold Dispatcher.step
  split
  · exact h
  · cases e with
    | OnNewRequest request => exact bootstrapInv_OnNewRequest d request h
    | Terminate => exact h
    | processRequest =>
      simp only [Dispatcher.processRequest]
      cases hp : d.phase with
      | bootstrap =>
        simp only []
        cases hb : d.bootstraps with
        | nil =>
          simp only []
          split
          · rename_i hc
            intro hready
            have := (h hready).1
            rw [this] at hc
            simp at hc
          · exact h
        | cons r rest =>
          simp only []
          apply bootstrapInv_dispatch
          · intro hready
            have := (h hready).2.2.2.1 r
            rw [hb] at this
            exact this (List.mem_cons_self _ _)
          · intro hready
            obtain ⟨i1, i2, i3, i4, i5, i6⟩ := h hready
            refine ⟨i1, by simp, i3, ?_, i5, i6⟩
            intro x hx
            exact i4 x (by rw [hb]; exact List.mem_cons_of_mem _ hx)
      | regular =>
        simp only []
        cases hi : d.incomings with
        | nil => exact h
        | cons r rest =>
          simp only []
          intro hready
          rw [(dispatch_frame _ r).1] at hready
          exact absurd hp (h hready).2.1
      | stopped => exact h
    | processKill =>
      simp only []
      split
      · intro hready
        obtain ⟨i1, i2, i3, i4, i5, i6⟩ := h hready
        exact ⟨i1, by simp, i3, i4, i5, i6⟩
      · exact h
    | runSpawned i =>
      simp only []
      cases hs : d.spawned.get? i with
      | none => exact h
      | some r =>
        simp only []
        have hmem : r ∈ d.spawned := List.get?_mem hs
        apply bootstrapInv_dispatch
        · intro hready
          exact (h hready).2.2.2.2.1 r hmem
        · intro hready
          obtain ⟨i1, i2, i3, i4, i5, i6⟩ := h hready
          refine ⟨i1, i2, i3, i4, ?_, i6⟩
          intro x hx
          exact i5 x (List.mem_of_mem_eraseIdx hx)

theorem bootstrapInv_run (events : List Event) :
    ∀ d : Dispatcher, d.bootstrapInv → (d.run events).bootstrapInv := by
  induction events with
  | nil => intro d h; exact h
  | cons e rest ih =>
    intro d h
    exact ih (d.step e) (bootstrapInv_step d e h)

theorem run_of_crashed (events : List Event) :
    ∀ d : Dispatcher, d.crashed = true → d.run events = d := by
  induction events with
  | nil => intro d _; rfl
  | cons e rest ih =>
    intro d h
    have hs : d.step e = d := by
      unfold Dispatcher.step
      rw [if_pos h]
    show Dispatcher.run (d.step e) rest = d
    rw [hs]
    exact ih d h

theorem step_not_crashed (d : Dispatcher) (e : Event) (h : (d.step e).crashed = false) :
    d.crashed = false := by
  cases hc : d.crashed with
  | false => rfl
  | true =>
    have hs : d.step e = d := by
      unfold Dispatcher.step
      rw [if_pos hc]
    rw [hs, hc] at h
    cases h

theorem run_not_crashed (events : List Event) :
    ∀ d : Dispatcher, (d.run events).crashed = false → d.crashed = false := by
  induction events with
  | nil => intro d h; exact h
  | cons e rest ih =>
    intro d h
    exact step_not_crashed d e (ih (d.step e) h)

theorem OnNewRequest_not_ready (d : Dispatcher) (req : requestHolder)
    (h : (d.OnNewRequest req).indexerReady = false) :
    d.indexerReady = false ∧ req.op ≠ OpCode.OPCODE_INDEXER_READY := by
  unfold Dispatcher.OnNewRequest at h
  by_cases h1 : req.op = OpCode.OPCODE_INDEXER_READY
  · rw [if_pos h1] at h
    split at h <;> cases h
  · rw [if_neg h1] at h
    refine ⟨?_, h1⟩
    split at h
    · exact h
    · split at h
      · split at h <;> exact h
      · split at h <;> exact h

theorem step_not_ready (d : Dispatcher) (e : Event) (h : (d.step e).indexerReady = false) :
    d.indexerReady = false := by
  unfold Dispatcher.step at h
  split at h
  · exact h
  · cases e with
    | OnNewRequest request => exact (OnNewRequest_not_ready d request h).1
    | Terminate => exact h
    | processRequest =>
      simp only [Dispatcher.processRequest] at h
      split at h
      · split at h
        · rw [(dispatch_frame _ _).1] at h
          exact h
        · split at h <;> exact h
      · split at h
        · rw [(dispatch_frame _ _).1] at h
          exact h
        · exact h
      · exact h
    | processKill =>
      simp only [] at h
      split at h <;> exact h
    | runSpawned i =>
      simp only [] at h
      split at h
      · rw [(dispatch_frame _ _).1] at h
        exact h
      · exact h

theorem run_not_ready (events : List Event) :
    ∀ d : Dispatcher, (d.run events).indexerReady = false → d.indexerReady = false := by
  induction events with
  | nil => intro d h; exact h
  | cons e rest ih =>
    intro d h
    exact step_not_ready d e (ih (d.step e) h)

theorem take_append_take {α : Type} (n : Nat) (a b : List α) :
    ((a.take n) ++ b).take n = (a ++ b).take n := by
  by_cases h : n ≤ a.length
  · rw [List.take_append_of_le_length (by simp [List.length_take, h]),
      List.take_append_of_le_length h, List.take_take, Nat.min_self]
  · have h2 : a.length ≤ n := Nat.le_of_not_le h
    rw [List.take_of_length_le h2]

theorem OnNewRequest_incomings (d : Dispatcher) (req : requestHolder)
    (hready : d.indexerReady = false) (hop : req.op ≠ OpCode.OPCODE_INDEXER_READY)
    (hlen : d.incomings.length ≤ queueCapacity) :
    (d.OnNewRequest req).incomings =
      (d.incomings ++ [req].filter (fun r => decide (r.op ∉ bootstrapWhitelist))).take
        queueCapacity := by
  unfold Dispatcher.OnNewRequest
  rw [if_neg hop]
  by_cases h2 : req.op = OpCode.OPCODE_SERVICE_MAP
  · rw [if_pos h2]
    have hw : req.op ∈ bootstrapWhitelist := by rw [h2]; decide
    simp [List.filter_cons, hw, List.take_of_length_le hlen]
  · rw [if_neg h2]
    by_cases h3 : d.indexerReady = false ∧
        (req.op = OpCode.OPCODE_UPDATE_INDEX_INST ∨ req.op = OpCode.OPCODE_DELETE_BUCKET ∨
         req.op = OpCode.OPCODE_CLEANUP_INDEX ∨ req.op = OpCode.OPCODE_RESET_INDEX)
    · rw [if_pos h3]
      have hw : req.op ∈ bootstrapWhitelist := by
        rcases h3.2 with h | h | h | h <;> rw [h] <;> decide
      split <;> simp [List.filter_cons, hw, List.take_of_length_le hlen]
    · rw [if_neg h3]
      have hnw : req.op ∉ bootstrapWhitelist := by
        intro hmem
        simp only [bootstrapWhitelist, List.mem_cons, List.mem_singleton,
          List.mem_nil_iff, or_false] at hmem
        rcases hmem with h | h | h | h | h
        · exact h3 ⟨hready, Or.inl h⟩
        · exact h3 ⟨hready, Or.inr (Or.inl h)⟩
        · exact h3 ⟨hready, Or.inr (Or.inr (Or.inl h))⟩
        · exact h3 ⟨hready, Or.inr (Or.inr (Or.inr h))⟩
        · exact h2 h
      have hf : [req].filter (fun r => decide (r.op ∉ bootstrapWhitelist)) = [req] := by
        simp [List.filter_cons, hnw]
      rw [hf]
      by_cases hlt : d.incomings.length < queueCapacity
      · rw [if_pos hlt]
        simp only
        rw [List.take_of_length_le]
        simp only [List.length_append, List.length_singleton]
        exact hlt
      · rw [if_neg hlt]
        have heq : d.incomings.length = queueCapacity :=
          Nat.le_antisymm hlen (Nat.le_of_not_lt hlt)
        rw [List.take_append_of_le_length (Nat.le_of_eq heq.symm),
          List.take_of_length_le (Nat.le_of_eq heq)]

theorem step_incomings (d : Dispatcher) (e : Event) (hinv : d.bootstrapInv)
    (hc : d.crashed = false) (hr : (d.step e).indexerReady = false)
    (hlen : d.incomings.length ≤ queueCapacity) :
    (d.step e).incomings =
      (d.incomings ++ (arrivals [e]).filter (fun r => decide (r.op ∉ bootstrapWhitelist))).take
        queueCapacity := by
  have hready := step_not_ready d e hr
  have hphase := (hinv hready).2.1
  have hsame : ∀ x : Dispatcher, x.incomings = d.incomings →
      x.incomings = (d.incomings ++ ([] : List requestHolder).filter
        (fun r => decide (r.op ∉ bootstrapWhitelist))).take queueCapacity := by
    intro x hx
    rw [hx]
    simp [List.take_of_length_le hlen]
  unfold Dispatcher.step at hr ⊢
  rw [hc] at hr ⊢
  simp only [Bool.false_eq_true, if_false] at hr ⊢
  cases e with
  | OnNewRequest request =>
    simp only [arrivals]
    exact OnNewRequest_incomings d request hready (OnNewRequest_not_ready d request hr).2 hlen
  | Terminate => exact hsame _ rfl
  | processRequest =>
    simp only [arrivals]
    apply hsame
    simp only [Dispatcher.processRequest]
    cases hp : d.phase with
    | bootstrap =>
      simp only []
      cases hb : d.bootstraps with
      | nil =>
        simp only []
        split <;> rfl
      | cons r rest =>
        simp only []
        rw [(dispatch_frame _ r).2.2.2.1]
    | regular => exact absurd hp hphase
    | stopped => rfl
  | processKill =>
    simp only [arrivals]
    apply hsame
    split <;> rfl
  | runSpawned i =>
    simp only [arrivals]
    apply hsame
    cases hs : d.spawned.get? i with
    | none => rfl
    | some r =>
      simp only []
      rw [(dispatch_frame _ r).2.2.2.1]

theorem arrivals_cons (e : Event) (rest : List Event) :
    arrivals (e :: rest) = arrivals [e] ++ arrivals rest := by
  cases e <;> rfl

theorem run_incomings (events : List Event) :
    ∀ d : Dispatcher, d.bootstrapInv → (d.run events).indexerReady = false →
      (d.run events).crashed = false → d.incomings.length ≤ queueCapacity →
      (d.run events).incomings =
        (d.incomings ++ (arrivals events).filter
          (fun r => decide (r.op ∉ bootstrapWhitelist))).take queueCapacity := by
  induction events with
  | nil =>
    intro d _ _ _ hlen
    simp [Dispatcher.run, arrivals, List.take_of_length_le hlen]
  | cons e rest ih =>
    intro d hinv hr hc hlen
    have hr1 : (d.step e).indexerReady = false := run_not_ready rest (d.step e) hr
    have hc1 : (d.step e).crashed = false := run_not_crashed rest (d.step e) hc
    have hc0 : d.crashed = false := step_not_crashed d e hc1
    have hstep := step_incomings d e hinv hc0 hr1 hlen
    have hlen1 : (d.step e).incomings.length ≤ queueCapacity := by
      rw [hstep, List.length_take]
      exact Nat.min_le_left _ _
    have h := ih (d.step e) (bootstrapInv_step d e hinv) hr hc hlen1
    show (Dispatcher.run (d.step e) rest).incomings = _
    rw [h, hstep, take_append_take, arrivals_cons e rest, List.filter_append,
      List.append_assoc]

/-- Claim C13: in every state that the dispatcher of `OnNewRequest` and `processRequest`
reaches from its start before INDEXER_READY is received (`indexerReady` is false), every
request that was passed to `dispatchRequest` has an opcode among UPDATE_INDEX_INST,
DELETE_BUCKET, CLEANUP_INDEX, RESET_INDEX and SERVICE_MAP; and, unless a handler has
panicked, the queue `incomings` holds the requests with any other opcode that the calls of
`OnNewRequest` brought, all of them and in their order of arrival, up to the capacity of the
channel (a caller that finds the channel full stays blocked in its send). -/
theorem bootstrap_whitelist (m : LifecycleMgr) (events : List Event)
    (h : ((Dispatcher.init m).run events).indexerReady = false) :
    (∀ r ∈ ((Dispatcher.init m).run events).dispatched, r.op ∈ bootstrapWhitelist) ∧
    (((Dispatcher.init m).run events).crashed = false →
      ((Dispatcher.init m).run events).incomings =
        ((arrivals events).filter (fun r => decide (r.op ∉ bootstrapWhitelist))).take
          queueCapacity) := by
  have hinv := bootstrapInv_run events (Dispatcher.init m) (bootstrapInv_init m) h
  refine ⟨hinv.2.2.1, fun hc => ?_⟩
  have hrun := run_incomings events (Dispatcher.init m) (bootstrapInv_init m) h hc
    (Nat.zero_le _)
  rw [hrun]
  rfl

/-- C13 (witness).  Before INDEXER_READY the CLEANUP_INDEX and SERVICE_MAP requests are
dispatched, and the CREATE_INDEX and DROP_INDEX requests, the requests 1 and 4, wait in
`incomings`. -/
theorem bootstrap_whitelist_witness :
    (∀ r ∈ ((Dispatcher.init (oneReadyIndex [] [])).run bootstrapEvents).dispatched,
      r.op ∈ bootstrapWhitelist) ∧
    ((Dispatcher.init (oneReadyIndex [] [])).run bootstrapEvents).incomings =
      [exampleRequest 1 OpCode.OPCODE_CREATE_INDEX
         (Content.IndexDefn (exampleDefn 2 "j" PartitionScheme.SINGLE)),
       exampleRequest 4 OpCode.OPCODE_DROP_INDEX Content.empty] ∧
    ((Dispatcher.init (oneReadyIndex [] [])).run bootstrapEvents).dispatched.map
      (fun r => r.reqId) = [2, 3] :=
  ⟨(bootstrap_whitelist (oneReadyIndex [] []) bootstrapEvents (by decide)).1,
   ((bootstrap_whitelist (oneReadyIndex [] []) bootstrapEvents (by decide)).2
      (by decide)).trans (by decide),
   by decide⟩

theorem dispatchRequest_pairing (d d1 : Dispatcher) (r : requestHolder)
    (h : d.dispatchRequest r = some d1) :
    (r.fid = "internal" → d1.outgoings = d.outgoings) ∧
    (r.fid ≠ "internal" → ∃ err result,
      d1.outgoings = d.outgoings ++
        [{ fid := r.fid, reqId := r.reqId, err := err, result := result }]) := by
  unfold Dispatcher.dispatchRequest at h
  split at h
  · simp at h
  · split at h
    · rename_i hfid
      simp only [Option.some.injEq] at h
      subst h
      exact ⟨fun _ => rfl, fun hne => absurd hfid hne⟩
    · rename_i hfid
      split at h <;>
      · simp only [Option.some.injEq] at h
        subst h
        exact ⟨fun hi => absurd hi hfid, fun _ => ⟨_, _, rfl⟩⟩

/-- Claim C14 (evaluation of the code): a MERGE_PARTITION request with request id 7 from
"client" meets a repository read that fails.  The handler returns the error of the read;
`dispatchRequest` appends one response with the request id and correlation id of the request,
and the error string of that response is empty.  The same request with correlation id
"internal" gets no response. -/
theorem dispatchRequest_empty_error_for_failed_merge :
    ((oneReadyIndex [some (GoError.plain "read failed")] []).handleMergePartition
        (Content.mergePartition
          { DefnId := 1, SrcInstId := 10, SrcRState := RebalanceState.REBAL_MERGED,
            TgtInstId := 11, TgtPartitions := [7], TgtVersions := [1], TgtInstVersion := 1 })
        NewRebalanceRequestContext).1 = some (GoError.plain "read failed") ∧
    ((Dispatcher.init (oneReadyIndex [some (GoError.plain "read failed")] [])).dispatchRequest
        (exampleRequest 7 OpCode.OPCODE_MERGE_PARTITION (Content.mergePartition
          { DefnId := 1, SrcInstId := 10, SrcRState := RebalanceState.REBAL_MERGED,
            TgtInstId := 11, TgtPartitions := [7], TgtVersions := [1],
            TgtInstVersion := 1 }))).map (fun d => d.outgoings) =
      some [{ fid := "client", reqId := 7, err := "", result := none }] ∧
    ((Dispatcher.init (oneReadyIndex [some (GoError.plain "read failed")] [])).dispatchRequest
        { exampleRequest 7 OpCode.OPCODE_MERGE_PARTITION (Content.mergePartition
          { DefnId := 1, SrcInstId := 10, SrcRState := RebalanceState.REBAL_MERGED,
            TgtInstId := 11, TgtPartitions := [7], TgtVersions := [1],
            TgtInstVersion := 1 }) with fid := "internal" }).map (fun d => d.outgoings) =
      some [] := by
  decide

/-- Claim C15 (evaluation of the code): the first repository read fails.  The handlers of
RESET_INDEX and of DROP_INDEX both return the error of the read; the response to the
DROP_INDEX request carries its text, the response to the RESET_INDEX request carries the
empty error string.  The handlers of CONFIG_UPDATE and of DROP_OR_PRUNE_INSTANCE fail on a
content that they cannot decode, and the responses carry the empty error string. -/
theorem dispatchRequest_drops_error_of_reset :
    ((oneReadyIndex [some (GoError.plain "read failed")] []).handleResetIndex
        (Content.IndexInst { Defn := exampleDefn 1 "i" PartitionScheme.SINGLE, InstId := 10,
                             State := IndexState.INDEX_STATE_ACTIVE })).map (fun p => p.1) =
      some (some (GoError.plain "read failed")) ∧
    ((Dispatcher.init (oneReadyIndex [some (GoError.plain "read failed")] [])).dispatchRequest
        (exampleRequest 8 OpCode.OPCODE_RESET_INDEX
          (Content.IndexInst { Defn := exampleDefn 1 "i" PartitionScheme.SINGLE, InstId := 10,
                               State := IndexState.INDEX_STATE_ACTIVE }))).map
        (fun d => d.outgoings) =
      some [{ fid := "client", reqId := 8, err := "", result := none }] ∧
    ((oneReadyIndex [some (GoError.plain "read failed")] []).handleDeleteIndex "1"
        NewUserRequestContext).1 = some (GoError.plain "read failed") ∧
    ((Dispatcher.init (oneReadyIndex [some (GoError.plain "read failed")] [])).dispatchRequest
        (exampleRequest 9 OpCode.OPCODE_DROP_INDEX Content.empty)).map (fun d => d.outgoings) =
      some [{ fid := "client", reqId := 9, err := "read failed", result := none }] ∧
    ((oneReadyIndex [] []).handleConfigUpdate Content.malformed).1 = some unmarshalError ∧
    ((Dispatcher.init (oneReadyIndex [] [])).dispatchRequest
        (exampleRequest 10 OpCode.OPCODE_CONFIG_UPDATE Content.malformed)).map
        (fun d => d.outgoings) =
      some [{ fid := "client", reqId := 10, err := "", result := none }] ∧
    ((oneReadyIndex [] []).handleDeleteOrPruneIndexInstance Content.malformed
        NewRebalanceRequestContext).map (fun p => p.1) = some (some unmarshalError) ∧
    ((Dispatcher.init (oneReadyIndex [] [])).dispatchRequest
        (exampleRequest 11 OpCode.OPCODE_DROP_OR_PRUNE_INSTANCE Content.malformed)).map
        (fun d => d.outgoings) =
      some [{ fid := "client", reqId := 11, err := "", result := none }] := by
  decide

/-! ## Claims about the reset of an instance -/

theorem rows_mapInst (t : IndexTopology) (d i : Nat)
    (f : IndexInstDistribution → IndexInstDistribution) :
    (t.mapInst d i f).GetIndexInstancesByDefn d =
      (t.GetIndexInstancesByDefn d).map (fun x => if x.InstId = i then f x else x) := by
  cases t with
  | mk bucket defs =>
    simp only [IndexTopology.mapInst, IndexTopology.GetIndexInstancesByDefn]
    rw [find_map_of_preserved]
    · cases hfind : defs.find? (fun x => x.DefnId == d) with
      | none => simp
      | some x =>
        have hx : x.DefnId = d := by simpa using List.find?_some hfind
        simp [hx]
    · intro x
      by_cases hx : x.DefnId = d <;> simp [hx]

theorem find_replace (defns : List IndexDefn) (defn : IndexDefn)
    (hany : defns.any (fun d => d.DefnId == defn.DefnId) = true) :
    (defns.map (fun d => if d.DefnId = defn.DefnId then defn else d)).find?
      (fun d => d.DefnId == defn.DefnId) = some defn := by
  induction defns with
  | nil => simp at hany
  | cons x rest ih =>
    by_cases hx : x.DefnId = defn.DefnId
    · simp [List.find?_cons, hx]
    · have hb : (x.DefnId == defn.DefnId) = false := by simpa using hx
      simp only [List.any_cons, hb, Bool.false_or] at hany
      simp [List.find?_cons, hx, hb, ih hany]

theorem UpdateIndex_nil (r : MetadataRepo) (defn : IndexDefn) (h : r.faults = []) :
    (r.UpdateIndex defn).1 = none ∧ (r.UpdateIndex defn).2.faults = [] ∧
    (r.UpdateIndex defn).2.topologies = r.topologies ∧
    (r.UpdateIndex defn).2.defns.find? (fun d => d.DefnId == defn.DefnId) = some defn := by
  simp only [MetadataRepo.UpdateIndex, MetadataRepo.fault, h]
  refine ⟨trivial, trivial, trivial, ?_⟩
  by_cases hany : r.defns.any (fun d => d.DefnId == defn.DefnId) = true
  · rw [if_pos hany]
    exact find_replace r.defns defn hany
  · rw [if_neg hany]
    have hnone : r.defns.find? (fun d => d.DefnId == defn.DefnId) = none := by
      rw [List.find?_eq_none]
      intro x hx hxd
      exact hany (List.any_eq_true.2 ⟨x, hx, hxd⟩)
    simp [List.find?_append, hnone]

theorem resetApply_eq (t : IndexTopology) (inst : IndexInst) (oldStorageMode : String) :
    handleResetIndex.apply t inst oldStorageMode =
      t.mapInst inst.Defn.DefnId inst.InstId
        (resetRow inst.State oldStorageMode inst.Defn.Using) := by
  unfold handleResetIndex.apply
  simp only [IndexTopology.UpdateScheduledFlagForIndexInst,
    IndexTopology.UpdateOldStorageModeForIndexInst, IndexTopology.UpdateStorageModeForIndexInst,
    IndexTopology.UpdateStateForIndexInst, IndexTopology.SetErrorForIndexInst,
    IndexTopology.UpdateStreamForIndexInst]
  by_cases hc : inst.State = IndexState.INDEX_STATE_INITIAL ∨
      inst.State = IndexState.INDEX_STATE_CATCHUP ∨ inst.State = IndexState.INDEX_STATE_ACTIVE
  · simp only [if_pos hc]
    rw [mapInst_mapInst, mapInst_mapInst, mapInst_mapInst, mapInst_mapInst, mapInst_mapInst]
    · congr 1
      funext x
      simp [resetRow, hc]
    all_goals intro x; rfl
  · simp only [if_neg hc]
    rw [mapInst_mapInst, mapInst_mapInst, mapInst_mapInst, mapInst_mapInst]
    · congr 1
      funext x
      simp [resetRow, hc]
    all_goals intro x; rfl

/-- Claim C21 (counterexample).  Instance 10 is stored in state ACTIVE with its scheduled flag
clear and the request carries the instance in state READY: the reset succeeds and leaves the
flag clear.  Instance 10 is stored in state READY and the request carries it in state ACTIVE:
the reset succeeds and sets the flag. -/
theorem handleResetIndex_reads_state_of_request :
    ((storedInstance IndexState.INDEX_STATE_ACTIVE).handleResetIndex
        (Content.IndexInst (resetRequest IndexState.INDEX_STATE_READY))).map
        (fun res => (res.1, (res.2.repo.rows "b" 1).map (fun i => (i.InstId, i.Scheduled)))) =
      some (none, [(10, false)]) ∧
    ((storedInstance IndexState.INDEX_STATE_READY).handleResetIndex
        (Content.IndexInst (resetRequest IndexState.INDEX_STATE_ACTIVE))).map
        (fun res => (res.1, (res.2.repo.rows "b" 1).map (fun i => (i.InstId, i.Scheduled)))) =
      some (none, [(10, true)]) := by
  decide

/-- Claim C21 (amended).  When no repository call fails and the topology of the bucket lists
the instance of the request under its definition, `handleResetIndex` returns no error; the
definition record is the definition of the request, and the rows of the definition are the
rows as they were, except that the instance of the request has state READY, stream NIL, an
empty error string, as old storage mode the storage kind of the definition record before the
reset, as storage mode the storage kind of the definition of the request, and its scheduled
flag set when the state carried by the instance of the request is INITIAL, CATCHUP or ACTIVE
(left as it was otherwise). -/
theorem handleResetIndex_resets_instance (m : LifecycleMgr) (inst : IndexInst)
    (hf : m.repo.faults = [])
    (hex : ∃ row ∈ m.repo.rows inst.Defn.Bucket inst.Defn.DefnId, row.InstId = inst.InstId) :
    ∃ m1, m.handleResetIndex (Content.IndexInst inst) = some (none, m1) ∧
      m1.repo.defns.find? (fun d => d.DefnId == inst.Defn.DefnId) = some inst.Defn ∧
      m1.repo.rows inst.Defn.Bucket inst.Defn.DefnId =
        (m.repo.rows inst.Defn.Bucket inst.Defn.DefnId).map (fun row =>
          if row.InstId = inst.InstId then
            resetRow inst.State (m.repo.storageKind inst.Defn.DefnId) inst.Defn.Using row
          else row) := by
  obtain ⟨row, hrow, hid⟩ := hex
  obtain ⟨hu1, hu2, hu3, hu4⟩ := UpdateIndex_nil m.repo inst.Defn hf
  rcases hu : m.repo.UpdateIndex inst.Defn with ⟨e, r1⟩
  rw [hu] at hu1 hu2 hu3 hu4
  simp only at hu1 hu2 hu3 hu4
  subst hu1
  cases ht : m.repo.topologies.find? (fun t => t.Bucket == inst.Defn.Bucket) with
  | none => simp [MetadataRepo.rows, ht] at hrow
  | some t =>
    have hb : t.Bucket = inst.Defn.Bucket := find_bucket _ _ _ ht
    have hrows : m.repo.rows inst.Defn.Bucket inst.Defn.DefnId =
        t.GetIndexInstancesByDefn inst.Defn.DefnId := by simp [MetadataRepo.rows, ht]
    rw [hrows] at hrow ⊢
    have hfind : ∃ found, (t.GetIndexInstancesByDefn inst.Defn.DefnId).find?
        (fun i => i.InstId == inst.InstId) = some found := by
      cases hq : (t.GetIndexInstancesByDefn inst.Defn.DefnId).find?
          (fun i => i.InstId == inst.InstId) with
      | none =>
        rw [List.find?_eq_none] at hq
        exact absurd (by simpa using hid) (hq row hrow)
      | some found => exact ⟨found, rfl⟩
    obtain ⟨found, hfound⟩ := hfind
    have hrows1 : MetadataRepo.rows r1 inst.Defn.Bucket inst.Defn.DefnId =
        t.GetIndexInstancesByDefn inst.Defn.DefnId := by
      simp [MetadataRepo.rows, hu3, ht]
    have hfl : LifecycleMgr.FindLocalIndexInst { m with repo := r1 } inst.Defn.Bucket
        inst.Defn.DefnId inst.InstId = (some found, none, { m with repo := r1 }) := by
      simp only [LifecycleMgr.FindLocalIndexInst]
      rw [FindAllLocalIndexInst_nil _ _ _ hu2]
      simp only [hrows1, hfound]
    refine ⟨{ m with repo :=
      (r1.SetTopologyByBucket inst.Defn.Bucket
        (handleResetIndex.apply t inst (m.repo.storageKind inst.Defn.DefnId))).2 }, ?_, ?_, ?_⟩
    · simp only [LifecycleMgr.handleResetIndex, GetIndexDefnById_nil m.repo _ hf, hu,
        GetTopologyByBucket_nil r1 _ hu2, hu3, ht, hfl, SetTopologyByBucket_nil r1 _ _ hu2,
        MetadataRepo.storageKind]
      try rfl
    · simp only [SetTopologyByBucket_nil r1 _ _ hu2]
      exact hu4
    · simp only [SetTopologyByBucket_nil r1 _ _ hu2, MetadataRepo.rows]
      rw [find_putTopology _ _ _ (by rw [resetApply_eq]; exact hb)]
      simp only [resetApply_eq, rows_mapInst]

/-- C21 (witness).  Instance 10 of definition 1 is stored in state ACTIVE, on stream 1, with
the error "old" and the storage kind "forestdb"; the request carries the instance in state
ACTIVE and the storage kind "plasma". -/
theorem handleResetIndex_resets_instance_witness :
    ∃ m1, (storedInstance IndexState.INDEX_STATE_ACTIVE).handleResetIndex
        (Content.IndexInst (resetRequest IndexState.INDEX_STATE_ACTIVE)) = some (none, m1) ∧
      m1.repo.defns.find? (fun d => d.DefnId == 1) =
        some (exampleDefn 1 "i" PartitionScheme.SINGLE) ∧
      m1.repo.rows "b" 1 =
        [{ exampleInst 10 IndexState.INDEX_STATE_READY RebalanceState.REBAL_ACTIVE with
            Scheduled := true, OldStorageMode := "forestdb" }] :=
  handleResetIndex_resets_instance (storedInstance IndexState.INDEX_STATE_ACTIVE)
    (resetRequest IndexState.INDEX_STATE_ACTIVE) rfl
    ⟨_, List.mem_singleton.2 rfl, rfl⟩

/-! ## Claims about the prune of partitions -/

/-- Claim C22 (failing input).  Instance 10 holds the partitions 1 and 2 and has no proxy; the
request names partition 1 twice.  The requested partitions that the instance holds are
counted with their repetitions, so their number, 2, equals the number of partitions of the
instance: `PruneIndexInstance` delegates to `DeleteIndexInstance` and the whole index is
removed, partition 2 included.  The request that names partition 1 once splits it into the
proxy instance 20 and leaves partition 2 in instance 10. -/
theorem PruneIndexInstance_repeated_partition_drops_instance :
    PruneIndexInstance.newPartitions [1, 1]
        { exampleInst 10 IndexState.INDEX_STATE_ACTIVE RebalanceState.REBAL_ACTIVE with
            Partitions := [{ PartId := 1, Version := 0 }, { PartId := 2, Version := 0 }] } =
      [1, 1] ∧
    twoPartitions.PruneIndexInstance 1 10 [1, 1] false (some NewRebalanceRequestContext) =
      twoPartitions.DeleteIndexInstance 1 10 false (some NewRebalanceRequestContext) ∧
    (twoPartitions.PruneIndexInstance 1 10 [1, 1] false (some NewRebalanceRequestContext)).map
        (fun res => (res.1, res.2.repo.defns, res.2.repo.rows "b" 1,
          res.2.repo.writes.filter (fun w => w matches RepoWrite.splitPartitionFromTopology ..)))
      = some (none, [], [], []) ∧
    (twoPartitions.PruneIndexInstance 1 10 [1] false (some NewRebalanceRequestContext)).map
        (fun res => (res.1, res.2.repo.defns.map (fun d => d.DefnId),
          (res.2.repo.rows "b" 1).map (fun i =>
            (i.InstId, i.RealInstId, i.Partitions.map (fun p => p.PartId)))))
      = some (none, [1], [(10, 0, [2]), (20, 10, [1])]) :=
  ⟨by decide, by decide, by decide, by decide⟩

/-! ## Claims about the delete of an instance -/

theorem scan_spec (instId : Nat) (insts : List IndexInstDistribution) :
    ∀ (v : Nat) (inst : Option IndexInstDistribution),
      ((DeleteIndexInstance.scan instId insts (v, inst)).1 = 0 ↔
        v = 0 ∧ ∀ n ∈ insts, n.InstId ≠ instId → n.State = IndexState.INDEX_STATE_DELETED) ∧
      ((DeleteIndexInstance.scan instId insts (v, inst)).2 = none ↔
        inst = none ∧ ∀ n ∈ insts, n.InstId ≠ instId) := by
  induction insts with
  | nil => intro v inst; simp [DeleteIndexInstance.scan]
  | cons x rest ih =>
    intro v inst
    unfold DeleteIndexInstance.scan
    by_cases hx : x.InstId = instId
    · rw [if_pos hx]
      obtain ⟨h1, h2⟩ := ih v (some x)
      rw [h1, h2]
      simp [hx]
    · rw [if_neg hx]
      by_cases hs : x.State ≠ IndexState.INDEX_STATE_DELETED
      · rw [if_pos hs]
        obtain ⟨h1, h2⟩ := ih (v + 1) inst
        rw [h1, h2]
        simp [hx, hs]
      · rw [if_neg hs]
        obtain ⟨h1, h2⟩ := ih v inst
        rw [h1, h2]
        have hs1 : x.State = IndexState.INDEX_STATE_DELETED := not_not.1 hs
        simp [hx, hs1]

theorem deleteInstanceFromTopology_nil (r : MetadataRepo) (bucket : String)
    (defnId instId : Nat) (h : r.faults = []) :
    (r.deleteInstanceFromTopology bucket defnId instId).2.defns = r.defns ∧
    (r.deleteInstanceFromTopology bucket defnId instId).2.topologies =
      r.withoutInst bucket defnId instId := by
  simp [MetadataRepo.deleteInstanceFromTopology, MetadataRepo.fault, h,
    MetadataRepo.withoutInst, IndexTopology.withoutInst]

theorem withoutInst_mapInst (t : IndexTopology) (defnId instId : Nat)
    (f : IndexInstDistribution → IndexInstDistribution)
    (hf : ∀ x, (f x).InstId = x.InstId) :
    (t.mapInst defnId instId f).withoutInst defnId instId = t.withoutInst defnId instId := by
  simp only [IndexTopology.mapInst, IndexTopology.withoutInst, List.map_map]
  congr 1
  apply List.map_congr_left
  intro d _
  by_cases hd : d.DefnId = defnId
  · simp only [Function.comp, hd, if_true, List.filter_map]
    congr 1
    induction d.Instances with
    | nil => rfl
    | cons x rest ih =>
      by_cases hx : x.InstId = instId
      · simp [List.filter_cons, hx, hf, ih]
      · simp [List.filter_cons, hx, ih]
  · simp [Function.comp, hd]

theorem withoutInst_putTopology (b : String) (t : IndexTopology) (defnId instId : Nat)
    (f : IndexInstDistribution → IndexInstDistribution)
    (hf : ∀ x, (f x).InstId = x.InstId) (ts : List IndexTopology)
    (ht : ts.find? (fun x => x.Bucket == b) = some t) :
    (putTopology b (t.mapInst defnId instId f) ts).map
        (fun x => if x.Bucket = b then x.withoutInst defnId instId else x) =
      ts.map (fun x => if x.Bucket = b then x.withoutInst defnId instId else x) := by
  induction ts with
  | nil => simp at ht
  | cons x rest ih =>
    by_cases hx : x.Bucket = b
    · have hxt : x = t := by simpa [List.find?_cons, hx] using ht
      subst hxt
      have hm : (x.mapInst defnId instId f).Bucket = b := hx
      simp [putTopology, hx, hm, withoutInst_mapInst _ _ _ _ hf]
    · have hr : rest.find? (fun x => x.Bucket == b) = some t := by
        simpa [List.find?_cons, hx] using ht
      simp [putTopology, hx, ih hr]

theorem DeleteIndexInstance_nil_spec (m : LifecycleMgr) (id instId : Nat)
    (cleanup : Bool) (reqCtx : Option MetadataRequestContext) (defn : IndexDefn)
    (hf : m.repo.faults = [])
    (hd : m.repo.defns.find? (fun d => d.DefnId == id) = some defn)
    (hex : ∃ row ∈ m.repo.rows defn.Bucket id, row.InstId = instId) :
    ((∀ row ∈ m.repo.rows defn.Bucket id,
        row.InstId ≠ instId → row.State = IndexState.INDEX_STATE_DELETED) →
      m.DeleteIndexInstance id instId cleanup reqCtx = some (m.DeleteIndex id cleanup reqCtx)) ∧
    ((∃ row ∈ m.repo.rows defn.Bucket id,
        row.InstId ≠ instId ∧ row.State ≠ IndexState.INDEX_STATE_DELETED) →
      ((cleanup = false ∨ ∃ n, m.notifier = some n ∧ n.replies = []) →
        ∃ m1, m.DeleteIndexInstance id instId cleanup reqCtx = some (none, m1)) ∧
      ∀ m1, m.DeleteIndexInstance id instId cleanup reqCtx = some (none, m1) →
        m1.repo.defns = m.repo.defns ∧
        m1.repo.topologies = m.repo.withoutInst defn.Bucket id instId) := by
  obtain ⟨row, hrow, hid⟩ := hex
  have hm : ({ m with repo := m.repo } : LifecycleMgr) = m := rfl
  obtain ⟨hzero, hnone⟩ := scan_spec instId (m.repo.rows defn.Bucket id) 0 none
  have hunfold : m.DeleteIndexInstance id instId cleanup reqCtx =
      match DeleteIndexInstance.scan instId (m.repo.rows defn.Bucket id) (0, none) with
      | (_, none) => some (none, m)
      | (0, some _) => some (m.DeleteIndex id cleanup reqCtx)
      | (_ + 1, some _) =>
        if cleanup then
          match m.updateIndexState defn.Bucket id instId IndexState.INDEX_STATE_DELETED with
          | (some err, m2) => some (some err, m2)
          | (none, m2) =>
            match m2.notifier with
            | none => none
            | some n =>
              match n.OnIndexDelete instId defn.Bucket reqCtx with
              | (some err, n1) =>
                if surfacesDropError err then some (some err, { m2 with notifier := some n1 })
                else some (none, { m2 with notifier := some n1, repo :=
                  (m2.repo.deleteInstanceFromTopology defn.Bucket id instId).2 })
              | (none, n1) => some (none, { m2 with notifier := some n1, repo :=
                  (m2.repo.deleteInstanceFromTopology defn.Bucket id instId).2 })
        else some (none, { m with repo :=
          (m.repo.deleteInstanceFromTopology defn.Bucket id instId).2 }) := by
    simp only [LifecycleMgr.DeleteIndexInstance, GetIndexDefnById_nil m.repo id hf, hd, hm,
      FindAllLocalIndexInst_nil m defn.Bucket id hf]
    try rfl
  rw [hunfold]
  rcases hs : DeleteIndexInstance.scan instId (m.repo.rows defn.Bucket id) (0, none) with
    ⟨k, target⟩
  rw [hs] at hzero hnone
  simp only at hzero hnone
  cases target with
  | none => exact absurd hid ((hnone.1 rfl).2 row hrow)
  | some tgt =>
    cases k with
    | zero =>
      refine ⟨fun _ => rfl, ?_⟩
      rintro ⟨other, hmem, hne, hlive⟩
      exact absurd ((hzero.1 rfl).2 other hmem hne) hlive
    | succ k =>
      refine ⟨fun hall => absurd (hzero.2 ⟨trivial, hall⟩) (Nat.succ_ne_zero k), fun _ => ?_⟩
      obtain ⟨hdel1, hdel2⟩ := deleteInstanceFromTopology_nil m.repo defn.Bucket id instId hf
      cases cleanup with
      | false =>
        simp only [Bool.false_eq_true, if_false]
        refine ⟨fun _ => ⟨_, rfl⟩, ?_⟩
        intro m1 h1
        simp only [Option.some.injEq, Prod.mk.injEq, true_and] at h1
        subst h1
        exact ⟨hdel1, hdel2⟩
      | true =>
        simp only [if_true]
        cases ht : m.repo.topologies.find? (fun t => t.Bucket == defn.Bucket) with
        | none => simp [MetadataRepo.rows, ht] at hrow
        | some tc =>
          obtain ⟨ws, hu⟩ := updateIndexState_nil m defn.Bucket id instId
            IndexState.INDEX_STATE_DELETED tc hf ht
          rw [hu]
          simp only
          have hdel : ∀ r2 : MetadataRepo, r2.faults = [] → r2.defns = m.repo.defns →
              r2.topologies = putTopology defn.Bucket
                (tc.mapInst id instId (fun i => { i with State := IndexState.INDEX_STATE_DELETED }))
                m.repo.topologies →
              (r2.deleteInstanceFromTopology defn.Bucket id instId).2.defns = m.repo.defns ∧
              (r2.deleteInstanceFromTopology defn.Bucket id instId).2.topologies =
                m.repo.withoutInst defn.Bucket id instId := by
            intro r2 hf2 hd2 ht2
            obtain ⟨ha, hb⟩ := deleteInstanceFromTopology_nil r2 defn.Bucket id instId hf2
            refine ⟨ha.trans hd2, ?_⟩
            rw [hb]
            simp only [MetadataRepo.withoutInst]
            rw [ht2]
            exact withoutInst_putTopology defn.Bucket tc id instId
              (fun i => { i with State := IndexState.INDEX_STATE_DELETED }) (fun _ => rfl) _ ht
          cases hn : m.notifier with
          | none =>
            simp only
            refine ⟨?_, fun m1 h1 => by cases h1⟩
            rintro (h | ⟨n, h, _⟩) <;> cases h
          | some n =>
            simp only
            rcases hr : n.OnIndexDelete instId defn.Bucket reqCtx with ⟨_ | err, n1⟩
            · simp only
              refine ⟨fun _ => ⟨_, rfl⟩, ?_⟩
              intro m1 h1
              simp only [Option.some.injEq, Prod.mk.injEq, true_and] at h1
              subst h1
              exact hdel _ hf rfl rfl
            · simp only
              by_cases hsurf : surfacesDropError err = true
              · rw [if_pos hsurf]
                refine ⟨?_, fun m1 h1 => by simp at h1⟩
                rintro (h | ⟨n', h, hrep⟩)
                · cases h
                · cases h
                  simp [MetadataNotifier.OnIndexDelete, MetadataNotifier.reply, hrep] at hr
              · rw [if_neg hsurf]
                refine ⟨fun _ => ⟨_, rfl⟩, ?_⟩
                intro m1 h1
                simp only [Option.some.injEq, Prod.mk.injEq, true_and] at h1
                subst h1
                exact hdel _ hf rfl rfl

theorem DeleteIndexInstance_delegates (m0 : LifecycleMgr) (id instId : Nat)
    (cleanup : Bool) (reqCtx : Option MetadataRequestContext) (defn0 : IndexDefn)
    (r : MetadataRepo) (insts : List IndexInstDistribution) (m1 : LifecycleMgr)
    (hd : m0.repo.GetIndexDefnById id = (some defn0, none, r))
    (hi : LifecycleMgr.FindAllLocalIndexInst { m0 with repo := r } defn0.Bucket id =
      (insts, none, m1))
    (hex : ∃ row ∈ insts, row.InstId = instId)
    (hall : ∀ row ∈ insts, row.InstId ≠ instId → row.State = IndexState.INDEX_STATE_DELETED) :
    m0.DeleteIndexInstance id instId cleanup reqCtx =
      some (m1.DeleteIndex id cleanup reqCtx) := by
  obtain ⟨row, hrow, hid⟩ := hex
  obtain ⟨hzero, hnone⟩ := scan_spec instId insts 0 none
  unfold LifecycleMgr.DeleteIndexInstance
  rw [hd]
  simp only []
  rw [hi]
  simp only []
  rcases hs : DeleteIndexInstance.scan instId insts (0, none) with ⟨k, target⟩
  rw [hs] at hzero hnone
  simp only at hzero hnone
  cases target with
  | none => exact absurd hid ((hnone.1 rfl).2 row hrow)
  | some tgt =>
    cases k with
    | zero => rfl
    | succ k => exact absurd (hzero.2 ⟨trivial, hall⟩) (Nat.succ_ne_zero k)

/-- Claim C23 (counterexample).  Definition 1 has the ACTIVE instance 10 and the READY
instance 11, and the topology write of `deleteInstanceFromTopology` fails.
`DeleteIndexInstance(1, 10, cleanup = false)` returns no error, and the row of instance 10 is
still stored; with a working repository the same call leaves instance 11 only. -/
theorem DeleteIndexInstance_ignores_failed_removal :
    (twoInstancesWriteFails.DeleteIndexInstance 1 10 false none).map
        (fun res => (res.1, (res.2.repo.rows "b" 1).map (fun i => i.InstId))) =
      some (none, [10, 11]) ∧
    ((twoInstances IndexState.INDEX_STATE_READY).DeleteIndexInstance 1 10 false none).map
        (fun res => (res.1, (res.2.repo.rows "b" 1).map (fun i => i.InstId))) =
      some (none, [11]) := by
  decide

/-- Claim C23 (amended): `DeleteIndexInstance` on an instance that the topology lists.  When
every other instance row of the definition is DELETED, the call is the call
`DeleteIndex(id, cleanup, reqCtx)`: in a repository whose calls succeed it has the same
result and the same final state, and whatever the repository answers it is that call made
on the state that the two reads of `DeleteIndexInstance` left.  When some other instance is
not DELETED and no repository call fails, the call returns no error if `cleanup` is false or
the indexer accepts the delete, and whenever it returns no error the definition records are
as before and the topologies are as before except that the rows of the target instance are
gone. -/
theorem DeleteIndexInstance_delegates_or_removes_row (m : LifecycleMgr) (id instId : Nat)
    (cleanup : Bool) (reqCtx : Option MetadataRequestContext) (defn : IndexDefn)
    (hf : m.repo.faults = [])
    (hd : m.repo.defns.find? (fun d => d.DefnId == id) = some defn)
    (hex : ∃ row ∈ m.repo.rows defn.Bucket id, row.InstId = instId) :
    ((∀ row ∈ m.repo.rows defn.Bucket id,
        row.InstId ≠ instId → row.State = IndexState.INDEX_STATE_DELETED) →
      m.DeleteIndexInstance id instId cleanup reqCtx = some (m.DeleteIndex id cleanup reqCtx)) ∧
    ((∃ row ∈ m.repo.rows defn.Bucket id,
        row.InstId ≠ instId ∧ row.State ≠ IndexState.INDEX_STATE_DELETED) →
      ((cleanup = false ∨ ∃ n, m.notifier = some n ∧ n.replies = []) →
        ∃ m1, m.DeleteIndexInstance id instId cleanup reqCtx = some (none, m1)) ∧
      ∀ m1, m.DeleteIndexInstance id instId cleanup reqCtx = some (none, m1) →
        m1.repo.defns = m.repo.defns ∧
        m1.repo.topologies = m.repo.withoutInst defn.Bucket id instId) ∧
    (∀ (m0 : LifecycleMgr) (defn0 : IndexDefn) (r : MetadataRepo)
        (insts : List IndexInstDistribution) (m1 : LifecycleMgr),
      m0.repo.GetIndexDefnById id = (some defn0, none, r) →
      LifecycleMgr.FindAllLocalIndexInst { m0 with repo := r } defn0.Bucket id =
        (insts, none, m1) →
      (∃ row ∈ insts, row.InstId = instId) →
      (∀ row ∈ insts, row.InstId ≠ instId → row.State = IndexState.INDEX_STATE_DELETED) →
      m0.DeleteIndexInstance id instId cleanup reqCtx =
        some (m1.DeleteIndex id cleanup reqCtx)) := by
  obtain ⟨h1, h2⟩ := DeleteIndexInstance_nil_spec m id instId cleanup reqCtx defn hf hd hex
  exact ⟨h1, h2, fun m0 defn0 r insts m1 hd0 hi hex0 hall =>
    DeleteIndexInstance_delegates m0 id instId cleanup reqCtx defn0 r insts m1 hd0 hi hex0 hall⟩

/-- C23 (witness).  Definition 1 has the ACTIVE instance 10 and the READY instance 11:
`DeleteIndexInstance(1, 10, cleanup = true)` returns no error, keeps the definition record
and leaves instance 11 as the only row.  When instance 11 is DELETED the same call is the
call `DeleteIndex(1, true)`. -/
theorem DeleteIndexInstance_delegates_or_removes_row_witness :
    (∃ m1, (twoInstances IndexState.INDEX_STATE_READY).DeleteIndexInstance 1 10 true
        (some NewUserRequestContext) = some (none, m1) ∧
      m1.repo.defns = [exampleDefn 1 "i" PartitionScheme.SINGLE] ∧
      m1.repo.topologies = [exampleTopology [(1, "i",
        [exampleInst 11 IndexState.INDEX_STATE_READY RebalanceState.REBAL_ACTIVE])]]) ∧
    (twoInstances IndexState.INDEX_STATE_DELETED).DeleteIndexInstance 1 10 true
        (some NewUserRequestContext) =
      some ((twoInstances IndexState.INDEX_STATE_DELETED).DeleteIndex 1 true
        (some NewUserRequestContext)) := by
  have h := DeleteIndexInstance_delegates_or_removes_row
    (twoInstances IndexState.INDEX_STATE_READY) 1 10 true (some NewUserRequestContext)
    (exampleDefn 1 "i" PartitionScheme.SINGLE) rfl rfl
    ⟨exampleInst 10 IndexState.INDEX_STATE_ACTIVE RebalanceState.REBAL_ACTIVE,
      by decide, rfl⟩
  have h2 := h.2.1 ⟨exampleInst 11 IndexState.INDEX_STATE_READY RebalanceState.REBAL_ACTIVE,
    by decide, by decide, by decide⟩
  obtain ⟨m1, hm1⟩ := h2.1 (Or.inr ⟨_, rfl, rfl⟩)
  refine ⟨⟨m1, hm1, ?_⟩, ?_⟩
  · exact h2.2 m1 hm1
  · exact (DeleteIndexInstance_delegates_or_removes_row
      (twoInstances IndexState.INDEX_STATE_DELETED) 1 10 true (some NewUserRequestContext)
      (exampleDefn 1 "i" PartitionScheme.SINGLE) rfl rfl
      ⟨exampleInst 10 IndexState.INDEX_STATE_ACTIVE RebalanceState.REBAL_ACTIVE,
        by decide, rfl⟩).1 (by decide)

/-! ## Claims about the normalisation of a create request -/

/-- Claim C24: `setPartition` returns partition 0 with the instance version of the definition
and the count 1 when the scheme of the definition is not partitioned, and the partitions,
versions and partition count of the definition itself when it is partitioned; in both cases
the definition it leaves has these three fields cleared and every other field as before. -/
theorem setPartition_spec (defn : IndexDefn) :
    (IsPartitioned defn.PartitionScheme = false →
      (LifecycleMgr.setPartition defn).1 = ([0], [defn.InstVersion], 1)) ∧
    (IsPartitioned defn.PartitionScheme = true →
      (LifecycleMgr.setPartition defn).1 =
        (defn.Partitions, defn.Versions, defn.NumPartitions)) ∧
    (LifecycleMgr.setPartition defn).2.Partitions = [] ∧
    (LifecycleMgr.setPartition defn).2.Versions = [] ∧
    (LifecycleMgr.setPartition defn).2.NumPartitions = 0 ∧
    (LifecycleMgr.setPartition defn).2.DefnId = defn.DefnId ∧
    (LifecycleMgr.setPartition defn).2.Name = defn.Name ∧
    (LifecycleMgr.setPartition defn).2.Using = defn.Using ∧
    (LifecycleMgr.setPartition defn).2.Bucket = defn.Bucket ∧
    (LifecycleMgr.setPartition defn).2.BucketUUID = defn.BucketUUID ∧
    (LifecycleMgr.setPartition defn).2.Deferred = defn.Deferred ∧
    (LifecycleMgr.setPartition defn).2.NumReplica = defn.NumReplica ∧
    (LifecycleMgr.setPartition defn).2.PartitionScheme = defn.PartitionScheme ∧
    (LifecycleMgr.setPartition defn).2.InstId = defn.InstId ∧
    (LifecycleMgr.setPartition defn).2.RealInstId = defn.RealInstId ∧
    (LifecycleMgr.setPartition defn).2.ReplicaId = defn.ReplicaId ∧
    (LifecycleMgr.setPartition defn).2.InstVersion = defn.InstVersion := by
  unfold LifecycleMgr.setPartition
  cases h : IsPartitioned defn.PartitionScheme <;> simp

/-- C24 (witness).  The single-scheme definition 1 with instance version 3 gives partition 0
at version 3; the partitioned request for the partitions 3 and 4 gives its own lists. -/
theorem setPartition_spec_witness :
    (LifecycleMgr.setPartition
        { exampleDefn 1 "i" PartitionScheme.SINGLE with InstVersion := 3 }).1 = ([0], [3], 1) ∧
    (LifecycleMgr.setPartition (rebalanceRequest 20 10 [3, 4] [1, 2])).1 =
      ([3, 4], [1, 2], 8) :=
  ⟨(setPartition_spec { exampleDefn 1 "i" PartitionScheme.SINGLE with InstVersion := 3 }).1 rfl,
   (setPartition_spec (rebalanceRequest 20 10 [3, 4] [1, 2])).2.1 rfl⟩

/-! ## Claims about the verification of the bucket -/

theorem find_ref_of_nodup (refs : List IndexDefnDistribution)
    (hnodup : (refs.map (fun d => d.DefnId)).Nodup) (ref : IndexDefnDistribution)
    (hmem : ref ∈ refs) : refs.find? (fun d => d.DefnId == ref.DefnId) = some ref := by
  induction refs with
  | nil => cases hmem
  | cons x rest ih =>
    simp only [List.map_cons, List.nodup_cons, List.mem_map, not_exists, not_and] at hnodup
    rcases List.mem_cons.mp hmem with h | h
    · subst h
      simp [List.find?_cons]
    · have hne : x.DefnId ≠ ref.DefnId := fun heq => hnodup.1 ref h heq.symm
      simp [List.find?_cons, hne, ih hnodup.2 h]

theorem verifyBucket_valid (topology : IndexTopology) (hwf : topology.distinctIds)
    (ref : IndexDefnDistribution) (hmem : ref ∈ topology.Definitions) :
    (topology.GetIndexInstancesByDefn ref.DefnId).any (fun inst =>
        topology.GetStatusByInst ref.DefnId inst.InstId != IndexState.INDEX_STATE_DELETED) =
      true ↔
    ∃ inst ∈ ref.Instances, inst.State ≠ IndexState.INDEX_STATE_DELETED := by
  have hrows : topology.GetIndexInstancesByDefn ref.DefnId = ref.Instances := by
    simp [IndexTopology.GetIndexInstancesByDefn, find_ref_of_nodup _ hwf.1 ref hmem]
  have hstate : ∀ inst ∈ ref.Instances,
      topology.GetStatusByInst ref.DefnId inst.InstId = inst.State := by
    intro inst hinst
    simp [IndexTopology.GetStatusByInst, hrows,
      find_of_nodup_ids _ (hwf.2 ref hmem) inst hinst]
  rw [hrows, List.any_eq_true]
  constructor
  · rintro ⟨inst, hinst, h⟩
    rw [hstate inst hinst] at h
    exact ⟨inst, hinst, by simpa using h⟩
  · rintro ⟨inst, hinst, h⟩
    refine ⟨inst, hinst, ?_⟩
    rw [hstate inst hinst]
    simpa using h

theorem verifyBucket_loop_spec (topology : IndexTopology) (uuid : String)
    (hwf : topology.distinctIds) (m : LifecycleMgr) (hf : m.repo.faults = [])
    (refs : List IndexDefnDistribution) (hsub : ∀ ref ∈ refs, ref ∈ topology.Definitions) :
    (verifyBucket.loop topology uuid refs m).2 = m ∧
    ((verifyBucket.loop topology uuid refs m).1 = none ↔
      ∀ ref ∈ refs, (∃ inst ∈ ref.Instances, inst.State ≠ IndexState.INDEX_STATE_DELETED) →
        ∀ defn, m.repo.defns.find? (fun d => d.DefnId == ref.DefnId) = some defn →
          defn.BucketUUID = uuid) := by
  induction refs with
  | nil => simp [verifyBucket.loop]
  | cons ref rest ih =>
    obtain ⟨ih1, ih2⟩ := ih (fun r hr => hsub r (List.mem_cons_of_mem _ hr))
    have hvalid := verifyBucket_valid topology hwf ref (hsub ref (List.mem_cons_self _ _))
    rw [List.forall_mem_cons]
    by_cases hv : ∃ inst ∈ ref.Instances, inst.State ≠ IndexState.INDEX_STATE_DELETED
    · cases hd : m.repo.defns.find? (fun d => d.DefnId == ref.DefnId) with
      | none =>
        have hstep : verifyBucket.loop topology uuid (ref :: rest) m =
            verifyBucket.loop topology uuid rest m := by
          rw [verifyBucket.loop]
          simp only [hvalid.2 hv, if_true, GetIndexDefnById_nil m.repo _ hf, hd]
        rw [hstep]
        refine ⟨ih1, ih2.trans ⟨fun h => ⟨fun _ defn hdefn => (by cases hdefn), h⟩,
          fun h => h.2⟩⟩
      | some defn =>
        by_cases hu : defn.BucketUUID = uuid
        · have hstep : verifyBucket.loop topology uuid (ref :: rest) m =
              verifyBucket.loop topology uuid rest m := by
            rw [verifyBucket.loop]
            simp only [hvalid.2 hv, if_true, GetIndexDefnById_nil m.repo _ hf, hd, hu, ne_eq,
              not_true_eq_false, if_false]
          rw [hstep]
          refine ⟨ih1, ih2.trans ⟨fun h => ⟨fun _ d2 hd2 => ?_, h⟩, fun h => h.2⟩⟩
          cases hd2
          exact hu
        · have hstep : verifyBucket.loop topology uuid (ref :: rest) m =
              (some (errors.New bucketUnavailableText), m) := by
            rw [verifyBucket.loop]
            simp only [hvalid.2 hv, if_true, GetIndexDefnById_nil m.repo _ hf, hd, ne_eq, hu,
              not_false_eq_true]
          rw [hstep]
          refine ⟨rfl, ⟨fun h => (by cases h), fun h => absurd (h.1 hv defn rfl) hu⟩⟩
    · have hvf : ((topology.GetIndexInstancesByDefn ref.DefnId).any (fun inst =>
          topology.GetStatusByInst ref.DefnId inst.InstId != IndexState.INDEX_STATE_DELETED)) =
          false := by
        rw [Bool.eq_false_iff]
        exact fun h => hv (hvalid.1 h)
      have hstep : verifyBucket.loop topology uuid (ref :: rest) m =
          verifyBucket.loop topology uuid rest m := by
        rw [verifyBucket.loop]
        simp only [hvf, Bool.false_eq_true, if_false]
      rw [hstep]
      refine ⟨ih1, ih2.trans ⟨fun h => ⟨fun hlive => absurd hlive hv, h⟩, fun h => h.2⟩⟩

theorem verifyBucket_nil (m : LifecycleMgr) (bucket : String) (hf : m.repo.faults = []) :
    m.verifyBucket bucket =
      match m.getBucketUUID bucket with
      | (_, some err, m1) => (BUCKET_UUID_NIL, some err, m1)
      | (currentUUID, none, m1) =>
        match m.repo.topologies.find? (fun t => t.Bucket == bucket) with
        | none => (currentUUID, none, m1)
        | some topology =>
          match verifyBucket.loop topology currentUUID topology.Definitions m1 with
          | (some err, m2) => (BUCKET_UUID_NIL, some err, m2)
          | (none, m2) => (currentUUID, none, m2) := by
  have hframe := getBucketUUID_frame m bucket
  unfold LifecycleMgr.verifyBucket
  rcases hg : m.getBucketUUID bucket with ⟨uuid, _ | e, m1⟩
  · rw [hg] at hframe
    simp only at hframe
    have hr1 : m1.repo = m.repo := by rw [hframe]
    have hf1 : m1.repo.faults = [] := by rw [hr1]; exact hf
    have htop : m1.repo.topologies = m.repo.topologies := by rw [hr1]
    simp only []
    rw [GetTopologyByBucket_nil m1.repo _ hf1, ← htop]
    cases m1.repo.topologies.find? (fun t => t.Bucket == bucket) with
    | none => rfl
    | some topology => rfl
  · rfl

theorem contains_bucketUnavailable (reason : String) :
    strings.Contains
      ("Bucket does not exist or temporarily unavailable for creating new index." ++
        " Please retry the operation at a later time (err=" ++ reason ++ ").")
      "Bucket does not exist or temporarily unavailable" = true := by
  simp only [strings.Contains, decide_eq_true_eq, String.data_append]
  exact ⟨[], " for creating new index.".data ++
    " Please retry the operation at a later time (err=".data ++ reason.data ++ ").".data,
    by simp⟩

theorem setBucketUUID_nil_spec (m : LifecycleMgr) (defn : IndexDefn)
    (hf : m.repo.faults = [])
    (hwf : ∀ topology ∈ m.repo.topologies, topology.distinctIds) :
    ((m.setBucketUUID defn).1 = none ↔
      (m.getBucketUUID defn.Bucket).2.1 = none ∧
      (m.getBucketUUID defn.Bucket).1 ≠ BUCKET_UUID_NIL ∧
      m.repo.liveDefnsCarry defn.Bucket (m.getBucketUUID defn.Bucket).1) ∧
    ((m.setBucketUUID defn).1 = none →
      (m.setBucketUUID defn).2.1 =
        { defn with BucketUUID := (m.getBucketUUID defn.Bucket).1 }) ∧
    (∀ (m0 : LifecycleMgr) (err : GoError), (m0.setBucketUUID defn).1 = some err →
      strings.Contains err.Error "Bucket does not exist or temporarily unavailable" = true ∧
      (m0.setBucketUUID defn).2.1 = defn) := by
  have hframe := getBucketUUID_frame m defn.Bucket
  have hverify := verifyBucket_nil m defn.Bucket hf
  have hthird : ∀ (m0 : LifecycleMgr) (err : GoError), (m0.setBucketUUID defn).1 = some err →
      strings.Contains err.Error "Bucket does not exist or temporarily unavailable" = true ∧
      (m0.setBucketUUID defn).2.1 = defn := by
    intro m0 err
    unfold LifecycleMgr.setBucketUUID
    rcases m0.verifyBucket defn.Bucket with ⟨bucketUUID, verr, m1⟩
    simp only
    by_cases hc : verr ≠ none ∨ bucketUUID = BUCKET_UUID_NIL
    · rw [if_pos hc]
      intro h
      simp only [Option.some.injEq] at h
      subst h
      exact ⟨contains_bucketUnavailable _, rfl⟩
    · rw [if_neg hc]
      intro h
      cases h
  have hcarry : ∀ uuid topology,
      m.repo.topologies.find? (fun t => t.Bucket == defn.Bucket) = some topology →
      (m.repo.liveDefnsCarry defn.Bucket uuid ↔
        ∀ ref ∈ topology.Definitions,
          (∃ inst ∈ ref.Instances, inst.State ≠ IndexState.INDEX_STATE_DELETED) →
          ∀ d, m.repo.defns.find? (fun x => x.DefnId == ref.DefnId) = some d →
            d.BucketUUID = uuid) := by
    intro uuid topology ht
    unfold MetadataRepo.liveDefnsCarry
    constructor
    · intro h
      exact h topology ht
    · intro h t2 ht2
      rw [ht] at ht2
      cases ht2
      exact h
  have hset : ∀ uuid verr m2, m.verifyBucket defn.Bucket = (uuid, verr, m2) →
      ((m.setBucketUUID defn).1 = none ↔ verr = none ∧ uuid ≠ BUCKET_UUID_NIL) ∧
      ((m.setBucketUUID defn).1 = none →
        (m.setBucketUUID defn).2.1 = { defn with BucketUUID := uuid }) := by
    intro uuid verr m2 hv
    unfold LifecycleMgr.setBucketUUID
    rw [hv]
    simp only
    by_cases hc : verr ≠ none ∨ uuid = BUCKET_UUID_NIL
    · rw [if_pos hc]
      refine ⟨⟨fun h => (by cases h), fun h => ?_⟩, fun h => (by cases h)⟩
      rcases hc with hc | hc
      · exact absurd h.1 hc
      · exact absurd hc h.2
    · rw [if_neg hc]
      refine ⟨⟨fun _ => ?_, fun _ => rfl⟩, fun _ => rfl⟩
      exact ⟨not_not.1 (fun h => hc (Or.inl h)), fun h => hc (Or.inr h)⟩
  rcases hg : m.getBucketUUID defn.Bucket with ⟨uuid, _ | e, m1⟩
  · rw [hg] at hframe hverify
    simp only at hframe hverify ⊢
    have hr1 : m1.repo = m.repo := by rw [hframe]
    have hf1 : m1.repo.faults = [] := by rw [hr1]; exact hf
    cases ht : m.repo.topologies.find? (fun t => t.Bucket == defn.Bucket) with
    | none =>
      rw [ht] at hverify
      obtain ⟨hs1, hs2⟩ := hset uuid none m1 hverify
      refine ⟨hs1.trans ⟨fun h => ⟨trivial, h.2, ?_⟩, fun h => ⟨rfl, h.2.1⟩⟩, hs2, hthird⟩
      intro t2 ht2
      rw [ht] at ht2
      cases ht2
    | some topology =>
      rw [ht] at hverify
      simp only at hverify
      obtain ⟨_, hl2⟩ := verifyBucket_loop_spec topology uuid
        (hwf topology (List.mem_of_find?_eq_some ht)) m1 hf1
        topology.Definitions (fun _ h => h)
      rw [hr1] at hl2
      rcases hloop : verifyBucket.loop topology uuid topology.Definitions m1 with
        ⟨_ | lerr, m2⟩
      · rw [hloop] at hverify hl2
        simp only at hverify
        obtain ⟨hs1, hs2⟩ := hset uuid none m2 hverify
        refine ⟨hs1.trans ⟨fun h => ⟨trivial, h.2, ?_⟩, fun h => ⟨rfl, h.2.1⟩⟩, hs2, hthird⟩
        exact (hcarry uuid topology ht).2 (hl2.1 rfl)
      · rw [hloop] at hverify hl2
        simp only at hverify
        obtain ⟨hs1, hs2⟩ := hset BUCKET_UUID_NIL (some lerr) m2 hverify
        refine ⟨⟨fun h => ?_, fun h => ?_⟩, fun h => ?_, hthird⟩
        · exact absurd (hs1.1 h).1 (by simp)
        · have hnone := hl2.2 ((hcarry uuid topology ht).1 h.2.2)
          cases hnone
        · exact absurd (hs1.1 h).1 (by simp)
  · rw [hg] at hverify
    simp only at hverify ⊢
    obtain ⟨hs1, hs2⟩ := hset BUCKET_UUID_NIL (some e) m1 hverify
    refine ⟨⟨fun h => ?_, fun h => ?_⟩, fun h => ?_, hthird⟩
    · exact absurd (hs1.1 h).1 (by simp)
    · exact absurd h.1 (by simp)
    · exact absurd (hs1.1 h).1 (by simp)

/-! ## The decimal key of a request -/

theorem toDigitsCore_append (fuel : Nat) :
    ∀ (n : Nat) (acc : List Char),
      Nat.toDigitsCore 10 fuel n acc = Nat.toDigitsCore 10 fuel n [] ++ acc := by
  induction fuel with
  | zero => intro n acc; simp [Nat.toDigitsCore]
  | succ fuel ih =>
    intro n acc
    simp only [Nat.toDigitsCore]
    by_cases h : n / 10 = 0
    · simp [h]
    · simp only [h, if_false]
      rw [ih (n / 10) (Nat.digitChar (n % 10) :: acc), ih (n / 10) [Nat.digitChar (n % 10)]]
      simp

theorem readDigit_digitChar (a k : Nat) (hk : k < 10) :
    readDigit (some a) (Nat.digitChar k) = some (a * 10 + k) := by
  interval_cases k <;> simp [readDigit, Nat.digitChar, Char.isDigit]

theorem read_toDigitsCore (fuel : Nat) :
    ∀ n : Nat, n < fuel →
      (Nat.toDigitsCore 10 fuel n []).foldl readDigit (some 0) = some n := by
  induction fuel with
  | zero => intro n h; omega
  | succ fuel ih =>
    intro n hn
    simp only [Nat.toDigitsCore]
    by_cases h : n / 10 = 0
    · have hlt : n < 10 := by omega
      have hmod : n % 10 = n := Nat.mod_eq_of_lt hlt
      simp only [h, if_true, List.foldl_cons, List.foldl_nil, hmod]
      rw [readDigit_digitChar 0 n hlt]
      simp
    · simp only [h, if_false]
      rw [toDigitsCore_append, List.foldl_append, ih (n / 10) (by omega)]
      simp only [List.foldl_cons, List.foldl_nil]
      rw [readDigit_digitChar (n / 10) (n % 10) (Nat.mod_lt _ (by decide))]
      congr 1
      omega

theorem toDigitsCore_ne_nil (fuel n : Nat) : Nat.toDigitsCore 10 (fuel + 1) n [] ≠ [] := by
  simp only [Nat.toDigitsCore]
  by_cases h : n / 10 = 0
  · simp [h]
  · simp only [h, if_false]
    rw [toDigitsCore_append]
    simp

theorem indexDefnId_toString (id : Nat) (h : id < 18446744073709551616) :
    indexDefnId (toString id) = (id, none) := by
  have hdata : (toString id : String).data = Nat.toDigitsCore 10 (id + 1) id [] := rfl
  have hread := read_toDigitsCore (id + 1) id (Nat.lt_succ_self id)
  have hne := toDigitsCore_ne_nil id id
  unfold indexDefnId
  rw [hdata]
  simp only [hne, if_false]
  generalize hv : List.foldl _ (some 0) (Nat.toDigitsCore 10 (id + 1) id []) = v
  have hvid : v = some id := by
    rw [← hv]
    exact hread
  subst hvid
  simp [h]

theorem indexDefnId_toString_ne (id d : Nat) (hne : id ≠ d) :
    indexDefnId (toString id) ≠ (d, none) := by
  have hdata : (toString id : String).data = Nat.toDigitsCore 10 (id + 1) id [] := rfl
  have hread := read_toDigitsCore (id + 1) id (Nat.lt_succ_self id)
  have hnil := toDigitsCore_ne_nil id id
  unfold indexDefnId
  rw [hdata]
  simp only [hnil, if_false]
  generalize hv : List.foldl _ (some 0) (Nat.toDigitsCore 10 (id + 1) id []) = v
  have hvid : v = some id := by
    rw [← hv]
    exact hread
  subst hvid
  by_cases h : id < 18446744073709551616
  · simp [h, hne]
  · simp [h]

/-! ## The passes of the janitor -/

theorem MakeAsyncRequest_requests (rs : RequestServer) (op : OpCode) (key : String)
    (content : Content) :
    (rs.MakeAsyncRequest op key content).2.requests =
      rs.requests ++ [{ op := op, key := key, content := content }] := by
  unfold RequestServer.MakeAsyncRequest RequestServer.MakeRequest
  cases rs.replies <;> rfl

theorem instLoop_requests (defn : IndexDefn) (insts : List IndexInstDistribution) :
    ∀ rs : RequestServer,
      (janitor.instLoop defn insts rs).requests =
        rs.requests ++ (insts.filter (fun inst =>
          inst.State == IndexState.INDEX_STATE_DELETED &&
          inst.RState != RebalanceState.REBAL_PENDING_DELETE &&
          inst.RState != RebalanceState.REBAL_MERGED)).map (dropInstanceRequest defn) := by
  induction insts with
  | nil => intro rs; simp [janitor.instLoop]
  | cons inst rest ih =>
    intro rs
    unfold janitor.instLoop
    by_cases hc : inst.State = IndexState.INDEX_STATE_DELETED ∧
        inst.RState ≠ RebalanceState.REBAL_PENDING_DELETE ∧
        inst.RState ≠ RebalanceState.REBAL_MERGED
    · rw [if_pos hc, ih, MakeAsyncRequest_requests]
      have hb : (inst.State == IndexState.INDEX_STATE_DELETED &&
          inst.RState != RebalanceState.REBAL_PENDING_DELETE &&
          inst.RState != RebalanceState.REBAL_MERGED) = true := by
        simp [hc.1, hc.2.1, hc.2.2]
      rw [List.filter_cons, if_pos hb]
      simp [dropInstanceRequest]
    · rw [if_neg hc, ih]
      have hb : (inst.State == IndexState.INDEX_STATE_DELETED &&
          inst.RState != RebalanceState.REBAL_PENDING_DELETE &&
          inst.RState != RebalanceState.REBAL_MERGED) = false := by
        rw [Bool.eq_false_iff]
        intro h
        apply hc
        simpa [Bool.and_eq_true, and_assoc] using h
      rw [List.filter_cons, hb]
      simp

theorem defnLoop_nil (defns : List IndexDefn) :
    ∀ m : LifecycleMgr, m.repo.faults = [] →
      (janitor.defnLoop defns m).repo = m.repo ∧
      (janitor.defnLoop defns m).requestServer.requests =
        m.requestServer.requests ++ statusRequests m.repo defns := by
  induction defns with
  | nil =>
    intro m hf
    simp [janitor.defnLoop, fault_nil m.repo hf, statusRequests]
  | cons defn rest ih =>
    intro m hf
    have hm : ({ m with repo := m.repo } : LifecycleMgr) = m := rfl
    simp only [janitor.defnLoop, fault_nil m.repo hf, hm,
      FindAllLocalIndexInst_nil m defn.Bucket defn.DefnId hf]
    obtain ⟨h1, h2⟩ := ih (LifecycleMgr.mk m.repo m.notifier m.builder
      (janitor.instLoop defn (m.repo.rows defn.Bucket defn.DefnId) m.requestServer) m.env) hf
    refine ⟨h1, ?_⟩
    rw [h2]
    simp [instLoop_requests, statusRequests]

theorem statusPass_nil (m : LifecycleMgr) (hf : m.repo.faults = []) :
    (janitor.statusPass m).repo = m.repo ∧
    (janitor.statusPass m).requestServer.requests =
      m.requestServer.requests ++ statusRequests m.repo m.repo.defns := by
  have hm : ({ m with repo := m.repo } : LifecycleMgr) = m := rfl
  simp only [janitor.statusPass, MetadataRepo.NewIterator, fault_nil m.repo hf, hm]
  exact defnLoop_nil m.repo.defns m hf

theorem tokenLoop_nil (entries : List KVEntry) :
    ∀ m : LifecycleMgr, m.repo.faults = [] →
      (janitor.tokenLoop entries m).repo = m.repo ∧
      (janitor.tokenLoop entries m).requestServer.requests =
        m.requestServer.requests ++ tokenRequests m.repo entries := by
  induction entries with
  | nil => intro m _; simp [janitor.tokenLoop, tokenRequests]
  | cons entry rest ih =>
    intro m hf
    have hm : ({ m with repo := m.repo } : LifecycleMgr) = m := rfl
    unfold janitor.tokenLoop tokenRequests
    by_cases hp : strings.Contains entry.Path DeleteDDLCommandTokenPath = true
    · rw [if_pos hp]
      cases hv : entry.Value with
      | none => exact ih m hf
      | some value =>
        cases value with
        | malformed => exact ih m hf
        | token id =>
          simp only [GetIndexDefnById_nil m.repo id hf]
          cases hd : m.repo.defns.find? (fun d => d.DefnId == id) with
          | none =>
            simp only [hm, hp, Option.isSome_none, Bool.false_eq_true, and_false, if_false]
            exact ih m hf
          | some defn =>
            simp only [hp, Option.isSome_some, and_self, if_true]
            obtain ⟨h1, h2⟩ := ih (LifecycleMgr.mk m.repo m.notifier m.builder
              (m.requestServer.MakeAsyncRequest OpCode.OPCODE_DROP_INDEX (toString id)
                Content.empty).2 m.env) hf
            refine ⟨h1, ?_⟩
            rw [h2, MakeAsyncRequest_requests]
            simp
    · rw [if_neg hp]
      obtain ⟨h1, h2⟩ := ih m hf
      refine ⟨h1, ?_⟩
      rw [h2]
      cases hv : entry.Value with
      | none => rfl
      | some value =>
        cases value with
        | malformed => rfl
        | token id => simp [hp]

theorem submitted_nil (m : LifecycleMgr) (entries : List KVEntry) (hf : m.repo.faults = []) :
    janitor.submitted m (entries, none) =
      tokenRequests m.repo entries ++ statusRequests m.repo m.repo.defns := by
  obtain ⟨h1, h2⟩ := tokenLoop_nil entries m hf
  obtain ⟨_, h4⟩ := statusPass_nil (janitor.tokenLoop entries m) (by rw [h1]; exact hf)
  simp only [janitor.submitted, janitor.cleanup]
  rw [h4, h2, h1, List.append_assoc, List.drop_left]

theorem mem_statusRequests (r : MetadataRepo) (defns : List IndexDefn) (req : Request) :
    req ∈ statusRequests r defns ↔
      ∃ defn ∈ defns, ∃ inst ∈ r.rows defn.Bucket defn.DefnId,
        inst.State = IndexState.INDEX_STATE_DELETED ∧
        inst.RState ≠ RebalanceState.REBAL_PENDING_DELETE ∧
        inst.RState ≠ RebalanceState.REBAL_MERGED ∧ req = dropInstanceRequest defn inst := by
  induction defns with
  | nil => simp [statusRequests]
  | cons defn rest ih =>
    simp only [statusRequests, List.mem_append, List.mem_map, List.mem_filter, ih,
      List.mem_cons, exists_eq_or_imp, Bool.and_eq_true, beq_iff_eq, bne_iff_ne, ne_eq]
    constructor
    · rintro (⟨inst, ⟨hmem, ⟨h1, h2⟩, h3⟩, rfl⟩ | h)
      · exact Or.inl ⟨inst, hmem, h1, h2, h3, rfl⟩
      · exact Or.inr h
    · rintro (⟨inst, hmem, h1, h2, h3, rfl⟩ | h)
      · exact Or.inl ⟨inst, ⟨hmem, ⟨h1, h2⟩, h3⟩, rfl⟩
      · exact Or.inr h

theorem mem_tokenRequests (r : MetadataRepo) (entries : List KVEntry) (req : Request) :
    req ∈ tokenRequests r entries ↔
      ∃ entry ∈ entries, ∃ id, entry.Value = some (TokenValue.token id) ∧
        strings.Contains entry.Path DeleteDDLCommandTokenPath = true ∧
        (r.defns.find? (fun d => d.DefnId == id)).isSome = true ∧
        req = { op := OpCode.OPCODE_DROP_INDEX, key := toString id, content := Content.empty } := by
  induction entries with
  | nil => simp [tokenRequests]
  | cons entry rest ih =>
    unfold tokenRequests
    simp only [List.mem_cons, exists_eq_or_imp]
    cases hv : entry.Value with
    | none => simp [ih]
    | some value =>
      cases value with
      | malformed => simp [ih]
      | token id =>
        by_cases hc : strings.Contains entry.Path DeleteDDLCommandTokenPath = true ∧
            (r.defns.find? (fun d => d.DefnId == id)).isSome = true
        · simp only [if_pos hc, List.mem_cons, ih, Option.some.injEq, TokenValue.token.injEq]
          constructor
          · rintro (h | h)
            · exact Or.inl ⟨id, rfl, hc.1, hc.2, h⟩
            · exact Or.inr h
          · rintro (⟨id2, h1, _, _, h4⟩ | h)
            · subst h1
              exact Or.inl h4
            · exact Or.inr h
        · simp only [if_neg hc, ih, Option.some.injEq, TokenValue.token.injEq]
          constructor
          · intro h
            exact Or.inr h
          · rintro (⟨id2, h1, h2, h3, _⟩ | h)
            · subst h1
              exact absurd ⟨h2, h3⟩ hc
            · exact h

/-! ## Claims about the janitor -/

theorem target_dropIndex (id : Nat) :
    Request.target { op := OpCode.OPCODE_DROP_INDEX, key := toString id,
                     content := Content.empty } =
      if id < 18446744073709551616 then some id else none := by
  by_cases h : id < 18446744073709551616
  · simp [Request.target, indexDefnId_toString id h, h]
  · simp only [Request.target, if_neg h]
    have hdata : (toString id : String).data = Nat.toDigitsCore 10 (id + 1) id [] := rfl
    have hread := read_toDigitsCore (id + 1) id (Nat.lt_succ_self id)
    have hnil := toDigitsCore_ne_nil id id
    unfold indexDefnId
    rw [hdata]
    simp only [hnil, if_false]
    generalize hv : List.foldl _ (some 0) (Nat.toDigitsCore 10 (id + 1) id []) = v
    have hvid : v = some id := by
      rw [← hv]
      exact hread
    subst hvid
    simp [h]

/-- Claim C26 (counterexample).  Definition 1 has no instance row, the only instance of
definition 2 is DELETED with rebalance state MERGED and the only instance of definition 3 is
DELETED with rebalance state PENDING_DELETE; no delete token is present.  One janitor pass
submits no request at all.  With definition 4, whose DELETED instance has rebalance state
ACTIVE, the pass submits one request, for definition 4; it submits none when the listing of
the delete tokens fails or when the repository cannot open its iterator. -/
theorem janitor_passes_over_dangling_definition :
    janitor.submitted unreachedDefinitions ([], none) = [] ∧
    (janitor.submitted deletedDefinitions ([], none)).map (fun req => (req.op, req.target)) =
      [(OpCode.OPCODE_DROP_OR_PRUNE_INSTANCE, some 4)] ∧
    janitor.submitted deletedDefinitions ([], some (GoError.plain "metakv down")) = [] ∧
    janitor.submitted
      { deletedDefinitions with
          repo := { deletedDefinitions.repo with faults := [some (GoError.plain "read failed")] } }
      ([], none) = [] :=
  ⟨by decide, by decide, by decide, by decide⟩

/-- Claim C26 (amended).  When no repository call fails and the delete tokens can be listed,
one janitor pass submits a DROP_OR_PRUNE_INSTANCE request that targets a definition for every
instance row of it that is DELETED with a rebalance state other than PENDING_DELETE and
MERGED, and a DROP_INDEX request that targets a definition for every well-formed delete token
under the delete-token path whose DefnId resolves; and every request it submits targets a
definition that has such an instance row or is named by such a token. -/
theorem janitor_reaches_deleted_instance (m : LifecycleMgr) (entries : List KVEntry)
    (hf : m.repo.faults = []) :
    (∀ defn ∈ m.repo.defns, ∀ inst ∈ m.repo.rows defn.Bucket defn.DefnId,
      inst.State = IndexState.INDEX_STATE_DELETED →
      inst.RState ≠ RebalanceState.REBAL_PENDING_DELETE →
      inst.RState ≠ RebalanceState.REBAL_MERGED →
      ∃ req ∈ janitor.submitted m (entries, none),
        req.op = OpCode.OPCODE_DROP_OR_PRUNE_INSTANCE ∧ req.target = some defn.DefnId) ∧
    (∀ entry ∈ entries, ∀ id, entry.Value = some (TokenValue.token id) →
      strings.Contains entry.Path DeleteDDLCommandTokenPath = true →
      (m.repo.defns.find? (fun d => d.DefnId == id)).isSome = true →
      id < 18446744073709551616 →
      ∃ req ∈ janitor.submitted m (entries, none),
        req.op = OpCode.OPCODE_DROP_INDEX ∧ req.target = some id) ∧
    (∀ req ∈ janitor.submitted m (entries, none), ∀ d, req.target = some d →
      (∃ defn ∈ m.repo.defns, defn.DefnId = d ∧ ∃ inst ∈ m.repo.rows defn.Bucket defn.DefnId,
        inst.State = IndexState.INDEX_STATE_DELETED ∧
        inst.RState ≠ RebalanceState.REBAL_PENDING_DELETE ∧
        inst.RState ≠ RebalanceState.REBAL_MERGED) ∨
      (∃ entry ∈ entries, entry.Value = some (TokenValue.token d) ∧
        strings.Contains entry.Path DeleteDDLCommandTokenPath = true ∧
        (m.repo.defns.find? (fun x => x.DefnId == d)).isSome = true)) := by
  rw [submitted_nil m entries hf]
  refine ⟨?_, ?_, ?_⟩
  · intro defn hdefn inst hinst h1 h2 h3
    refine ⟨dropInstanceRequest defn inst, ?_, rfl, rfl⟩
    exact List.mem_append_right _
      ((mem_statusRequests _ _ _).2 ⟨defn, hdefn, inst, hinst, h1, h2, h3, rfl⟩)
  · intro entry hentry id hv hp hr hid
    refine ⟨{ op := OpCode.OPCODE_DROP_INDEX, key := toString id, content := Content.empty },
      ?_, rfl, ?_⟩
    · exact List.mem_append_left _
        ((mem_tokenRequests _ _ _).2 ⟨entry, hentry, id, hv, hp, hr, rfl⟩)
    · rw [target_dropIndex, if_pos hid]
  · intro req hreq d htarget
    rcases List.mem_append.1 hreq with h | h
    · obtain ⟨entry, hentry, id, hv, hp, hr, rfl⟩ := (mem_tokenRequests _ _ _).1 h
      rw [target_dropIndex] at htarget
      by_cases hid : id < 18446744073709551616
      · rw [if_pos hid] at htarget
        cases htarget
        exact Or.inr ⟨entry, hentry, hv, hp, hr⟩
      · rw [if_neg hid] at htarget
        cases htarget
    · obtain ⟨defn, hdefn, inst, hinst, h1, h2, h3, rfl⟩ := (mem_statusRequests _ _ _).1 h
      have hd : defn.DefnId = d := by
        have : some defn.DefnId = some d := htarget
        exact Option.some.inj this
      exact Or.inl ⟨defn, hdefn, hd, inst, hinst, h1, h2, h3⟩

/-- C26 (witness).  In `deletedDefinitions` the pass submits a DROP_OR_PRUNE_INSTANCE request
that targets definition 4, whose instance 40 is DELETED with rebalance state ACTIVE. -/
theorem janitor_reaches_deleted_instance_witness :
    ∃ req ∈ janitor.submitted deletedDefinitions ([], none),
      req.op = OpCode.OPCODE_DROP_OR_PRUNE_INSTANCE ∧ req.target = some 4 :=
  (janitor_reaches_deleted_instance deletedDefinitions [] rfl).1
    (exampleDefn 4 "i4" PartitionScheme.SINGLE) (by decide)
    (exampleInst 40 IndexState.INDEX_STATE_DELETED RebalanceState.REBAL_ACTIVE) (by decide)
    rfl (by decide) (by decide)

/-- Claim C27: in a repository whose calls succeed, the status-driven pass of the janitor
submits, in the order of the iterator, exactly one DROP_OR_PRUNE_INSTANCE request for every
instance row of an iterated definition that is DELETED with a rebalance state other than
PENDING_DELETE and MERGED, and no other request; the payload of the request carries
Cleanup = true and the definition with the InstId of that instance and no partitions; and
`handleDeleteOrPruneIndexInstance` on such a payload, in every state, resolves the instance
by InstId, then by RealInstId, and calls `DeleteIndexInstance`, never `PruneIndexInstance`. -/
theorem statusPass_submits_for_deleted_instances (m : LifecycleMgr)
    (hf : m.repo.faults = []) :
    (janitor.statusPass m).requestServer.requests =
      m.requestServer.requests ++ statusRequests m.repo m.repo.defns ∧
    (∀ req, req ∈ statusRequests m.repo m.repo.defns ↔
      ∃ defn ∈ m.repo.defns, ∃ inst ∈ m.repo.rows defn.Bucket defn.DefnId,
        inst.State = IndexState.INDEX_STATE_DELETED ∧
        inst.RState ≠ RebalanceState.REBAL_PENDING_DELETE ∧
        inst.RState ≠ RebalanceState.REBAL_MERGED ∧ req = dropInstanceRequest defn inst) ∧
    (∀ (defn : IndexDefn) (inst : IndexInstDistribution),
      (dropInstanceRequest defn inst).op = OpCode.OPCODE_DROP_OR_PRUNE_INSTANCE ∧
      (dropInstanceRequest defn inst).content =
        Content.dropInstance { defn with InstId := inst.InstId, Partitions := [] } true) ∧
    (∀ (defn : IndexDefn) (inst : IndexInstDistribution) (m2 : LifecycleMgr)
        (reqCtx : MetadataRequestContext),
      m2.handleDeleteOrPruneIndexInstance (dropInstanceRequest defn inst).content reqCtx =
        match m2.FindLocalIndexInst defn.Bucket defn.DefnId inst.InstId with
        | (_, some err, m3) => some (some err, m3)
        | (some _, none, m3) =>
          m3.DeleteIndexInstance defn.DefnId inst.InstId true (some reqCtx)
        | (none, none, m3) =>
          match m3.FindLocalIndexInst defn.Bucket defn.DefnId defn.RealInstId with
          | (_, some err, m4) => some (some err, m4)
          | (none, none, m4) => some (none, m4)
          | (some found, none, m4) =>
            m4.DeleteIndexInstance defn.DefnId found.InstId true (some reqCtx)) := by
  refine ⟨(statusPass_nil m hf).2, mem_statusRequests _ _, fun _ _ => ⟨rfl, rfl⟩, ?_⟩
  intro defn inst m2 reqCtx
  simp only [dropInstanceRequest, LifecycleMgr.handleDeleteOrPruneIndexInstance,
    LifecycleMgr.DeleteOrPruneIndexInstance, List.length_nil, if_true]
  try rfl

/-- C27 (witness).  In `deletedDefinitions` the status-driven pass submits one request, for
instance 40 of definition 4: the instance 20 is MERGED and the instance 30 is
PENDING_DELETE. -/
theorem statusPass_submits_for_deleted_instances_witness :
    (janitor.statusPass deletedDefinitions).requestServer.requests =
      [{ op := OpCode.OPCODE_DROP_OR_PRUNE_INSTANCE, key := "4",
         content := Content.dropInstance
           { exampleDefn 4 "i4" PartitionScheme.SINGLE with InstId := 40 } true }] :=
  (statusPass_submits_for_deleted_instances deletedDefinitions rfl).1

theorem GetIndexDefnById_defns (r : MetadataRepo) (id : Nat) :
    (r.GetIndexDefnById id).2.2.defns = r.defns ∧
    ((r.GetIndexDefnById id).2.1 = none →
      (r.GetIndexDefnById id).1 = r.defns.find? (fun d => d.DefnId == id)) := by
  have h0 := fault_content r
  unfold MetadataRepo.GetIndexDefnById
  rcases hf0 : r.fault with ⟨_ | e0, r0⟩
  · rw [hf0] at h0
    simp only at h0 ⊢
    exact ⟨h0.2, fun _ => by rw [h0.2]⟩
  · rw [hf0] at h0
    simp only at h0 ⊢
    exact ⟨h0.2, fun h => by cases h⟩

theorem tokenLoop_requests (entries : List KVEntry) :
    ∀ m : LifecycleMgr, ∃ ex,
      (janitor.tokenLoop entries m).requestServer.requests = m.requestServer.requests ++ ex ∧
      ∀ req ∈ ex, ∃ entry ∈ entries, ∃ id, entry.Value = some (TokenValue.token id) ∧
        strings.Contains entry.Path DeleteDDLCommandTokenPath = true ∧
        (m.repo.defns.find? (fun d => d.DefnId == id)).isSome = true ∧
        req = { op := OpCode.OPCODE_DROP_INDEX, key := toString id,
                content := Content.empty } := by
  induction entries with
  | nil => intro m; exact ⟨[], by simp [janitor.tokenLoop], by simp⟩
  | cons entry rest ih =>
    intro m
    have hlift : ∀ m2 : LifecycleMgr, m2.repo.defns = m.repo.defns →
        m2.requestServer = m.requestServer →
        ∃ ex, (janitor.tokenLoop rest m2).requestServer.requests =
            m.requestServer.requests ++ ex ∧
          ∀ req ∈ ex, ∃ e ∈ entry :: rest, ∃ id, e.Value = some (TokenValue.token id) ∧
            strings.Contains e.Path DeleteDDLCommandTokenPath = true ∧
            (m.repo.defns.find? (fun d => d.DefnId == id)).isSome = true ∧
            req = { op := OpCode.OPCODE_DROP_INDEX, key := toString id,
                    content := Content.empty } := by
      intro m2 hd hr
      obtain ⟨ex, h1, h2⟩ := ih m2
      refine ⟨ex, by rw [h1, hr], ?_⟩
      intro req hreq
      obtain ⟨e, he, id, hv, hp, hres, hreq2⟩ := h2 req hreq
      exact ⟨e, List.mem_cons_of_mem _ he, id, hv, hp, by rw [← hd]; exact hres, hreq2⟩
    unfold janitor.tokenLoop
    by_cases hp : strings.Contains entry.Path DeleteDDLCommandTokenPath = true
    · rw [if_pos hp]
      cases hv : entry.Value with
      | none => exact hlift m rfl rfl
      | some value =>
        cases value with
        | malformed => exact hlift m rfl rfl
        | token id =>
          obtain ⟨hg1, hg2⟩ := GetIndexDefnById_defns m.repo id
          simp only []
          rcases hg : m.repo.GetIndexDefnById id with ⟨_ | defn, _ | e, r⟩
          · rw [hg] at hg1
            exact hlift (LifecycleMgr.mk r m.notifier m.builder m.requestServer m.env) hg1 rfl
          · rw [hg] at hg1
            exact hlift (LifecycleMgr.mk r m.notifier m.builder m.requestServer m.env) hg1 rfl
          · rw [hg] at hg1 hg2
            simp only at hg1 hg2 ⊢
            obtain ⟨ex, h1, h2⟩ := ih (LifecycleMgr.mk r m.notifier m.builder
              (m.requestServer.MakeAsyncRequest OpCode.OPCODE_DROP_INDEX (toString id)
                Content.empty).2 m.env)
            refine ⟨{ op := OpCode.OPCODE_DROP_INDEX, key := toString id,
                      content := Content.empty } :: ex, ?_, ?_⟩
            · refine h1.trans ?_
              simp only [MakeAsyncRequest_requests]
              simp
            · intro req hreq
              rcases List.mem_cons.1 hreq with h | h
              · refine ⟨entry, List.mem_cons_self _ _, id, hv, hp, ?_, h⟩
                rw [← hg2 trivial]
                rfl
              · obtain ⟨e2, he, id2, hv2, hp2, hres, hreq2⟩ := h2 req h
                exact ⟨e2, List.mem_cons_of_mem _ he, id2, hv2, hp2,
                  by rw [← hg1]; exact hres, hreq2⟩
          · rw [hg] at hg1
            exact hlift (LifecycleMgr.mk r m.notifier m.builder m.requestServer m.env) hg1 rfl
    · rw [if_neg hp]
      exact hlift m rfl rfl

theorem DeleteIndex_removes_record (m : LifecycleMgr) (id : Nat) (notify : Bool)
    (ctx : Option MetadataRequestContext) (hf : m.repo.faults = [])
    (hdel : (m.DeleteIndex id notify ctx).1 = none) :
    (m.DeleteIndex id notify ctx).2.repo.defns.find? (fun d => d.DefnId == id) = none := by
  cases hd : m.repo.defns.find? (fun d => d.DefnId == id) with
  | none =>
    rw [DeleteIndex_missing m id notify ctx hf hd]
    exact hd
  | some defn =>
    have hid : defn.DefnId = id := find_defn_id _ _ _ hd
    obtain ⟨ws, h⟩ := DeleteIndex_nil m id notify ctx defn hf hd
    rw [h] at hdel ⊢
    have hclean : ∀ m2 : LifecycleMgr, m2.repo.faults = [] →
        (DeleteIndex.cleanRepo defn m2).2.repo.defns.find? (fun d => d.DefnId == id) = none := by
      intro m2 hf2
      rw [cleanRepo_nil _ _ hf2, hid]
      exact find_filter_ne _ _
    split at hdel
    · split at hdel
      · cases hdel
      · rename_i heq
        simp only [heq]
        exact hclean _ hf
    · exact hclean _ hf

/-- Claim C28 (counterexample).  The delete token of definition 42 is present and
`DropIndexById` fails during the `DeleteIndex(42, notify = true)` that the first janitor pass
triggered.  `DeleteIndex` returns no error, the definition record is still stored, and the
second janitor pass over the same token submits DROP_INDEX for definition 42 again. -/
theorem delete_token_replay_after_failed_drop :
    (definition42DropFails.DeleteIndex 42 true (some NewUserRequestContext)).1 = none ∧
    (definition42DropFails.DeleteIndex 42 true (some NewUserRequestContext)).2.repo.defns.map
        (fun d => d.DefnId) = [42] ∧
    (definition42DropFails.DeleteIndex 42 true (some NewUserRequestContext)).2.repo.writes.filter
        (fun w => w matches RepoWrite.DropIndexById _) = [RepoWrite.DropIndexById 42] ∧
    (janitor.submitted
        (definition42DropFails.DeleteIndex 42 true (some NewUserRequestContext)).2
        (token42, none)).map (fun req => (req.op, req.target)) =
      [(OpCode.OPCODE_DROP_INDEX, some 42)] := by
  decide

/-- Claim C28 (amended): delete-token replay.  In a repository whose calls succeed, once
`DeleteIndex` of definition `d` has returned no error, a janitor pass over any listing of
delete tokens, the token of `d` included, submits no request that targets `d`, neither
DROP_INDEX nor DROP_OR_PRUNE_INSTANCE.  Whatever the repository answers, every request that
the token pass submits is the DROP_INDEX request of a well-formed token under the
delete-token path whose DefnId resolves to a definition record.  The handler of the
DROP_INDEX request that the token pass submits for `d` is `DeleteIndex(d, notify = true)`. -/
theorem delete_token_replay (m : LifecycleMgr) (entries : List KVEntry) (d : Nat)
    (notify : Bool) (ctx : Option MetadataRequestContext)
    (hf : m.repo.faults = [])
    (hdel : (m.DeleteIndex d notify ctx).1 = none) :
    (∀ req ∈ janitor.submitted (m.DeleteIndex d notify ctx).2 (entries, none),
      req.target ≠ some d) ∧
    (∀ (m0 : LifecycleMgr),
      ∀ req ∈ (janitor.tokenLoop entries m0).requestServer.requests.drop
          m0.requestServer.requests.length,
        ∃ entry ∈ entries, ∃ id, entry.Value = some (TokenValue.token id) ∧
          strings.Contains entry.Path DeleteDDLCommandTokenPath = true ∧
          (m0.repo.defns.find? (fun x => x.DefnId == id)).isSome = true ∧
          req = { op := OpCode.OPCODE_DROP_INDEX, key := toString id,
                  content := Content.empty }) ∧
    (d < 18446744073709551616 → ∀ (m0 : LifecycleMgr) (reqCtx : MetadataRequestContext),
      m0.handleDeleteIndex (toString d) reqCtx = m0.DeleteIndex d true (some reqCtx)) := by
  refine ⟨?_, ?_, ?_⟩
  · have hf1 := (DeleteIndex_defns m d notify ctx hf).1
    have hgone := DeleteIndex_removes_record m d notify ctx hf hdel
    rw [submitted_nil _ entries hf1]
    intro req hreq htarget
    rcases List.mem_append.1 hreq with h | h
    · obtain ⟨entry, _, id, _, _, hr, rfl⟩ := (mem_tokenRequests _ _ _).1 h
      rw [target_dropIndex] at htarget
      by_cases hid : id < 18446744073709551616
      · rw [if_pos hid] at htarget
        cases htarget
        rw [hgone] at hr
        cases hr
      · rw [if_neg hid] at htarget
        cases htarget
    · obtain ⟨defn, hdefn, inst, _, _, _, _, rfl⟩ := (mem_statusRequests _ _ _).1 h
      have hd : defn.DefnId = d := Option.some.inj htarget
      rw [List.find?_eq_none] at hgone
      exact hgone defn hdefn (by simpa using hd)
  · intro m0 req hreq
    obtain ⟨ex, h1, h2⟩ := tokenLoop_requests entries m0
    rw [h1, List.drop_left] at hreq
    exact h2 req hreq
  · intro hd m0 reqCtx
    simp [LifecycleMgr.handleDeleteIndex, indexDefnId_toString d hd]

/-- C28 (witness).  The delete token of definition 42 is present and definition 42 exists.
The first janitor pass submits one request, DROP_INDEX with key "42"; its handler is
`DeleteIndex(42, true)`, which returns no error; the second pass over the same token submits
no request that targets definition 42. -/
theorem delete_token_replay_witness :
    janitor.submitted definition42 (token42, none) =
      [{ op := OpCode.OPCODE_DROP_INDEX, key := "42", content := Content.empty }] ∧
    (janitor.cleanup definition42 (token42, none)).handleDeleteIndex "42"
        NewUserRequestContext =
      (janitor.cleanup definition42 (token42, none)).DeleteIndex 42 true
        (some NewUserRequestContext) ∧
    ∀ req ∈ janitor.submitted
        ((janitor.cleanup definition42 (token42, none)).DeleteIndex 42 true
          (some NewUserRequestContext)).2 (token42, none),
      req.target ≠ some 42 :=
  ⟨by decide,
   (delete_token_replay (janitor.cleanup definition42 (token42, none)) token42 42 true
      (some NewUserRequestContext) (by decide) (by decide)).2.2 (by decide) _ _,
   (delete_token_replay (janitor.cleanup definition42 (token42, none)) token42 42 true
      (some NewUserRequestContext) (by decide) (by decide)).1⟩

/-! ## Claims about the error loop of a build -/

/-- Claim C30 (failing input).  The indexer reports a build error for instance 10 and the
topology read of `FindLocalIndexInst` in the error loop fails: `BuildIndexes` does not return,
it panics at lines 805-806, where `inst.ReplicaId` is read although `inst` is nil.  With a
working repository the same build returns the error in the retry list. -/
theorem BuildIndexes_panics_on_missing_instance :
    (buildError ninthCallFails).BuildIndexes [1] (some NewUserRequestContext) false = none ∧
    ((buildError []).BuildIndexes [1] (some NewUserRequestContext) false).map
        (fun res => res.1) =
      some ([GoError.plain (retryErrText "i" "build failed")], [], []) := by
  decide

/-! ## The definition records under a build -/

theorem fault_defns (r : MetadataRepo) : r.fault.2.defns = r.defns := (fault_content r).2

theorem SetTopologyByBucket_defns (r : MetadataRepo) (b : String) (t : IndexTopology) :
    (r.SetTopologyByBucket b t).2.defns = r.defns := by
  have h := fault_defns { r with writes := r.writes ++ [RepoWrite.SetTopologyByBucket b t] }
  simp only [MetadataRepo.SetTopologyByBucket]
  rcases hf : MetadataRepo.fault
    { r with writes := r.writes ++ [RepoWrite.SetTopologyByBucket b t] } with ⟨_ | e, r1⟩ <;>
    (rw [hf] at h; exact h)

theorem GetTopologyByBucket_defns (r : MetadataRepo) (b : String) :
    (r.GetTopologyByBucket b).2.2.defns = r.defns := by
  unfold MetadataRepo.GetTopologyByBucket
  have h := fault_defns r
  rcases hf : r.fault with ⟨_ | e, r1⟩ <;> (rw [hf] at h; exact h)

theorem GetLocalIndexerId_defns (r : MetadataRepo) (env : Env) :
    (r.GetLocalIndexerId env).2.2.defns = r.defns := by
  unfold MetadataRepo.GetLocalIndexerId
  have h := fault_defns r
  rcases hf : r.fault with ⟨_ | e, r1⟩ <;> (rw [hf] at h; exact h)

theorem FindAllLocalIndexInst_defns (m : LifecycleMgr) (b : String) (d : Nat) :
    (m.FindAllLocalIndexInst b d).2.2.repo.defns = m.repo.defns := by
  have h := GetTopologyByBucket_defns m.repo b
  unfold LifecycleMgr.FindAllLocalIndexInst
  rcases hg : m.repo.GetTopologyByBucket b with ⟨_ | t, _ | e, r⟩ <;> (rw [hg] at h; exact h)

theorem FindLocalIndexInst_defns (m : LifecycleMgr) (b : String) (d i : Nat) :
    (m.FindLocalIndexInst b d i).2.2.repo.defns = m.repo.defns := by
  have h := FindAllLocalIndexInst_defns m b d
  unfold LifecycleMgr.FindLocalIndexInst
  rcases hq : m.FindAllLocalIndexInst b d with ⟨insts, _ | e, m1⟩ <;> (rw [hq] at h; exact h)

theorem SetScheduledFlag_defns (m : LifecycleMgr) (bucket : String) (defnId instId : Nat)
    (scheduled : Bool) :
    (m.SetScheduledFlag bucket defnId instId scheduled).2.repo.defns = m.repo.defns := by
  have h := GetTopologyByBucket_defns m.repo bucket
  unfold LifecycleMgr.SetScheduledFlag
  rcases hg : m.repo.GetTopologyByBucket bucket with ⟨_ | t, _ | e, r⟩
  · rw [hg] at h; exact h
  · rw [hg] at h; exact h
  · rw [hg] at h
    simp only at h ⊢
    rcases hu : t.UpdateScheduledFlagForIndexInst defnId instId scheduled with ⟨_ | _, t1⟩
    · exact h
    · simp only
      have h2 := SetTopologyByBucket_defns r bucket t1
      rcases hs : r.SetTopologyByBucket bucket t1 with ⟨_ | e, r1⟩ <;>
        (rw [hs] at h2; exact h2.trans h)
  · rw [hg] at h; exact h

theorem updateIndexState_defns (m : LifecycleMgr) (bucket : String) (defnId instId : Nat)
    (state : IndexState) :
    (m.updateIndexState bucket defnId instId state).2.repo.defns = m.repo.defns := by
  have h := GetTopologyByBucket_defns m.repo bucket
  unfold LifecycleMgr.updateIndexState
  rcases hg : m.repo.GetTopologyByBucket bucket with ⟨_ | t, _ | e, r⟩
  · rw [hg] at h; exact h
  · rw [hg] at h; exact h
  · rw [hg] at h
    simp only at h ⊢
    rcases hu : t.UpdateStateForIndexInst defnId instId state with ⟨_ | _, t1⟩
    · exact h
    · simp only
      have h2 := SetTopologyByBucket_defns r bucket t1
      rcases hs : r.SetTopologyByBucket bucket t1 with ⟨_ | e, r1⟩ <;>
        (rw [hs] at h2; exact h2.trans h)
  · rw [hg] at h; exact h

theorem UpdateIndexInstance_defns (m : LifecycleMgr) (bucket : String)
    (defnId instId : Nat) (state : IndexState) (streamId : StreamId) (errStr : String)
    (buildTime : List Nat) (rState : RebalanceState) (partitions : List Nat)
    (versions : List Int) (version : Int) :
    (m.UpdateIndexInstance bucket defnId instId state streamId errStr buildTime rState
      partitions versions version).2.repo.defns = m.repo.defns := by
  have h := GetTopologyByBucket_defns m.repo bucket
  unfold LifecycleMgr.UpdateIndexInstance
  rcases hg : m.repo.GetTopologyByBucket bucket with ⟨_ | t, _ | e, r⟩
  · rw [hg] at h; exact h
  · rw [hg] at h; exact h
  · rw [hg] at h
    simp only at h ⊢
    have h1 := (GetIndexDefnById_defns r defnId).1
    rcases hd : r.GetIndexDefnById defnId with ⟨_ | defn, _ | e1, r1⟩
    · rw [hd] at h1; exact h1.trans h
    · rw [hd] at h1; exact h1.trans h
    · rw [hd] at h1
      simp only at h1 ⊢
      have h2 := GetLocalIndexerId_defns r1 m.env
      rcases hl : r1.GetLocalIndexerId m.env with ⟨indexerId, _ | e2, r2⟩
      · rw [hl] at h2
        simp only at h2 ⊢
        rcases hu : UpdateIndexInstance.apply t defn indexerId defnId instId state streamId
          errStr rState partitions versions version with ⟨_ | _, t1⟩
        · exact h2.trans (h1.trans h)
        · simp only
          have h3 := SetTopologyByBucket_defns r2 bucket t1
          rcases hs : r2.SetTopologyByBucket bucket t1 with ⟨_ | e, r3⟩ <;>
            (rw [hs] at h3; exact h3.trans (h2.trans (h1.trans h)))
      · rw [hl] at h2; exact h2.trans (h1.trans h)
    · rw [hd] at h1; exact h1.trans h
  · rw [hg] at h; exact h

theorem BuildIndexes_instLoop_defns (defn : IndexDefn) (id : Nat)
    (insts : List IndexInstDistribution) :
    ∀ (v : BuildSet) (m : LifecycleMgr),
      (BuildIndexes.instLoop defn id insts v m).2.repo.defns = m.repo.defns := by
  induction insts with
  | nil => intro v m; rfl
  | cons inst rest ih =>
    intro v m
    unfold BuildIndexes.instLoop
    split
    · exact ih v m
    · simp only []
      rw [ih, UpdateIndexInstance_defns, SetScheduledFlag_defns]

theorem BuildIndexes_idLoop_defns (ids : List Nat) :
    ∀ (v : BuildSet) (m : LifecycleMgr),
      (BuildIndexes.idLoop ids v m).2.repo.defns = m.repo.defns := by
  induction ids with
  | nil => intro v m; rfl
  | cons id rest ih =>
    intro v m
    unfold BuildIndexes.idLoop
    split
    · exact ih v m
    · simp only []
      have h1 := (GetIndexDefnById_defns m.repo id).1
      rcases hd : m.repo.GetIndexDefnById id with ⟨_ | defn, _ | e1, r1⟩
      · rw [hd] at h1; simp only; rw [ih]; exact h1
      · rw [hd] at h1; simp only; rw [ih]; exact h1
      · rw [hd] at h1
        simp only at h1 ⊢
        have h2 := FindAllLocalIndexInst_defns { m with repo := r1 } defn.Bucket id
        rcases hq : LifecycleMgr.FindAllLocalIndexInst { m with repo := r1 } defn.Bucket id
          with ⟨insts, _ | e2, m1⟩
        · rw [hq] at h2
          simp only at h2 ⊢
          split
          · rw [ih]; exact h2.trans h1
          · have h3 := BuildIndexes_instLoop_defns defn id insts
              { v with defnIdMap := id :: v.defnIdMap } m1
            rcases hi : BuildIndexes.instLoop defn id insts
              { v with defnIdMap := id :: v.defnIdMap } m1 with ⟨v2, m2⟩
            rw [hi] at h3
            simp only at h3 ⊢
            rw [ih]
            exact h3.trans (h2.trans h1)
        · rw [hq] at h2
          simp only at h2 ⊢
          rw [ih]
          exact h2.trans h1
      · rw [hd] at h1; simp only; rw [ih]; exact h1

theorem BuildIndexes_errLoop_defns (inst2DefnMap : List (Nat × Nat)) (retry : Bool)
    (errMap : List (Nat × GoError)) :
    ∀ (v : BuildErrs) (m : LifecycleMgr) (res : BuildErrs × LifecycleMgr),
      BuildIndexes.errLoop inst2DefnMap retry errMap v m = some res →
      res.2.repo.defns = m.repo.defns := by
  induction errMap with
  | nil =>
    intro v m res h
    simp only [BuildIndexes.errLoop, Option.some.injEq] at h
    subst h
    rfl
  | cons entry rest ih =>
    intro v m res h
    rcases entry with ⟨instId, build_err⟩
    unfold BuildIndexes.errLoop at h
    split at h
    · exact ih v m res h
    · rename_i defnId _
      have h1 := (GetIndexDefnById_defns m.repo defnId).1
      rcases hd : m.repo.GetIndexDefnById defnId with ⟨_ | defn, _ | e1, r1⟩
      · rw [hd] at h h1
        exact (ih v { m with repo := r1 } res h).trans h1
      · rw [hd] at h h1
        exact (ih v { m with repo := r1 } res h).trans h1
      · rw [hd] at h h1
        simp only at h h1
        have h2 := FindLocalIndexInst_defns { m with repo := r1 } defn.Bucket defnId instId
        rcases hq : LifecycleMgr.FindLocalIndexInst { m with repo := r1 } defn.Bucket defnId
          instId with ⟨_ | inst, err, m1⟩
        · rw [hq] at h
          cases h
        · rw [hq] at h h2
          simp only at h h2
          have hm2 : ∀ (e : String),
              (if err = none then
                (m1.UpdateIndexInstance defn.Bucket defnId inst.InstId
                  IndexState.INDEX_STATE_NIL StreamId.NIL_STREAM e [] inst.RState
                  [] [] (-1)).2
              else m1).repo.defns = m1.repo.defns := by
            intro e
            split
            · exact UpdateIndexInstance_defns _ _ _ _ _ _ _ _ _ _ _ _
            · rfl
          have hm3 : ∀ X : LifecycleMgr,
              (if (!inst.Scheduled) = true then
                (X.SetScheduledFlag defn.Bucket defnId inst.InstId true).2
               else X).repo.defns = X.repo.defns := by
            intro X
            split
            · exact SetScheduledFlag_defns _ _ _ _ _
            · rfl
          split at h <;> split at h <;>
          first
          | exact (ih _ _ res h).trans ((hm2 _).trans (h2.trans h1))
          | exact (ih _ _ res h).trans ((hm3 _).trans ((hm2 _).trans (h2.trans h1)))
      · rw [hd] at h h1
        exact (ih v { m with repo := r1 } res h).trans h1

theorem BuildIndexes_defns (m : LifecycleMgr) (ids : List Nat)
    (reqCtx : Option MetadataRequestContext) (retry : Bool)
    (res : (List GoError × List Nat × List GoError) × LifecycleMgr)
    (h : m.BuildIndexes ids reqCtx retry = some res) : res.2.repo.defns = m.repo.defns := by
  unfold LifecycleMgr.BuildIndexes at h
  have h1 := BuildIndexes_idLoop_defns ids
    { skipList := [], instIdList := [], defnIdMap := [], buckets := [], inst2DefnMap := [] } m
  rcases hq : BuildIndexes.idLoop ids
    { skipList := [], instIdList := [], defnIdMap := [], buckets := [], inst2DefnMap := [] } m
    with ⟨v, m1⟩
  rw [hq] at h h1
  simp only [] at h h1
  cases hn : m1.notifier with
  | none =>
    rw [hn] at h
    simp only [Option.some.injEq] at h
    subst h
    exact h1
  | some n =>
    rw [hn] at h
    simp only [] at h
    split at h
    · rcases hb : n.OnIndexBuild v.instIdList v.buckets reqCtx with ⟨errMap, n1⟩
      rw [hb] at h
      simp only [] at h
      split at h
      · cases he : BuildIndexes.errLoop v.inst2DefnMap retry errMap
            { retryList := [], retryErrList := [], errList := [] }
            { m1 with notifier := some n1 } with
        | none => rw [he] at h; simp at h
        | some p =>
          rw [he] at h
          simp only [Option.some.injEq] at h
          subst h
          exact (BuildIndexes_errLoop_defns _ _ _ _ { m1 with notifier := some n1 } _ he).trans
            h1
      · simp only [Option.some.injEq] at h
        subst h
        exact h1
    · simp only [Option.some.injEq] at h
      subst h
      exact h1

/-! ## The live definitions of a bucket under a create -/

theorem liveFrom_refl (b : String) (d : Nat) (ts ts2 : List IndexTopology) (h : ts2 = ts) :
    liveFrom b d ts ts2 := by
  subst h
  intro t2 ht2 ref2 hmem hl
  exact Or.inr ⟨t2, ht2, ref2, hmem, rfl, hl⟩

theorem liveFrom_trans (b : String) (d : Nat) (ts1 ts2 ts3 : List IndexTopology)
    (h12 : liveFrom b d ts1 ts2) (h23 : liveFrom b d ts2 ts3) : liveFrom b d ts1 ts3 := by
  intro t3 ht3 ref3 hmem hl
  rcases h23 t3 ht3 ref3 hmem hl with h | ⟨t2, ht2, ref2, hm2, hid2, hl2⟩
  · exact Or.inl h
  · rcases h12 t2 ht2 ref2 hm2 hl2 with h | ⟨t1, ht1, ref1, hm1, hid1, hl1⟩
    · exact Or.inl (hid2 ▸ h)
    · exact Or.inr ⟨t1, ht1, ref1, hm1, hid1.trans hid2, hl1⟩

theorem forall₂_mem_right {α : Type} (R : α → α → Prop) (l1 l2 : List α)
    (h : List.Forall₂ R l1 l2) (y : α) (hy : y ∈ l2) : ∃ x ∈ l1, R x y := by
  induction h with
  | nil => cases hy
  | cons hxy _ ih =>
    rcases List.mem_cons.mp hy with h1 | h1
    · subst h1
      exact ⟨_, List.mem_cons_self _ _, hxy⟩
    · obtain ⟨x, hx, hr⟩ := ih h1
      exact ⟨x, List.mem_cons_of_mem _ hx, hr⟩

theorem find_of_keepsDeleted (b : String) (ts1 ts2 : List IndexTopology)
    (h : List.Forall₂ IndexTopology.keepsDeleted ts1 ts2) (t2 : IndexTopology)
    (ht2 : ts2.find? (fun t => t.Bucket == b) = some t2) :
    ∃ t1, ts1.find? (fun t => t.Bucket == b) = some t1 ∧ t1.keepsDeleted t2 := by
  induction h with
  | nil => simp at ht2
  | @cons x y l1 l2 hxy _ ih =>
    by_cases hb : y.Bucket = b
    · have hx : x.Bucket = b := by rw [← hxy.1]; exact hb
      have hy : y = t2 := by simpa [List.find?_cons, hb] using ht2
      subst hy
      exact ⟨x, by simp [List.find?_cons, hx], hxy⟩
    · have hx : ¬ x.Bucket = b := by rw [← hxy.1]; exact hb
      have hr : l2.find? (fun t => t.Bucket == b) = some t2 := by
        simpa [List.find?_cons, hb] using ht2
      obtain ⟨t1, ht1, hk⟩ := ih hr
      exact ⟨t1, by simpa [List.find?_cons, hx] using ht1, hk⟩

theorem liveFrom_of_keepsDeleted (b : String) (d : Nat) (r1 r2 : MetadataRepo)
    (h : r1.keepsDeleted r2) : liveFrom b d r1.topologies r2.topologies := by
  intro t2 ht2 ref2 hmem hl
  obtain ⟨t1, ht1, hk⟩ := find_of_keepsDeleted b _ _ h t2 ht2
  obtain ⟨ref1, hm1, hid, hrows⟩ := forall₂_mem_right _ _ _ hk.2 ref2 hmem
  obtain ⟨inst2, hi2, hs2⟩ := hl
  obtain ⟨inst1, hi1, _, hs1⟩ := forall₂_mem_right _ _ _ hrows inst2 hi2
  exact Or.inr ⟨t1, ht1, ref1, hm1, hid.symm, inst1, hi1, fun hdel => hs2 (hs1 hdel)⟩

theorem liveFrom_put (b : String) (d : Nat) (ts : List IndexTopology) (t2 : IndexTopology)
    (hb : t2.Bucket = b)
    (h : ∀ ref2 ∈ t2.Definitions,
      (∃ inst ∈ ref2.Instances, inst.State ≠ IndexState.INDEX_STATE_DELETED) →
      ref2.DefnId = d ∨ ∃ ref1 ∈ (topologyOf b ts).Definitions, ref1.DefnId = ref2.DefnId ∧
        ∃ inst ∈ ref1.Instances, inst.State ≠ IndexState.INDEX_STATE_DELETED) :
    liveFrom b d ts (putTopology b t2 ts) := by
  intro t3 ht3 ref2 hmem hl
  rw [find_putTopology b t2 ts hb] at ht3
  cases ht3
  rcases h ref2 hmem hl with h1 | ⟨ref1, hm1, hid, hl1⟩
  · exact Or.inl h1
  · unfold topologyOf at hm1
    cases hfind : ts.find? (fun t => t.Bucket == b) with
    | none =>
      rw [hfind] at hm1
      cases hm1
    | some t1 =>
      rw [hfind] at hm1
      exact Or.inr ⟨t1, rfl, ref1, hm1, hid, hl1⟩

theorem liveDefnsCarry_step (r r2 : MetadataRepo) (b uuid : String) (d : Nat)
    (hlive : r.liveDefnsCarry b uuid)
    (hq : ∀ x, r.defns.find? (fun y => y.DefnId == d) = some x → x.BucketUUID = uuid)
    (hd : r2.defns = r.defns) (hfrom : liveFrom b d r.topologies r2.topologies) :
    r2.liveDefnsCarry b uuid := by
  intro t2 ht2 ref2 hmem hl defn hfind
  rw [hd] at hfind
  rcases hfrom t2 ht2 ref2 hmem hl with h | ⟨t1, ht1, ref1, hm1, hid, hl1⟩
  · rw [h] at hfind
    exact hq _ hfind
  · rw [← hid] at hfind
    exact hlive t1 ht1 ref1 hm1 hl1 defn hfind

theorem CreateIndex_record (r r2 : MetadataRepo) (defn : IndexDefn)
    (h : r.CreateIndex defn = (none, r2)) :
    r2.defns = r.defns ++ [defn] ∧ r2.topologies = r.topologies ∧
    r.defns.find? (fun y => y.DefnId == defn.DefnId) = none := by
  have hc := fault_content { r with writes := r.writes ++ [RepoWrite.CreateIndex defn] }
  simp only [MetadataRepo.CreateIndex] at h
  rcases hf : MetadataRepo.fault
    { r with writes := r.writes ++ [RepoWrite.CreateIndex defn] } with ⟨_ | e, r1⟩
  · rw [hf] at h hc
    simp only at h hc
    split at h
    · cases h
    · rename_i hany
      simp only [Prod.mk.injEq, true_and] at h
      subst h
      rw [hc.2] at hany
      refine ⟨by rw [hc.2], hc.1, ?_⟩
      rw [List.find?_eq_none]
      intro x hx hxd
      exact hany (List.any_eq_true.2 ⟨x, hx, hxd⟩)
  · rw [hf] at h
    cases h

theorem addIndexToTopology_liveFrom (r r2 : MetadataRepo) (env : Env) (defn : IndexDefn)
    (instId : Nat) (replicaId : Int) (partitions : List Nat) (versions : List Int)
    (numPartitions realInstId : Nat) (scheduled : Bool)
    (h : r.addIndexToTopology env defn instId replicaId partitions versions numPartitions
      realInstId scheduled = (none, r2)) :
    r2.defns = r.defns ∧ liveFrom defn.Bucket defn.DefnId r.topologies r2.topologies := by
  have hc := fault_content
    { r with writes := r.writes ++ [RepoWrite.addIndexToTopology defn.DefnId instId] }
  simp only [MetadataRepo.addIndexToTopology] at h
  rcases hf : MetadataRepo.fault
    { r with writes := r.writes ++ [RepoWrite.addIndexToTopology defn.DefnId instId] }
    with ⟨_ | e, r1⟩
  · rw [hf] at h hc
    simp only [Prod.mk.injEq, true_and] at h hc
    subst h
    refine ⟨hc.2, ?_⟩
    simp only
    rw [hc.1]
    have hbucket : (topologyOf defn.Bucket r.topologies).Bucket = defn.Bucket := by
      unfold topologyOf
      cases hfind : r.topologies.find? (fun t => t.Bucket == defn.Bucket) with
      | none => rfl
      | some t => exact find_bucket _ _ _ hfind
    refine liveFrom_put _ _ _ _ hbucket ?_
    intro ref2 hmem hl
    simp only [List.mem_append, List.mem_filter, List.mem_singleton] at hmem
    rcases hmem with hmem | hmem
    · exact Or.inr ⟨ref2, hmem.1, rfl, hl⟩
    · subst hmem
      exact Or.inl rfl
  · rw [hf] at h
    cases h

theorem mem_mapInst (t : IndexTopology) (d i : Nat)
    (f : IndexInstDistribution → IndexInstDistribution) (ref2 : IndexDefnDistribution)
    (hmem : ref2 ∈ (t.mapInst d i f).Definitions) :
    ref2.DefnId = d ∨ ref2 ∈ t.Definitions := by
  simp only [IndexTopology.mapInst, List.mem_map] at hmem
  obtain ⟨ref1, hm1, heq⟩ := hmem
  by_cases hd : ref1.DefnId = d
  · rw [if_pos hd] at heq
    subst heq
    exact Or.inl hd
  · rw [if_neg hd] at heq
    subst heq
    exact Or.inr hm1

theorem updateIndexState_liveFrom (m : LifecycleMgr) (bucket : String) (defnId instId : Nat)
    (state : IndexState) :
    liveFrom bucket defnId m.repo.topologies
      (m.updateIndexState bucket defnId instId state).2.repo.topologies := by
  unfold LifecycleMgr.updateIndexState
  have h0 := fault_content m.repo
  simp only [MetadataRepo.GetTopologyByBucket]
  rcases hf0 : m.repo.fault with ⟨_ | e0, r0⟩
  · rw [hf0] at h0
    simp only at h0 ⊢
    cases hfind : r0.topologies.find? (fun t => t.Bucket == bucket) with
    | none => exact liveFrom_refl _ _ _ _ h0.1
    | some tc =>
      simp only [IndexTopology.UpdateStateForIndexInst]
      cases tc.anyInst defnId instId (fun i => i.State != state) with
      | false => exact liveFrom_refl _ _ _ _ h0.1
      | true =>
        simp only
        have h1 := fault_content { r0 with writes := r0.writes ++
          [RepoWrite.SetTopologyByBucket bucket
            (tc.mapInst defnId instId (fun i => { i with State := state }))] }
        simp only [MetadataRepo.SetTopologyByBucket]
        rcases hf1 : MetadataRepo.fault { r0 with writes := r0.writes ++
          [RepoWrite.SetTopologyByBucket bucket
            (tc.mapInst defnId instId (fun i => { i with State := state }))] }
          with ⟨_ | e1, r1⟩
        · rw [hf1] at h1
          simp only at h1 ⊢
          rw [h1.1, ← h0.1]
          refine liveFrom_put _ _ _ _ (find_bucket bucket tc _ hfind) ?_
          intro ref2 hmem hl
          rcases mem_mapInst _ _ _ _ _ hmem with hd | hm
          · exact Or.inl hd
          · refine Or.inr ⟨ref2, ?_, rfl, hl⟩
            unfold topologyOf
            rw [hfind]
            exact hm
        · rw [hf1] at h1
          exact liveFrom_refl _ _ _ _ (h1.1.trans h0.1)
  · rw [hf0] at h0
    exact liveFrom_refl _ _ _ _ h0.1

theorem setStorageMode_fields (m : LifecycleMgr) (defn : IndexDefn) :
    (m.setStorageMode defn).2.BucketUUID = defn.BucketUUID ∧
    (m.setStorageMode defn).2.Bucket = defn.Bucket ∧
    (m.setStorageMode defn).2.DefnId = defn.DefnId := by
  unfold LifecycleMgr.setStorageMode
  split
  · split <;> exact ⟨rfl, rfl, rfl⟩
  · split <;> exact ⟨rfl, rfl, rfl⟩

theorem setInstId_fields (m : LifecycleMgr) (defn : IndexDefn) :
    (m.setInstId defn).2.1.BucketUUID = defn.BucketUUID ∧
    (m.setInstId defn).2.1.Bucket = defn.Bucket ∧
    (m.setInstId defn).2.1.DefnId = defn.DefnId ∧
    (m.setInstId defn).2.2.repo = m.repo := by
  unfold LifecycleMgr.setInstId
  simp only []
  split
  · exact ⟨rfl, rfl, rfl, rfl⟩
  · split <;> exact ⟨rfl, rfl, rfl, rfl⟩

theorem setPartition_fields (defn : IndexDefn) :
    (LifecycleMgr.setPartition defn).2.BucketUUID = defn.BucketUUID ∧
    (LifecycleMgr.setPartition defn).2.Bucket = defn.Bucket ∧
    (LifecycleMgr.setPartition defn).2.DefnId = defn.DefnId := by
  unfold LifecycleMgr.setPartition
  simp only []
  split <;> exact ⟨rfl, rfl, rfl⟩

theorem createBuildStep_returns (m : LifecycleMgr) (defn : IndexDefn)
    (reqCtx : MetadataRequestContext) (cleanup : LifecycleMgr → Option LifecycleMgr)
    (m9 : LifecycleMgr) (h : createBuildStep m defn reqCtx cleanup = some (none, m9)) :
    m9 = m ∨ ∃ lists, m.BuildIndexes [defn.DefnId] (some reqCtx) false = some (lists, m9) := by
  unfold createBuildStep at h
  split at h
  · cases hn : m.notifier with
    | none =>
      rw [hn] at h
      simp only [Option.some.injEq, Prod.mk.injEq, true_and] at h
      exact Or.inl h.symm
    | some n =>
      rw [hn] at h
      simp only [] at h
      rcases hb : m.BuildIndexes [defn.DefnId] (some reqCtx) false with
        _ | ⟨⟨retryList, skipList, errList⟩, m1⟩
      · rw [hb] at h
        cases h
      · rw [hb] at h
        simp only [] at h
        split at h
        · cases h
        · cases errList with
          | cons err rest =>
            simp only [] at h
            cases hc : cleanup m1 with
            | none => rw [hc] at h; cases h
            | some m2 => rw [hc] at h; cases h
          | nil =>
            simp only [] at h
            split at h
            · cases hc : cleanup m1 with
              | none => rw [hc] at h; cases h
              | some m2 => rw [hc] at h; cases h
            · simp only [Option.some.injEq, Prod.mk.injEq, true_and] at h
              exact Or.inr ⟨_, by rw [h]⟩
  · simp only [Option.some.injEq, Prod.mk.injEq, true_and] at h
    exact Or.inl h.symm

theorem CreateIndex_liveDefnsCarry (m : LifecycleMgr) (defn : IndexDefn) (scheduled : Bool)
    (reqCtx : MetadataRequestContext) (uuid : String) (m9 : LifecycleMgr)
    (hset : (m.setBucketUUID defn).1 = none →
      (m.setBucketUUID defn).2.1 = { defn with BucketUUID := uuid } ∧
      (m.setBucketUUID defn).2.2.repo.liveDefnsCarry defn.Bucket uuid)
    (h : m.CreateIndex defn scheduled reqCtx = some (none, m9)) :
    m9.repo.liveDefnsCarry defn.Bucket uuid := by
  unfold LifecycleMgr.CreateIndex at h
  rcases hs : m.setBucketUUID defn with ⟨_ | e, defn1, m1⟩
  swap
  · rw [hs] at h
    cases h
  rw [hs] at h hset
  simp only [forall_const] at h hset
  obtain ⟨hd1, hc1⟩ := hset
  have hf2 := setStorageMode_fields m1 defn1
  rcases hsm : m1.setStorageMode defn1 with ⟨_ | e, defn2⟩
  swap
  · rw [hsm] at h
    cases h
  rw [hsm] at h hf2
  simp only at h hf2
  have hf3 := setInstId_fields m1 defn2
  rcases hsi : m1.setInstId defn2 with ⟨⟨instId0, realInstId, _ | e⟩, defn3, m2⟩
  swap
  · rw [hsi] at h
    cases h
  rw [hsi] at h hf3
  simp only at h hf3
  have hf5 := setPartition_fields (LifecycleMgr.setReplica defn3).2
  rcases hsp : LifecycleMgr.setPartition (LifecycleMgr.setReplica defn3).2 with
    ⟨⟨partitions, versions, numPartitions⟩, defn5⟩
  rw [hsp] at hf5
  simp only [LifecycleMgr.setReplica] at h hf5 hsp
  rw [hsp] at h
  simp only at h
  have hu5 : defn5.BucketUUID = uuid := by
    rw [hf5.1, hf3.1, hf2.1, hd1]
  have hb5 : defn5.Bucket = defn.Bucket := by
    rw [hf5.2.1, hf3.2.1, hf2.2.1, hd1]
  rw [← hb5]
  rw [← hf3.2.2.2, ← hb5] at hc1
  split at h
  · cases h
  rename_i r hci
  obtain ⟨hr1, hr2, hr3⟩ := CreateIndex_record _ _ _ hci
  have hq : ∀ x, r.defns.find? (fun y => y.DefnId == defn5.DefnId) = some x →
      x.BucketUUID = uuid := by
    intro x hx
    rw [hr1, List.find?_append, hr3] at hx
    simp only [Option.none_or, List.find?_cons, beq_self_eq_true, Option.some.injEq] at hx
    rw [← hx]
    exact hu5
  have hj : r.liveDefnsCarry defn5.Bucket uuid := by
    intro t ht ref hmem hl x hx
    rw [hr2] at ht
    rw [hr1, List.find?_append] at hx
    cases hold : m2.repo.defns.find? (fun d => d.DefnId == ref.DefnId) with
    | some y =>
      rw [hold] at hx
      simp only [Option.or, Option.some.injEq] at hx
      subst hx
      exact hc1 t ht ref hmem hl y hold
    | none =>
      rw [hold] at hx
      simp only [Option.none_or] at hx
      have := List.mem_of_find?_eq_some hx
      simp only [List.mem_singleton] at this
      rw [this]
      exact hu5
  split at h
  · cases h
  rename_i r1 hat
  obtain ⟨ha1, ha2⟩ := addIndexToTopology_liveFrom _ _ _ _ _ _ _ _ _ _ _ hat
  have hj1 : r1.liveDefnsCarry defn5.Bucket uuid :=
    liveDefnsCarry_step r r1 _ _ _ hj hq ha1 ha2
  have hq1 : ∀ x, r1.defns.find? (fun y => y.DefnId == defn5.DefnId) = some x →
      x.BucketUUID = uuid := by
    rw [ha1]
    exact hq
  split at h
  · cases h
  rename_i m4 hcreated
  have hm4 : m4.repo = r1 := by
    cases hn : m2.notifier with
    | none =>
      rw [hn] at hcreated
      simp only [Prod.mk.injEq, true_and] at hcreated
      rw [← hcreated]
    | some n =>
      rw [hn] at hcreated
      simp only [Prod.mk.injEq] at hcreated
      rw [← hcreated.2]
  split at h
  · cases h
  rename_i m5 hupd
  have hu1 := updateIndexState_liveFrom m4 defn5.Bucket defn5.DefnId
    (if realInstId ≠ 0 then realInstId else instId0) IndexState.INDEX_STATE_READY
  have hu2 := updateIndexState_defns m4 defn5.Bucket defn5.DefnId
    (if realInstId ≠ 0 then realInstId else instId0) IndexState.INDEX_STATE_READY
  rw [hupd, hm4] at hu1 hu2
  simp only at hu1 hu2
  have hj5 : m5.repo.liveDefnsCarry defn5.Bucket uuid :=
    liveDefnsCarry_step r1 m5.repo _ _ _ hj1 hq1 hu2 hu1
  rcases createBuildStep_returns _ _ _ _ _ h with h9 | ⟨lists, hb⟩
  · rw [h9]
    exact hj5
  · have hk := BuildIndexes_keepsDeleted _ _ _ _ _ hb
    have hdef := BuildIndexes_defns _ _ _ _ _ hb
    exact liveDefnsCarry_step m5.repo m9.repo _ _ defn5.DefnId hj5 (by rw [hu2]; exact hq1)
      hdef (liveFrom_of_keepsDeleted _ _ _ _ hk)

theorem verifyBucket_repo (m : LifecycleMgr) (bucket : String) (hf : m.repo.faults = [])
    (hwf : ∀ topology ∈ m.repo.topologies, topology.distinctIds) :
    (m.verifyBucket bucket).2.2.repo = m.repo := by
  rw [verifyBucket_nil m bucket hf]
  have hframe := getBucketUUID_frame m bucket
  rcases hg : m.getBucketUUID bucket with ⟨uuid, _ | e, m1⟩
  · rw [hg] at hframe
    simp only at hframe ⊢
    have hr1 : m1.repo = m.repo := by rw [hframe]
    have hf1 : m1.repo.faults = [] := by rw [hr1]; exact hf
    cases ht : m.repo.topologies.find? (fun t => t.Bucket == bucket) with
    | none => exact hr1
    | some topology =>
      simp only
      have hloop := (verifyBucket_loop_spec topology uuid
        (hwf topology (List.mem_of_find?_eq_some ht)) m1 hf1
        topology.Definitions (fun _ h => h)).1
      rcases hl : verifyBucket.loop topology uuid topology.Definitions m1 with ⟨_ | lerr, m2⟩
      · rw [hl] at hloop
        simp only at hloop ⊢
        rw [hloop]
        exact hr1
      · rw [hl] at hloop
        simp only at hloop ⊢
        rw [hloop]
        exact hr1
  · rw [hg] at hframe
    simp only at hframe ⊢
    rw [hframe]

theorem setBucketUUID_repo (m : LifecycleMgr) (defn : IndexDefn) (hf : m.repo.faults = [])
    (hwf : ∀ topology ∈ m.repo.topologies, topology.distinctIds) :
    (m.setBucketUUID defn).2.2.repo = m.repo := by
  have h := verifyBucket_repo m defn.Bucket hf hwf
  unfold LifecycleMgr.setBucketUUID
  rcases hv : m.verifyBucket defn.Bucket with ⟨uuid, err, m1⟩
  rw [hv] at h
  simp only at h ⊢
  split <;> exact h

/-- Claim C25 (counterexample).  First: bucket "b" has the UUID "u1", and the only definition
with an instance that is not DELETED, definition 2, carries "u1"; the record of the
partitioned definition 1 carries "old".  A create request for a further instance of
definition 1 passes the bucket verification and returns no error; afterwards definition 1
has the READY instance 12 and its record still carries "old", next to definition 2 with
"u1".  Second: definition 1 has a READY instance and carries "old"; when the read of its
record fails during the verification, `setBucketUUID` returns no error and sets "u1", and it
returns the error when the read succeeds. -/
theorem create_instance_keeps_stale_bucket_uuid :
    ((staleRecord []).CreateIndexOrInstance (rebalanceRequest 12 0 [3] [0]) false
        NewUserRequestContext).map (fun res =>
          (res.1, res.2.repo.defns.map (fun d => (d.DefnId, d.BucketUUID)))) =
      some (none, [(1, "old"), (2, "u1")]) ∧
    ((staleRecord []).CreateIndexOrInstance (rebalanceRequest 12 0 [3] [0]) false
        NewUserRequestContext).map (fun res =>
          ((res.2.repo.rows "b" 1).map (fun i => (i.InstId, i.State)),
            (res.2.repo.rows "b" 2).map (fun i => (i.InstId, i.State)))) =
      some ([(10, IndexState.INDEX_STATE_DELETED), (12, IndexState.INDEX_STATE_READY)],
        [(20, IndexState.INDEX_STATE_READY)]) ∧
    (((staleLive [none, some (GoError.plain "read failed")]).setBucketUUID
        (exampleDefn 2 "j" PartitionScheme.SINGLE)).1 = none ∧
      ((staleLive [none, some (GoError.plain "read failed")]).setBucketUUID
        (exampleDefn 2 "j" PartitionScheme.SINGLE)).2.1.BucketUUID = "u1") ∧
    (((staleLive []).setBucketUUID (exampleDefn 2 "j" PartitionScheme.SINGLE)).1).isSome =
      true :=
  ⟨by decide, by decide, ⟨by decide, by decide⟩, by decide⟩

/-- Claim C25 (amended): bucket verification.  In a repository whose calls succeed and whose
topologies have distinct ids, `setBucketUUID` returns no error if and only if the fetch of
the bucket UUID succeeds with a value other than UUID_NIL and every definition on the bucket
that has an instance in a state other than DELETED carries that UUID; it then sets
`defn.BucketUUID` to the fetched UUID and changes no other field.  In every state, an error
of `setBucketUUID` contains "Bucket does not exist or temporarily unavailable" and the
definition is left as it was.  And after every `CreateIndex`, the create of a new
definition, that returns no error, every definition on the bucket that has an instance in a
state other than DELETED, the new one included, carries the fetched UUID. -/
theorem setBucketUUID_succeeds_iff (m : LifecycleMgr) (defn : IndexDefn)
    (hf : m.repo.faults = [])
    (hwf : ∀ topology ∈ m.repo.topologies, topology.distinctIds) :
    ((m.setBucketUUID defn).1 = none ↔
      (m.getBucketUUID defn.Bucket).2.1 = none ∧
      (m.getBucketUUID defn.Bucket).1 ≠ BUCKET_UUID_NIL ∧
      m.repo.liveDefnsCarry defn.Bucket (m.getBucketUUID defn.Bucket).1) ∧
    ((m.setBucketUUID defn).1 = none →
      (m.setBucketUUID defn).2.1 =
        { defn with BucketUUID := (m.getBucketUUID defn.Bucket).1 }) ∧
    (∀ (m0 : LifecycleMgr) (err : GoError), (m0.setBucketUUID defn).1 = some err →
      strings.Contains err.Error "Bucket does not exist or temporarily unavailable" = true ∧
      (m0.setBucketUUID defn).2.1 = defn) ∧
    (∀ (scheduled : Bool) (reqCtx : MetadataRequestContext) (m1 : LifecycleMgr),
      m.CreateIndex defn scheduled reqCtx = some (none, m1) →
      m1.repo.liveDefnsCarry defn.Bucket (m.getBucketUUID defn.Bucket).1) := by
  obtain ⟨hiff, hdefn, herr⟩ := setBucketUUID_nil_spec m defn hf hwf
  refine ⟨hiff, hdefn, herr, ?_⟩
  intro scheduled reqCtx m1 h
  refine CreateIndex_liveDefnsCarry m defn scheduled reqCtx _ m1 (fun hnone => ?_) h
  refine ⟨hdefn hnone, ?_⟩
  rw [setBucketUUID_repo m defn hf hwf]
  exact (hiff.1 hnone).2.2

/-- C25 (witness).  Bucket "b" has the UUID "u1" and its only definition, definition 1 with
the READY instance 10, carries "u1": `setBucketUUID` of a request for definition 2 on "b"
returns no error and sets the UUID "u1"; `CreateIndex` of definition 2 returns no error. -/
theorem setBucketUUID_succeeds_iff_witness :
    ((oneReadyIndex [] []).getBucketUUID "b").2.1 = none ∧
    ((oneReadyIndex [] []).getBucketUUID "b").1 ≠ BUCKET_UUID_NIL ∧
    (oneReadyIndex [] []).repo.liveDefnsCarry "b" ((oneReadyIndex [] []).getBucketUUID "b").1 ∧
    ((oneReadyIndex [] []).setBucketUUID (exampleDefn 2 "j" PartitionScheme.SINGLE)).2.1 =
      { exampleDefn 2 "j" PartitionScheme.SINGLE with BucketUUID := "u1" } ∧
    (((oneReadyIndex [] []).CreateIndex (exampleDefn 2 "j" PartitionScheme.SINGLE) false
        NewUserRequestContext).map (fun res => (res.1, res.2.repo.defns.map
          (fun d => (d.DefnId, d.BucketUUID)))) = some (none, [(1, "u1"), (2, "u1")])) :=
  ⟨((setBucketUUID_succeeds_iff (oneReadyIndex [] [])
      (exampleDefn 2 "j" PartitionScheme.SINGLE) rfl (by decide)).1.1 (by decide)).1,
   ((setBucketUUID_succeeds_iff (oneReadyIndex [] [])
      (exampleDefn 2 "j" PartitionScheme.SINGLE) rfl (by decide)).1.1 (by decide)).2.1,
   ((setBucketUUID_succeeds_iff (oneReadyIndex [] [])
      (exampleDefn 2 "j" PartitionScheme.SINGLE) rfl (by decide)).1.1 (by decide)).2.2,
   (setBucketUUID_succeeds_iff (oneReadyIndex [] [])
      (exampleDefn 2 "j" PartitionScheme.SINGLE) rfl (by decide)).2.1 (by decide),
   by decide⟩

/-! ## Claims about the build step of a create -/

theorem FindAllLocalIndexInst_notifier (m : LifecycleMgr) (b : String) (d : Nat) :
    (m.FindAllLocalIndexInst b d).2.2.notifier = m.notifier := by
  unfold LifecycleMgr.FindAllLocalIndexInst
  split <;> rfl

theorem SetScheduledFlag_notifier (m : LifecycleMgr) (bucket : String) (defnId instId : Nat)
    (scheduled : Bool) :
    (m.SetScheduledFlag bucket defnId instId scheduled).2.notifier = m.notifier := by
  unfold LifecycleMgr.SetScheduledFlag
  split
  · rfl
  · rfl
  · split
    · split <;> rfl
    · rfl

theorem UpdateIndexInstance_notifier (m : LifecycleMgr) (bucket : String)
    (defnId instId : Nat) (state : IndexState) (streamId : StreamId) (errStr : String)
    (buildTime : List Nat) (rState : RebalanceState) (partitions : List Nat)
    (versions : List Int) (version : Int) :
    (m.UpdateIndexInstance bucket defnId instId state streamId errStr buildTime rState
      partitions versions version).2.notifier = m.notifier := by
  unfold LifecycleMgr.UpdateIndexInstance
  split
  · rfl
  · rfl
  · split
    · rfl
    · rfl
    · split
      · rfl
      · split
        · split <;> rfl
        · rfl

theorem BuildIndexes_instLoop_set (defn : IndexDefn) (id : Nat)
    (insts : List IndexInstDistribution) :
    ∀ (v : BuildSet) (m : LifecycleMgr),
      (BuildIndexes.instLoop defn id insts v m).1.skipList = v.skipList ∧
      (BuildIndexes.instLoop defn id insts v m).1.inst2DefnMap.length ≤
        v.inst2DefnMap.length + insts.length ∧
      (BuildIndexes.instLoop defn id insts v m).2.notifier = m.notifier := by
  induction insts with
  | nil => intro v m; exact ⟨rfl, Nat.le_refl _, rfl⟩
  | cons inst rest ih =>
    intro v m
    unfold BuildIndexes.instLoop
    split
    · obtain ⟨h1, h2, h3⟩ := ih v m
      refine ⟨h1, ?_, h3⟩
      simp only [List.length_cons]
      omega
    · simp only []
      obtain ⟨h1, h2, h3⟩ := ih
        { v with instIdList := v.instIdList ++ [inst.InstId],
                 inst2DefnMap := (inst.InstId, defn.DefnId) :: v.inst2DefnMap }
        (LifecycleMgr.UpdateIndexInstance
          (m.SetScheduledFlag defn.Bucket id inst.InstId true).2 defn.Bucket id inst.InstId
          IndexState.INDEX_STATE_NIL StreamId.NIL_STREAM "" [] inst.RState [] [] (-1)).2
      refine ⟨h1, ?_, ?_⟩
      · simp only [List.length_cons] at h2 ⊢
        omega
      · rw [h3, UpdateIndexInstance_notifier, SetScheduledFlag_notifier]

theorem BuildIndexes_idLoop_one (m : LifecycleMgr) (d : Nat)
    (hone : ∀ t ∈ m.repo.topologies, (t.GetIndexInstancesByDefn d).length ≤ 1) :
    ((BuildIndexes.idLoop [d]
        { skipList := [], instIdList := [], defnIdMap := [], buckets := [],
          inst2DefnMap := [] } m).1.skipList = [d] ∧
      (BuildIndexes.idLoop [d]
        { skipList := [], instIdList := [], defnIdMap := [], buckets := [],
          inst2DefnMap := [] } m).1.instIdList = [] ∨
     (BuildIndexes.idLoop [d]
        { skipList := [], instIdList := [], defnIdMap := [], buckets := [],
          inst2DefnMap := [] } m).1.skipList = [] ∧
      (BuildIndexes.idLoop [d]
        { skipList := [], instIdList := [], defnIdMap := [], buckets := [],
          inst2DefnMap := [] } m).1.inst2DefnMap.length ≤ 1) ∧
    (BuildIndexes.idLoop [d]
        { skipList := [], instIdList := [], defnIdMap := [], buckets := [],
          inst2DefnMap := [] } m).2.notifier = m.notifier := by
  unfold BuildIndexes.idLoop
  simp only [List.not_mem_nil, if_false, List.nil_append]
  have hg := GetIndexDefnById_topologies m.repo d
  rcases hq : m.repo.GetIndexDefnById d with ⟨_ | defn, _ | e, r⟩ <;>
    rw [hq] at hg <;> simp only [] at hg ⊢
  · exact ⟨Or.inl ⟨rfl, rfl⟩, rfl⟩
  · exact ⟨Or.inl ⟨rfl, rfl⟩, rfl⟩
  · have hn := FindAllLocalIndexInst_notifier { m with repo := r } defn.Bucket d
    have hlen : (LifecycleMgr.FindAllLocalIndexInst { m with repo := r } defn.Bucket d).1.length
        ≤ 1 := by
      unfold LifecycleMgr.FindAllLocalIndexInst
      have h0 := fault_content r
      simp only [MetadataRepo.GetTopologyByBucket]
      rcases hf0 : r.fault with ⟨_ | e0, r0⟩
      · rw [hf0] at h0
        simp only at h0 ⊢
        cases hfind : r0.topologies.find? (fun t => t.Bucket == defn.Bucket) with
        | none => simp
        | some tc =>
          simp only
          have hmem : tc ∈ m.repo.topologies := by
            rw [← hg, ← h0.1]
            exact List.mem_of_find?_eq_some hfind
          exact hone tc hmem
      · simp
    rcases hfa : LifecycleMgr.FindAllLocalIndexInst { m with repo := r } defn.Bucket d with
      ⟨insts, _ | e2, m1⟩ <;> rw [hfa] at hn hlen <;> simp only [] at hn hlen ⊢
    · split
      · exact ⟨Or.inl ⟨rfl, rfl⟩, hn⟩
      · obtain ⟨h1, h2, h3⟩ := BuildIndexes_instLoop_set defn d insts
          { skipList := [], instIdList := [], defnIdMap := [d], buckets := [],
            inst2DefnMap := [] } m1
        rcases hi : BuildIndexes.instLoop defn d insts
          { skipList := [], instIdList := [], defnIdMap := [d], buckets := [],
            inst2DefnMap := [] } m1 with ⟨v2, m2⟩
        rw [hi] at h1 h2 h3
        simp only [List.length_nil, Nat.zero_add] at h1 h2 h3 ⊢
        unfold BuildIndexes.idLoop
        refine ⟨Or.inr ⟨?_, ?_⟩, h3.trans hn⟩
        · split <;> exact h1
        · split <;> exact Nat.le_trans h2 hlen
    · exact ⟨Or.inl ⟨rfl, rfl⟩, hn⟩
  · exact ⟨Or.inl ⟨rfl, rfl⟩, rfl⟩

theorem filter_key_le_one (errMap : List (Nat × GoError)) (i : Nat)
    (h : (errMap.map Prod.fst).Nodup) :
    (errMap.filter (fun e => i == e.1)).length ≤ 1 := by
  induction errMap with
  | nil => simp
  | cons x rest ih =>
    simp only [List.map_cons, List.nodup_cons, List.mem_map, not_exists, not_and] at h
    by_cases hx : i = x.1
    · subst hx
      have hrest : rest.filter (fun e => x.1 == e.1) = [] := by
        rw [List.filter_eq_nil_iff]
        intro e he heq
        have h2 : x.1 = e.1 := by simpa using heq
        exact h.1 e he h2.symm
      rw [List.filter_cons, hrest]
      simp
    · have := ih h.2
      simpa [List.filter_cons, hx] using this

theorem errMap_hits_le_one (inst2DefnMap : List (Nat × Nat)) (errMap : List (Nat × GoError))
    (hlen : inst2DefnMap.length ≤ 1) (h : (errMap.map Prod.fst).Nodup) :
    (errMap.filter (fun e => (inst2DefnMap.find? (fun p => p.1 == e.1)).isSome)).length ≤ 1 := by
  match inst2DefnMap, hlen with
  | [], _ => simp
  | [p], _ =>
    have heq : (fun e : Nat × GoError => ([p].find? (fun q => q.1 == e.1)).isSome) =
        (fun e => p.1 == e.1) := by
      funext e
      by_cases hp : p.1 = e.1 <;> simp [List.find?_cons, hp]
    rw [heq]
    exact filter_key_le_one errMap p.1 h

theorem BuildIndexes_errLoop_count (inst2DefnMap : List (Nat × Nat)) (retry : Bool)
    (errMap : List (Nat × GoError)) :
    ∀ (v : BuildErrs) (m : LifecycleMgr) (res : BuildErrs × LifecycleMgr),
      BuildIndexes.errLoop inst2DefnMap retry errMap v m = some res →
      res.1.retryErrList.length + res.1.errList.length ≤
        v.retryErrList.length + v.errList.length +
          (errMap.filter
            (fun e => (inst2DefnMap.find? (fun p => p.1 == e.1)).isSome)).length := by
  induction errMap with
  | nil =>
    intro v m res h
    simp only [BuildIndexes.errLoop, Option.some.injEq] at h
    subst h
    simp
  | cons entry rest ih =>
    intro v m res h
    rcases entry with ⟨instId, build_err⟩
    unfold BuildIndexes.errLoop at h
    cases hfind : inst2DefnMap.find? (fun p => p.1 == instId) with
    | none =>
      rw [hfind] at h
      have := ih v m res h
      simpa [List.filter_cons, hfind] using this
    | some p =>
      rcases p with ⟨i0, defnId⟩
      rw [hfind] at h
      simp only [] at h
      have hcount : ((instId, build_err) :: rest).filter
          (fun e => (inst2DefnMap.find? (fun p => p.1 == e.1)).isSome) =
          (instId, build_err) :: rest.filter
            (fun e => (inst2DefnMap.find? (fun p => p.1 == e.1)).isSome) := by
        simp [List.filter_cons, hfind]
      rw [hcount, List.length_cons]
      rcases hq : m.repo.GetIndexDefnById defnId with ⟨_ | defn, _ | e, r⟩ <;>
        rw [hq] at h <;> simp only [] at h
      · have := ih v _ res h
        omega
      · have := ih v _ res h
        omega
      · rcases hq2 : LifecycleMgr.FindLocalIndexInst { m with repo := r } defn.Bucket defnId
          instId with ⟨_ | inst, err, m1⟩ <;> rw [hq2] at h <;> simp only [] at h
        · exact absurd h (by simp)
        · split at h <;> split at h <;>
          · have := ih _ _ res h
            simp only [List.length_append, List.length_singleton] at this
            omega
      · have := ih v _ res h
        omega

theorem OnIndexBuild_keys (n : MetadataNotifier) (instIds : List Nat) (buckets : List String)
    (reqCtx : Option MetadataRequestContext)
    (hmap : ∀ reply ∈ n.buildReplies, (reply.map Prod.fst).Nodup) :
    ((n.OnIndexBuild instIds buckets reqCtx).1.map Prod.fst).Nodup := by
  unfold MetadataNotifier.OnIndexBuild
  cases hr : n.buildReplies with
  | nil => simp
  | cons e rest =>
    simp only []
    exact hmap e (by rw [hr]; exact List.mem_cons_self _ _)

theorem BuildIndexes_one_outcome (m : LifecycleMgr) (d : Nat)
    (reqCtx : Option MetadataRequestContext) (retry : Bool) (n : MetadataNotifier)
    (hn : m.notifier = some n)
    (hone : ∀ t ∈ m.repo.topologies, (t.GetIndexInstancesByDefn d).length ≤ 1)
    (hmap : ∀ reply ∈ n.buildReplies, (reply.map Prod.fst).Nodup)
    (retryList : List GoError) (skipList : List Nat) (errList : List GoError)
    (m1 : LifecycleMgr)
    (hb : m.BuildIndexes [d] reqCtx retry = some ((retryList, skipList, errList), m1)) :
    (skipList = [d] ∧ retryList = [] ∧ errList = []) ∨
    (skipList = [] ∧ retryList.length + errList.length ≤ 1) := by
  obtain ⟨hid, hnot⟩ := BuildIndexes_idLoop_one m d hone
  unfold LifecycleMgr.BuildIndexes at hb
  rcases hq : BuildIndexes.idLoop [d]
    { skipList := [], instIdList := [], defnIdMap := [], buckets := [], inst2DefnMap := [] } m
    with ⟨v, m0⟩
  rw [hq] at hb hid hnot
  simp only [] at hb hid hnot
  rw [hn] at hnot
  rw [hnot] at hb
  simp only [] at hb
  have hplain : ∀ x : LifecycleMgr,
      some ((([] : List GoError), v.skipList, ([] : List GoError)), x) =
        some ((retryList, skipList, errList), m1) →
      (skipList = [d] ∧ retryList = [] ∧ errList = []) ∨
      (skipList = [] ∧ retryList.length + errList.length ≤ 1) := by
    intro x hx
    simp only [Option.some.injEq, Prod.mk.injEq] at hx
    obtain ⟨⟨h1, h2, h3⟩, _⟩ := hx
    subst h1 h2 h3
    rcases hid with ⟨hs, _⟩ | ⟨hs, _⟩
    · exact Or.inl ⟨hs, rfl, rfl⟩
    · exact Or.inr ⟨hs, by simp⟩
  split at hb
  · rename_i hlen
    have hkeys := OnIndexBuild_keys n v.instIdList v.buckets reqCtx hmap
    rcases hob : n.OnIndexBuild v.instIdList v.buckets reqCtx with ⟨errMap, n1⟩
    rw [hob] at hb hkeys
    simp only [] at hb hkeys
    split at hb
    · cases he : BuildIndexes.errLoop v.inst2DefnMap retry errMap
          { retryList := [], retryErrList := [], errList := [] }
          { m0 with notifier := some n1 } with
      | none => rw [he] at hb; simp at hb
      | some p =>
        rw [he] at hb
        simp only [Option.some.injEq, Prod.mk.injEq] at hb
        obtain ⟨⟨h1, h2, h3⟩, _⟩ := hb
        subst h1 h2 h3
        have hcount := BuildIndexes_errLoop_count _ _ _ _ _ _ he
        simp only [List.length_nil, Nat.zero_add] at hcount
        rcases hid with ⟨_, hi⟩ | ⟨hs, hi⟩
        · rw [hi] at hlen
          exact absurd rfl hlen
        · exact Or.inr ⟨hs, Nat.le_trans hcount (errMap_hits_le_one _ _ hi hkeys)⟩
    · exact hplain _ hb
  · exact hplain _ hb

theorem verifyBucket_loop_frame (topology : IndexTopology) (uuid : String)
    (refs : List IndexDefnDistribution) :
    ∀ m : LifecycleMgr,
      (verifyBucket.loop topology uuid refs m).2.repo.topologies = m.repo.topologies ∧
      (verifyBucket.loop topology uuid refs m).2.notifier = m.notifier := by
  induction refs with
  | nil => intro m; exact ⟨rfl, rfl⟩
  | cons ref rest ih =>
    intro m
    unfold verifyBucket.loop
    simp only []
    split
    · have hg := GetIndexDefnById_topologies m.repo ref.DefnId
      rcases hq : m.repo.GetIndexDefnById ref.DefnId with ⟨_ | defn, _ | e, r⟩ <;>
        rw [hq] at hg <;> simp only [] at hg ⊢
      · obtain ⟨h1, h2⟩ := ih { m with repo := r }
        exact ⟨h1.trans hg, h2⟩
      · obtain ⟨h1, h2⟩ := ih { m with repo := r }
        exact ⟨h1.trans hg, h2⟩
      · split
        · exact ⟨hg, rfl⟩
        · obtain ⟨h1, h2⟩ := ih { m with repo := r }
          exact ⟨h1.trans hg, h2⟩
      · obtain ⟨h1, h2⟩ := ih { m with repo := r }
        exact ⟨h1.trans hg, h2⟩
    · exact ih m

theorem setBucketUUID_frame (m : LifecycleMgr) (defn : IndexDefn) :
    (m.setBucketUUID defn).2.2.repo.topologies = m.repo.topologies ∧
    (m.setBucketUUID defn).2.2.notifier = m.notifier ∧
    (m.setBucketUUID defn).2.1.DefnId = defn.DefnId ∧
    (m.setBucketUUID defn).2.1.Deferred = defn.Deferred := by
  have hv : (m.verifyBucket defn.Bucket).2.2.repo.topologies = m.repo.topologies ∧
      (m.verifyBucket defn.Bucket).2.2.notifier = m.notifier := by
    have hframe := getBucketUUID_frame m defn.Bucket
    unfold LifecycleMgr.verifyBucket
    rcases hg : m.getBucketUUID defn.Bucket with ⟨uuid, _ | e, m1⟩
    · rw [hg] at hframe
      simp only at hframe ⊢
      have hr1 : m1.repo = m.repo := by rw [hframe]
      have hn1 : m1.notifier = m.notifier := by rw [hframe]
      have h0 := fault_content m1.repo
      simp only [MetadataRepo.GetTopologyByBucket]
      rcases hf0 : m1.repo.fault with ⟨_ | e0, r0⟩
      · rw [hf0] at h0
        simp only at h0 ⊢
        cases hfind : r0.topologies.find? (fun t => t.Bucket == defn.Bucket) with
        | none => exact ⟨by rw [h0.1, hr1], hn1⟩
        | some topology =>
          simp only
          obtain ⟨h1, h2⟩ := verifyBucket_loop_frame topology uuid topology.Definitions
            { m1 with repo := r0 }
          rcases hl : verifyBucket.loop topology uuid topology.Definitions
            { m1 with repo := r0 } with ⟨_ | lerr, m2⟩ <;>
            (rw [hl] at h1 h2; simp only at h1 h2 ⊢;
             exact ⟨by rw [h1, h0.1, hr1], h2.trans hn1⟩)
      · rw [hf0] at h0
        exact ⟨by rw [h0.1, hr1], hn1⟩
    · rw [hg] at hframe
      simp only at hframe ⊢
      exact ⟨by rw [hframe], by rw [hframe]⟩
  unfold LifecycleMgr.setBucketUUID
  rcases hq : m.verifyBucket defn.Bucket with ⟨uuid, err, m1⟩
  rw [hq] at hv
  simp only at hv ⊢
  split
  · exact ⟨hv.1, hv.2, rfl, rfl⟩
  · exact ⟨hv.1, hv.2, rfl, rfl⟩

theorem setStorageMode_deferred (m : LifecycleMgr) (defn : IndexDefn) :
    (m.setStorageMode defn).2.Deferred = defn.Deferred := by
  unfold LifecycleMgr.setStorageMode
  split
  · split <;> rfl
  · split <;> rfl

theorem setInstId_deferred (m : LifecycleMgr) (defn : IndexDefn) :
    (m.setInstId defn).2.1.Deferred = defn.Deferred ∧
    (m.setInstId defn).2.2.notifier = m.notifier := by
  unfold LifecycleMgr.setInstId
  simp only []
  split
  · exact ⟨rfl, rfl⟩
  · split <;> exact ⟨rfl, rfl⟩

theorem setPartition_deferred (defn : IndexDefn) :
    (LifecycleMgr.setPartition defn).2.Deferred = defn.Deferred := by
  unfold LifecycleMgr.setPartition
  simp only []
  split <;> rfl

theorem mem_putTopology (b : String) (t : IndexTopology) (ts : List IndexTopology)
    (x : IndexTopology) (h : x ∈ putTopology b t ts) : x = t ∨ x ∈ ts := by
  induction ts with
  | nil =>
    simp only [putTopology, List.mem_singleton] at h
    exact Or.inl h
  | cons y rest ih =>
    unfold putTopology at h
    split at h
    · rcases List.mem_cons.mp h with h1 | h1
      · exact Or.inl h1
      · exact Or.inr (List.mem_cons_of_mem _ h1)
    · rcases List.mem_cons.mp h with h1 | h1
      · exact Or.inr (h1 ▸ List.mem_cons_self _ _)
      · rcases ih h1 with h2 | h2
        · exact Or.inl h2
        · exact Or.inr (List.mem_cons_of_mem _ h2)

theorem addIndexToTopology_one (r r2 : MetadataRepo) (env : Env) (defn : IndexDefn)
    (instId : Nat) (replicaId : Int) (partitions : List Nat) (versions : List Int)
    (numPartitions realInstId : Nat) (scheduled : Bool)
    (hnew : ∀ t ∈ r.topologies, ∀ ref ∈ t.Definitions, ref.DefnId ≠ defn.DefnId)
    (h : r.addIndexToTopology env defn instId replicaId partitions versions numPartitions
      realInstId scheduled = (none, r2)) :
    ∀ t ∈ r2.topologies, (t.GetIndexInstancesByDefn defn.DefnId).length ≤ 1 := by
  have hc := fault_content
    { r with writes := r.writes ++ [RepoWrite.addIndexToTopology defn.DefnId instId] }
  simp only [MetadataRepo.addIndexToTopology] at h
  rcases hf : MetadataRepo.fault
    { r with writes := r.writes ++ [RepoWrite.addIndexToTopology defn.DefnId instId] }
    with ⟨_ | e, r1⟩
  · rw [hf] at h hc
    simp only [Prod.mk.injEq, true_and] at h hc
    subst h
    simp only
    rw [hc.1]
    intro t ht
    have hold : ∀ x ∈ r.topologies, (x.GetIndexInstancesByDefn defn.DefnId).length ≤ 1 := by
      intro x hx
      have hnone : x.Definitions.find? (fun d => d.DefnId == defn.DefnId) = none := by
        rw [List.find?_eq_none]
        intro ref href heq
        exact hnew x hx ref href (by simpa using heq)
      simp [IndexTopology.GetIndexInstancesByDefn, hnone]
    rcases mem_putTopology _ _ _ _ ht with h1 | h1
    · subst h1
      have hkept : ((topologyOf defn.Bucket r.topologies).Definitions.filter
          (fun d => !(d.Bucket == defn.Bucket && d.Name == defn.Name))).find?
            (fun d => d.DefnId == defn.DefnId) = none := by
        rw [List.find?_eq_none]
        intro ref href heq
        have hmem := (List.mem_filter.mp href).1
        unfold topologyOf at hmem
        cases hfind : r.topologies.find? (fun t => t.Bucket == defn.Bucket) with
        | none =>
          rw [hfind] at hmem
          cases hmem
        | some t1 =>
          rw [hfind] at hmem
          exact hnew t1 (List.mem_of_find?_eq_some hfind) ref hmem (by simpa using heq)
      simp only [IndexTopology.GetIndexInstancesByDefn, List.find?_append, hkept,
        Option.none_or, List.find?_cons, beq_self_eq_true, List.length_singleton,
        Nat.le_refl]
    · exact hold t h1
  · rw [hf] at h
    cases h

theorem updateIndexState_one (m : LifecycleMgr) (bucket : String) (defnId instId : Nat)
    (state : IndexState)
    (h : ∀ t ∈ m.repo.topologies, (t.GetIndexInstancesByDefn defnId).length ≤ 1) :
    ∀ t ∈ (m.updateIndexState bucket defnId instId state).2.repo.topologies,
      (t.GetIndexInstancesByDefn defnId).length ≤ 1 := by
  unfold LifecycleMgr.updateIndexState
  have h0 := fault_content m.repo
  simp only [MetadataRepo.GetTopologyByBucket]
  rcases hf0 : m.repo.fault with ⟨_ | e0, r0⟩
  · rw [hf0] at h0
    simp only at h0 ⊢
    have hr0 : ∀ t ∈ r0.topologies, (t.GetIndexInstancesByDefn defnId).length ≤ 1 := by
      rw [h0.1]
      exact h
    cases hfind : r0.topologies.find? (fun t => t.Bucket == bucket) with
    | none => exact hr0
    | some tc =>
      simp only [IndexTopology.UpdateStateForIndexInst]
      cases tc.anyInst defnId instId (fun i => i.State != state) with
      | false => exact hr0
      | true =>
        simp only
        have h1 := fault_content { r0 with writes := r0.writes ++
          [RepoWrite.SetTopologyByBucket bucket
            (tc.mapInst defnId instId (fun i => { i with State := state }))] }
        simp only [MetadataRepo.SetTopologyByBucket]
        rcases hf1 : MetadataRepo.fault { r0 with writes := r0.writes ++
          [RepoWrite.SetTopologyByBucket bucket
            (tc.mapInst defnId instId (fun i => { i with State := state }))] }
          with ⟨_ | e1, r1⟩
        · rw [hf1] at h1
          simp only at h1 ⊢
          rw [h1.1]
          intro t ht
          rcases mem_putTopology _ _ _ _ ht with h2 | h2
          · subst h2
            rw [rows_mapInst, List.length_map]
            exact hr0 tc (List.mem_of_find?_eq_some hfind)
          · exact hr0 t h2
        · rw [hf1] at h1
          simp only at h1 ⊢
          rw [h1.1]
          exact hr0
  · rw [hf0] at h0
    simp only at h0 ⊢
    rw [h0.1]
    exact h

theorem CreateIndex_build_state (m0 : LifecycleMgr) (defn0 : IndexDefn) (scheduled : Bool)
    (reqCtx : MetadataRequestContext)
    (hnew : ∀ t ∈ m0.repo.topologies, ∀ ref ∈ t.Definitions, ref.DefnId ≠ defn0.DefnId)
    (hmap : ∀ n0, m0.notifier = some n0 →
      ∀ reply ∈ n0.buildReplies, (reply.map Prod.fst).Nodup) :
    (∃ err m9, m0.CreateIndex defn0 scheduled reqCtx = some (some err, m9)) ∨
    ∃ m5 defn5,
      m0.CreateIndex defn0 scheduled reqCtx =
        createBuildStep m5 defn5 reqCtx
          (fun x => some (x.DeleteIndex defn5.DefnId true (some reqCtx)).2) ∧
      defn5.DefnId = defn0.DefnId ∧ defn5.Deferred = defn0.Deferred ∧
      (∀ t ∈ m5.repo.topologies, (t.GetIndexInstancesByDefn defn5.DefnId).length ≤ 1) ∧
      (∀ n5, m5.notifier = some n5 →
        ∀ reply ∈ n5.buildReplies, (reply.map Prod.fst).Nodup) := by
  unfold LifecycleMgr.CreateIndex
  have hf1 := setBucketUUID_frame m0 defn0
  rcases hs : m0.setBucketUUID defn0 with ⟨_ | e, defn1, m1⟩
  swap
  · exact Or.inl ⟨e, m1, rfl⟩
  rw [hs] at hf1
  simp only at hf1 ⊢
  have hf2 := setStorageMode_fields m1 defn1
  have hd2 := setStorageMode_deferred m1 defn1
  rcases hsm : m1.setStorageMode defn1 with ⟨_ | e, defn2⟩
  swap
  · exact Or.inl ⟨e, m1, rfl⟩
  rw [hsm] at hf2 hd2
  simp only at hf2 hd2 ⊢
  have hf3 := setInstId_fields m1 defn2
  have hd3 := setInstId_deferred m1 defn2
  rcases hsi : m1.setInstId defn2 with ⟨⟨instId0, realInstId, _ | e⟩, defn3, m2⟩
  swap
  · exact Or.inl ⟨e, m2, rfl⟩
  rw [hsi] at hf3 hd3
  simp only at hf3 hd3 ⊢
  have hf5 := setPartition_fields (LifecycleMgr.setReplica defn3).2
  have hd5 := setPartition_deferred (LifecycleMgr.setReplica defn3).2
  rcases hsp : LifecycleMgr.setPartition (LifecycleMgr.setReplica defn3).2 with
    ⟨⟨partitions, versions, numPartitions⟩, defn5⟩
  rw [hsp] at hf5 hd5
  simp only [LifecycleMgr.setReplica] at hf5 hd5 hsp ⊢
  have hid5 : defn5.DefnId = defn0.DefnId := by
    rw [hf5.2.2, hf3.2.2.1, hf2.2.2, hf1.2.2.1]
  have hdef5 : defn5.Deferred = defn0.Deferred := by
    rw [hd5, hd3.1, hd2, hf1.2.2.2]
  have htop2 : m2.repo.topologies = m0.repo.topologies := by
    rw [hf3.2.2.2, hf1.1]
  have hnot2 : m2.notifier = m0.notifier := by
    rw [hd3.2, hf1.2.1]
  split
  · rename_i err r hci
    exact Or.inl ⟨err, _, rfl⟩
  rename_i r hci
  obtain ⟨_, hr2, _⟩ := CreateIndex_record _ _ _ hci
  split
  · rename_i err r1 hat
    exact Or.inl ⟨err, _, rfl⟩
  rename_i r1 hat
  have hone1 : ∀ t ∈ r1.topologies, (t.GetIndexInstancesByDefn defn5.DefnId).length ≤ 1 := by
    refine addIndexToTopology_one r r1 _ _ _ _ _ _ _ _ _ ?_ hat
    rw [hr2, htop2, hid5]
    exact hnew
  split
  · rename_i err m4 hcreated
    exact Or.inl ⟨err, _, rfl⟩
  rename_i m4 hcreated
  have hm4 : m4.repo = r1 ∧ ∀ n4, m4.notifier = some n4 →
      ∀ reply ∈ n4.buildReplies, (reply.map Prod.fst).Nodup := by
    cases hn : m2.notifier with
    | none =>
      rw [hn] at hcreated
      simp only [Prod.mk.injEq, true_and] at hcreated
      rw [← hcreated]
      refine ⟨rfl, ?_⟩
      intro n4 h4
      simp only [hn] at h4
      cases h4
    | some n =>
      rw [hn] at hcreated
      simp only [Prod.mk.injEq] at hcreated
      rw [← hcreated.2]
      refine ⟨rfl, ?_⟩
      intro n4 h4
      simp only [Option.some.injEq] at h4
      subst h4
      have hbr : ∀ call, (n.reply call).2.buildReplies = n.buildReplies := by
        intro call
        unfold MetadataNotifier.reply
        split <;> rfl
      rw [hbr]
      exact hmap n (by rw [← hnot2]; exact hn)
  split
  · rename_i err m5 hupd
    exact Or.inl ⟨err, _, rfl⟩
  rename_i m5 hupd
  refine Or.inr ⟨m5, defn5, rfl, hid5, hdef5, ?_, ?_⟩
  · have h := updateIndexState_one m4 defn5.Bucket defn5.DefnId
      (if realInstId ≠ 0 then realInstId else instId0) IndexState.INDEX_STATE_READY
      (by rw [hm4.1]; exact hone1)
    rw [hupd] at h
    exact h
  · have hn5 : m5.notifier = m4.notifier := by
      have h : (m4.updateIndexState defn5.Bucket defn5.DefnId
          (if realInstId ≠ 0 then realInstId else instId0)
          IndexState.INDEX_STATE_READY).2.notifier = m4.notifier := by
        unfold LifecycleMgr.updateIndexState
        split
        · rfl
        · rfl
        · split
          · split <;> rfl
          · rfl
      rw [hupd] at h
      exact h
    rw [hn5]
    exact hm4.2

/-- Claim C29: the build step of `CreateIndex` for a definition that is not deferred, with
the indexer callbacks present, after `BuildIndexes([defn])` has returned its three lists, in
a state in which the definition has at most one instance row and the error map of the
indexer has one entry for an instance id.  If the build reports a hard error, `DeleteIndex`
is issued and the hard error is returned; if it reports a skipped id, `DeleteIndex` is issued
and the error "Fail to create index due to internal build error.  Please retry the
operation." is returned; if it reports a retry outcome, the error "Fail to build index.
Index build will retry in background." is returned and the index is not deleted (the state
is the state that `BuildIndexes` left); and if all three lists are empty the create returns
no error.  Every `CreateIndex` of a definition whose DefnId the topology does not hold yet
either returns an error before the build step or runs the build step in such a state: the
only instance row of the definition is the row that the create has written. -/
theorem CreateIndex_build_outcomes (m : LifecycleMgr) (defn : IndexDefn)
    (reqCtx : MetadataRequestContext) (n : MetadataNotifier)
    (retryList : List GoError) (skipList : List Nat) (errList : List GoError)
    (m1 : LifecycleMgr)
    (hd : defn.Deferred = false) (hn : m.notifier = some n)
    (hone : ∀ t ∈ m.repo.topologies, (t.GetIndexInstancesByDefn defn.DefnId).length ≤ 1)
    (hmap : ∀ reply ∈ n.buildReplies, (reply.map Prod.fst).Nodup)
    (hb : m.BuildIndexes [defn.DefnId] (some reqCtx) false =
      some ((retryList, skipList, errList), m1)) :
    (errList ≠ [] → ∃ err rest, errList = err :: rest ∧
      createBuildStep m defn reqCtx
          (fun x => some (x.DeleteIndex defn.DefnId true (some reqCtx)).2) =
        some (some err, (m1.DeleteIndex defn.DefnId true (some reqCtx)).2)) ∧
    (skipList ≠ [] →
      createBuildStep m defn reqCtx
          (fun x => some (x.DeleteIndex defn.DefnId true (some reqCtx)).2) =
        some (some (errors.New
          "Fail to create index due to internal build error.  Please retry the operation."),
          (m1.DeleteIndex defn.DefnId true (some reqCtx)).2)) ∧
    (retryList ≠ [] →
      createBuildStep m defn reqCtx
          (fun x => some (x.DeleteIndex defn.DefnId true (some reqCtx)).2) =
        some (some (errors.New "Fail to build index.  Index build will retry in background."),
          m1)) ∧
    (retryList = [] → skipList = [] → errList = [] →
      createBuildStep m defn reqCtx
          (fun x => some (x.DeleteIndex defn.DefnId true (some reqCtx)).2) =
        some (none, m1)) ∧
    strings.Contains "Fail to build index.  Index build will retry in background."
      "will retry in background" = true ∧
    strings.Contains
      "Fail to create index due to internal build error.  Please retry the operation."
      "internal build error" = true ∧
    (∀ (m0 : LifecycleMgr) (defn0 : IndexDefn) (scheduled : Bool),
      (∀ t ∈ m0.repo.topologies, ∀ ref ∈ t.Definitions, ref.DefnId ≠ defn0.DefnId) →
      (∀ n0, m0.notifier = some n0 →
        ∀ reply ∈ n0.buildReplies, (reply.map Prod.fst).Nodup) →
      (∃ err m9, m0.CreateIndex defn0 scheduled reqCtx = some (some err, m9)) ∨
      ∃ m5 defn5,
        m0.CreateIndex defn0 scheduled reqCtx =
          createBuildStep m5 defn5 reqCtx
            (fun x => some (x.DeleteIndex defn5.DefnId true (some reqCtx)).2) ∧
        defn5.DefnId = defn0.DefnId ∧ defn5.Deferred = defn0.Deferred ∧
        (∀ t ∈ m5.repo.topologies,
          (t.GetIndexInstancesByDefn defn5.DefnId).length ≤ 1) ∧
        (∀ n5, m5.notifier = some n5 →
          ∀ reply ∈ n5.buildReplies, (reply.map Prod.fst).Nodup)) := by
  have hout := BuildIndexes_one_outcome m defn.DefnId (some reqCtx) false n hn hone hmap
    retryList skipList errList m1 hb
  refine ⟨?_, ?_, ?_, ?_, by decide, by decide,
    fun m0 defn0 scheduled hnew hmap0 =>
      CreateIndex_build_state m0 defn0 scheduled reqCtx hnew hmap0⟩
  · intro he
    cases errList with
    | nil => exact absurd rfl he
    | cons err rest =>
      refine ⟨err, rest, rfl, ?_⟩
      rcases hout with ⟨_, _, h3⟩ | ⟨_, hlen⟩
      · cases h3
      · have hr : retryList = [] := by
          cases retryList with
          | nil => rfl
          | cons a b =>
            simp only [List.length_cons] at hlen
            omega
        subst hr
        simp [createBuildStep, hd, hn, hb]
  · intro hs
    rcases hout with ⟨h1, h2, h3⟩ | ⟨h1, _⟩
    · subst h1 h2 h3
      simp [createBuildStep, hd, hn, hb]
    · exact absurd h1 hs
  · intro hr
    cases retryList with
    | nil => exact absurd rfl hr
    | cons a b => simp [createBuildStep, hd, hn, hb]
  · intro h1 h2 h3
    subst h1 h2 h3
    simp [createBuildStep, hd, hn, hb]

/-- C29 (witness).  Definition 1 has the READY instance 10 in rebalance state NIL, and the
indexer answers the build of instance 10 with the error "build failed", which is not retried
for an instance whose rebalance state is not ACTIVE: `BuildIndexes([1])` reports one hard
error and nothing else, and the build step issues `DeleteIndex` and returns that error.  A
whole `CreateIndex` of definition 2 whose build the indexer rejects returns the hard error
and leaves no record of definition 2. -/
theorem CreateIndex_build_outcomes_witness :
    (∃ m1, buildRejected.BuildIndexes [1] (some NewUserRequestContext) false =
        some (([], [], [errors.New (buildErrText "i" "build failed")]), m1) ∧
      createBuildStep buildRejected createNow NewUserRequestContext
          (fun x => some (x.DeleteIndex createNow.DefnId true
            (some NewUserRequestContext)).2) =
        some (some (errors.New (buildErrText "i" "build failed")),
          (m1.DeleteIndex createNow.DefnId true (some NewUserRequestContext)).2)) ∧
    (createRejected.CreateIndex
        { exampleDefn 2 "j" PartitionScheme.SINGLE with Deferred := false, InstId := 30 } false
        NewUserRequestContext).map (fun res => (res.1, res.2.repo.defns.map (fun d => d.DefnId)))
      = some (some (errors.New (buildErrText "j" "build failed")), [1]) := by
  refine ⟨?_, by decide⟩
  rcases hb : buildRejected.BuildIndexes [1] (some NewUserRequestContext) false with
    _ | ⟨⟨r, s, e⟩, m1⟩
  · exact absurd hb (by decide)
  · have hl : (buildRejected.BuildIndexes [1] (some NewUserRequestContext) false).map
        (fun x => x.1) = some ([], [], [errors.New (buildErrText "i" "build failed")]) := by
      decide
    rw [hb] at hl
    simp only [Option.map_some', Option.some.injEq, Prod.mk.injEq] at hl
    obtain ⟨h1, h2, h3⟩ := hl
    subst h1 h2 h3
    refine ⟨m1, rfl, ?_⟩
    obtain ⟨err, rest, hcons, hres⟩ :=
      (CreateIndex_build_outcomes buildRejected createNow NewUserRequestContext
        { replies := [], buildReplies := [[(10, GoError.plain "build failed")]], calls := [] }
        [] [] [errors.New (buildErrText "i" "build failed")] m1 rfl rfl (by decide)
        (by decide) hb).1 (by simp)
    cases hcons
    exact hres
end Indexing
